import Mathlib

/-!
# UHoudiniAssetComponent: cook lifecycle, change tracking and parameter push

A shallow embedding of `Source/HoudiniEngine/Private/HoudiniAssetComponent.cpp`.

The component is a record of the member variables the lifecycle code reads and
writes.  Calls into the task queue are recorded in an ordered trace, together
with the parameter set calls made on the external engine.  Answers of the
external engine and of the host editor enter every operation through `Env`.

Pointers are addresses (`Nat`), a null pointer is `none`.  An operation whose
source can stop at a failed `check` or at the dereference of a null pointer
returns an `Option`, and `none` is that stop.  Log lines, the status
notification shown to the user, and the calls of the base class have no effect
on the state modelled here and are left out.
-/

namespace HoudiniEngine

/-! ## Host types -/

/-- Host GUID (`FGuid`): four 32-bit words. -/
structure FGuid where
  A : Nat
  B : Nat
  C : Nat
  D : Nat
deriving DecidableEq, Repr

/-- `FGuid::IsValid`: some word is non-zero. -/
def FGuid.IsValid (g : FGuid) : Bool :=
  g.A != 0 || g.B != 0 || g.C != 0 || g.D != 0

/-- `FGuid::Invalidate`: all four words become zero. -/
def FGuid.Invalidate (_g : FGuid) : FGuid :=
  { A := 0, B := 0, C := 0, D := 0 }

/-- Owner actor of the component, as far as the component reads it. -/
structure AHoudiniAssetActor where
  IsUsedForPreview : Bool
  ActorLabel : String
deriving DecidableEq, Repr

/-- Kind of change reported by the editor with an edit event. -/
inductive EPropertyChangeType
  | Unspecified
  | ArrayAdd
  | ValueSet
  | Duplicate
  | Interactive
deriving DecidableEq, Repr

/-- Edit event: `MemberProperty` is the field that contains the modified
property; a null pointer is `none`. -/
structure FPropertyChangedEvent where
  MemberProperty : Option Nat
  Property : Option Nat
  ChangeType : EPropertyChangeType
deriving DecidableEq, Repr

/-- Run-time class of a reflected property object (`Property->GetClass()`). -/
inductive UPropertyClass
  | UIntProperty
  | UBoolProperty
  | UFloatProperty
  | UStrProperty
  | UByteProperty
  | UStructProperty
  | UOtherProperty
deriving DecidableEq, Repr

/-- Reflected property object.  `Offset` is `GetOffset_ForDebug()`, `Meta` the
string-keyed metadata of the object, `Struct` the struct of a struct property
and `Enum` the enum of a byte property (object addresses, `none` for null).
`PropertyLinkNext` and `Next` are the links of the property chain and of the
child chain of a class.  `ElementSize` is the member of that name, which the
host sets when it constructs the object; the model follows it where `Serialize`
reads it and `PostLoad` assigns it. -/
structure UProperty where
  Class : UPropertyClass
  ArrayDim : Int
  Offset : Nat
  Meta : List (String × String)
  Struct : Option Nat
  Enum : Option Nat
  PropertyLinkNext : Option Nat := none
  Next : Option Nat := none
  PropertyFlags : Nat := 0
  ElementSize : Int := 0
deriving DecidableEq, Repr

/-- `HasMetaData(Key)`. -/
def HasMetaData (m : List (String × String)) (Key : String) : Bool :=
  m.any (fun kv => kv.1 == Key)

/-- `GetMetaData(Key)`: the stored value, the empty string when absent. -/
def GetMetaData (m : List (String × String)) (Key : String) : String :=
  match m.find? (fun kv => kv.1 == Key) with
  | some kv => kv.2
  | none => ""

/-- `SetMetaData(Key, Value)`: the map holds one value per key. -/
def SetMetaData (m : List (String × String)) (Key Value : String) : List (String × String) :=
  (Key, Value) :: m.filter (fun kv => !(kv.1 == Key))

/-- `TSet<UProperty*>::Add`: an element already present is not added again. -/
def TSetAdd (s : List Nat) (p : Nat) : List Nat :=
  if p ∈ s then s else s ++ [p]

/-! ## External engine types -/

/-- Result code of an engine call; every code other than success is a failure. -/
inductive HAPI_Result
  | HAPI_RESULT_SUCCESS
  | HAPI_RESULT_FAILURE
deriving DecidableEq, Repr

/-- Asset information, as far as the component reads it. -/
structure HAPI_AssetInfo where
  nodeId : Int
deriving DecidableEq, Repr

/-- Parameter kinds of the engine.  The kinds the component does not reflect
are one value. -/
inductive HAPI_ParmType
  | HAPI_PARMTYPE_INT
  | HAPI_PARMTYPE_TOGGLE
  | HAPI_PARMTYPE_FLOAT
  | HAPI_PARMTYPE_COLOR
  | HAPI_PARMTYPE_STRING
  | HAPI_PARMTYPE_OTHER
deriving DecidableEq, Repr

/-- Parameter information, as far as the component reads it.  String handles
(`nameSH`, `labelSH`) are numbers, floats are 32-bit patterns.  The defaults are
the zero-filled entry a `std::vector::resize` creates. -/
structure HAPI_ParmInfo where
  size : Int
  intValuesIndex : Int
  floatValuesIndex : Int
  stringValuesIndex : Int := 0
  type : HAPI_ParmType := HAPI_ParmType.HAPI_PARMTYPE_INT
  invisible : Bool := false
  nameSH : Int := 0
  labelSH : Int := 0
  choiceCount : Int := 0
  choiceIndex : Int := 0
  hasUIMin : Bool := false
  hasUIMax : Bool := false
  hasMin : Bool := false
  hasMax : Bool := false
  UIMin : Nat := 0
  UIMax : Nat := 0
  min : Nat := 0
  max : Nat := 0
deriving DecidableEq, Repr

/-- Node information, as far as the component reads it. -/
structure HAPI_NodeInfo where
  id : Int
  parmCount : Int
  parmIntValueCount : Int
  parmFloatValueCount : Int
  parmStringValueCount : Int
deriving DecidableEq, Repr

/-- One entry of a choice list: the string handles of its label and value. -/
structure HAPI_ParmChoiceInfo where
  labelSH : Int
  valueSH : Int
deriving DecidableEq, Repr

/-- Host colour: four bytes, stored in the order B, G, R, A. -/
structure FColor where
  B : Nat
  G : Nat
  R : Nat
  A : Nat
deriving DecidableEq, Repr

/-! ## Task queue -/

/-- Modelled from the spec: the task kinds of `EHoudiniEngineTaskType`, declared
in a header that is not among the sources; these are the four kinds the
component submits. -/
inductive EHoudiniEngineTaskType
  | AssetInstantiation
  | AssetInstantiationWithoutCooking
  | AssetCooking
  | AssetDeletion
deriving DecidableEq, Repr

/-- Modelled from the spec: the task states of `EHoudiniEngineTaskState`,
declared in a header that is not among the sources; these are the states the
poll switches on. -/
inductive EHoudiniEngineTaskState
  | None
  | FinishedInstantiation
  | FinishedInstantiationWithoutCooking
  | FinishedCooking
  | Aborted
  | FinishedInstantiationWithErrors
  | FinishedCookingWithErrors
  | FinishedInstantiationWithoutCookingWithErrors
  | Processing
deriving DecidableEq, Repr

/-- Modelled from the spec: the polled task information
`FHoudiniEngineTaskInfo` (state, status text, asset handle). -/
structure FHoudiniEngineTaskInfo where
  TaskState : EHoudiniEngineTaskState
  StatusText : String
  AssetId : Int
deriving DecidableEq, Repr

/-- Modelled from the spec: a request `FHoudiniEngineTask` (kind, correlation
id, optional asset, optional actor label, optional asset handle, optional
back-reference to the component).  A member the component does not assign is
`none`, and `AssetComponent` is true when the task points back at the
component. -/
structure FHoudiniEngineTask where
  TaskType : EHoudiniEngineTaskType
  HapiGUID : FGuid
  Asset : Option Nat
  ActorName : Option String
  AssetId : Option Int
  AssetComponent : Bool
deriving DecidableEq, Repr

/-- Modelled from the spec: `FHoudiniEngine::RetrieveTaskInfo`, the poll of the
task queue by correlation id. -/
def RetrieveTaskInfo (TaskInfos : List (FGuid × FHoudiniEngineTaskInfo)) (g : FGuid) :
    Option FHoudiniEngineTaskInfo :=
  (TaskInfos.find? (fun e => decide (e.1 = g))).map (fun e => e.2)

/-- Modelled from the spec: `FHoudiniEngine::RemoveTaskInfo`, which evicts the
task information stored under a correlation id. -/
def RemoveTaskInfo (TaskInfos : List (FGuid × FHoudiniEngineTaskInfo)) (g : FGuid) :
    List (FGuid × FHoudiniEngineTaskInfo) :=
  TaskInfos.filter (fun e => !decide (e.1 = g))

/-- Observable calls, in program order.  `AddTask` is a submission to the task
queue; `Replaced` is the correlation id the component held when the id of this
task was generated (the value overwritten by `HapiGUID = FGuid::NewGuid()`).
The other events are the parameter set calls on the external engine; a float
is carried as its 32-bit pattern. -/
inductive Event
  | AddTask (Task : FHoudiniEngineTask) (Replaced : FGuid)
  | HAPI_SetParmIntValues (nodeId : Int) (values : List Int) (start : Int) (length : Int)
  | HAPI_SetParmFloatValues (nodeId : Int) (values : List Nat) (start : Int) (length : Int)
  | HAPI_SetParmStringValue (nodeId : Int) (value : String) (parmId : Int) (index : Int)
deriving DecidableEq, Repr

/-- True on a submission to the task queue. -/
def Event.isAddTask : Event → Bool
  | .AddTask _ _ => true
  | _ => false

/-! ## Component state -/

/-- Host class object, as far as the component reads and writes it.
`ClassAddReferencedObjects` is true when the member of that name is
`UHoudiniAssetComponent::AddReferencedObjects`. -/
structure UClass where
  Name : String
  SuperStruct : Option Nat
  PropertyLink : Option Nat
  Children : Option Nat
  ClassAddReferencedObjects : Bool := false
deriving DecidableEq, Repr

/-- Host enum object.  `Names` are the entries set by `SetEnums`; the entry the
host generates after them (`_MAX`) carries no metadata and is left out.  The
host keys the metadata of an entry by the name of the entry: `Meta` maps an
entry name and a key to a value. -/
structure UEnum where
  Names : List String
  Meta : List ((String × String) × String)
  PendingKill : Bool
deriving DecidableEq, Repr

/-- Class of a named host object. -/
inductive UObjectKind
  | Property (c : UPropertyClass)
  | Enum
  | Class
  | ScriptStruct
deriving DecidableEq, Repr

/-- A named host object: the object it lives in, its name, its class and its
address. -/
structure UObjectEntry where
  Outer : Nat
  Name : String
  Kind : UObjectKind
  Address : Nat
deriving DecidableEq, Repr

/-- Reflected objects and raw storage the component works on: the property
objects by address, the bytes of the component by offset from `this`, the host
strings constructed in place at such offsets, and the static
`ScriptStructColor`.

The second group is what the class replacement works on: class and enum
objects by address, the named objects of the host in order of creation, the
next free address, the static class of the component
(`UHoudiniAssetComponent::StaticClass()`), the active class of the component
(`GetClass()`), the members `PatchedClass` and `CreatedProperties`, the static
`ComponentPatchedClassCounter`, and the number of subscriptions to the save
delegates.  `CreatedFrom` is not a variable of the source: next to every entry
of `CreatedProperties` that `ReplaceClassProperties` adds it keeps the
parameter that entry was built from.  `Rooted` is the root flag of an object
(`AddToRoot`, `RemoveFromRoot`). -/
structure Reflection where
  Properties : Nat → UProperty
  Memory : Nat → Nat
  Strings : Nat → String
  ScriptStructColor : Option Nat
  Classes : Nat → UClass :=
    fun _ => { Name := "", SuperStruct := none, PropertyLink := none, Children := none }
  Enums : Nat → UEnum := fun _ => { Names := [], Meta := [], PendingKill := false }
  Named : List UObjectEntry := []
  NextAddress : Nat := 0
  StaticClass : Nat := 0
  Class : Nat := 0
  PatchedClass : Option Nat := none
  ComponentPatchedClassCounter : Nat := 0
  CreatedProperties : List Nat := []
  CreatedFrom : List HAPI_ParmInfo := []
  SaveWorldDelegates : Nat := 0
  Rooted : Nat → Bool := fun _ => false

/-- Modelled from the spec: the kinds of `EHoudiniEngineProperty`, declared in a
header that is not among the sources: the six kinds of a synthesized field, and
`None` for a property of no such kind. -/
inductive EHoudiniEngineProperty
  | None
  | Integer
  | Boolean
  | Float
  | String
  | Color
  | Enumeration
deriving DecidableEq, Repr

/-- Modelled from the spec: the record `FHoudiniEngineSerializedProperty`,
declared in a header that is not among the sources.  Its members are those
`Serialize` passes to its constructor and assigns, and `PostLoad` reads; the
member `Type` is `PropertyType` here.  `Offset` is an `int32`. -/
structure FHoudiniEngineSerializedProperty where
  PropertyType : EHoudiniEngineProperty
  Name : String
  Flags : Nat
  ArrayDim : Int
  ElementSize : Int
  Offset : Int
  bChanged : Bool
  Meta : List (String × String)
deriving DecidableEq, Repr

/-- The component with what it talks to.  The first group are member variables
of `UHoudiniAssetComponent`; `TimerDelegateBound` is `TimerDelegate.IsBound()`;
`ChangedProperties` lists the set in iteration order; `TaskInfos` is the table
of the task queue; `Trace` the calls made so far.  `SerializedProperties` is the
member of that name, `HoudiniAssetObjectGeos` lists the geos of the component,
each a number that stands for its content, and `PendingKill` is
`IsPendingKill()` of the component. -/
structure World where
  HoudiniAsset : Option Nat
  AssetId : Int
  bIsPreviewComponent : Bool
  bLoadedComponent : Bool
  bLoadedComponentRequiresInstantiation : Bool
  HapiGUID : FGuid
  ChangedProperties : List Nat
  TimerDelegateBound : Bool
  HoudiniAssetActorOwner : Option AHoudiniAssetActor
  TaskInfos : List (FGuid × FHoudiniEngineTaskInfo)
  Trace : List Event
  Objects : Reflection
  SerializedProperties : List FHoudiniEngineSerializedProperty := []
  HoudiniAssetObjectGeos : List Nat := []
  PendingKill : Bool := false

/-- Answers of the collaborators of the class replacement.  An engine call
returns its result code and what it wrote to its out-parameter; the arguments
are those of the call, without the out-parameter.  `HAPI_GetString` takes the
string handle and the buffer length.  `GetHoudiniString` is
`FHoudiniEngineUtils::GetHoudiniString`, `none` for a false return.
`SanitizeObjectName` is `ObjectTools::SanitizeObjectName`, `UTF8_TO_TCHAR` the
conversion `FUTF8ToTCHAR`, `SanitizeFloat` is `FString::SanitizeFloat`,
`CompareIgnoreCase` is true when `FString::Compare` with
`ESearchCase::IgnoreCase` returns 0, the colour conversions are those of
`FHoudiniEngineUtils`.  `ScratchSpaceBufferOffset` is
`offsetof(UHoudiniAssetComponent, ScratchSpaceBuffer)`, `ScratchSpaceSize` is
`HOUDINIENGINE_ASSET_SCRATCHSPACE_SIZE`, and `Outermost` is `GetOutermost()`. -/
structure RebuildEnv where
  HAPI_GetAssetInfo : Int → HAPI_Result × HAPI_AssetInfo
  HAPI_GetNodeInfo : Int → HAPI_Result × HAPI_NodeInfo
  HAPI_GetParameters : Int → Int → Int → HAPI_Result × List HAPI_ParmInfo
  HAPI_GetParmIntValues : Int → Int → Int → HAPI_Result × List Int
  HAPI_GetParmFloatValues : Int → Int → Int → HAPI_Result × List Nat
  HAPI_GetParmStringValues : Int → Bool → Int → Int → HAPI_Result × List Int
  HAPI_GetStringBufLength : Int → HAPI_Result × Int
  HAPI_GetString : Int → Int → HAPI_Result × String
  HAPI_GetParmChoiceLists : Int → Int → Int → HAPI_Result × List HAPI_ParmChoiceInfo
  GetHoudiniString : Int → Option String
  SanitizeObjectName : String → String
  UTF8_TO_TCHAR : String → String
  SanitizeFloat : Nat → String
  CompareIgnoreCase : String → String → Bool
  ConvertHoudiniColorRGB : Nat → Nat → Nat → FColor
  ConvertHoudiniColorRGBA : Nat → Nat → Nat → Nat → FColor
  ScratchSpaceBufferOffset : Nat
  ScratchSpaceSize : Nat
  Outermost : Nat

/-- Answers of the collaborators during one operation.  `NewGuid` is the value
`FGuid::NewGuid()` returns (every operation calls it at most once).  An engine
call returns its result code and its out-parameter.  `TCHAR_TO_ANSI` converts a
host string to engine text, `NarrowName` is the character-wise narrowing of a
parameter name (`std::string(PropertyName.begin(), PropertyName.end())`).
`GetEnumText`, the colour conversions, `GetHoudiniAssetName`,
`SetActorLabelUnique` and `GetAssetGeometry` are the host and utility calls of
those names.  `Rebuild` holds the answers of the collaborators of the class
replacement that a tick runs after a successful cook, and `ConstructGeos` is
the list of new geos that `FHoudiniEngineUtils::ConstructGeos` builds for an
asset handle from the geos held. -/
structure Env where
  NewGuid : FGuid
  HAPI_GetAssetInfo : Int → HAPI_Result × HAPI_AssetInfo
  HAPI_GetParmIdFromName : Int → String → HAPI_Result × Int
  HAPI_GetParameters : Int → Int → HAPI_Result × HAPI_ParmInfo
  TCHAR_TO_ANSI : String → String
  NarrowName : String → String
  GetEnumText : Nat → Nat → String
  ConvertUnrealColorRGB : FColor → Nat × Nat × Nat
  ConvertUnrealColorRGBA : FColor → Nat × Nat × Nat × Nat
  GetHoudiniAssetName : Int → Option String
  SetActorLabelUnique : String → String
  GetAssetGeometry : Int → Bool
  Rebuild : RebuildEnv
  ConstructGeos : Int → List Nat → List Nat

/-! ## Raw storage -/

/-- Wrap-around of `uint32` arithmetic. -/
def u32 (n : Nat) : Nat := n % 4294967296

/-- The byte stored at an offset from `this`. -/
def readByte (m : Nat → Nat) (a : Nat) : Nat := m a % 256

/-- The 32-bit word stored at an offset (little-endian). -/
def readU32 (m : Nat → Nat) (a : Nat) : Nat :=
  readByte m a + 256 * readByte m (a + 1) + 65536 * readByte m (a + 2)
    + 16777216 * readByte m (a + 3)

/-- Read of `*(int*)`: the word as a two's complement number. -/
def readInt32 (m : Nat → Nat) (a : Nat) : Int :=
  if readU32 m a < 2147483648 then (readU32 m a : Int) else (readU32 m a : Int) - 4294967296

/-- Read of `*(bool*)` converted to `int`. -/
def readBool (m : Nat → Nat) (a : Nat) : Int :=
  if readByte m a = 0 then 0 else 1

/-- Read of `*(FColor*)`. -/
def readColor (m : Nat → Nat) (a : Nat) : FColor :=
  { B := readByte m a, G := readByte m (a + 1), R := readByte m (a + 2), A := readByte m (a + 3) }

/-- Size of the host string object (`sizeof(FString)`) on the 64-bit editor. -/
def sizeofFString : Nat := 16

/-- The loop `Values[Index] = *(int*)(this + ValueOffset); ValueOffset += sizeof(int)`. -/
def ReadIntValues (m : Nat → Nat) : Nat → Nat → List Int
  | _, 0 => []
  | ValueOffset, n + 1 => readInt32 m ValueOffset :: ReadIntValues m (u32 (ValueOffset + 4)) n

/-- The loop `Values[Index] = *(bool*)(this + ValueOffset); ValueOffset += sizeof(bool)`. -/
def ReadBoolValues (m : Nat → Nat) : Nat → Nat → List Int
  | _, 0 => []
  | ValueOffset, n + 1 => readBool m ValueOffset :: ReadBoolValues m (u32 (ValueOffset + 1)) n

/-- The loop `Values[Index] = *(float*)(this + ValueOffset); ValueOffset += sizeof(float)`. -/
def ReadFloatValues (m : Nat → Nat) : Nat → Nat → List Nat
  | _, 0 => []
  | ValueOffset, n + 1 => readU32 m ValueOffset :: ReadFloatValues m (u32 (ValueOffset + 4)) n

/-- The loop of the string branch: one `HAPI_SetParmStringValue` per index,
`ValueOffset += sizeof(FString)`. -/
def PushStringValues (env : Env) (Strings : Nat → String) (nodeId ParamId : Int) :
    Nat → Nat → Nat → List Event
  | _, _, 0 => []
  | ValueOffset, Index, n + 1 =>
      Event.HAPI_SetParmStringValue nodeId (env.TCHAR_TO_ANSI (Strings ValueOffset)) ParamId Index
        :: PushStringValues env Strings nodeId ParamId (u32 (ValueOffset + sizeofFString)) (Index + 1) n

/-! ## Polling timer -/

/-- `StartHoudiniTicking`: binds the timer delegate unless it is bound. -/
def StartHoudiniTicking (w : World) : World :=
  if !w.TimerDelegateBound then { w with TimerDelegateBound := true } else w

/-- `StopHoudiniTicking`: clears and unbinds the timer delegate if it is bound. -/
def StopHoudiniTicking (w : World) : World :=
  if w.TimerDelegateBound then { w with TimerDelegateBound := false } else w

/-! ## Operations of the component -/

/-- `SetAssetId`. -/
def SetAssetId (w : World) (InAssetId : Int) : World :=
  { w with AssetId := InAssetId }

/-- `SetHoudiniAsset`.  The result is `none` when the `check` on the owner fails
or the new asset is a null pointer that is dereferenced. -/
def SetHoudiniAsset (env : Env) (w : World) (InHoudiniAsset : Option Nat) : Option World :=
  match w.HoudiniAssetActorOwner with
  | none => none
  | some HoudiniAssetActor =>
    if InHoudiniAsset = w.HoudiniAsset then some w
    else
      match InHoudiniAsset with
      | none => none
      | some Asset =>
        let w1 := { w with HoudiniAsset := some Asset,
                           bIsPreviewComponent := HoudiniAssetActor.IsUsedForPreview }
        if !w1.bIsPreviewComponent && !w1.bLoadedComponent then
          let Replaced := w1.HapiGUID
          let w2 := { w1 with HapiGUID := env.NewGuid }
          let Task : FHoudiniEngineTask :=
            { TaskType := EHoudiniEngineTaskType.AssetInstantiation, HapiGUID := w2.HapiGUID,
              Asset := some Asset, ActorName := some HoudiniAssetActor.ActorLabel,
              AssetId := none, AssetComponent := false }
          some (StartHoudiniTicking { w2 with Trace := w2.Trace ++ [Event.AddTask Task Replaced] })
        else some w1

/-- `AssignUniqueActorLabel`. -/
def AssignUniqueActorLabel (env : Env) (w : World) : World :=
  if w.AssetId ≠ -1 then
    match w.HoudiniAssetActorOwner with
    | some HoudiniAssetActor =>
      match env.GetHoudiniAssetName w.AssetId with
      | some UniqueName =>
        let Relabelled : AHoudiniAssetActor :=
          { HoudiniAssetActor with ActorLabel := env.SetActorLabelUnique UniqueName }
        { w with HoudiniAssetActorOwner := some Relabelled }
      | none => w
    | none => w
  else w

/-- Modelled from the spec: the macro `HOUDINI_CHECK_ERROR_RETURN(call, value)`,
defined in a header that is not among the sources.  A failing engine call is
fatal to the operation, which returns `value` at once; otherwise the operation
goes on with the out-parameter of the call. -/
def HOUDINI_CHECK_ERROR_RETURN {α β : Type} (call : HAPI_Result × α) (value : β)
    (continuation : α → β) : β :=
  match call with
  | (HAPI_Result.HAPI_RESULT_SUCCESS, out) => continuation out
  | (HAPI_Result.HAPI_RESULT_FAILURE, _) => value

/-- Modelled from the spec: the macro `HOUDINI_CHECK_ERROR(&Result, call)`,
defined in a header that is not among the sources.  A failing engine call is
logged and the operation goes on with what the call left in its
out-parameter. -/
def HOUDINI_CHECK_ERROR {α : Type} (call : HAPI_Result × α) : α :=
  call.2

/-- The body of the loop of `SetChangedParameterValues` after the parameter id
has been resolved: the set calls for one property.  `none` is a failed `check`,
a vector of negative length, or a null enum that is dereferenced. -/
def PushProperty (env : Env) (r : Reflection) (nodeId : Int) (Property : UProperty)
    (ParamId : Int) (ParamInfo : HAPI_ParmInfo) : Option (List Event) :=
  let ValueOffset := u32 Property.Offset
  match Property.Class with
  | .UIntProperty =>
    if ParamInfo.size = Property.ArrayDim ∧ 0 ≤ Property.ArrayDim then
      some [Event.HAPI_SetParmIntValues nodeId
        (ReadIntValues r.Memory ValueOffset Property.ArrayDim.toNat)
        ParamInfo.intValuesIndex ParamInfo.size]
    else none
  | .UBoolProperty =>
    if ParamInfo.size = Property.ArrayDim ∧ 0 ≤ Property.ArrayDim then
      some [Event.HAPI_SetParmIntValues nodeId
        (ReadBoolValues r.Memory ValueOffset Property.ArrayDim.toNat)
        ParamInfo.intValuesIndex ParamInfo.size]
    else none
  | .UFloatProperty =>
    if ParamInfo.size = Property.ArrayDim ∧ 0 ≤ Property.ArrayDim then
      some [Event.HAPI_SetParmFloatValues nodeId
        (ReadFloatValues r.Memory ValueOffset Property.ArrayDim.toNat)
        ParamInfo.floatValuesIndex ParamInfo.size]
    else none
  | .UStrProperty =>
    if ParamInfo.size = Property.ArrayDim then
      some (PushStringValues env r.Strings nodeId ParamId ValueOffset 0 Property.ArrayDim.toNat)
    else none
  | .UByteProperty =>
    let EnumValue := readByte r.Memory ValueOffset
    if HasMetaData Property.Meta "HoudiniStringChoiceList" then
      match Property.Enum with
      | some EnumObject =>
        some [Event.HAPI_SetParmStringValue nodeId
          (env.TCHAR_TO_ANSI (env.GetEnumText EnumObject EnumValue)) ParamId 0]
      | none => none
    else
      some [Event.HAPI_SetParmIntValues nodeId [(EnumValue : Int)]
        ParamInfo.intValuesIndex ParamInfo.size]
  | .UStructProperty =>
    if r.ScriptStructColor = Property.Struct then
      let UnrealColor := readColor r.Memory ValueOffset
      if HasMetaData Property.Meta "HideAlphaChannel" then
        let c := env.ConvertUnrealColorRGB UnrealColor
        some [Event.HAPI_SetParmFloatValues nodeId [c.1, c.2.1, c.2.2, 1065353216]
          ParamInfo.floatValuesIndex ParamInfo.size]
      else
        let c := env.ConvertUnrealColorRGBA UnrealColor
        some [Event.HAPI_SetParmFloatValues nodeId [c.1, c.2.1, c.2.2.1, c.2.2.2]
          ParamInfo.floatValuesIndex ParamInfo.size]
    else some []
  | .UOtherProperty => some []

/-- The loop of `SetChangedParameterValues` over the changed properties.  A
failed `HAPI_GetParmIdFromName` leaves the whole function, a failed
`HAPI_GetParameters` is only logged, and a parameter id of -1 skips the
property (`continue`). -/
def SetChangedParameterValuesLoop (env : Env) (r : Reflection) (nodeId : Int) :
    List Nat → Option (List Event)
  | [] => some []
  | p :: rest =>
    let Property := r.Properties p
    let ParameterName := GetMetaData Property.Meta "HoudiniParmName"
    HOUDINI_CHECK_ERROR_RETURN
      (env.HAPI_GetParmIdFromName nodeId (env.NarrowName ParameterName)) (some [])
      (fun ParamId =>
        let ParamInfo := HOUDINI_CHECK_ERROR (env.HAPI_GetParameters nodeId ParamId)
        if ParamId = -1 then SetChangedParameterValuesLoop env r nodeId rest
        else
          match PushProperty env r nodeId Property ParamId ParamInfo with
          | none => none
          | some calls =>
            match SetChangedParameterValuesLoop env r nodeId rest with
            | none => none
            | some more => some (calls ++ more))

/-- `SetChangedParameterValues`: the set calls it makes, in order; `none` when
it does not return.  A failed `HAPI_GetAssetInfo` returns at once. -/
def SetChangedParameterValues (env : Env) (w : World) : Option (List Event) :=
  HOUDINI_CHECK_ERROR_RETURN (env.HAPI_GetAssetInfo w.AssetId) (some [])
    (fun AssetInfo =>
      SetChangedParameterValuesLoop env w.Objects AssetInfo.nodeId w.ChangedProperties)

/-- `PostEditChangeProperty`.  `none` is the dereference of a null member
property. -/
def PostEditChangeProperty (w : World) (PropertyChangedEvent : FPropertyChangedEvent) :
    Option World :=
  match PropertyChangedEvent.MemberProperty with
  | none => none
  | some p =>
    let Property := w.Objects.Properties p
    if GetMetaData Property.Meta "Category" ≠ "HoudiniProperties" then some w
    else if PropertyChangedEvent.ChangeType = EPropertyChangeType.Interactive
        ∧ Property.Class = UPropertyClass.UStructProperty
        ∧ w.Objects.ScriptStructColor = Property.Struct then some w
    else
      let w1 :=
        if w.bLoadedComponent && decide (w.AssetId = -1) && !w.bLoadedComponentRequiresInstantiation
        then { w with bLoadedComponentRequiresInstantiation := true } else w
      let Marked : UProperty :=
        { Property with Meta := SetMetaData Property.Meta "HoudiniPropertyChanged" "1" }
      let Objects1 : Reflection :=
        { w1.Objects with Properties := Function.update w1.Objects.Properties p Marked }
      let w2 := { w1 with Objects := Objects1 }
      let w3 := { w2 with ChangedProperties := TSetAdd w2.ChangedProperties p }
      some (StartHoudiniTicking w3)

/-! ## Class replacement: collaborators and raw storage -/

/-- Conversion of a 64-bit intermediate result to `uint32`. -/
def u32OfInt (n : Int) : Nat := (n % 4294967296).toNat

/-- A `std::vector` after `resize(Count)` on an empty vector and an engine call
that wrote `Written` from its start: `Count` entries, `Zero` where the engine
wrote nothing. -/
def FillVector {α : Type} (Zero : α) (Count : Nat) (Written : List α) : List α :=
  (List.range Count).map (fun i => Written.getD i Zero)

/-- Read of `*(Value + Index)` where `Value` is `&Vector[Start]`; `none` is a
read outside the vector. -/
def ReadVector {α : Type} (Vector : List α) (Start : Int) (Index : Nat) : Option α :=
  if 0 ≤ Start + Index then Vector.get? (Start + Index).toNat else none

/-- Write of one byte at an offset from `this`. -/
def writeByte (m : Nat → Nat) (a v : Nat) : Nat → Nat :=
  Function.update m a (v % 256)

/-- Write of a 32-bit word (little-endian). -/
def writeU32 (m : Nat → Nat) (a v : Nat) : Nat → Nat :=
  writeByte (writeByte (writeByte (writeByte m a v) (a + 1) (v / 256)) (a + 2) (v / 65536))
    (a + 3) (v / 16777216)

/-- Write through `int*`: the two's complement word of the number. -/
def writeInt32 (m : Nat → Nat) (a : Nat) (v : Int) : Nat → Nat :=
  writeU32 m a (u32OfInt v)

/-- Write through `bool*`. -/
def writeBool (m : Nat → Nat) (a : Nat) (b : Bool) : Nat → Nat :=
  writeByte m a (if b then 1 else 0)

/-- Write through `FColor*`. -/
def writeColor (m : Nat → Nat) (a : Nat) (c : FColor) : Nat → Nat :=
  writeByte (writeByte (writeByte (writeByte m a c.B) (a + 1) c.G) (a + 2) c.R) (a + 3) c.A

/-- Modelled from the spec: the template `ComputeOffsetAlignmentBoundary<T>`,
defined in a header that is not among the sources.  It rounds the cursor up to
the alignment of the value type; the result is the offset of the returned
address from `this`. -/
def ComputeOffsetAlignmentBoundary (Alignment Offset : Nat) : Nat :=
  ((Offset + Alignment - 1) / Alignment) * Alignment

/-- Alignment of `int`, `float` and `FColor`. -/
def alignofWord : Nat := 4

/-- Alignment of `bool` and `uint8`. -/
def alignofByte : Nat := 1

/-- Alignment of the host string object on the 64-bit editor. -/
def alignofFString : Nat := 8

/-! ## Class replacement: named objects -/

/-- Host `FindObject<T>(Outer, Name, false)`: the object of that class with that
name in `Outer`, `none` for a null result. -/
def FindObject (r : Reflection) (Kind : UObjectKind) (Outer : Nat) (Name : String) :
    Option Nat :=
  (r.Named.find? (fun e => decide (e.Outer = Outer) && decide (e.Name = Name)
    && decide (e.Kind = Kind))).map (fun e => e.Address)

/-- Host allocation of a named object (`NewNamedObject<T>`, `ConstructObject<T>`
and the placement `new(Outer, Name, Flags)`): a new object at the next free
address, or the object of that class that already has the name, which the
caller then initializes again.  The host stops with a fatal error when the name
is taken in `Outer` by an object of another class; that is `none`. -/
def NewNamedObject (r : Reflection) (Kind : UObjectKind) (Outer : Nat) (Name : String) :
    Option (Reflection × Nat) :=
  match r.Named.find? (fun e => decide (e.Outer = Outer) && decide (e.Name = Name)) with
  | some e => if e.Kind = Kind then some (r, e.Address) else none
  | none =>
    let Entry : UObjectEntry :=
      { Outer := Outer, Name := Name, Kind := Kind, Address := r.NextAddress }
    some ({ r with Named := r.Named ++ [Entry], NextAddress := r.NextAddress + 1 },
      r.NextAddress)

/-- A property object as the host constructs it: one element, offset 0, no
metadata, no links. -/
def NewProperty (c : UPropertyClass) : UProperty :=
  { Class := c, ArrayDim := 1, Offset := 0, Meta := [], Struct := none, Enum := none }

/-- Assignment to the members of one property object. -/
def SetProperty (r : Reflection) (p : Nat) (f : UProperty → UProperty) : Reflection :=
  { r with Properties := Function.update r.Properties p (f (r.Properties p)) }

/-- What the functions `CreatePropertyInt`, `CreatePropertyFloat`,
`CreatePropertyToggle`, `CreatePropertyString` and `CreatePropertyEnum` with
the parameters `(ClassInstance, Name, PropertyFlags)` share: the property of
that class and name is located or created, its flags are set, its property link
is cleared and its category is set. -/
def CreatePropertyOfClass (c : UPropertyClass) (r : Reflection) (ClassInstance : Nat)
    (Name : String) (PropertyFlags : Nat) : Option (Reflection × Nat) :=
  let Located : Option (Reflection × Nat) :=
    match FindObject r (UObjectKind.Property c) ClassInstance Name with
    | some p => some (r, p)
    | none =>
      match NewNamedObject r (UObjectKind.Property c) ClassInstance Name with
      | none => none
      | some (r1, p) => some (SetProperty r1 p (fun _ => NewProperty c), p)
  match Located with
  | none => none
  | some (r1, p) =>
    some (SetProperty r1 p (fun Property =>
      { Property with PropertyFlags := PropertyFlags, PropertyLinkNext := none,
                      Meta := SetMetaData Property.Meta "Category" "HoudiniProperties" }), p)

/-! ## Class replacement: typed fields -/

/-- The property flags every created field gets (`UINT64_C(69793219077)`). -/
def CreatedPropertyFlags : Nat := 69793219077

/-- The loop `*Boundary = *(Value + Index)` of `CreatePropertyInt`: every value
is written through the same pointer.  `none` is a read outside the vector. -/
def WriteIntValues (Vector : List Int) (Start : Int) (Boundary : Nat) :
    Nat → Nat → (Nat → Nat) → Option (Nat → Nat)
  | _, 0, m => some m
  | Index, n + 1, m =>
    match ReadVector Vector Start Index with
    | none => none
    | some v => WriteIntValues Vector Start Boundary (Index + 1) n (writeInt32 m Boundary v)

/-- The loop `*Boundary = *(Value + Index)` of `CreatePropertyFloat`. -/
def WriteFloatValues (Vector : List Nat) (Start : Int) (Boundary : Nat) :
    Nat → Nat → (Nat → Nat) → Option (Nat → Nat)
  | _, 0, m => some m
  | Index, n + 1, m =>
    match ReadVector Vector Start Index with
    | none => none
    | some v => WriteFloatValues Vector Start Boundary (Index + 1) n (writeU32 m Boundary v)

/-- The loop `*Boundary = (*(bValue + Index) != 0)` of `CreatePropertyToggle`. -/
def WriteToggleValues (Vector : List Int) (Start : Int) (Boundary : Nat) :
    Nat → Nat → (Nat → Nat) → Option (Nat → Nat)
  | _, 0, m => some m
  | Index, n + 1, m =>
    match ReadVector Vector Start Index with
    | none => none
    | some v =>
      WriteToggleValues Vector Start Boundary (Index + 1) n (writeBool m Boundary (decide (v ≠ 0)))

/-- The loop of `CreatePropertyString`: every string is constructed at
`Boundary`, `"Invalid"` when the engine has no text for the handle, and the
cursor moves on by `sizeof(FString)` per string.  Returns the strings and the
cursor. -/
def WriteStringValues (env : RebuildEnv) (Vector : List Int) (Start : Int) (Boundary : Nat) :
    Nat → Nat → (Nat → String) → Nat → Option ((Nat → String) × Nat)
  | _, 0, Strings, Offset => some (Strings, Offset)
  | Index, n + 1, Strings, Offset =>
    match ReadVector Vector Start Index with
    | none => none
    | some Handle =>
      let NameString :=
        match env.GetHoudiniString Handle with
        | some Text => Text
        | none => "Invalid"
      WriteStringValues env Vector Start Boundary (Index + 1) n
        (Function.update Strings Boundary NameString) (u32 (Offset + sizeofFString))

/-- `CreatePropertyInt(ClassInstance, Name, Count, Value, Offset)`, where
`Value` is `&Vector[Start]`.  Returns the objects, the property (`none` for
null) and the cursor.  The outer `none` is a read outside the vector or a fatal
error of the host. -/
def CreatePropertyInt (r : Reflection) (ClassInstance : Nat) (Name : String) (Count : Int)
    (Vector : List Int) (Start : Int) (Offset : Nat) : Option (Reflection × Option Nat × Nat) :=
  if Count = 0 then some (r, none, Offset)
  else
    match CreatePropertyOfClass UPropertyClass.UIntProperty r ClassInstance Name
        CreatedPropertyFlags with
    | none => none
    | some (r1, p) =>
      let Boundary := ComputeOffsetAlignmentBoundary alignofWord Offset
      let Offset1 := u32 Boundary
      let r2 := SetProperty r1 p (fun Property =>
        { Property with ArrayDim := Count, Offset := Offset1 })
      match WriteIntValues Vector Start Boundary 0 Count.toNat r2.Memory with
      | none => none
      | some m => some ({ r2 with Memory := m }, some p, u32OfInt (Offset1 + 4 * Count))

/-- `CreatePropertyFloat(ClassInstance, Name, Count, Value, Offset)`. -/
def CreatePropertyFloat (r : Reflection) (ClassInstance : Nat) (Name : String) (Count : Int)
    (Vector : List Nat) (Start : Int) (Offset : Nat) : Option (Reflection × Option Nat × Nat) :=
  if Count = 0 then some (r, none, Offset)
  else
    match CreatePropertyOfClass UPropertyClass.UFloatProperty r ClassInstance Name
        CreatedPropertyFlags with
    | none => none
    | some (r1, p) =>
      let Boundary := ComputeOffsetAlignmentBoundary alignofWord Offset
      let Offset1 := u32 Boundary
      let r2 := SetProperty r1 p (fun Property =>
        { Property with ArrayDim := Count, Offset := Offset1 })
      match WriteFloatValues Vector Start Boundary 0 Count.toNat r2.Memory with
      | none => none
      | some m => some ({ r2 with Memory := m }, some p, u32OfInt (Offset1 + 4 * Count))

/-- `CreatePropertyToggle(ClassInstance, Name, PropertyFlags)`: the shared
creation, and `SetBoolSize(sizeof(bool), true)`, which makes the element one
byte. -/
def CreatePropertyToggleOfClass (r : Reflection) (ClassInstance : Nat) (Name : String)
    (PropertyFlags : Nat) : Option (Reflection × Nat) :=
  match CreatePropertyOfClass UPropertyClass.UBoolProperty r ClassInstance Name
      PropertyFlags with
  | none => none
  | some (r1, p) => some (SetProperty r1 p (fun Property => { Property with ElementSize := 1 }), p)

/-- `CreatePropertyToggle(ClassInstance, Name, Count, bValue, Offset)`. -/
def CreatePropertyToggle (r : Reflection) (ClassInstance : Nat) (Name : String) (Count : Int)
    (Vector : List Int) (Start : Int) (Offset : Nat) : Option (Reflection × Option Nat × Nat) :=
  if Count = 0 then some (r, none, Offset)
  else
    match CreatePropertyToggleOfClass r ClassInstance Name CreatedPropertyFlags with
    | none => none
    | some (r1, p) =>
      let Boundary := ComputeOffsetAlignmentBoundary alignofByte Offset
      let Offset1 := u32 Boundary
      let r2 := SetProperty r1 p (fun Property =>
        { Property with ArrayDim := Count, Offset := Offset1 })
      match WriteToggleValues Vector Start Boundary 0 Count.toNat r2.Memory with
      | none => none
      | some m => some ({ r2 with Memory := m }, some p, u32OfInt (Offset1 + 1 * Count))

/-- `CreatePropertyString(ClassInstance, Name, Count, Value, Offset)`. -/
def CreatePropertyString (env : RebuildEnv) (r : Reflection) (ClassInstance : Nat)
    (Name : String) (Count : Int) (Vector : List Int) (Start : Int) (Offset : Nat) :
    Option (Reflection × Option Nat × Nat) :=
  if Count = 0 then some (r, none, Offset)
  else
    match CreatePropertyOfClass UPropertyClass.UStrProperty r ClassInstance Name
        CreatedPropertyFlags with
    | none => none
    | some (r1, p) =>
      let Boundary := ComputeOffsetAlignmentBoundary alignofFString Offset
      let Offset1 := u32 Boundary
      let r2 := SetProperty r1 p (fun Property =>
        { Property with ArrayDim := Count, Offset := Offset1 })
      match WriteStringValues env Vector Start Boundary 0 Count.toNat r2.Strings Offset1 with
      | none => none
      | some (Strings, Offset2) => some ({ r2 with Strings := Strings }, some p, Offset2)

/-- `CreatePropertyColor(ClassInstance, Name, PropertyFlags)`.  The static
`ScriptStructColor` is created on first use; its four byte properties, which
belong to the struct alone, are not kept.  A created property gets the struct
as its struct. -/
def CreatePropertyColorOfClass (r : Reflection) (ClassInstance : Nat) (Name : String)
    (PropertyFlags : Nat) : Option (Reflection × Nat) :=
  let WithStruct : Option Reflection :=
    match r.ScriptStructColor with
    | some _ => some r
    | none =>
      match NewNamedObject r UObjectKind.ScriptStruct r.StaticClass "Color" with
      | none => none
      | some (r1, Struct) => some { r1 with ScriptStructColor := some Struct }
  match WithStruct with
  | none => none
  | some r1 =>
    let Located : Option (Reflection × Nat) :=
      match FindObject r1 (UObjectKind.Property UPropertyClass.UStructProperty) ClassInstance
          Name with
      | some p => some (r1, p)
      | none =>
        match NewNamedObject r1 (UObjectKind.Property UPropertyClass.UStructProperty)
            ClassInstance Name with
        | none => none
        | some (r2, p) =>
          some (SetProperty r2 p (fun _ =>
            { NewProperty UPropertyClass.UStructProperty with Struct := r2.ScriptStructColor }), p)
    match Located with
    | none => none
    | some (r2, p) =>
      some (SetProperty r2 p (fun Property =>
        { Property with PropertyLinkNext := none,
                        Meta := SetMetaData Property.Meta "Category" "HoudiniProperties",
                        PropertyFlags := PropertyFlags }), p)

/-- `CreatePropertyColor(ClassInstance, Name, Count, Value, Offset)`.  The
conversions read three or four floats at `Value`. -/
def CreatePropertyColor (env : RebuildEnv) (r : Reflection) (ClassInstance : Nat)
    (Name : String) (Count : Int) (Vector : List Nat) (Start : Int) (Offset : Nat) :
    Option (Reflection × Option Nat × Nat) :=
  if Count < 3 then some (r, none, Offset)
  else
    match CreatePropertyColorOfClass r ClassInstance Name CreatedPropertyFlags with
    | none => none
    | some (r1, p) =>
      let Converted : Option (Reflection × FColor) :=
        if Count < 4 then
          match ReadVector Vector Start 0, ReadVector Vector Start 1, ReadVector Vector Start 2 with
          | some R, some G, some B =>
            some (SetProperty r1 p (fun Property =>
              { Property with Meta := SetMetaData Property.Meta "HideAlphaChannel" "0" }),
              env.ConvertHoudiniColorRGB R G B)
          | _, _, _ => none
        else
          match ReadVector Vector Start 0, ReadVector Vector Start 1, ReadVector Vector Start 2,
              ReadVector Vector Start 3 with
          | some R, some G, some B, some A => some (r1, env.ConvertHoudiniColorRGBA R G B A)
          | _, _, _, _ => none
      match Converted with
      | none => none
      | some (r2, ConvertedColor) =>
        let Boundary := ComputeOffsetAlignmentBoundary alignofWord Offset
        let Offset1 := u32 Boundary
        let r3 := SetProperty r2 p (fun Property => { Property with Offset := Offset1 })
        some ({ r3 with Memory := writeColor r3.Memory Boundary ConvertedColor }, some p,
          u32 (Offset1 + 4))

/-! ## Class replacement: enumerations -/

/-- Host `UEnum::NumEnums`. -/
def UEnum.NumEnums (e : UEnum) : Nat := e.Names.length

/-- Name of the entry at an index (`GetEnumName`), `"None"` when there is no
such entry. -/
def UEnum.GetEnumName (e : UEnum) (Idx : Nat) : String := e.Names.getD Idx "None"

/-- Host `UEnum::HasMetaData(Key, Idx)`. -/
def UEnum.HasMetaData (e : UEnum) (Key : String) (Idx : Nat) : Bool :=
  e.Meta.any (fun kv => decide (kv.1 = (e.GetEnumName Idx, Key)))

/-- Host `UEnum::GetMetaData(Key, Idx)`: the stored value, the empty string
when absent. -/
def UEnum.GetMetaData (e : UEnum) (Key : String) (Idx : Nat) : String :=
  match e.Meta.find? (fun kv => decide (kv.1 = (e.GetEnumName Idx, Key))) with
  | some kv => kv.2
  | none => ""

/-- Host `UEnum::RemoveMetaData(Key, Idx)`. -/
def UEnum.RemoveMetaData (e : UEnum) (Key : String) (Idx : Nat) : UEnum :=
  { e with Meta := e.Meta.filter (fun kv => !decide (kv.1 = (e.GetEnumName Idx, Key))) }

/-- Host `UEnum::SetMetaData(Key, Value, Idx)`. -/
def UEnum.SetMetaData (e : UEnum) (Key Value : String) (Idx : Nat) : UEnum :=
  { e with Meta := ((e.GetEnumName Idx, Key), Value)
      :: e.Meta.filter (fun kv => !decide (kv.1 = (e.GetEnumName Idx, Key))) }

/-- Host `UEnum::GetEnumText(Idx)` in the editor: the display name of the
entry, and the name of the entry when it has no display name. -/
def UEnum.GetEnumText (e : UEnum) (Idx : Nat) : String :=
  if e.GetMetaData "DisplayName" Idx ≠ "" then e.GetMetaData "DisplayName" Idx
  else e.GetEnumName Idx

/-- `RemoveMetaDataFromEnum`, the body of the loop for one index. -/
def RemoveMetaDataFromEnumAt (e : UEnum) (Idx : Nat) : UEnum :=
  let e1 := if e.HasMetaData "DisplayName" Idx then e.RemoveMetaData "DisplayName" Idx else e
  if e1.HasMetaData "HoudiniName" Idx then e1.RemoveMetaData "HoudiniName" Idx else e1

/-- `RemoveMetaDataFromEnum`. -/
def RemoveMetaDataFromEnum (e : UEnum) : UEnum :=
  (List.range e.NumEnums).foldl RemoveMetaDataFromEnumAt e

/-- The loop of `CreateEnum` that retrieves the strings of the choices.  The
state is `EnumValues`, `EnumValueNames` and `EnumValueLabels`; a string the
engine does not have leaves the loop (`break`). -/
def CreateEnumStrings (env : RebuildEnv) (UniqueEnumName : String) :
    List HAPI_ParmChoiceInfo → List String × List String × List String
      → List String × List String × List String
  | [], Lists => Lists
  | Choice :: rest, (EnumValues, EnumValueNames, EnumValueLabels) =>
    match env.GetHoudiniString Choice.labelSH with
    | none => (EnumValues, EnumValueNames, EnumValueLabels)
    | some Label =>
      let EnumValues1 :=
        EnumValues ++ [env.SanitizeObjectName (UniqueEnumName ++ "_value_" ++ Label)]
      match env.GetHoudiniString Choice.valueSH with
      | none => (EnumValues1, EnumValueNames, EnumValueLabels ++ [Label])
      | some ValueName =>
        CreateEnumStrings env UniqueEnumName rest
          (EnumValues1, EnumValueNames ++ [ValueName], EnumValueLabels ++ [Label])

/-- The second pass of `CreateEnum`, which sets the metadata of the entries.
`none` is an index outside `EnumValueLabels` or `EnumValueNames`. -/
def CreateEnumMetaData (EnumValueNames EnumValueLabels : List String) :
    List Nat → UEnum → Option UEnum
  | [], e => some e
  | ChoiceIdx :: rest, e =>
    match EnumValueLabels.get? ChoiceIdx, EnumValueNames.get? ChoiceIdx with
    | some Label, some ValueName =>
      CreateEnumMetaData EnumValueNames EnumValueLabels rest
        ((e.SetMetaData "DisplayName" Label ChoiceIdx).SetMetaData "HoudiniName" ValueName
          ChoiceIdx)
    | _, _ => none

/-- The start of `CreateEnum`: the enum of that name is located, or created
when there is none. -/
def LocateEnum (r : Reflection) (ClassInstance : Nat) (UniqueEnumName : String) :
    Option (Reflection × Nat) :=
  match FindObject r UObjectKind.Enum ClassInstance UniqueEnumName with
  | some ChoiceEnum => some (r, ChoiceEnum)
  | none =>
    match NewNamedObject r UObjectKind.Enum ClassInstance UniqueEnumName with
    | none => none
    | some (r1, ChoiceEnum) =>
      let Created : UEnum := { Names := [], Meta := [], PendingKill := false }
      some ({ r1 with Enums := Function.update r1.Enums ChoiceEnum Created }, ChoiceEnum)

/-- `CreateEnum(ClassInstance, Name, Choices)`.  Returns the objects and the
enum, `none` for null. -/
def CreateEnum (env : RebuildEnv) (r : Reflection) (ClassInstance : Nat) (Name : String)
    (Choices : List HAPI_ParmChoiceInfo) : Option (Reflection × Option Nat) :=
  let UniqueEnumName := env.SanitizeObjectName ("enum_" ++ Name)
  match LocateEnum r ClassInstance UniqueEnumName with
  | none => none
  | some (r1, ChoiceEnum) =>
    let e1 := RemoveMetaDataFromEnum (r1.Enums ChoiceEnum)
    let Lists := CreateEnumStrings env UniqueEnumName Choices ([], [], [])
    if Lists.1.length ≠ Choices.length then
      let Killed : UEnum := { e1 with PendingKill := true }
      some ({ r1 with Enums := Function.update r1.Enums ChoiceEnum Killed }, none)
    else
      let Renamed : UEnum := { e1 with Names := Lists.1 }
      match CreateEnumMetaData Lists.2.1 Lists.2.2 (List.range Choices.length) Renamed with
      | none => none
      | some e2 =>
        some ({ r1 with Enums := Function.update r1.Enums ChoiceEnum e2 }, some ChoiceEnum)

/-- `CreatePropertyEnum(ClassInstance, Name, Choices, Value, Offset)` with an
integer value. -/
def CreatePropertyEnum (env : RebuildEnv) (r : Reflection) (ClassInstance : Nat)
    (Name : String) (Choices : List HAPI_ParmChoiceInfo) (Value : Int) (Offset : Nat) :
    Option (Reflection × Option Nat × Nat) :=
  match CreateEnum env r ClassInstance Name Choices with
  | none => none
  | some (r1, none) => some (r1, none, Offset)
  | some (r1, some EnumType) =>
    match CreatePropertyOfClass UPropertyClass.UByteProperty r1 ClassInstance Name
        CreatedPropertyFlags with
    | none => none
    | some (r2, p) =>
      let Boundary := ComputeOffsetAlignmentBoundary alignofByte Offset
      let Offset1 := u32 Boundary
      let r3 := SetProperty r2 p (fun Property =>
        { Property with Enum := some EnumType, ArrayDim := 1, Offset := Offset1 })
      some ({ r3 with Memory := writeByte r3.Memory Boundary (u32OfInt Value) }, some p,
        u32 (Offset1 + 1))

/-- The search of `CreatePropertyEnum` for the entry whose `HoudiniName` is the
current value: the first such index. -/
def FindHoudiniName (env : RebuildEnv) (e : UEnum) (ValueStringCompare : String) :
    List Nat → Option Nat
  | [] => none
  | Idx :: rest =>
    if e.HasMetaData "HoudiniName" Idx
        && env.CompareIgnoreCase (e.GetMetaData "HoudiniName" Idx) ValueStringCompare
    then some Idx
    else FindHoudiniName env e ValueStringCompare rest

/-- `CreatePropertyEnum(ClassInstance, Name, Choices, ValueString, Offset)` with
a string value. -/
def CreatePropertyEnumString (env : RebuildEnv) (r : Reflection) (ClassInstance : Nat)
    (Name : String) (Choices : List HAPI_ParmChoiceInfo) (ValueString : String)
    (Offset : Nat) : Option (Reflection × Option Nat × Nat) :=
  let OffsetStored := Offset
  match CreatePropertyEnum env r ClassInstance Name Choices 0 Offset with
  | none => none
  | some (r1, none, Offset1) => some (r1, none, Offset1)
  | some (r1, some p, Offset1) =>
    match (r1.Properties p).Enum with
    | none => none
    | some Enum =>
      let ValueStringCompare := env.SanitizeObjectName ValueString
      let Patched : Reflection × Nat :=
        if ValueString ≠ "" then
          match FindHoudiniName env (r1.Enums Enum) ValueStringCompare
              (List.range (r1.Enums Enum).NumEnums) with
          | some Idx =>
            let Boundary := ComputeOffsetAlignmentBoundary alignofByte OffsetStored
            let OffsetStored1 := u32 Boundary
            let r2 := SetProperty r1 p (fun Property => { Property with Offset := OffsetStored1 })
            ({ r2 with Memory := writeByte r2.Memory Boundary Idx }, u32 (OffsetStored1 + 1))
          | none => (r1, Offset1)
        else (r1, Offset1)
      some (SetProperty Patched.1 p (fun Property =>
        { Property with Meta := SetMetaData Property.Meta "HoudiniStringChoiceList" "1" }),
        some p, Patched.2)

/-! ## Class replacement: the field list -/

/-- What `ReplaceClassProperties` has fetched from the engine before its loop:
the node information and the four vectors. -/
structure FetchedParameters where
  NodeInfo : HAPI_NodeInfo
  ParmInfo : List HAPI_ParmInfo
  ParmValuesIntegers : List Int
  ParmValuesFloats : List Nat
  ParmValuesStrings : List Int
deriving DecidableEq, Repr

/-- The local variables of `ReplaceClassProperties` that its loop assigns, with
the objects it works on. -/
structure ReplaceState where
  Objects : Reflection
  PropertyFirst : Option Nat
  PropertyLast : Option Nat
  ChildFirst : Option Nat
  ChildLast : Option Nat
  ValuesOffsetEnd : Nat

/-- The zero-filled choice entry. -/
def ZeroChoiceInfo : HAPI_ParmChoiceInfo := { labelSH := 0, valueSH := 0 }

/-- The zero-filled parameter entry. -/
def ZeroParmInfo : HAPI_ParmInfo := { size := 0, intValuesIndex := 0, floatValuesIndex := 0 }

/-- The `switch` of the loop of `ReplaceClassProperties` that creates the
property of one parameter.  Returns the objects, the property (`none` for null,
also where the source leaves the iteration with `continue`) and the cursor.
The outer `none` is a vector of negative length, a read outside a vector or a
fatal error of the host. -/
def CreateParameterProperty (env : RebuildEnv) (ClassInstance : Nat) (v : FetchedParameters)
    (r : Reflection) (ParmInfoIter : HAPI_ParmInfo) (UniquePropertyName : String)
    (ValuesOffsetEnd : Nat) : Option (Reflection × Option Nat × Nat) :=
  match ParmInfoIter.type with
  | .HAPI_PARMTYPE_INT =>
    if ParmInfoIter.choiceCount = 0 then
      CreatePropertyInt r ClassInstance UniquePropertyName ParmInfoIter.size
        v.ParmValuesIntegers ParmInfoIter.intValuesIndex ValuesOffsetEnd
    else if 0 ≤ ParmInfoIter.choiceIndex then
      if ParmInfoIter.choiceCount < 0 then none
      else
        let Call := env.HAPI_GetParmChoiceLists v.NodeInfo.id ParmInfoIter.choiceIndex
          ParmInfoIter.choiceCount
        if Call.1 ≠ HAPI_Result.HAPI_RESULT_SUCCESS then some (r, none, ValuesOffsetEnd)
        else
          let ChoiceInfos := FillVector ZeroChoiceInfo ParmInfoIter.choiceCount.toNat
            (HOUDINI_CHECK_ERROR Call)
          let EnumIndex := (HOUDINI_CHECK_ERROR (env.HAPI_GetParmIntValues v.NodeInfo.id
            ParmInfoIter.intValuesIndex ParmInfoIter.size)).headD 0
          CreatePropertyEnum env r ClassInstance UniquePropertyName ChoiceInfos EnumIndex
            ValuesOffsetEnd
    else some (r, none, ValuesOffsetEnd)
  | .HAPI_PARMTYPE_STRING =>
    if ParmInfoIter.choiceCount = 0 then
      CreatePropertyString env r ClassInstance UniquePropertyName ParmInfoIter.size
        v.ParmValuesStrings ParmInfoIter.stringValuesIndex ValuesOffsetEnd
    else if 0 ≤ ParmInfoIter.choiceIndex then
      if ParmInfoIter.choiceCount < 0 then none
      else
        let Call := env.HAPI_GetParmChoiceLists v.NodeInfo.id ParmInfoIter.choiceIndex
          ParmInfoIter.choiceCount
        if Call.1 ≠ HAPI_Result.HAPI_RESULT_SUCCESS then some (r, none, ValuesOffsetEnd)
        else
          let ChoiceInfos := FillVector ZeroChoiceInfo ParmInfoIter.choiceCount.toNat
            (HOUDINI_CHECK_ERROR Call)
          let EnumValue := (HOUDINI_CHECK_ERROR (env.HAPI_GetParmStringValues v.NodeInfo.id
            false ParmInfoIter.stringValuesIndex ParmInfoIter.size)).headD 0
          match env.GetHoudiniString EnumValue with
          | none => some (r, none, ValuesOffsetEnd)
          | some EnumStringValue =>
            CreatePropertyEnumString env r ClassInstance UniquePropertyName ChoiceInfos
              EnumStringValue ValuesOffsetEnd
    else some (r, none, ValuesOffsetEnd)
  | .HAPI_PARMTYPE_FLOAT =>
    CreatePropertyFloat r ClassInstance UniquePropertyName ParmInfoIter.size
      v.ParmValuesFloats ParmInfoIter.floatValuesIndex ValuesOffsetEnd
  | .HAPI_PARMTYPE_TOGGLE =>
    CreatePropertyToggle r ClassInstance UniquePropertyName ParmInfoIter.size
      v.ParmValuesIntegers ParmInfoIter.intValuesIndex ValuesOffsetEnd
  | .HAPI_PARMTYPE_COLOR =>
    CreatePropertyColor env r ClassInstance UniquePropertyName ParmInfoIter.size
      v.ParmValuesFloats ParmInfoIter.floatValuesIndex ValuesOffsetEnd
  | .HAPI_PARMTYPE_OTHER => some (r, none, ValuesOffsetEnd)

/-- The metadata the loop of `ReplaceClassProperties` attaches to a created
property: the parameter name, the display name (the label when its length is
not zero) and the ranges the engine supplies. -/
def ParameterMetaData (env : RebuildEnv) (ParmInfoIter : HAPI_ParmInfo)
    (ParamName ParamLabel : String) (ParmLabelLength : Int) (Meta : List (String × String)) :
    List (String × String) :=
  let m1 := SetMetaData Meta "HoudiniParmName" ParamName
  let m2 := if ParmLabelLength ≠ 0 then SetMetaData m1 "DisplayName" ParamLabel
    else SetMetaData m1 "DisplayName" ParamName
  let m3 := if ParmInfoIter.hasUIMin then
    SetMetaData m2 "UIMin" (env.SanitizeFloat ParmInfoIter.UIMin) else m2
  let m4 := if ParmInfoIter.hasUIMax then
    SetMetaData m3 "UIMax" (env.SanitizeFloat ParmInfoIter.UIMax) else m3
  let m5 := if ParmInfoIter.hasMin then
    SetMetaData m4 "ClampMin" (env.SanitizeFloat ParmInfoIter.min) else m4
  if ParmInfoIter.hasMax then SetMetaData m5 "ClampMax" (env.SanitizeFloat ParmInfoIter.max)
  else m5

/-- The end of one iteration of the loop of `ReplaceClassProperties`, for a
created property: metadata, `CreatedProperties.Add`, and the insertion at the
end of the two chains under construction.  `none` is the dereference of a null
`PropertyLast` or `ChildLast`. -/
def InsertCreatedProperty (env : RebuildEnv) (s : ReplaceState) (r : Reflection)
    (ValuesOffsetEnd : Nat) (ParmInfoIter : HAPI_ParmInfo) (ParamName ParamLabel : String)
    (ParmLabelLength : Int) (Property : Nat) : Option ReplaceState :=
  let r1 := SetProperty r Property (fun P =>
    { P with Meta :=
        (ParameterMetaData env ParmInfoIter ParamName ParamLabel ParmLabelLength P.Meta) })
  let r2 : Reflection :=
    { r1 with CreatedProperties := r1.CreatedProperties ++ [Property],
              CreatedFrom := r1.CreatedFrom ++ [ParmInfoIter] }
  let Linked : Option (Reflection × Option Nat × Option Nat) :=
    match s.PropertyFirst with
    | none => some (r2, some Property, some Property)
    | some First =>
      match s.PropertyLast with
      | none => none
      | some Last =>
        some (SetProperty r2 Last (fun P => { P with PropertyLinkNext := some Property }),
          some First, some Property)
  match Linked with
  | none => none
  | some (r3, PropertyFirst, PropertyLast) =>
    match s.ChildFirst with
    | none =>
      some { Objects := r3, PropertyFirst := PropertyFirst, PropertyLast := PropertyLast,
             ChildFirst := some Property, ChildLast := some Property,
             ValuesOffsetEnd := ValuesOffsetEnd }
    | some First =>
      match s.ChildLast with
      | none => none
      | some Last =>
        some { Objects := SetProperty r3 Last (fun P => { P with Next := some Property }),
               PropertyFirst := PropertyFirst, PropertyLast := PropertyLast,
               ChildFirst := some First, ChildLast := some Property,
               ValuesOffsetEnd := ValuesOffsetEnd }

/-- True for the parameter kinds the loop of `ReplaceClassProperties` goes on
with. -/
def IsSupportedType (t : HAPI_ParmType) : Bool :=
  match t with
  | .HAPI_PARMTYPE_INT | .HAPI_PARMTYPE_FLOAT | .HAPI_PARMTYPE_TOGGLE | .HAPI_PARMTYPE_COLOR
  | .HAPI_PARMTYPE_STRING => true
  | .HAPI_PARMTYPE_OTHER => false

/-- One iteration of the loop of `ReplaceClassProperties`.  `some s` with the
state unchanged is a `continue` before anything was created.  The name of an
`FName` made from a string is that string. -/
def ReplaceClassPropertiesStep (env : RebuildEnv) (ClassInstance : Nat)
    (v : FetchedParameters) (s : ReplaceState) (ParmInfoIter : HAPI_ParmInfo) :
    Option ReplaceState :=
  if ParmInfoIter.invisible then some s
  else if !IsSupportedType ParmInfoIter.type then some s
  else
    let NameLength := env.HAPI_GetStringBufLength ParmInfoIter.nameSH
    if NameLength.1 ≠ HAPI_Result.HAPI_RESULT_SUCCESS then some s
    else
      let ParmNameLength := HOUDINI_CHECK_ERROR NameLength
      if ParmNameLength = 0 then some s
      else if ParmNameLength < 0 then none
      else
        let Name := env.HAPI_GetString ParmInfoIter.nameSH ParmNameLength
        if Name.1 ≠ HAPI_Result.HAPI_RESULT_SUCCESS then some s
        else
          let ParamName := env.UTF8_TO_TCHAR (HOUDINI_CHECK_ERROR Name)
          let UniquePropertyName := env.SanitizeObjectName
            ((s.Objects.Classes ClassInstance).Name ++ "_" ++ ParamName)
          let LabelLength := env.HAPI_GetStringBufLength ParmInfoIter.labelSH
          if LabelLength.1 ≠ HAPI_Result.HAPI_RESULT_SUCCESS then some s
          else
            let ParmLabelLength := HOUDINI_CHECK_ERROR LabelLength
            if ParmLabelLength < 0 then none
            else
              let Label := env.HAPI_GetString ParmInfoIter.labelSH ParmLabelLength
              if Label.1 ≠ HAPI_Result.HAPI_RESULT_SUCCESS then some s
              else
                let ParamLabel := env.UTF8_TO_TCHAR (HOUDINI_CHECK_ERROR Label)
                match CreateParameterProperty env ClassInstance v s.Objects ParmInfoIter
                    UniquePropertyName s.ValuesOffsetEnd with
                | none => none
                | some (r, none, ValuesOffsetEnd) =>
                  some { s with Objects := r, ValuesOffsetEnd := ValuesOffsetEnd }
                | some (r, some Property, ValuesOffsetEnd) =>
                  InsertCreatedProperty env s r ValuesOffsetEnd ParmInfoIter ParamName
                    ParamLabel ParmLabelLength Property

/-- The loop of `ReplaceClassProperties` over the parameter table. -/
def ReplaceClassPropertiesLoop (env : RebuildEnv) (ClassInstance : Nat)
    (v : FetchedParameters) : List HAPI_ParmInfo → ReplaceState → Option ReplaceState
  | [], s => some s
  | ParmInfoIter :: rest, s =>
    match ReplaceClassPropertiesStep env ClassInstance v s ParmInfoIter with
    | none => none
    | some s1 => ReplaceClassPropertiesLoop env ClassInstance v rest s1

/-- The calls of `ReplaceClassProperties` on the engine before its loop.  The
inner `none` is a failed call, on which the function returns false; the outer
`none` is a `resize` to a negative length.  A vector of values is only fetched
when its count is positive; otherwise it stays as `resize` left it. -/
def FetchParameters (env : RebuildEnv) (AssetId : Int) : Option (Option FetchedParameters) :=
  HOUDINI_CHECK_ERROR_RETURN (env.HAPI_GetAssetInfo AssetId) (some none) (fun AssetInfo =>
  HOUDINI_CHECK_ERROR_RETURN (env.HAPI_GetNodeInfo AssetInfo.nodeId) (some none) (fun NodeInfo =>
  if NodeInfo.parmCount < 0 then none
  else
  HOUDINI_CHECK_ERROR_RETURN (env.HAPI_GetParameters AssetInfo.nodeId 0 NodeInfo.parmCount)
    (some none) (fun ParmInfo =>
  if NodeInfo.parmIntValueCount < 0 then none
  else
  HOUDINI_CHECK_ERROR_RETURN
    (if 0 < NodeInfo.parmIntValueCount then
      env.HAPI_GetParmIntValues AssetInfo.nodeId 0 NodeInfo.parmIntValueCount
     else (HAPI_Result.HAPI_RESULT_SUCCESS, []))
    (some none) (fun ParmValuesIntegers =>
  if NodeInfo.parmFloatValueCount < 0 then none
  else
  HOUDINI_CHECK_ERROR_RETURN
    (if 0 < NodeInfo.parmFloatValueCount then
      env.HAPI_GetParmFloatValues AssetInfo.nodeId 0 NodeInfo.parmFloatValueCount
     else (HAPI_Result.HAPI_RESULT_SUCCESS, []))
    (some none) (fun ParmValuesFloats =>
  if NodeInfo.parmStringValueCount < 0 then none
  else
  HOUDINI_CHECK_ERROR_RETURN
    (if 0 < NodeInfo.parmStringValueCount then
      env.HAPI_GetParmStringValues AssetInfo.nodeId true 0 NodeInfo.parmStringValueCount
     else (HAPI_Result.HAPI_RESULT_SUCCESS, []))
    (some none) (fun ParmValuesStrings =>
  some (some
    { NodeInfo := NodeInfo,
      ParmInfo := FillVector ZeroParmInfo NodeInfo.parmCount.toNat ParmInfo,
      ParmValuesIntegers := FillVector 0 NodeInfo.parmIntValueCount.toNat ParmValuesIntegers,
      ParmValuesFloats := FillVector 0 NodeInfo.parmFloatValueCount.toNat ParmValuesFloats,
      ParmValuesStrings :=
        FillVector 0 NodeInfo.parmStringValueCount.toNat ParmValuesStrings })))))))

/-- The state in which the loop of `ReplaceClassProperties` starts:
`CreatedProperties` is reset, the chains under construction are empty and the
cursor is at the start of the scratch buffer. -/
def ReplaceStateStart (env : RebuildEnv) (r : Reflection) : ReplaceState :=
  { Objects := { r with CreatedProperties := [], CreatedFrom := [] },
    PropertyFirst := none, PropertyLast := none, ChildFirst := none, ChildLast := none,
    ValuesOffsetEnd := u32 env.ScratchSpaceBufferOffset }

/-- The end of `ReplaceClassProperties`: the chains that were built are put in
front of the chains of the static class.  `none` is the dereference of a null
`PropertyLast` or `ChildLast`. -/
def InstallChains (ClassInstance : Nat) (s : ReplaceState) : Option Reflection :=
  let Properties : Option Reflection :=
    match s.PropertyFirst with
    | none => some s.Objects
    | some First =>
      match s.PropertyLast with
      | none => none
      | some Last =>
        let r := s.Objects
        let Instance : UClass := { r.Classes ClassInstance with PropertyLink := some First }
        let r1 : Reflection := { r with Classes := Function.update r.Classes ClassInstance Instance }
        some (SetProperty r1 Last (fun P =>
          { P with PropertyLinkNext := (r1.Classes r1.StaticClass).PropertyLink }))
  match Properties with
  | none => none
  | some r =>
    match s.ChildFirst with
    | none => some r
    | some First =>
      match s.ChildLast with
      | none => none
      | some Last =>
        let Instance : UClass := { r.Classes ClassInstance with Children := some First }
        let r1 : Reflection := { r with Classes := Function.update r.Classes ClassInstance Instance }
        some (SetProperty r1 Last (fun P =>
          { P with Next := (r1.Classes r1.StaticClass).Children }))

/-- What `ReplaceClassProperties` does after it has fetched from the engine,
over a parameter table: `CreatedProperties` is reset, the loop runs over the
table, the chains are installed and true is returned. -/
def ReplaceClassPropertiesOver (env : RebuildEnv) (ClassInstance : Nat)
    (v : FetchedParameters) (Table : List HAPI_ParmInfo) (r : Reflection) :
    Option (Reflection × Bool) :=
  match ReplaceClassPropertiesLoop env ClassInstance v Table (ReplaceStateStart env r) with
  | none => none
  | some s =>
    match InstallChains ClassInstance s with
    | none => none
    | some r1 => some (r1, true)

/-- `ReplaceClassProperties(ClassInstance)`.  Returns the objects and the
returned value; `none` when the function does not return. -/
def ReplaceClassProperties (env : RebuildEnv) (AssetId : Int) (r : Reflection)
    (ClassInstance : Nat) : Option (Reflection × Bool) :=
  if AssetId = -1 then some (r, true)
  else
    match FetchParameters env AssetId with
    | none => none
    | some none => some (r, false)
    | some (some v) => ReplaceClassPropertiesOver env ClassInstance v v.ParmInfo r

/-- The loop of `RemoveClassProperties`: from `IterProperty` on, the links of
every property are cleared until the chain ends or reaches `Stop`, the first
property of the static class.  The first argument bounds the number of
properties visited; `none` when it is used up. -/
def RemoveClassPropertiesLoop (Stop : Option Nat) : Nat → Option Nat → Reflection
    → Option Reflection
  | _, none, r => some r
  | 0, some p, r => if some p = Stop then some r else none
  | fuel + 1, some p, r =>
    if some p = Stop then some r
    else
      RemoveClassPropertiesLoop Stop fuel (r.Properties p).PropertyLinkNext
        (SetProperty r p (fun P => { P with Next := none, PropertyLinkNext := none }))

/-- `RemoveClassProperties(ClassInstance)`.  The loop clears the link of every
property it visits, so it comes to a property a second time at most once, and
then ends; it is given one visit more than there are objects. -/
def RemoveClassProperties (r : Reflection) (ClassInstance : Nat) : Option Reflection :=
  RemoveClassPropertiesLoop (r.Classes r.StaticClass).PropertyLink (r.NextAddress + 1)
    (r.Classes ClassInstance).PropertyLink r

/-- `ReplaceClassObject(ClassObjectNew)`: the private call that assigns the
class of the component. -/
def ReplaceClassObject (r : Reflection) (ClassObjectNew : Nat) : Reflection :=
  { r with Class := ClassObjectNew }

/-- `SubscribeSaveWorldDelegates`. -/
def SubscribeSaveWorldDelegates (r : Reflection) : Reflection :=
  { r with SaveWorldDelegates := r.SaveWorldDelegates + 1 }

/-- `ReplaceClassInformation(ActorLabel, bReplace)`.  Of the members of the new
class the source fills in, the name, the super struct, the registration of the
reference callback and the two chains are kept.  `none` when the function does not return. -/
def ReplaceClassInformation (env : RebuildEnv) (w : World) (ActorLabel : String)
    (bReplace : Bool) : Option World :=
  let r := w.Objects
  let Prepared : Option (Reflection × Nat) :=
    match r.PatchedClass with
    | none =>
      let PatchedClassName := env.SanitizeObjectName
        ((r.Classes r.Class).Name ++ "_" ++ ActorLabel ++ "_"
          ++ Nat.repr r.ComponentPatchedClassCounter)
      match NewNamedObject r UObjectKind.Class env.Outermost PatchedClassName with
      | none => none
      | some (r1, NewClass) =>
        let Constructed : UClass :=
          { Name := PatchedClassName, SuperStruct := (r1.Classes r1.StaticClass).SuperStruct,
            PropertyLink := none, Children := none, ClassAddReferencedObjects := true }
        let r2 : Reflection :=
          { r1 with Classes := Function.update r1.Classes NewClass Constructed,
                    ComponentPatchedClassCounter := r1.ComponentPatchedClassCounter + 1,
                    PatchedClass := some NewClass }
        if bReplace then some (SubscribeSaveWorldDelegates (ReplaceClassObject r2 NewClass), NewClass)
        else some (r2, NewClass)
    | some _ =>
      match RemoveClassProperties r r.Class with
      | none => none
      | some r1 => some (r1, r.Class)
  match Prepared with
  | none => none
  | some (r1, NewClass) =>
    match ReplaceClassProperties env w.AssetId r1 NewClass with
    | none => none
    | some (r2, _) => some { w with Objects := r2 }

/-! ## Operations of the component: the tick -/

/-- Modelled from the spec: the default argument of the parameter `bReplace` of
`ReplaceClassInformation`, declared in a header that is not among the sources:
the call swaps the active type of the component to the new type. -/
def ReplaceClassInformationDefault : Bool := true

/-- `UnsubscribeSaveWorldDelegates`: a subscription of the component, if there
is one, is removed. -/
def UnsubscribeSaveWorldDelegates (r : Reflection) : Reflection :=
  { r with SaveWorldDelegates := r.SaveWorldDelegates - 1 }

/-- `ClearGeos`: the geos are deleted and the list is emptied. -/
def ClearGeos (w : World) : World :=
  { w with HoudiniAssetObjectGeos := [] }

/-- The block of `TickHoudiniComponent` under a successful `GetAssetGeometry`:
`ReplaceClassInformation(HoudiniAssetActor->GetActorLabel())`, then
`ConstructGeos` from the geos held, `ClearGeos`, and the assignment of the new
geos.  The update of the preview geometry of the asset and of its preview
component, `UpdateEditorProperties` and the render-resource calls assign none
of the fields kept here.  `none` when `ReplaceClassInformation` does not
return. -/
def TickRebuild (env : Env) (HoudiniAssetActor : AHoudiniAssetActor) (w : World) :
    Option World :=
  match ReplaceClassInformation env.Rebuild w HoudiniAssetActor.ActorLabel
      ReplaceClassInformationDefault with
  | none => none
  | some w1 =>
    let NewObjectGeos := env.ConstructGeos w1.AssetId w1.HoudiniAssetObjectGeos
    some { ClearGeos w1 with HoudiniAssetObjectGeos := NewObjectGeos }

/-- The first part of `TickHoudiniComponent` (the block under
`if(HapiGUID.IsValid())`): the poll of the task queue while a correlation id is
held.  Returns the component and `bStopTicking`; `none` when the block does not
return, which is when the class replacement after a full completion does not
return (or the owner is gone by then). -/
def TickPoll (env : Env) (w : World) : Option (World × Bool) :=
  if w.HapiGUID.IsValid then
    match RetrieveTaskInfo w.TaskInfos w.HapiGUID with
    | some TaskInfo =>
      match TaskInfo.TaskState with
      | .FinishedInstantiationWithoutCooking =>
        let w1 := SetAssetId w TaskInfo.AssetId
        some ({ w1 with TaskInfos := RemoveTaskInfo w1.TaskInfos w1.HapiGUID,
                        HapiGUID := w1.HapiGUID.Invalidate },
          decide (TaskInfo.AssetId = -1))
      | .FinishedInstantiation | .FinishedCooking =>
        let Cooked : Option World :=
          if TaskInfo.AssetId ≠ -1 then
            let w2 := AssignUniqueActorLabel env (SetAssetId w TaskInfo.AssetId)
            if env.GetAssetGeometry TaskInfo.AssetId then
              match w2.HoudiniAssetActorOwner with
              | none => none
              | some HoudiniAssetActor => TickRebuild env HoudiniAssetActor w2
            else some w2
          else some w
        match Cooked with
        | none => none
        | some w1 =>
          some ({ w1 with TaskInfos := RemoveTaskInfo w1.TaskInfos w1.HapiGUID,
                          HapiGUID := w1.HapiGUID.Invalidate }, true)
      | .Aborted | .FinishedInstantiationWithErrors | .FinishedCookingWithErrors
      | .FinishedInstantiationWithoutCookingWithErrors =>
        some ({ w with TaskInfos := RemoveTaskInfo w.TaskInfos w.HapiGUID,
                       HapiGUID := w.HapiGUID.Invalidate }, true)
      | .Processing => some (w, false)
      | .None => some (w, false)
    | none => some ({ w with HapiGUID := w.HapiGUID.Invalidate }, true)
  else some (w, false)

/-- The second part of `TickHoudiniComponent` (the block under
`if(!HapiGUID.IsValid() && (ChangedProperties.Num() > 0))`): the submission of a
request when no correlation id is held and changes are queued.  Takes and
returns `bStopTicking`; `none` when `SetChangedParameterValues` does not
return. -/
def TickSubmit (env : Env) (HoudiniAssetActor : AHoudiniAssetActor) (w : World)
    (bStopTicking : Bool) : Option (World × Bool) :=
  if !w.HapiGUID.IsValid && decide (w.ChangedProperties.length > 0) then
    let Replaced := w.HapiGUID
    let w1 := { w with HapiGUID := env.NewGuid }
    if w1.bLoadedComponentRequiresInstantiation then
      let w2 := { w1 with bLoadedComponentRequiresInstantiation := false }
      let Task : FHoudiniEngineTask :=
        { TaskType := EHoudiniEngineTaskType.AssetInstantiationWithoutCooking,
          HapiGUID := w2.HapiGUID, Asset := w2.HoudiniAsset,
          ActorName := some HoudiniAssetActor.ActorLabel, AssetId := none,
          AssetComponent := false }
      some ({ w2 with Trace := w2.Trace ++ [Event.AddTask Task Replaced] }, false)
    else
      match SetChangedParameterValues env w1 with
      | none => none
      | some calls =>
        let w2 := { w1 with Trace := w1.Trace ++ calls, ChangedProperties := [] }
        let Task : FHoudiniEngineTask :=
          { TaskType := EHoudiniEngineTaskType.AssetCooking, HapiGUID := w2.HapiGUID,
            Asset := none, ActorName := some HoudiniAssetActor.ActorLabel, AssetId := none,
            AssetComponent := true }
        some ({ w2 with Trace := w2.Trace ++ [Event.AddTask Task Replaced] }, false)
  else some (w, bStopTicking)

/-- `TickHoudiniComponent`: poll, submission, and the final
`if(bStopTicking) StopHoudiniTicking()`.  `none` when the `check` on the owner
fails, or the poll or the push does not return.  The actor label is read when
the task is built, after a successful poll may have relabelled the actor. -/
def TickHoudiniComponent (env : Env) (w : World) : Option World :=
  match w.HoudiniAssetActorOwner with
  | none => none
  | some _ =>
    match TickPoll env w with
    | none => none
    | some polled =>
      match polled.1.HoudiniAssetActorOwner with
      | none => none
      | some HoudiniAssetActor =>
        match TickSubmit env HoudiniAssetActor polled.1 polled.2 with
        | none => none
        | some (w2, bStopTicking) => some (if bStopTicking then StopHoudiniTicking w2 else w2)

/-- `OnComponentDestroyed`: an outstanding request whose task information
exists is evicted, the geos are cleared, a deletion task is submitted if an
asset handle is held, and the component is removed from the save delegates.
The textures, the notification and the render resources are not among the
fields kept here. -/
def OnComponentDestroyed (env : Env) (w : World) : World :=
  let w1 :=
    if w.HapiGUID.IsValid then
      match RetrieveTaskInfo w.TaskInfos w.HapiGUID with
      | some _ =>
        StopHoudiniTicking { w with TaskInfos := RemoveTaskInfo w.TaskInfos w.HapiGUID,
                                    HapiGUID := w.HapiGUID.Invalidate }
      | none => w
    else w
  let w2 := ClearGeos w1
  let w3 :=
    if w2.AssetId ≠ -1 then
      let Replaced := w2.HapiGUID
      let w4 := { w2 with HapiGUID := env.NewGuid }
      let Task : FHoudiniEngineTask :=
        { TaskType := EHoudiniEngineTaskType.AssetDeletion, HapiGUID := w4.HapiGUID,
          Asset := none, ActorName := none, AssetId := some w4.AssetId, AssetComponent := false }
      { w4 with Trace := w4.Trace ++ [Event.AddTask Task Replaced], AssetId := -1 }
    else w2
  { w3 with Objects := UnsubscribeSaveWorldDelegates w3.Objects }

/-- A run of edit events with no tick in between. -/
def PostEditChangeProperties (w : World) : List FPropertyChangedEvent → Option World
  | [] => some w
  | e :: es =>
    match PostEditChangeProperty w e with
    | none => none
    | some w1 => PostEditChangeProperties w1 es

/-! ## Predicates of the claims -/

/-- A colour field: a struct property whose struct is `ScriptStructColor`. -/
def IsColorProperty (r : Reflection) (Property : UProperty) : Bool :=
  decide (Property.Class = UPropertyClass.UStructProperty)
    && decide (r.ScriptStructColor = Property.Struct)

/-- An accepted edit event: the member property is in category
`HoudiniProperties` and the event is not an interactive change of a colour
field. -/
def AcceptedEdit (w : World) (e : FPropertyChangedEvent) : Bool :=
  match e.MemberProperty with
  | none => false
  | some p =>
    decide (GetMetaData (w.Objects.Properties p).Meta "Category" = "HoudiniProperties")
      && !(decide (e.ChangeType = EPropertyChangeType.Interactive)
            && IsColorProperty w.Objects (w.Objects.Properties p))

/-- The member properties named by a run of edit events. -/
def EditedProperties (es : List FPropertyChangedEvent) : List Nat :=
  es.filterMap (fun e => e.MemberProperty)

/-- The four error task states. -/
def IsErrorState (s : EHoudiniEngineTaskState) : Bool :=
  decide (s = EHoudiniEngineTaskState.Aborted)
    || decide (s = EHoudiniEngineTaskState.FinishedInstantiationWithErrors)
    || decide (s = EHoudiniEngineTaskState.FinishedCookingWithErrors)
    || decide (s = EHoudiniEngineTaskState.FinishedInstantiationWithoutCookingWithErrors)

/-- The two task states of a full, successful completion. -/
def IsSuccessState (s : EHoudiniEngineTaskState) : Bool :=
  decide (s = EHoudiniEngineTaskState.FinishedInstantiation)
    || decide (s = EHoudiniEngineTaskState.FinishedCooking)

/-- The poll consumes a terminal answer: a correlation id is held and the task
queue has no information for it, or reports a full completion, an error state,
or an instantiation-only completion with the invalid handle -1. -/
def ConsumesTerminalAnswer (w : World) : Bool :=
  w.HapiGUID.IsValid &&
    match RetrieveTaskInfo w.TaskInfos w.HapiGUID with
    | none => true
    | some TaskInfo =>
      IsSuccessState TaskInfo.TaskState || IsErrorState TaskInfo.TaskState
        || (decide (TaskInfo.TaskState = EHoudiniEngineTaskState.FinishedInstantiationWithoutCooking)
            && decide (TaskInfo.AssetId = -1))

/-- Every task submitted between two traces was submitted while no correlation
id was outstanding: the trace grew by events whose `AddTask` entries all
replaced an invalid id. -/
def SubmitsOnlyWhileIdle (before after : List Event) : Prop :=
  ∃ added, after = before ++ added
    ∧ ∀ Task Replaced, Event.AddTask Task Replaced ∈ added → Replaced.IsValid = false

/-- The answer of `HAPI_GetParmIdFromName` for the parameter name stored with a
property. -/
def ResolveParmId (env : Env) (r : Reflection) (nodeId : Int) (p : Nat) : HAPI_Result × Int :=
  env.HAPI_GetParmIdFromName nodeId
    (env.NarrowName (GetMetaData (r.Properties p).Meta "HoudiniParmName"))

/-- The set calls that push the value of one field under the parameter id its
name resolves to. -/
def PushOfField (env : Env) (r : Reflection) (nodeId : Int) (p : Nat) : Option (List Event) :=
  PushProperty env r nodeId (r.Properties p) (ResolveParmId env r nodeId p).2
    (env.HAPI_GetParameters nodeId (ResolveParmId env r nodeId p).2).2

/-- The push as the specification words it: for every field of the Change Set,
in order, the field is skipped when its name resolves to no parameter (id -1)
and its value is pushed otherwise. -/
def PushesOfResolvedFields (env : Env) (r : Reflection) (nodeId : Int) : List Nat → List Event
  | [] => []
  | p :: rest =>
    (if (ResolveParmId env r nodeId p).2 = -1 then []
      else (PushOfField env r nodeId p).getD [])
      ++ PushesOfResolvedFields env r nodeId rest

/-! ## The scenario of the specification

Asset handle 7, two float fields `Size` and `Seed` of arity 1, `Size` edited to
2.0 (pattern `0x40000000`), `Seed` holding 4.0 (pattern `0x40800000`). -/

/-- The float field `Size`, stored at offset 1000. -/
def ScenarioSize : UProperty :=
  { Class := UPropertyClass.UFloatProperty, ArrayDim := 1, Offset := 1000,
    Meta := [("Category", "HoudiniProperties"), ("HoudiniParmName", "Size")],
    Struct := none, Enum := none }

/-- The float field `Seed`, stored at offset 1004. -/
def ScenarioSeed : UProperty :=
  { Class := UPropertyClass.UFloatProperty, ArrayDim := 1, Offset := 1004,
    Meta := [("Category", "HoudiniProperties"), ("HoudiniParmName", "Seed")],
    Struct := none, Enum := none }

/-- A property of the static class, outside the category of the component. -/
def ScenarioNative : UProperty :=
  { Class := UPropertyClass.UOtherProperty, ArrayDim := 1, Offset := 0,
    Meta := [("Category", "Rendering")], Struct := none, Enum := none }

/-- A float field `Gone`, stored at offset 1008, whose parameter the engine no
longer knows. -/
def ScenarioGone : UProperty :=
  { Class := UPropertyClass.UFloatProperty, ArrayDim := 1, Offset := 1008,
    Meta := [("Category", "HoudiniProperties"), ("HoudiniParmName", "Gone")],
    Struct := none, Enum := none }

/-- Objects of the scenario: `Size` at address 1, `Seed` at address 2, `Gone`
at address 3. -/
def ScenarioObjects : Reflection :=
  { Properties := fun a => if a = 1 then ScenarioSize else if a = 2 then ScenarioSeed
      else if a = 3 then ScenarioGone else ScenarioNative,
    Memory := fun a => if a = 1003 then 64 else if a = 1006 then 128 else if a = 1007 then 64
      else 0,
    Strings := fun _ => "",
    ScriptStructColor := none }

/-- The owner of the scenario component: not a preview actor. -/
def ScenarioActor : AHoudiniAssetActor :=
  { IsUsedForPreview := false, ActorLabel := "Actor" }

/-- The invalid correlation id. -/
def GuidZero : FGuid := { A := 0, B := 0, C := 0, D := 0 }

/-- A valid correlation id. -/
def GuidOne : FGuid := { A := 1, B := 0, C := 0, D := 0 }

/-- Another valid correlation id. -/
def GuidTwo : FGuid := { A := 2, B := 0, C := 0, D := 0 }

/-- The instantiated, idle component of the scenario. -/
def ScenarioWorld : World :=
  { HoudiniAsset := some 50, AssetId := 7, bIsPreviewComponent := false,
    bLoadedComponent := false, bLoadedComponentRequiresInstantiation := false,
    HapiGUID := GuidZero, ChangedProperties := [], TimerDelegateBound := false,
    HoudiniAssetActorOwner := some ScenarioActor, TaskInfos := [], Trace := [],
    Objects := ScenarioObjects }

/-- The user commits a new value of `Size`. -/
def EditSize : FPropertyChangedEvent :=
  { MemberProperty := some 1, Property := some 1, ChangeType := EPropertyChangeType.ValueSet }

/-- The user commits a new value of `Seed`. -/
def EditSeed : FPropertyChangedEvent :=
  { MemberProperty := some 2, Property := some 2, ChangeType := EPropertyChangeType.ValueSet }

/-- The collaborators of the class replacement in the scenario, where the
geometry extraction fails and the class replacement is not reached: every engine
call fails. -/
def ScenarioRebuildEnv : RebuildEnv :=
  { HAPI_GetAssetInfo := fun _ => (HAPI_Result.HAPI_RESULT_FAILURE, { nodeId := 0 }),
    HAPI_GetNodeInfo := fun _ =>
      (HAPI_Result.HAPI_RESULT_FAILURE,
        { id := 0, parmCount := 0, parmIntValueCount := 0, parmFloatValueCount := 0,
          parmStringValueCount := 0 }),
    HAPI_GetParameters := fun _ _ _ => (HAPI_Result.HAPI_RESULT_FAILURE, []),
    HAPI_GetParmIntValues := fun _ _ _ => (HAPI_Result.HAPI_RESULT_FAILURE, []),
    HAPI_GetParmFloatValues := fun _ _ _ => (HAPI_Result.HAPI_RESULT_FAILURE, []),
    HAPI_GetParmStringValues := fun _ _ _ _ => (HAPI_Result.HAPI_RESULT_FAILURE, []),
    HAPI_GetStringBufLength := fun _ => (HAPI_Result.HAPI_RESULT_FAILURE, 0),
    HAPI_GetString := fun _ _ => (HAPI_Result.HAPI_RESULT_FAILURE, ""),
    HAPI_GetParmChoiceLists := fun _ _ _ => (HAPI_Result.HAPI_RESULT_FAILURE, []),
    GetHoudiniString := fun _ => none,
    SanitizeObjectName := fun n => n,
    UTF8_TO_TCHAR := fun n => n,
    SanitizeFloat := fun _ => "",
    CompareIgnoreCase := fun a b => decide (a = b),
    ConvertHoudiniColorRGB := fun _ _ _ => { B := 0, G := 0, R := 0, A := 255 },
    ConvertHoudiniColorRGBA := fun _ _ _ _ => { B := 0, G := 0, R := 0, A := 0 },
    ScratchSpaceBufferOffset := 1000,
    ScratchSpaceSize := 65536,
    Outermost := 12 }

/-- Engine of the scenario: asset 7 is node 3; `Size` is parameter 0 and `Seed`
parameter 1, float values at index 0 and 1; no other name is known. -/
def ScenarioEnv : Env :=
  { NewGuid := GuidTwo,
    HAPI_GetAssetInfo := fun a =>
      if a = 7 then (HAPI_Result.HAPI_RESULT_SUCCESS, { nodeId := 3 })
      else (HAPI_Result.HAPI_RESULT_FAILURE, { nodeId := 0 }),
    HAPI_GetParmIdFromName := fun _ n =>
      if n = "Size" then (HAPI_Result.HAPI_RESULT_SUCCESS, 0)
      else if n = "Seed" then (HAPI_Result.HAPI_RESULT_SUCCESS, 1)
      else (HAPI_Result.HAPI_RESULT_SUCCESS, -1),
    HAPI_GetParameters := fun _ i =>
      (HAPI_Result.HAPI_RESULT_SUCCESS, { size := 1, intValuesIndex := 0, floatValuesIndex := i }),
    TCHAR_TO_ANSI := fun n => n,
    NarrowName := fun n => n,
    GetEnumText := fun _ _ => "",
    ConvertUnrealColorRGB := fun _ => (0, 0, 0),
    ConvertUnrealColorRGBA := fun _ => (0, 0, 0, 0),
    GetHoudiniAssetName := fun _ => none,
    SetActorLabelUnique := fun n => n,
    GetAssetGeometry := fun _ => false,
    Rebuild := ScenarioRebuildEnv,
    ConstructGeos := fun _ Geos => Geos }

/-- The component as its constructor leaves it (asset handle -1, invalid
correlation id, empty Change Set, timer not bound), owned by an actor. -/
def FreshWorld : World :=
  { HoudiniAsset := none, AssetId := -1, bIsPreviewComponent := false,
    bLoadedComponent := false, bLoadedComponentRequiresInstantiation := false,
    HapiGUID := GuidZero, ChangedProperties := [], TimerDelegateBound := false,
    HoudiniAssetActorOwner := some ScenarioActor, TaskInfos := [], Trace := [],
    Objects := ScenarioObjects }

/-- The scenario component after `Size` has been edited. -/
def ScenarioEdited : World :=
  { ScenarioWorld with ChangedProperties := [1], TimerDelegateBound := true }

/-- The task queue stores an answer under a correlation id (a step of the
engine between two operations of the component). -/
def EngineAnswers (w : World) (g : FGuid) (TaskInfo : FHoudiniEngineTaskInfo) : World :=
  { w with TaskInfos := (g, TaskInfo) :: w.TaskInfos }

/-- The answer of the task queue to an aborted request on asset 7. -/
def AbortedInfo : FHoudiniEngineTaskInfo :=
  { TaskState := EHoudiniEngineTaskState.Aborted, StatusText := "Aborted", AssetId := 7 }

/-- The scenario component polling a cook request (id `GuidOne`) that the task
queue reports as aborted; no edit is pending. -/
def ScenarioAborted : World :=
  { ScenarioWorld with HapiGUID := GuidOne, TimerDelegateBound := true,
                       TaskInfos := [(GuidOne, AbortedInfo)] }

/-- The same, with `Size` edited while the request was in flight. -/
def ScenarioAbortedEdited : World :=
  { ScenarioAborted with ChangedProperties := [1] }

/-- The idle scenario component with its timer still bound. -/
def ScenarioIdleTicking : World :=
  { ScenarioWorld with TimerDelegateBound := true }

/-- The scenario component after the tick that consumed the aborted request. -/
def ScenarioAbortedEnd : World :=
  { ScenarioWorld with HapiGUID := GuidZero, TimerDelegateBound := false, TaskInfos := [] }

/-- The scenario component while a cook request (id `GuidOne`) is in flight. -/
def ScenarioCooking : World :=
  { ScenarioWorld with HapiGUID := GuidOne, TimerDelegateBound := true }

/-- The scenario component after the stale field `Gone` has been edited. -/
def ScenarioGoneEdited : World :=
  { ScenarioWorld with ChangedProperties := [3], TimerDelegateBound := true }

/-- A component loaded from storage: asset 50 attached, no asset handle yet. -/
def LoadedWorld : World :=
  { FreshWorld with HoudiniAsset := some 50, bLoadedComponent := true }

/-- The engine of the scenario at a later operation: the next fresh id. -/
def ScenarioEnvNext : Env :=
  { ScenarioEnv with NewGuid := GuidOne }

/-- The answer of the task queue to an instantiation without cooking that
produced no asset: the invalid handle -1. -/
def InvalidHandleInfo : FHoudiniEngineTaskInfo :=
  { TaskState := EHoudiniEngineTaskState.FinishedInstantiationWithoutCooking,
    StatusText := "Finished", AssetId := -1 }

/-! ## The scenario of the specification: reflecting a parameter table

Asset handle 7 is node 3.  The table has an invisible integer parameter
`hidden` and a visible string parameter `choice` with the two choices `a` and
`b`, labelled `Label A` and `Label B`, whose current value is `b`. -/

/-- The texts of the engine by string handle. -/
def ChoiceStrings (Handle : Int) : Option String :=
  if Handle = 1 then some "hidden" else if Handle = 2 then some "Hidden"
  else if Handle = 3 then some "choice" else if Handle = 4 then some "Choice"
  else if Handle = 5 then some "Label A" else if Handle = 6 then some "a"
  else if Handle = 7 then some "Label B" else if Handle = 8 then some "b"
  else none

/-- The invisible integer parameter `hidden`. -/
def HiddenParm : HAPI_ParmInfo :=
  { size := 1, intValuesIndex := 0, floatValuesIndex := 0, invisible := true,
    type := HAPI_ParmType.HAPI_PARMTYPE_INT, nameSH := 1, labelSH := 2 }

/-- The visible string parameter `choice` with its two choices. -/
def ChoiceParm : HAPI_ParmInfo :=
  { size := 1, intValuesIndex := 0, floatValuesIndex := 0, stringValuesIndex := 0,
    type := HAPI_ParmType.HAPI_PARMTYPE_STRING, nameSH := 3, labelSH := 4,
    choiceCount := 2, choiceIndex := 0 }

/-- Engine and host of the scenario.  The length of a string counts its final
zero; names are taken as they are. -/
def ChoiceEnv : RebuildEnv :=
  { HAPI_GetAssetInfo := fun a =>
      if a = 7 then (HAPI_Result.HAPI_RESULT_SUCCESS, { nodeId := 3 })
      else (HAPI_Result.HAPI_RESULT_FAILURE, { nodeId := 0 }),
    HAPI_GetNodeInfo := fun _ =>
      (HAPI_Result.HAPI_RESULT_SUCCESS,
        { id := 3, parmCount := 2, parmIntValueCount := 1, parmFloatValueCount := 0,
          parmStringValueCount := 1 }),
    HAPI_GetParameters := fun _ _ _ => (HAPI_Result.HAPI_RESULT_SUCCESS, [HiddenParm, ChoiceParm]),
    HAPI_GetParmIntValues := fun _ _ _ => (HAPI_Result.HAPI_RESULT_SUCCESS, [5]),
    HAPI_GetParmFloatValues := fun _ _ _ => (HAPI_Result.HAPI_RESULT_SUCCESS, []),
    HAPI_GetParmStringValues := fun _ _ _ _ => (HAPI_Result.HAPI_RESULT_SUCCESS, [8]),
    HAPI_GetStringBufLength := fun h =>
      match ChoiceStrings h with
      | some Text => (HAPI_Result.HAPI_RESULT_SUCCESS, (Text.length : Int) + 1)
      | none => (HAPI_Result.HAPI_RESULT_FAILURE, 0),
    HAPI_GetString := fun h _ =>
      match ChoiceStrings h with
      | some Text => (HAPI_Result.HAPI_RESULT_SUCCESS, Text)
      | none => (HAPI_Result.HAPI_RESULT_FAILURE, ""),
    HAPI_GetParmChoiceLists := fun _ _ _ =>
      (HAPI_Result.HAPI_RESULT_SUCCESS,
        [{ labelSH := 5, valueSH := 6 }, { labelSH := 7, valueSH := 8 }]),
    GetHoudiniString := ChoiceStrings,
    SanitizeObjectName := fun n => n,
    UTF8_TO_TCHAR := fun n => n,
    SanitizeFloat := fun _ => "",
    CompareIgnoreCase := fun a b => decide (a = b),
    ConvertHoudiniColorRGB := fun _ _ _ => { B := 0, G := 0, R := 0, A := 255 },
    ConvertHoudiniColorRGBA := fun _ _ _ _ => { B := 0, G := 0, R := 0, A := 0 },
    ScratchSpaceBufferOffset := 1000,
    ScratchSpaceSize := 65536,
    Outermost := 12 }

/-- The static class of the component, at address 10: its chains start at the
native property at address 0. -/
def StaticClassObject : UClass :=
  { Name := "HoudiniAssetComponent", SuperStruct := some 11, PropertyLink := some 0,
    Children := some 0 }

/-- Objects of a component whose class has not been replaced: the static class
is the active class, the scratch buffer is zero-filled, and addresses from 100
on are free. -/
def StaticObjects : Reflection :=
  { Properties := fun _ => ScenarioNative,
    Memory := fun _ => 0,
    Strings := fun _ => "",
    ScriptStructColor := none,
    Classes := fun a => if a = 10 then StaticClassObject
      else { Name := "", SuperStruct := none, PropertyLink := none, Children := none },
    NextAddress := 100,
    StaticClass := 10,
    Class := 10 }

/-- The instantiated component of the scenario before its first class
replacement. -/
def StaticWorld : World :=
  { ScenarioWorld with Objects := StaticObjects }

/-! ## Further scenario data and predicates of the claims -/

/-- The fresh component of the scenario whose class has not been replaced. -/
def FreshStaticWorld : World :=
  { FreshWorld with Objects := StaticObjects }

/-- The engine of the scenario at a tick that polls a finished cook: the
geometry extraction succeeds, the class replacement meets the parameter table
with `hidden` and `choice`, and `ConstructGeos` builds one geo. -/
def CookedEnv : Env :=
  { ScenarioEnv with
    GetAssetGeometry := fun _ => true,
    Rebuild := ChoiceEnv,
    ConstructGeos := fun _ _ => [5] }

/-- The user edits a property of the static class, outside the category of the
component. -/
def EditNative : FPropertyChangedEvent :=
  { MemberProperty := some 0, Property := some 0, ChangeType := EPropertyChangeType.ValueSet }

/-- The tracking state of the component is the same in two states: the Change
Set, the changed mark of every field, the requires-instantiation flag and the
poll timer. -/
def SameTrackingState (w w2 : World) : Prop :=
  w2.ChangedProperties = w.ChangedProperties
  ∧ (∀ p, GetMetaData (w2.Objects.Properties p).Meta "HoudiniPropertyChanged"
        = GetMetaData (w.Objects.Properties p).Meta "HoudiniPropertyChanged")
  ∧ w2.bLoadedComponentRequiresInstantiation = w.bLoadedComponentRequiresInstantiation
  ∧ w2.TimerDelegateBound = w.TimerDelegateBound

/-- The scenario component after the fields `Gone` and `Size` have been edited,
in this order. -/
def ScenarioGoneSizeEdited : World :=
  { ScenarioWorld with ChangedProperties := [3, 1], TimerDelegateBound := true }

/-- The push direction of the engine for the reflected table: the name `choice`
resolves to parameter 0 of size 1, and the host answers `GetEnumText` from the
enum objects of the component. -/
def ChoicePushEnv (r : Reflection) : Env :=
  { ScenarioEnv with
    HAPI_GetParmIdFromName := fun _ n =>
      if n = "choice" then (HAPI_Result.HAPI_RESULT_SUCCESS, 0)
      else (HAPI_Result.HAPI_RESULT_SUCCESS, -1),
    GetEnumText := fun EnumObject EnumValue => (r.Enums EnumObject).GetEnumText EnumValue }

/-- The texts of the engine for the table of two parameters of arity 2. -/
def PairStrings (Handle : Int) : Option String :=
  if Handle = 1 then some "pair" else if Handle = 2 then some "Pair"
  else if Handle = 3 then some "flags" else if Handle = 4 then some "Flags"
  else none

/-- An integer parameter `pair` of arity 2, its values at index 0. -/
def PairParm : HAPI_ParmInfo :=
  { size := 2, intValuesIndex := 0, floatValuesIndex := 0,
    type := HAPI_ParmType.HAPI_PARMTYPE_INT, nameSH := 1, labelSH := 2 }

/-- A toggle parameter `flags` of arity 2, its values at index 2. -/
def FlagsParm : HAPI_ParmInfo :=
  { size := 2, intValuesIndex := 2, floatValuesIndex := 0,
    type := HAPI_ParmType.HAPI_PARMTYPE_TOGGLE, nameSH := 3, labelSH := 4 }

/-- An engine whose table holds `pair`, with the values 10 and 20, and `flags`,
with the values 1 and 0. -/
def PairEnv : RebuildEnv :=
  { ChoiceEnv with
    HAPI_GetNodeInfo := fun _ =>
      (HAPI_Result.HAPI_RESULT_SUCCESS,
        { id := 3, parmCount := 2, parmIntValueCount := 4, parmFloatValueCount := 0,
          parmStringValueCount := 0 }),
    HAPI_GetParameters := fun _ _ _ => (HAPI_Result.HAPI_RESULT_SUCCESS, [PairParm, FlagsParm]),
    HAPI_GetParmIntValues := fun _ _ _ => (HAPI_Result.HAPI_RESULT_SUCCESS, [10, 20, 1, 0]),
    HAPI_GetStringBufLength := fun h =>
      match PairStrings h with
      | some Text => (HAPI_Result.HAPI_RESULT_SUCCESS, (Text.length : Int) + 1)
      | none => (HAPI_Result.HAPI_RESULT_FAILURE, 0),
    HAPI_GetString := fun h _ =>
      match PairStrings h with
      | some Text => (HAPI_Result.HAPI_RESULT_SUCCESS, Text)
      | none => (HAPI_Result.HAPI_RESULT_FAILURE, ""),
    GetHoudiniString := PairStrings }

/-- The push direction of that engine: `pair` is parameter 0 and `flags`
parameter 1, both of size 2, their integer values at index 0 and 2. -/
def PairPushEnv : Env :=
  { ScenarioEnv with
    HAPI_GetParmIdFromName := fun _ n =>
      if n = "pair" then (HAPI_Result.HAPI_RESULT_SUCCESS, 0)
      else if n = "flags" then (HAPI_Result.HAPI_RESULT_SUCCESS, 1)
      else (HAPI_Result.HAPI_RESULT_SUCCESS, -1),
    HAPI_GetParameters := fun _ i =>
      (HAPI_Result.HAPI_RESULT_SUCCESS,
        { size := 2, intValuesIndex := 2 * i, floatValuesIndex := 0 }) }

/-- A named object is in order: its address has been given out, and a named
property object has the class it is registered under; a struct property, which
holds one colour, has one element. -/
def EntryOk (r : Reflection) (e : UObjectEntry) : Prop :=
  e.Address < r.NextAddress
  ∧ ∀ c, e.Kind = UObjectKind.Property c →
      (r.Properties e.Address).Class = c
      ∧ (c = UPropertyClass.UStructProperty → (r.Properties e.Address).ArrayDim = 1)

/-- The named objects of the host are in order. -/
def RegistryOk (r : Reflection) : Prop :=
  ∀ e ∈ r.Named, EntryOk r e

/-- What the creation of one field leaves alone.  The class objects, the
recorded class, the class counter, the active and the static class, the
subscriptions and `CreatedProperties` are unchanged; a named object that is new
is not a class; no
address is taken back; a property at an address given out before and not in
`ps` is unchanged; and the named objects stay in order. -/
structure Evolves (r r2 : Reflection) (ps : List Nat) : Prop where
  Classes : r2.Classes = r.Classes
  PatchedClass : r2.PatchedClass = r.PatchedClass
  Counter : r2.ComponentPatchedClassCounter = r.ComponentPatchedClassCounter
  Class : r2.Class = r.Class
  StaticClass : r2.StaticClass = r.StaticClass
  SaveWorldDelegates : r2.SaveWorldDelegates = r.SaveWorldDelegates
  CreatedProperties : r2.CreatedProperties = r.CreatedProperties
  CreatedFrom : r2.CreatedFrom = r.CreatedFrom
  Named : ∀ e ∈ r2.Named, e.Kind = UObjectKind.Class → e ∈ r.Named
  Next : r.NextAddress ≤ r2.NextAddress
  Properties : ∀ q, q < r.NextAddress → q ∉ ps → r2.Properties q = r.Properties q
  Registry : RegistryOk r → RegistryOk r2

/-- Size of one element of a field, by the class of its property: `int` and
`float` 4 bytes, `bool` and `uint8` 1 byte, the host string 16 bytes, the
colour struct 4 bytes. -/
def ElementSize (c : UPropertyClass) : Int :=
  match c with
  | .UIntProperty => 4
  | .UFloatProperty => 4
  | .UBoolProperty => 1
  | .UByteProperty => 1
  | .UStrProperty => 16
  | .UStructProperty => 4
  | .UOtherProperty => 0

/-- The storage of a field lies inside the scratch buffer: its offset is at
least the start offset of the buffer, and its offset plus element size times
arity is at most the start offset plus the capacity. -/
def InScratchBuffer (Start Capacity : Nat) (P : UProperty) : Prop :=
  Start ≤ P.Offset
  ∧ (P.Offset : Int) + ElementSize P.Class * P.ArrayDim ≤ (Start : Int) + Capacity

/-- Alignment of the value type of a field, by the class of its property. -/
def AlignmentOf (c : UPropertyClass) : Nat :=
  match c with
  | .UIntProperty => alignofWord
  | .UFloatProperty => alignofWord
  | .UStructProperty => alignofWord
  | .UBoolProperty => alignofByte
  | .UByteProperty => alignofByte
  | .UStrProperty => alignofFString
  | .UOtherProperty => 1

/-- How a field of class `c` and arity `Count` is bound when the cursor is at
`Offset`: its offset is the cursor rounded up to the alignment of its value
type; its arity is `Count` (a colour field keeps the one element it was
constructed with); and the cursor moves to the end of its storage, in `uint32`
arithmetic.  For a string field the cursor moves on string by string, and is at
the end of the storage when that is below `2^32`. -/
def FieldBinding (c : UPropertyClass) (Count : Int) (Offset : Nat) (P : UProperty)
    (Offset2 : Nat) : Prop :=
  P.Offset = u32 (ComputeOffsetAlignmentBoundary (AlignmentOf c) Offset)
  ∧ (c ≠ UPropertyClass.UStructProperty → P.ArrayDim = Count)
  ∧ (c ≠ UPropertyClass.UStrProperty → Offset2 = u32OfInt (P.Offset + ElementSize c * Count))
  ∧ (c = UPropertyClass.UStrProperty → P.Offset + 16 * Count.toNat < 4294967296 →
      Offset2 = P.Offset + 16 * Count.toNat)

/-- The class and the arity of the field the loop of `ReplaceClassProperties`
creates for a parameter: an enumeration of one element for a parameter with a
choice list, one colour for a colour parameter, and otherwise a field of the
kind and the size of the parameter. -/
def FieldKindOf (ParmInfoIter : HAPI_ParmInfo) : UPropertyClass × Int :=
  match ParmInfoIter.type with
  | .HAPI_PARMTYPE_INT =>
    if ParmInfoIter.choiceCount = 0 then (UPropertyClass.UIntProperty, ParmInfoIter.size)
    else (UPropertyClass.UByteProperty, 1)
  | .HAPI_PARMTYPE_STRING =>
    if ParmInfoIter.choiceCount = 0 then (UPropertyClass.UStrProperty, ParmInfoIter.size)
    else (UPropertyClass.UByteProperty, 1)
  | .HAPI_PARMTYPE_FLOAT => (UPropertyClass.UFloatProperty, ParmInfoIter.size)
  | .HAPI_PARMTYPE_TOGGLE => (UPropertyClass.UBoolProperty, ParmInfoIter.size)
  | .HAPI_PARMTYPE_COLOR => (UPropertyClass.UStructProperty, 1)
  | .HAPI_PARMTYPE_OTHER => (UPropertyClass.UOtherProperty, 0)

/-- Two states of a property object with the same class, arity and offset. -/
def SameStorage (P Q : UProperty) : Prop :=
  Q.Class = P.Class ∧ Q.ArrayDim = P.ArrayDim ∧ Q.Offset = P.Offset

/-- What the steps of `ReplaceClassProperties` that only set metadata and links
leave alone: every property keeps its class, arity and offset, and the class
objects, the recorded class, the class counter, the active and the static
class, the subscriptions, the named objects and the next free address are
unchanged. -/
structure Relinks (r r2 : Reflection) : Prop where
  Storage : ∀ q, SameStorage (r.Properties q) (r2.Properties q)
  Classes : r2.Classes = r.Classes
  PatchedClass : r2.PatchedClass = r.PatchedClass
  Counter : r2.ComponentPatchedClassCounter = r.ComponentPatchedClassCounter
  Class : r2.Class = r.Class
  StaticClass : r2.StaticClass = r.StaticClass
  SaveWorldDelegates : r2.SaveWorldDelegates = r.SaveWorldDelegates
  Named : r2.Named = r.Named
  Next : r2.NextAddress = r.NextAddress

/-- A parameter the loop of `ReplaceClassProperties` goes on with: visible and
of type integer, float, toggle, colour or string. -/
def IsReflectedParm (ParmInfoIter : HAPI_ParmInfo) : Bool :=
  !ParmInfoIter.invisible && IsSupportedType ParmInfoIter.type

/-- What `ReplaceClassProperties` fetches from the engine of the scenario. -/
def ChoiceFetched : FetchedParameters :=
  { NodeInfo := { id := 3, parmCount := 2, parmIntValueCount := 1, parmFloatValueCount := 0,
                  parmStringValueCount := 1 },
    ParmInfo := [HiddenParm, ChoiceParm],
    ParmValuesIntegers := [5],
    ParmValuesFloats := [],
    ParmValuesStrings := [8] }

/-- The component of the scenario after its first class replacement. -/
def ChoiceWorld : World :=
  (ReplaceClassInformation ChoiceEnv StaticWorld "Actor" true).getD StaticWorld

/-- The objects of that component after one more rebuild of the field list of
its generated class, which is at address 100. -/
def ChoiceRebuilt : Reflection :=
  ((ReplaceClassProperties ChoiceEnv 7 ChoiceWorld.Objects 100).getD
    (ChoiceWorld.Objects, false)).1

/-- What a rebuild of the field list of the class `ClassInstance` leaves alone:
the recorded class, the class counter, the active and the static class and the
subscriptions are unchanged, a named object that is new is not a class, and
every class object other than `ClassInstance` is unchanged. -/
structure KeepsClassRecord (ClassInstance : Nat) (r r2 : Reflection) : Prop where
  PatchedClass : r2.PatchedClass = r.PatchedClass
  Counter : r2.ComponentPatchedClassCounter = r.ComponentPatchedClassCounter
  Class : r2.Class = r.Class
  StaticClass : r2.StaticClass = r.StaticClass
  SaveWorldDelegates : r2.SaveWorldDelegates = r.SaveWorldDelegates
  Named : ∀ e ∈ r2.Named, e.Kind = UObjectKind.Class → e ∈ r.Named
  Classes : ∀ a, a ≠ ClassInstance → r2.Classes a = r.Classes a

/-- A component loaded from storage whose class has not been replaced: no asset
handle yet. -/
def UnloadedWorld : World :=
  { LoadedWorld with Objects := StaticObjects }

/-- The greatest number of bytes by which the iteration of a parameter moves
the cursor: the padding before a value of the type of its field and the storage
of the field; nothing for a parameter the loop does not go on with. -/
def ParmFootprint (ParmInfoIter : HAPI_ParmInfo) : Nat :=
  if IsReflectedParm ParmInfoIter then
    (AlignmentOf (FieldKindOf ParmInfoIter).1 - 1)
      + (ElementSize (FieldKindOf ParmInfoIter).1 * (FieldKindOf ParmInfoIter).2).toNat
  else 0

/-- The sum of the footprints of the parameters of a table. -/
def TableFootprint (Table : List HAPI_ParmInfo) : Nat :=
  (Table.map ParmFootprint).sum

/-- Every field created so far lies between `Start` and the cursor, the cursor
is not below `Start`, and the named objects are in order. -/
def FieldsBelowCursor (Start : Nat) (s : ReplaceState) : Prop :=
  RegistryOk s.Objects
  ∧ Start ≤ s.ValuesOffsetEnd
  ∧ ∀ p ∈ s.Objects.CreatedProperties,
      p < s.Objects.NextAddress
      ∧ Start ≤ (s.Objects.Properties p).Offset
      ∧ ((s.Objects.Properties p).Offset : Int)
          + ElementSize (s.Objects.Properties p).Class * (s.Objects.Properties p).ArrayDim
        ≤ s.ValuesOffsetEnd

/-- A check of one named object that decides `EntryOk`. -/
def EntryCheck (r : Reflection) (e : UObjectEntry) : Bool :=
  decide (e.Address < r.NextAddress)
  && match e.Kind with
     | .Property c =>
       decide ((r.Properties e.Address).Class = c)
       && (decide (c ≠ UPropertyClass.UStructProperty)
            || decide ((r.Properties e.Address).ArrayDim = 1))
     | _ => true

/-- An integer parameter `pair` of `n` elements. -/
def WideParm (n : Nat) : HAPI_ParmInfo :=
  { PairParm with size := (n : Int) }

/-- An engine whose table holds one integer parameter of `Capacity / 4 + 1`
elements, all of value 10, for a component whose scratch buffer has `Capacity`
bytes. -/
def OverflowEnv (Capacity : Nat) : RebuildEnv :=
  { PairEnv with
    HAPI_GetNodeInfo := fun _ =>
      (HAPI_Result.HAPI_RESULT_SUCCESS,
        { id := 3, parmCount := 1, parmIntValueCount := ((Capacity / 4 + 1 : Nat) : Int),
          parmFloatValueCount := 0, parmStringValueCount := 0 }),
    HAPI_GetParameters := fun _ _ _ =>
      (HAPI_Result.HAPI_RESULT_SUCCESS, [WideParm (Capacity / 4 + 1)]),
    HAPI_GetParmIntValues := fun _ _ _ =>
      (HAPI_Result.HAPI_RESULT_SUCCESS, List.replicate (Capacity / 4 + 1) 10),
    ScratchSpaceSize := Capacity }

/-- The objects of the component loaded from storage after its class has been
generated: the generated class is at address 100 and has no field yet. -/
def GeneratedObjects : Reflection :=
  ((ReplaceClassInformation ChoiceEnv UnloadedWorld "Actor" true).getD UnloadedWorld).Objects

/-- What `ReplaceClassProperties` fetches from that engine. -/
def OverflowFetched (Capacity : Nat) : FetchedParameters :=
  { NodeInfo := { id := 3, parmCount := 1,
                  parmIntValueCount := ((Capacity / 4 + 1 : Nat) : Int),
                  parmFloatValueCount := 0, parmStringValueCount := 0 },
    ParmInfo := [WideParm (Capacity / 4 + 1)],
    ParmValuesIntegers := List.replicate (Capacity / 4 + 1) 10,
    ParmValuesFloats := [],
    ParmValuesStrings := [] }

/-! ## Save and load -/

/-- Modelled from the spec: the tags of `EHoudiniAssetComponentState`, declared
in a header that is not among the sources. -/
inductive EHoudiniAssetComponentState
  | Invalid
  | None
  | Instantiated
  | BeingCooked
deriving DecidableEq, Repr

/-- One value in the stream of an archive, as `operator<<` and
`FArchive::Serialize` write and read it: a component state tag, a property
kind, a host string, an `int32`, an `int64`, a `uint64`, a `bool`, a block of
raw bytes, or a metadata map. -/
inductive ArItem
  | ComponentState (s : EHoudiniAssetComponentState)
  | PropertyType (t : EHoudiniEngineProperty)
  | FString (s : String)
  | Int32 (i : Int)
  | Int64 (i : Int)
  | UInt64 (n : Nat)
  | Bool (b : Bool)
  | Bytes (l : List Nat)
  | MetaMap (m : List (String × String))
deriving DecidableEq, Repr

/-- What a host archive does with a value: it writes it, reads it, or neither
(an archive that only visits the object). -/
inductive ArMode
  | Saving
  | Loading
  | Neither
deriving DecidableEq, Repr

/-- Host archive, from the call of `Super::Serialize` on: a saving archive
appends to `Data`, a loading archive reads from the front of `Data`. -/
structure FArchive where
  Mode : ArMode
  IsTransacting : Bool
  Data : List ArItem
deriving DecidableEq, Repr

/-- `FArchive::IsSaving`. -/
def FArchive.IsSaving (Ar : FArchive) : Bool := decide (Ar.Mode = ArMode.Saving)

/-- `FArchive::IsLoading`. -/
def FArchive.IsLoading (Ar : FArchive) : Bool := decide (Ar.Mode = ArMode.Loading)

/-- Answers of the collaborators of `Serialize`.  `ScratchSpaceBufferOffset` is
`offsetof(UHoudiniAssetComponent, ScratchSpaceBuffer)` and `ScratchSpaceSize`
is `HOUDINIENGINE_ASSET_SCRATCHSPACE_SIZE`.  `GetPackageName` is the name of
`Cast<UPackage>(HoudiniAsset->GetOuter())`, `none` when the cast is null, and
`GetAssetName` is `HoudiniAsset->GetName()`.  `FindPackage`, `LoadPackage` and
`StaticFindObject` are the host calls of those names, `none` for null.
`GeoSave` and `GeoLoad` are `FHoudiniAssetObjectGeo::Serialize`, which is
defined in a file that is not among the sources, on a saving and on a loading
archive: what it writes for a geo, and the geo it reads with the rest of the
stream.  `FStringObject` is the object of the host string that is constructed
from a text: the bytes of its `sizeof(FString)` bytes. -/
structure SerializeEnv where
  ScratchSpaceBufferOffset : Nat
  ScratchSpaceSize : Nat
  GetPackageName : Nat → Option String
  GetAssetName : Nat → String
  FindPackage : String → Option Nat
  LoadPackage : String → Option Nat
  StaticFindObject : Nat → String → Option Nat
  GeoSave : Nat → List ArItem
  GeoLoad : List ArItem → Option (Nat × List ArItem)
  FStringObject : String → List Nat

/-- `GetPropertyType`. -/
def GetPropertyType (r : Reflection) (Property : UProperty) : EHoudiniEngineProperty :=
  match Property.Class with
  | .UIntProperty => EHoudiniEngineProperty.Integer
  | .UBoolProperty => EHoudiniEngineProperty.Boolean
  | .UFloatProperty => EHoudiniEngineProperty.Float
  | .UStrProperty => EHoudiniEngineProperty.String
  | .UByteProperty => EHoudiniEngineProperty.Enumeration
  | .UStructProperty =>
    if r.ScriptStructColor = Property.Struct then EHoudiniEngineProperty.Color
    else EHoudiniEngineProperty.None
  | .UOtherProperty => EHoudiniEngineProperty.None

/-- Conversion of an offset to `int32` (`int32 PropertyOffset =
Property->GetOffset_ForDebug()`). -/
def int32OfNat (n : Nat) : Int :=
  if n % 4294967296 < 2147483648 then ((n % 4294967296 : Nat) : Int)
  else ((n % 4294967296 : Nat) : Int) - 4294967296

/-- The state the saving branch of `Serialize` assigns to `ComponentState`. -/
def ComponentStateOnSave (w : World) : EHoudiniAssetComponentState :=
  if w.AssetId ≠ -1 then
    if w.HapiGUID.IsValid then EHoudiniAssetComponentState.BeingCooked
    else EHoudiniAssetComponentState.Instantiated
  else
    match w.HoudiniAsset with
    | some _ => EHoudiniAssetComponentState.None
    | none => EHoudiniAssetComponentState.Invalid

/-- The value the saving branch of `Serialize` assigns to `PropertyChanged`. -/
def PropertyChangedOnSave (r : Reflection) (p : Nat) : Bool :=
  HasMetaData (r.Properties p).Meta "HoudiniPropertyChanged"

/-- Host `UMetaData::GetMapForObject`: the metadata map of an object, `none`
(null) for an object without metadata. -/
def GetMapForObject (Meta : List (String × String)) : Option (List (String × String)) :=
  if Meta.isEmpty then none else some Meta

/-- The bytes `Ar.Serialize(&ScratchSpaceBuffer[0], ScratchSpaceSize)` writes. -/
def ReadScratchSpace (env : SerializeEnv) (m : Nat → Nat) : List Nat :=
  (List.range env.ScratchSpaceSize).map (fun i => readByte m (env.ScratchSpaceBufferOffset + i))

/-- The bytes `Ar.Serialize(&ScratchSpaceBuffer[0], ScratchSpaceSize)` reads
into the buffer. -/
def WriteScratchSpace (env : SerializeEnv) (m : Nat → Nat) (l : List Nat) : Nat → Nat :=
  fun a =>
    if env.ScratchSpaceBufferOffset ≤ a ∧ a < env.ScratchSpaceBufferOffset + l.length then
      l.getD (a - env.ScratchSpaceBufferOffset) 0 % 256
    else m a

/-- One iteration of the loop of `Serialize` over the properties, on a saving
archive: the values written.  `none` is a failed `check` (the property has no
`HoudiniParmName`, or is of no kind) or a string outside the object; nothing
is written in such an iteration. -/
def SavePropertyItems (r : Reflection) (p : Nat) : Option (List ArItem) :=
  let Property := r.Properties p
  let PropertyType := GetPropertyType r Property
  let PropertyOffset := int32OfNat Property.Offset
  if !HasMetaData Property.Meta "HoudiniParmName" then none
  else
    let PropertyName := GetMetaData Property.Meta "HoudiniParmName"
    let PropertyChanged := PropertyChangedOnSave r p
    if PropertyType = EHoudiniEngineProperty.None then none
    else if PropertyType = EHoudiniEngineProperty.String ∧ PropertyOffset < 0 then none
    else
      let LookupPropertyMeta := GetMapForObject Property.Meta
      some ([ArItem.PropertyType PropertyType, ArItem.FString PropertyName,
          ArItem.Int32 Property.ArrayDim, ArItem.Int32 Property.ElementSize,
          ArItem.UInt64 Property.PropertyFlags, ArItem.Int32 PropertyOffset,
          ArItem.Bool PropertyChanged, ArItem.Bool LookupPropertyMeta.isSome]
        ++ (match LookupPropertyMeta with
            | some m => [ArItem.MetaMap m]
            | none => [])
        ++ (if PropertyType = EHoudiniEngineProperty.String then
              [ArItem.FString (r.Strings PropertyOffset.toNat)]
            else []))

/-- The loop of `Serialize` over the properties on a saving archive: the values
written, and whether the loop came to its end. -/
def SaveProperties (r : Reflection) : List Nat → List ArItem × Bool
  | [] => ([], true)
  | p :: rest =>
    match SavePropertyItems r p with
    | none => ([], false)
    | some Items => (Items ++ (SaveProperties r rest).1, (SaveProperties r rest).2)

/-- The loop of `Serialize` over the geos on a saving archive. -/
def SaveGeos (env : SerializeEnv) : List Nat → List ArItem
  | [] => []
  | g :: rest => env.GeoSave g ++ SaveGeos env rest

/-- `Serialize` on a saving archive that is not transacting.  Returns the
archive and the component, `none` when the function stops at a failed `check`
or at the dereference of a null asset; the archive then holds what was written
before. -/
def SerializeSaving (env : SerializeEnv) (w : World) (Ar : FArchive) :
    FArchive × Option World :=
  let ComponentState := ComponentStateOnSave w
  let Ar1 : FArchive := { Ar with Data := Ar.Data ++ [ArItem.ComponentState ComponentState] }
  if ComponentState = EHoudiniAssetComponentState.Invalid then (Ar1, some w)
  else
    match w.HoudiniAsset with
    | none => (Ar1, none)
    | some Asset =>
      match env.GetPackageName Asset with
      | none => (Ar1, none)
      | some HoudiniAssetPackage =>
        let Saved := SaveProperties w.Objects w.Objects.CreatedProperties
        let Ar2 : FArchive :=
          { Ar1 with Data := Ar1.Data
              ++ [ArItem.FString HoudiniAssetPackage, ArItem.FString (env.GetAssetName Asset),
                  ArItem.Int64 (env.ScratchSpaceSize : Int),
                  ArItem.Bytes (ReadScratchSpace env w.Objects.Memory),
                  ArItem.Int32 (w.Objects.CreatedProperties.length : Int)]
              ++ Saved.1 }
        if !Saved.2 then (Ar2, none)
        else
          ({ Ar2 with Data := Ar2.Data
              ++ [ArItem.Int32 (w.HoudiniAssetObjectGeos.length : Int)]
              ++ SaveGeos env w.HoudiniAssetObjectGeos }, some w)

/-- One iteration of the loop of `Serialize` over the properties, on a loading
archive: the record, the string of a string property, and the rest of the
stream.  `none` when the stream does not hold the values the iteration
reads. -/
def LoadPropertyItems : List ArItem
    → Option (FHoudiniEngineSerializedProperty × Option String × List ArItem)
  | ArItem.PropertyType PropertyType :: ArItem.FString PropertyName
      :: ArItem.Int32 PropertyArrayDim :: ArItem.Int32 PropertyElementSize
      :: ArItem.UInt64 PropertyFlags :: ArItem.Int32 PropertyOffset
      :: ArItem.Bool PropertyChanged :: ArItem.Bool _ :: ArItem.MetaMap PropertyMeta :: rest =>
    let SerializedProperty : FHoudiniEngineSerializedProperty :=
      { PropertyType := PropertyType, Name := PropertyName, Flags := PropertyFlags,
        ArrayDim := PropertyArrayDim, ElementSize := PropertyElementSize,
        Offset := PropertyOffset, bChanged := PropertyChanged,
        Meta := PropertyMeta.filter (fun kv => !(kv.1 == "HoudiniPropertyChanged")) }
    if PropertyType = EHoudiniEngineProperty.String then
      match rest with
      | ArItem.FString StoredString :: rest1 =>
        if PropertyOffset < 0 then none
        else some (SerializedProperty, some StoredString, rest1)
      | _ => none
    else some (SerializedProperty, none, rest)
  | _ => none

/-- The bytes `new(UnrealString) FString(StoredString)` writes at an offset
from `this`: the object of the new string takes the place of the `sizeof(FString)`
bytes there. -/
def WriteFStringObject (env : SerializeEnv) (m : Nat → Nat) (a : Nat) (Text : String) :
    Nat → Nat :=
  fun b =>
    if a ≤ b ∧ b < a + sizeofFString then (env.FStringObject Text).getD (b - a) 0 % 256
    else m b

/-- The loop of `Serialize` over the properties on a loading archive, for the
number of properties read from the stream.  The string of a string property is
constructed in place at the offset of the property, over the bytes that were
there. -/
def LoadProperties (env : SerializeEnv) :
    Nat → World → List ArItem → Option (World × List ArItem)
  | 0, w, Data => some (w, Data)
  | n + 1, w, Data =>
    match LoadPropertyItems Data with
    | none => none
    | some (SerializedProperty, StoredString, rest) =>
      let Objects1 : Reflection :=
        match StoredString with
        | some Text =>
          { w.Objects with
            Strings := Function.update w.Objects.Strings SerializedProperty.Offset.toNat Text,
            Memory := WriteFStringObject env w.Objects.Memory
              SerializedProperty.Offset.toNat Text }
        | none => w.Objects
      LoadProperties env n
        { w with Objects := Objects1,
                 SerializedProperties := w.SerializedProperties ++ [SerializedProperty] } rest

/-- The loop of `Serialize` over the geos on a loading archive. -/
def LoadGeos (env : SerializeEnv) : Nat → World → List ArItem → Option (World × List ArItem)
  | 0, w, Data => some (w, Data)
  | n + 1, w, Data =>
    match env.GeoLoad Data with
    | none => none
    | some (g, rest) =>
      LoadGeos env n { w with HoudiniAssetObjectGeos := w.HoudiniAssetObjectGeos ++ [g] } rest

/-- The part of `Serialize` on a loading archive that reads the stream, after
the state tag: the names of the package and of the asset, the scratch buffer,
the records and the geos.  Returns the component, the two names and the rest of
the stream; `none` is a failed `check` or a stream that does not hold the
values read. -/
def LoadStream (env : SerializeEnv) (w : World) :
    List ArItem → Option (World × String × String × List ArItem)
  | ArItem.FString HoudiniAssetPackage :: ArItem.FString HoudiniAssetName
      :: ArItem.Int64 ScratchSpaceSize :: ArItem.Bytes Buffer :: ArItem.Int32 PropertyCount
      :: rest =>
    if ¬ (ScratchSpaceSize ≤ (env.ScratchSpaceSize : Int)) then none
    else if (Buffer.length : Int) ≠ ScratchSpaceSize then none
    else
      let Objects1 : Reflection :=
        { w.Objects with Memory := WriteScratchSpace env w.Objects.Memory Buffer }
      match LoadProperties env PropertyCount.toNat { w with Objects := Objects1 } rest with
      | none => none
      | some (w1, ArItem.Int32 NumGeos :: rest1) =>
        match LoadGeos env NumGeos.toNat w1 rest1 with
        | none => none
        | some (w2, rest2) => some (w2, HoudiniAssetPackage, HoudiniAssetName, rest2)
      | some _ => none
  | _ => none

/-- The end of `Serialize` on a loading archive: the component is marked as
loaded, the package is located or loaded, and the asset found in it is
attached.  `none` is the failed `check` on a missing package or asset, or a
`SetHoudiniAsset` that does not return. -/
def ResolveLoadedAsset (env : SerializeEnv) (host : Env) (w : World)
    (HoudiniAssetPackage HoudiniAssetName : String) : Option World :=
  let w1 := { w with bLoadedComponent := true }
  let Package : Option Nat :=
    match env.FindPackage HoudiniAssetPackage with
    | some Package => some Package
    | none => env.LoadPackage HoudiniAssetPackage
  match Package with
  | none => none
  | some Package =>
    match env.StaticFindObject Package HoudiniAssetName with
    | some HoudiniAssetLookup => SetHoudiniAsset host w1 (some HoudiniAssetLookup)
    | none => none

/-- `Serialize` on a loading archive that is not transacting.  When the
function stops, the archive is returned as it was given. -/
def SerializeLoading (env : SerializeEnv) (host : Env) (w : World) (Ar : FArchive) :
    FArchive × Option World :=
  match Ar.Data with
  | ArItem.ComponentState ComponentState :: rest =>
    if ComponentState = EHoudiniAssetComponentState.Invalid then
      ({ Ar with Data := rest }, some w)
    else
      match LoadStream env w rest with
      | none => (Ar, none)
      | some (w1, HoudiniAssetPackage, HoudiniAssetName, rest1) =>
        ({ Ar with Data := rest1 },
          ResolveLoadedAsset env host w1 HoudiniAssetPackage HoudiniAssetName)
  | _ => (Ar, none)

/-- `Serialize(Ar)`, after the call of `Super::Serialize`. -/
def Serialize (env : SerializeEnv) (host : Env) (w : World) (Ar : FArchive) :
    FArchive × Option World :=
  if Ar.IsTransacting then (Ar, some w)
  else if !Ar.IsSaving && !Ar.IsLoading then (Ar, some w)
  else if Ar.IsSaving then SerializeSaving env w Ar
  else SerializeLoading env host w Ar

/-! ## Reconstruction after load, save callbacks and reference collection -/

/-- `CreateProperty(ClassInstance, Name, PropertyFlags, PropertyType)`.  Returns
the objects and the property, `none` for null: the case of an enumeration has
its call commented out.  The outer `none` is a fatal error of the host. -/
def CreateProperty (r : Reflection) (ClassInstance : Nat) (Name : String)
    (PropertyFlags : Nat) (PropertyType : EHoudiniEngineProperty) :
    Option (Reflection × Option Nat) :=
  let Created : Option (Reflection × Option Nat) :=
    match PropertyType with
    | .Float =>
      (CreatePropertyOfClass UPropertyClass.UFloatProperty r ClassInstance Name
        PropertyFlags).map (fun x => (x.1, some x.2))
    | .Integer =>
      (CreatePropertyOfClass UPropertyClass.UIntProperty r ClassInstance Name
        PropertyFlags).map (fun x => (x.1, some x.2))
    | .Boolean =>
      (CreatePropertyToggleOfClass r ClassInstance Name PropertyFlags).map
        (fun x => (x.1, some x.2))
    | .String =>
      (CreatePropertyOfClass UPropertyClass.UStrProperty r ClassInstance Name
        PropertyFlags).map (fun x => (x.1, some x.2))
    | .Color =>
      (CreatePropertyColorOfClass r ClassInstance Name PropertyFlags).map
        (fun x => (x.1, some x.2))
    | .Enumeration => some (r, none)
    | .None => some (r, none)
  match Created with
  | none => none
  | some (r1, none) => some (r1, none)
  | some (r1, some p) =>
    some ({ r1 with CreatedProperties := r1.CreatedProperties ++ [p] }, some p)

/-- State of the loop of `PostLoad`: the component and the two chains under
construction. -/
structure PostLoadState where
  Component : World
  PropertyFirst : Option Nat
  PropertyLast : Option Nat
  ChildFirst : Option Nat
  ChildLast : Option Nat

/-- The loop `Property->SetMetaData(ParamIter.Key(), *(ParamIter.Value()))` of
`PostLoad`. -/
def SetMetaDataAll (Meta : List (String × String)) (m : List (String × String)) :
    List (String × String) :=
  Meta.foldl (fun acc kv => SetMetaData acc kv.1 kv.2) m

/-- One iteration of the loop of `PostLoad`, for one serialized record.  A
record for which `CreateProperty` returns null is skipped (`continue`).  `none`
is a fatal error of the host or the dereference of a null `PropertyLast` or
`ChildLast`. -/
def PostLoadStep (env : RebuildEnv) (PatchedClass : Nat) (s : PostLoadState)
    (SerializedProperty : FHoudiniEngineSerializedProperty) : Option PostLoadState :=
  let r := s.Component.Objects
  let UniquePropertyName := env.SanitizeObjectName
    ((r.Classes PatchedClass).Name ++ "_" ++ SerializedProperty.Name)
  match CreateProperty r PatchedClass UniquePropertyName SerializedProperty.Flags
      SerializedProperty.PropertyType with
  | none => none
  | some (r1, none) => some { s with Component := { s.Component with Objects := r1 } }
  | some (r1, some Property) =>
    let r2 := SetProperty r1 Property (fun P =>
      { P with ArrayDim := SerializedProperty.ArrayDim,
               ElementSize := SerializedProperty.ElementSize,
               Meta := SetMetaDataAll SerializedProperty.Meta P.Meta,
               Offset := u32OfInt SerializedProperty.Offset })
    let Linked : Option (Reflection × Option Nat × Option Nat) :=
      match s.PropertyFirst with
      | none => some (r2, some Property, some Property)
      | some First =>
        match s.PropertyLast with
        | none => none
        | some Last =>
          some (SetProperty r2 Last (fun P => { P with PropertyLinkNext := some Property }),
            some First, some Property)
    match Linked with
    | none => none
    | some (r3, PropertyFirst, PropertyLast) =>
      let Children : Option (Reflection × Option Nat × Option Nat) :=
        match s.ChildFirst with
        | none => some (r3, some Property, some Property)
        | some First =>
          match s.ChildLast with
          | none => none
          | some Last =>
            some (SetProperty r3 Last (fun P => { P with Next := some Property }),
              some First, some Property)
      match Children with
      | none => none
      | some (r4, ChildFirst, ChildLast) =>
        let Changed :=
          if SerializedProperty.bChanged then TSetAdd s.Component.ChangedProperties Property
          else s.Component.ChangedProperties
        some { Component := { s.Component with Objects := r4, ChangedProperties := Changed },
               PropertyFirst := PropertyFirst, PropertyLast := PropertyLast,
               ChildFirst := ChildFirst, ChildLast := ChildLast }

/-- The loop of `PostLoad` over `SerializedProperties`. -/
def PostLoadLoop (env : RebuildEnv) (PatchedClass : Nat) :
    List FHoudiniEngineSerializedProperty → PostLoadState → Option PostLoadState
  | [], s => some s
  | SerializedProperty :: rest, s =>
    match PostLoadStep env PatchedClass s SerializedProperty with
    | none => none
    | some s1 => PostLoadLoop env PatchedClass rest s1

/-- `PostLoad`, up to the calls that create the rendering resources.  `none` is
the dereference of a null owner or of a null `PatchedClass`, or a call that
does not return. -/
def PostLoad (env : RebuildEnv) (w : World) : Option World :=
  if w.Objects.PatchedClass = none ∧ w.Objects.StaticClass = w.Objects.Class then
    match w.HoudiniAssetActorOwner with
    | none => none
    | some HoudiniAssetActor =>
      match ReplaceClassInformation env w HoudiniAssetActor.ActorLabel
          ReplaceClassInformationDefault with
      | none => none
      | some w1 =>
        match w1.Objects.PatchedClass with
        | none => none
        | some PatchedClass =>
          match PostLoadLoop env PatchedClass w1.SerializedProperties
              { Component := w1, PropertyFirst := none, PropertyLast := none,
                ChildFirst := none, ChildLast := none } with
          | none => none
          | some s =>
            let w2 : World := { s.Component with SerializedProperties := [] }
            match InstallChains PatchedClass
                { Objects := w2.Objects, PropertyFirst := s.PropertyFirst,
                  PropertyLast := s.PropertyLast, ChildFirst := s.ChildFirst,
                  ChildLast := s.ChildLast, ValuesOffsetEnd := 0 } with
            | none => none
            | some r => some { w2 with Objects := r }
  else some w

/-- `OnPreSaveWorld`. -/
def OnPreSaveWorld (w : World) : World :=
  match w.Objects.PatchedClass with
  | none => w
  | some PatchedClass =>
    let r : Reflection :=
      { w.Objects with Rooted := Function.update w.Objects.Rooted PatchedClass true }
    { w with Objects := ReplaceClassObject r r.StaticClass }

/-- `OnPostSaveWorld`. -/
def OnPostSaveWorld (w : World) : World :=
  match w.Objects.PatchedClass with
  | none => w
  | some PatchedClass =>
    let r := ReplaceClassObject w.Objects PatchedClass
    { w with Objects := { r with Rooted := Function.update r.Rooted PatchedClass false } }

/-- An object the component reports to the collector: its patched class, its
asset, or what a geo reports. -/
inductive ReferencedObject
  | PatchedClass (c : Nat)
  | HoudiniAsset (a : Nat)
  | Geo (g : Nat)
deriving DecidableEq, Repr

/-- `AddReferencedObjects(InThis, Collector)` with the component as `InThis`:
the calls on the collector, in order, before the call of the base class. -/
def AddReferencedObjects (w : World) : List ReferencedObject :=
  let ObjectClass := w.Objects.Class
  if w.Objects.StaticClass ≠ ObjectClass then
    if (w.Objects.Classes ObjectClass).ClassAddReferencedObjects then
      if !w.PendingKill then
        (match w.Objects.PatchedClass with
          | some PatchedClass => [ReferencedObject.PatchedClass PatchedClass]
          | none => [])
        ++ (match w.HoudiniAsset with
          | some HoudiniAsset => [ReferencedObject.HoudiniAsset HoudiniAsset]
          | none => [])
        ++ w.HoudiniAssetObjectGeos.map ReferencedObject.Geo
      else []
    else []
  else []

/-! ## Save and load: scenario data and predicates of the claims -/

/-- A saving archive with an empty stream. -/
def SaveArchive : FArchive := { Mode := ArMode.Saving, IsTransacting := false, Data := [] }

/-- A loading archive over a stream. -/
def LoadArchive (Data : List ArItem) : FArchive :=
  { Mode := ArMode.Loading, IsTransacting := false, Data := Data }

/-- The record the round trip is expected to yield for a created field: its
kind, parameter name, flags, arity, element size, offset and changed flag, and
its metadata map without the changed mark. -/
def SerializedRecordOf (r : Reflection) (p : Nat) : FHoudiniEngineSerializedProperty :=
  { PropertyType := GetPropertyType r (r.Properties p),
    Name := GetMetaData (r.Properties p).Meta "HoudiniParmName",
    Flags := (r.Properties p).PropertyFlags,
    ArrayDim := (r.Properties p).ArrayDim,
    ElementSize := (r.Properties p).ElementSize,
    Offset := int32OfNat (r.Properties p).Offset,
    bChanged := PropertyChangedOnSave r p,
    Meta := (r.Properties p).Meta.filter (fun kv => !(kv.1 == "HoudiniPropertyChanged")) }

/-- A field the loop of `Serialize` can save: it has a parameter name, it is of
one of the six kinds, and a string field lies at an offset below `2^31`. -/
def SavableField (r : Reflection) (p : Nat) : Bool :=
  HasMetaData (r.Properties p).Meta "HoudiniParmName"
    && decide (GetPropertyType r (r.Properties p) ≠ EHoudiniEngineProperty.None)
    && (decide (GetPropertyType r (r.Properties p) ≠ EHoudiniEngineProperty.String)
        || decide (0 ≤ int32OfNat (r.Properties p).Offset))

/-- The offsets of the string fields among the fields of a list, as `Serialize`
computes them. -/
def StringFieldOffsets (r : Reflection) (ps : List Nat) : List Nat :=
  (ps.filter (fun p =>
      decide (GetPropertyType r (r.Properties p) = EHoudiniEngineProperty.String))).map
    (fun p => (int32OfNat (r.Properties p).Offset).toNat)

/-- The object of a host string in the scenario: a data pointer of eight bytes,
then the number of characters with the terminator, twice (used and
allocated). -/
def ScenarioFStringObject (Text : String) : List Nat :=
  List.replicate 8 170
    ++ [(Text.length + 1) % 256, 0, 0, 0, (Text.length + 1) % 256, 0, 0, 0]

/-- Host and storage of the scenario: the scratch buffer has 16 bytes and starts
at offset 1000; asset 50 is the object `Asset` of the package `/Game/Assets`,
which is loaded as object 40; a geo is saved as one number. -/
def ScenarioSerializeEnv : SerializeEnv :=
  { ScratchSpaceBufferOffset := 1000,
    ScratchSpaceSize := 16,
    GetPackageName := fun a => if a = 50 then some "/Game/Assets" else none,
    GetAssetName := fun _ => "Asset",
    FindPackage := fun n => if n = "/Game/Assets" then some 40 else none,
    LoadPackage := fun _ => none,
    StaticFindObject := fun Package n => if Package = 40 ∧ n = "Asset" then some 50 else none,
    GeoSave := fun g => [ArItem.UInt64 g],
    GeoLoad := fun Data =>
      match Data with
      | ArItem.UInt64 g :: rest => some (g, rest)
      | _ => none,
    FStringObject := ScenarioFStringObject }

/-- The same host with a scratch buffer of 32 bytes. -/
def TextSerializeEnv : SerializeEnv :=
  { ScenarioSerializeEnv with ScratchSpaceSize := 32 }

/-- A string field `Label`, stored at offset 1008. -/
def ScenarioLabel : UProperty :=
  { Class := UPropertyClass.UStrProperty, ArrayDim := 1, Offset := 1008,
    Meta := [("Category", "HoudiniProperties"), ("HoudiniParmName", "Label")],
    Struct := none, Enum := none }

/-- The instantiated component of the scenario with the float field `Size` and
the string field `Label`, at address 4, which holds the text `abc`, as its
created fields, and one geo. -/
def SavedTextWorld : World :=
  { ScenarioWorld with
    Objects :=
      { ScenarioObjects with
        Properties := fun a => if a = 4 then ScenarioLabel else ScenarioObjects.Properties a,
        Strings := fun a => if a = 1008 then "abc" else "",
        CreatedProperties := [1, 4] },
    HoudiniAssetObjectGeos := [5] }

/-- The instantiated component of the scenario with `Size` and `Seed` as its
created fields and one geo. -/
def SavedWorld : World :=
  { ScenarioWorld with
    Objects := { ScenarioObjects with CreatedProperties := [1, 2] },
    HoudiniAssetObjectGeos := [5] }

/-- Saving a component and loading the written stream into another. -/
def SaveThenLoad (env : SerializeEnv) (host : Env) (w w0 : World) : FArchive × Option World :=
  Serialize env host w0 (LoadArchive (Serialize env host w SaveArchive).1.Data)

/-! ## Reconstruction after load: scenario data and predicates of the claims -/

/-- No object of the host has the name in `Outer`. -/
def NameIsFree (r : Reflection) (Outer : Nat) (Name : String) : Bool :=
  (r.Named.find? (fun e => decide (e.Outer = Outer) && decide (e.Name = Name))).isNone

/-- The five kinds for which `CreateProperty` makes a call. -/
def IsReconstructedKind (t : EHoudiniEngineProperty) : Bool :=
  match t with
  | .Integer | .Float | .Boolean | .String | .Color => true
  | .Enumeration | .None => false

/-- The record of a float field `Size` at offset 1000 whose changed flag is
set. -/
def RecordSize : FHoudiniEngineSerializedProperty :=
  { PropertyType := EHoudiniEngineProperty.Float, Name := "Size", Flags := 69793219077,
    ArrayDim := 1, ElementSize := 4, Offset := 1000, bChanged := true,
    Meta := [("Category", "HoudiniProperties"), ("HoudiniParmName", "Size")] }

/-- The record of an enumeration field `Mode` at offset 1004 whose changed flag
is set. -/
def RecordMode : FHoudiniEngineSerializedProperty :=
  { PropertyType := EHoudiniEngineProperty.Enumeration, Name := "Mode", Flags := 69793219077,
    ArrayDim := 1, ElementSize := 1, Offset := 1004, bChanged := true,
    Meta := [("Category", "HoudiniProperties"), ("HoudiniParmName", "Mode")] }

/-- The record of a colour field `Tint` at offset 1008 whose changed flag is
clear. -/
def RecordTint : FHoudiniEngineSerializedProperty :=
  { PropertyType := EHoudiniEngineProperty.Color, Name := "Tint", Flags := 69793219077,
    ArrayDim := 1, ElementSize := 4, Offset := 1008, bChanged := false,
    Meta := [("Category", "HoudiniProperties"), ("HoudiniParmName", "Tint")] }

/-- A component loaded from storage with the three records, before
`PostLoad`. -/
def LoadedRecordsWorld : World :=
  { UnloadedWorld with SerializedProperties := [RecordSize, RecordMode, RecordTint] }

/-- The state of the loop of `PostLoad` on that component when it starts: the
class has been generated at address 100. -/
def LoadedRecordsStart : PostLoadState :=
  { Component :=
      (ReplaceClassInformation ChoiceEnv LoadedRecordsWorld "Actor" true).getD LoadedRecordsWorld,
    PropertyFirst := none, PropertyLast := none, ChildFirst := none, ChildLast := none }

/-- Two states of a property object that differ at most in the two links. -/
def SameButLinks (P Q : UProperty) : Prop :=
  Q.Class = P.Class ∧ Q.ArrayDim = P.ArrayDim ∧ Q.Offset = P.Offset ∧ Q.Meta = P.Meta
  ∧ Q.Struct = P.Struct ∧ Q.Enum = P.Enum ∧ Q.PropertyFlags = P.PropertyFlags
  ∧ Q.ElementSize = P.ElementSize

/-! ## Field chains: scenario data and predicates of the claims -/

/-- The walk of a property chain along `PropertyLinkNext`, over at most the
given number of properties. -/
def PropertyLinkChain (r : Reflection) : Nat → Option Nat → List Nat
  | 0, _ => []
  | _ + 1, none => []
  | fuel + 1, some p => p :: PropertyLinkChain r fuel (r.Properties p).PropertyLinkNext

/-- The walk of a child chain along `Next`, over at most the given number of
properties. -/
def ChildChain (r : Reflection) : Nat → Option Nat → List Nat
  | 0, _ => []
  | _ + 1, none => []
  | fuel + 1, some p => p :: ChildChain r fuel (r.Properties p).Next

/-- The engine of the scenario after the parameter `choice` has been removed
from the asset: the table holds the invisible parameter alone. -/
def HiddenOnlyEnv : RebuildEnv :=
  { ChoiceEnv with
    HAPI_GetNodeInfo := fun _ =>
      (HAPI_Result.HAPI_RESULT_SUCCESS,
        { id := 3, parmCount := 1, parmIntValueCount := 1, parmFloatValueCount := 0,
          parmStringValueCount := 0 }),
    HAPI_GetParameters := fun _ _ _ => (HAPI_Result.HAPI_RESULT_SUCCESS, [HiddenParm]) }

/-! ## Offset allocation: scenario data and predicates of the claims -/

/-- The end of the storage of a field: its offset plus element size times
arity. -/
def FieldEnd (P : UProperty) : Int :=
  (P.Offset : Int) + ElementSize P.Class * P.ArrayDim

/-- The created fields are allocated in order: every created field lies between
`Start` and the cursor, its offset is aligned for its value type, its arity is
not negative, and a field ends at or before the offset of every field created
after it. -/
def FieldsInOrder (Start : Nat) (s : ReplaceState) : Prop :=
  FieldsBelowCursor Start s
  ∧ (∀ p ∈ s.Objects.CreatedProperties,
      (s.Objects.Properties p).Offset % AlignmentOf (s.Objects.Properties p).Class = 0
      ∧ 0 ≤ (s.Objects.Properties p).ArrayDim)
  ∧ s.Objects.CreatedProperties.Pairwise (fun p q =>
      FieldEnd (s.Objects.Properties p) ≤ ((s.Objects.Properties q).Offset : Int))

/-- The integer parameter `pair` as an engine reports it with the size -1. -/
def NegativeParm : HAPI_ParmInfo :=
  { PairParm with size := -1 }

/-- An engine whose table holds `pair` with the size -1 and `flags`. -/
def NegativeEnv : RebuildEnv :=
  { PairEnv with
    HAPI_GetParameters := fun _ _ _ =>
      (HAPI_Result.HAPI_RESULT_SUCCESS, [NegativeParm, FlagsParm]) }

/-- What `ReplaceClassProperties` fetches from the engine of the table of two
parameters of arity 2. -/
def PairFetched : FetchedParameters :=
  { NodeInfo := { id := 3, parmCount := 2, parmIntValueCount := 4, parmFloatValueCount := 0,
                  parmStringValueCount := 0 },
    ParmInfo := [PairParm, FlagsParm],
    ParmValuesIntegers := [10, 20, 1, 0],
    ParmValuesFloats := [],
    ParmValuesStrings := [] }

/-- The objects after the rebuild of the field list of the generated class for
that table. -/
def PairRebuilt : Reflection :=
  ((ReplaceClassProperties PairEnv 7 GeneratedObjects 100).getD (GeneratedObjects, false)).1

/-! ## String choices: scenario data -/

/-- The texts of an engine whose parameter `choice` has the choices `x` and
`X`, labelled `Lower` and `Upper`. -/
def CaseStrings (Handle : Int) : Option String :=
  if Handle = 1 then some "hidden" else if Handle = 2 then some "Hidden"
  else if Handle = 3 then some "choice" else if Handle = 4 then some "Choice"
  else if Handle = 5 then some "Lower" else if Handle = 6 then some "x"
  else if Handle = 7 then some "Upper" else if Handle = 8 then some "X"
  else none

/-- The engine of the scenario with those texts; the current value of `choice`
is `X`, the value of the second choice.  The host compares without regard to
case. -/
def CaseEnv : RebuildEnv :=
  { ChoiceEnv with
    HAPI_GetStringBufLength := fun h =>
      match CaseStrings h with
      | some Text => (HAPI_Result.HAPI_RESULT_SUCCESS, (Text.length : Int) + 1)
      | none => (HAPI_Result.HAPI_RESULT_FAILURE, 0),
    HAPI_GetString := fun h _ =>
      match CaseStrings h with
      | some Text => (HAPI_Result.HAPI_RESULT_SUCCESS, Text)
      | none => (HAPI_Result.HAPI_RESULT_FAILURE, ""),
    GetHoudiniString := CaseStrings,
    CompareIgnoreCase := fun a b =>
      decide (a.data.map Char.toLower = b.data.map Char.toLower) }

/-- What `CreatePropertyEnum` returns in the generated class for the string
value `b` over the choices `a` and `b` at the start of the scratch buffer. -/
def ChoiceField : Reflection × Option Nat × Nat :=
  (CreatePropertyEnumString ChoiceEnv GeneratedObjects 100 "choice"
    [{ labelSH := 5, valueSH := 6 }, { labelSH := 7, valueSH := 8 }] "b" 1000).getD
    (GeneratedObjects, none, 1000)

/-! ## Changed flag of a saved field: scenario data -/

/-- The component with the fields `Size` and `Seed` after the user has edited
`Size`. -/
def SavedEdited : World :=
  (PostEditChangeProperty SavedWorld EditSize).getD SavedWorld

/-- That component after the tick that pushed the edit. -/
def SavedPushed : World :=
  (TickHoudiniComponent ScenarioEnv SavedEdited).getD SavedEdited

/-! ## Lemmas -/

theorem HOUDINI_CHECK_ERROR_RETURN_success {α β : Type} (call : HAPI_Result × α) (out : α)
    (value : β) (continuation : α → β) (h : call = (HAPI_Result.HAPI_RESULT_SUCCESS, out)) :
    HOUDINI_CHECK_ERROR_RETURN call value continuation = continuation out := by
  rw [h]; rfl

theorem HOUDINI_CHECK_ERROR_RETURN_cases {α β : Type} (call : HAPI_Result × α) (value : β)
    (continuation : α → β) :
    (call.1 = HAPI_Result.HAPI_RESULT_SUCCESS
        ∧ HOUDINI_CHECK_ERROR_RETURN call value continuation = continuation call.2)
    ∨ (call.1 = HAPI_Result.HAPI_RESULT_FAILURE
        ∧ HOUDINI_CHECK_ERROR_RETURN call value continuation = value) := by
  obtain ⟨res, out⟩ := call
  cases res
  · exact Or.inl ⟨rfl, rfl⟩
  · exact Or.inr ⟨rfl, rfl⟩

theorem find_filter_ne (m : List (String × String)) (Key Key2 : String) (h : Key ≠ Key2) :
    (m.filter (fun kv => !(kv.1 == Key))).find? (fun kv => kv.1 == Key2)
      = m.find? (fun kv => kv.1 == Key2) := by
  induction m with
  | nil => rfl
  | cons a t ih =>
    obtain ⟨k, v⟩ := a
    by_cases ha : k = Key
    · subst ha
      have hk : (k == Key2) = false := by simpa using h
      simp [List.filter_cons, List.find?_cons, hk, ih]
    · have hk : (k == Key) = false := by simpa using ha
      simp only [List.filter_cons, hk, Bool.not_false, if_true, List.find?_cons, ih]

theorem GetMetaData_SetMetaData_ne (m : List (String × String)) (Key Value Key2 : String)
    (h : Key ≠ Key2) : GetMetaData (SetMetaData m Key Value) Key2 = GetMetaData m Key2 := by
  unfold GetMetaData SetMetaData
  rw [List.find?_cons_of_neg _ (by simpa using h), find_filter_ne m Key Key2 h]

theorem StartHoudiniTicking_ChangedProperties (w : World) :
    (StartHoudiniTicking w).ChangedProperties = w.ChangedProperties := by
  unfold StartHoudiniTicking; split <;> rfl

theorem StartHoudiniTicking_Objects (w : World) :
    (StartHoudiniTicking w).Objects = w.Objects := by
  unfold StartHoudiniTicking; split <;> rfl

theorem StartHoudiniTicking_bound (w : World) :
    (StartHoudiniTicking w).TimerDelegateBound = true := by
  unfold StartHoudiniTicking
  cases h : w.TimerDelegateBound <;> simp [h]

theorem TSetAdd_mem (s : List Nat) (p q : Nat) : q ∈ TSetAdd s p ↔ q ∈ s ∨ q = p := by
  unfold TSetAdd
  split
  · rename_i h
    constructor
    · intro hq; exact Or.inl hq
    · rintro (hq | hq)
      · exact hq
      · rw [hq]; exact h
  · simp

theorem TSetAdd_nodup (s : List Nat) (p : Nat) (h : s.Nodup) : (TSetAdd s p).Nodup := by
  unfold TSetAdd
  split
  · exact h
  · rename_i hp
    rw [List.nodup_append]
    refine ⟨h, List.nodup_singleton p, ?_⟩
    intro a ha hb
    simp only [List.mem_singleton] at hb
    subst hb
    exact hp ha

theorem TSetAdd_of_mem (s : List Nat) (p : Nat) (h : p ∈ s) : TSetAdd s p = s := by
  unfold TSetAdd; simp [h]

theorem StartHoudiniTicking_eq (w : World) :
    StartHoudiniTicking w = { w with TimerDelegateBound := true } := by
  unfold StartHoudiniTicking
  cases h : w.TimerDelegateBound
  · simp
  · cases w
    simp only [Bool.not_true, Bool.false_eq_true, if_false]
    simp only at h
    rw [h]

theorem StopHoudiniTicking_eq (w : World) :
    StopHoudiniTicking w = { w with TimerDelegateBound := false } := by
  unfold StopHoudiniTicking
  cases h : w.TimerDelegateBound
  · cases w
    simp only [Bool.false_eq_true, if_false]
    simp only at h
    rw [h]
  · simp

theorem GuidZero_not_valid : GuidZero.IsValid = false := by decide

theorem Invalidate_not_valid (g : FGuid) : g.Invalidate.IsValid = false := by
  unfold FGuid.Invalidate FGuid.IsValid
  decide

theorem RetrieveTaskInfo_RemoveTaskInfo (TaskInfos : List (FGuid × FHoudiniEngineTaskInfo))
    (g : FGuid) : RetrieveTaskInfo (RemoveTaskInfo TaskInfos g) g = none := by
  unfold RetrieveTaskInfo RemoveTaskInfo
  simp only [Option.map_eq_none', List.find?_eq_none, List.mem_filter, Bool.not_eq_true',
    decide_eq_false_iff_not, decide_eq_true_eq, and_imp]
  intro x _ hx
  exact hx

theorem AssignUniqueActorLabel_form (env : Env) (w : World) :
    ∃ owner, AssignUniqueActorLabel env w = { w with HoudiniAssetActorOwner := owner }
      ∧ (w.HoudiniAssetActorOwner.isSome = true → owner.isSome = true) := by
  unfold AssignUniqueActorLabel
  split
  · split
    · split
      · exact ⟨_, rfl, fun _ => rfl⟩
      · exact ⟨w.HoudiniAssetActorOwner, rfl, fun h => h⟩
    · exact ⟨w.HoudiniAssetActorOwner, rfl, fun h => h⟩
  · exact ⟨w.HoudiniAssetActorOwner, rfl, fun h => h⟩

/-- `ReplaceClassInformation` assigns the reflected objects only. -/
theorem ReplaceClassInformation_Objects (env : RebuildEnv) (w : World) (ActorLabel : String)
    (bReplace : Bool) (w1 : World)
    (h : ReplaceClassInformation env w ActorLabel bReplace = some w1) :
    w1 = { w with Objects := w1.Objects } := by
  unfold ReplaceClassInformation at h
  simp only at h
  split at h
  · cases h
  · split at h
    · cases h
    · simp only [Option.some.injEq] at h
      subst h
      rfl

/-- The block after a successful geometry extraction assigns the reflected
objects and the geos only. -/
theorem TickRebuild_form (env : Env) (a : AHoudiniAssetActor) (w w1 : World)
    (h : TickRebuild env a w = some w1) :
    ∃ objs geos, w1 = { w with Objects := objs, HoudiniAssetObjectGeos := geos } := by
  unfold TickRebuild at h
  split at h
  · cases h
  · rename_i v hv
    simp only [Option.some.injEq] at h
    subst h
    have := ReplaceClassInformation_Objects _ _ _ _ _ hv
    refine ⟨v.Objects, env.ConstructGeos v.AssetId v.HoudiniAssetObjectGeos, ?_⟩
    rw [this]
    rfl

/-- The outcome of the success branch of the poll before the task information
is removed: the component as it is when the answer carries the handle -1, the
relabelled component with the new handle when the geometry extraction fails,
and what the class replacement and the geo construction leave otherwise. -/
theorem TickCooked_form (env : Env) (w : World) (TaskInfo : FHoudiniEngineTaskInfo)
    (w1 : World)
    (h : (if TaskInfo.AssetId ≠ -1 then
            if env.GetAssetGeometry TaskInfo.AssetId = true then
              match (AssignUniqueActorLabel env (SetAssetId w TaskInfo.AssetId)).HoudiniAssetActorOwner
              with
              | none => none
              | some HoudiniAssetActor =>
                TickRebuild env HoudiniAssetActor
                  (AssignUniqueActorLabel env (SetAssetId w TaskInfo.AssetId))
            else some (AssignUniqueActorLabel env (SetAssetId w TaskInfo.AssetId))
          else some w) = some w1) :
    ∃ owner objs geos,
      w1 = { w with AssetId := if TaskInfo.AssetId ≠ -1 then TaskInfo.AssetId else w.AssetId,
                    HoudiniAssetActorOwner := owner, Objects := objs,
                    HoudiniAssetObjectGeos := geos }
      ∧ (w.HoudiniAssetActorOwner.isSome = true → owner.isSome = true) := by
  by_cases hid : TaskInfo.AssetId = -1
  · simp only [hid, ne_eq, not_true_eq_false, if_false, Option.some.injEq] at h ⊢
    subst h
    exact ⟨w.HoudiniAssetActorOwner, w.Objects, w.HoudiniAssetObjectGeos, rfl, fun h => h⟩
  · obtain ⟨owner, hown, hsome⟩ :=
      AssignUniqueActorLabel_form env (SetAssetId w TaskInfo.AssetId)
    simp only [hid, ne_eq, not_false_eq_true, if_true, hown] at h ⊢
    cases hg : env.GetAssetGeometry TaskInfo.AssetId with
    | false =>
      simp only [hg, Bool.false_eq_true, if_false, Option.some.injEq] at h
      subst h
      exact ⟨owner, w.Objects, w.HoudiniAssetObjectGeos, rfl, hsome⟩
    | true =>
      simp only [hg, if_true] at h
      cases owner with
      | none => cases h
      | some a2 =>
        simp only at h
        obtain ⟨objs, geos, hform⟩ := TickRebuild_form env a2 _ w1 h
        exact ⟨some a2, objs, geos, by rw [hform]; rfl, hsome⟩

/-- A poll that returns has assigned only the asset handle, the actor label,
the reflected objects, the geos, the task table and the correlation id; the id
is kept or invalidated, and it is invalid whenever the poll asks to stop
ticking. -/
theorem TickPoll_form (env : Env) (w : World) (r : World × Bool)
    (hpoll : TickPoll env w = some r) :
    ∃ aid owner objs geos infos guid,
      r.1 = { w with AssetId := aid, HoudiniAssetActorOwner := owner,
                     Objects := objs, HoudiniAssetObjectGeos := geos,
                     TaskInfos := infos, HapiGUID := guid }
      ∧ (w.HoudiniAssetActorOwner.isSome = true → owner.isSome = true)
      ∧ (guid = w.HapiGUID ∨ guid.IsValid = false)
      ∧ (r.2 = true → guid.IsValid = false) := by
  unfold TickPoll at hpoll
  split at hpoll
  · split at hpoll
    · rename_i TaskInfo _
      split at hpoll
      · simp only [Option.some.injEq] at hpoll
        subst hpoll
        exact ⟨_, w.HoudiniAssetActorOwner, w.Objects, w.HoudiniAssetObjectGeos, _, _, rfl,
          fun h => h, Or.inr (Invalidate_not_valid _), fun _ => Invalidate_not_valid _⟩
      · simp only at hpoll
        split at hpoll
        · cases hpoll
        · rename_i w1 hc
          obtain ⟨owner, objs, geos, hform, hsome⟩ := TickCooked_form env w TaskInfo w1 hc
          simp only [Option.some.injEq] at hpoll
          subst hpoll
          refine ⟨(if TaskInfo.AssetId ≠ -1 then TaskInfo.AssetId else w.AssetId), owner, objs,
            geos, RemoveTaskInfo w.TaskInfos w.HapiGUID, w.HapiGUID.Invalidate, ?_, hsome,
            Or.inr (Invalidate_not_valid _), fun _ => Invalidate_not_valid _⟩
          rw [hform]
      · simp only at hpoll
        split at hpoll
        · cases hpoll
        · rename_i w1 hc
          obtain ⟨owner, objs, geos, hform, hsome⟩ := TickCooked_form env w TaskInfo w1 hc
          simp only [Option.some.injEq] at hpoll
          subst hpoll
          refine ⟨(if TaskInfo.AssetId ≠ -1 then TaskInfo.AssetId else w.AssetId), owner, objs,
            geos, RemoveTaskInfo w.TaskInfos w.HapiGUID, w.HapiGUID.Invalidate, ?_, hsome,
            Or.inr (Invalidate_not_valid _), fun _ => Invalidate_not_valid _⟩
          rw [hform]
      all_goals
        simp only [Option.some.injEq] at hpoll
        subst hpoll
        first
        | exact ⟨w.AssetId, w.HoudiniAssetActorOwner, w.Objects, w.HoudiniAssetObjectGeos, _, _,
            rfl, fun h => h, Or.inr (Invalidate_not_valid _), fun _ => Invalidate_not_valid _⟩
        | exact ⟨w.AssetId, w.HoudiniAssetActorOwner, w.Objects, w.HoudiniAssetObjectGeos,
            w.TaskInfos, w.HapiGUID, rfl, fun h => h, Or.inl rfl, fun h => by simp at h⟩
    · simp only [Option.some.injEq] at hpoll
      subst hpoll
      exact ⟨w.AssetId, w.HoudiniAssetActorOwner, w.Objects, w.HoudiniAssetObjectGeos,
        w.TaskInfos, _, rfl, fun h => h, Or.inr (Invalidate_not_valid _),
        fun _ => Invalidate_not_valid _⟩
  · simp only [Option.some.injEq] at hpoll
    subst hpoll
    exact ⟨w.AssetId, w.HoudiniAssetActorOwner, w.Objects, w.HoudiniAssetObjectGeos,
      w.TaskInfos, w.HapiGUID, rfl, fun h => h, Or.inl rfl, fun h => by simp at h⟩

theorem TickPoll_not_valid (env : Env) (w : World) (h : w.HapiGUID.IsValid = false) :
    TickPoll env w = some (w, false) := by
  unfold TickPoll
  simp [h]

theorem TickPoll_missing (env : Env) (w : World) (h : w.HapiGUID.IsValid = true)
    (hinfo : RetrieveTaskInfo w.TaskInfos w.HapiGUID = none) :
    TickPoll env w = some ({ w with HapiGUID := w.HapiGUID.Invalidate }, true) := by
  unfold TickPoll
  simp [h, hinfo]

theorem TickPoll_error (env : Env) (w : World) (TaskInfo : FHoudiniEngineTaskInfo)
    (h : w.HapiGUID.IsValid = true)
    (hinfo : RetrieveTaskInfo w.TaskInfos w.HapiGUID = some TaskInfo)
    (herr : IsErrorState TaskInfo.TaskState = true) :
    TickPoll env w = some ({ w with TaskInfos := RemoveTaskInfo w.TaskInfos w.HapiGUID,
                                    HapiGUID := w.HapiGUID.Invalidate }, true) := by
  unfold TickPoll
  simp only [h, if_true, hinfo]
  cases hs : TaskInfo.TaskState <;> simp [IsErrorState, hs] at herr <;> rfl

/-- The poll of a full, successful completion, in terms of the outcome of its
success branch. -/
theorem TickPoll_success_eq (env : Env) (w : World) (TaskInfo : FHoudiniEngineTaskInfo)
    (h : w.HapiGUID.IsValid = true)
    (hinfo : RetrieveTaskInfo w.TaskInfos w.HapiGUID = some TaskInfo)
    (hok : IsSuccessState TaskInfo.TaskState = true) :
    TickPoll env w
      = (if TaskInfo.AssetId ≠ -1 then
            if env.GetAssetGeometry TaskInfo.AssetId = true then
              match (AssignUniqueActorLabel env (SetAssetId w TaskInfo.AssetId)).HoudiniAssetActorOwner
              with
              | none => none
              | some HoudiniAssetActor =>
                TickRebuild env HoudiniAssetActor
                  (AssignUniqueActorLabel env (SetAssetId w TaskInfo.AssetId))
            else some (AssignUniqueActorLabel env (SetAssetId w TaskInfo.AssetId))
          else some w).map
          (fun w1 => ({ w1 with TaskInfos := RemoveTaskInfo w1.TaskInfos w1.HapiGUID,
                                HapiGUID := w1.HapiGUID.Invalidate }, true)) := by
  unfold TickPoll
  simp only [h, if_true, hinfo]
  cases hs : TaskInfo.TaskState <;> simp [IsSuccessState, hs] at hok <;>
    (simp only; split <;> rename_i hc <;> simp only [hc, Option.map_none', Option.map_some'])

/-- A poll of a full, successful completion that returns. -/
theorem TickPoll_success (env : Env) (w : World) (TaskInfo : FHoudiniEngineTaskInfo)
    (h : w.HapiGUID.IsValid = true)
    (hinfo : RetrieveTaskInfo w.TaskInfos w.HapiGUID = some TaskInfo)
    (hok : IsSuccessState TaskInfo.TaskState = true)
    (r : World × Bool) (hpoll : TickPoll env w = some r) :
    ∃ owner objs geos,
      r = ({ w with AssetId := if TaskInfo.AssetId ≠ -1 then TaskInfo.AssetId else w.AssetId,
                    HoudiniAssetActorOwner := owner, Objects := objs,
                    HoudiniAssetObjectGeos := geos,
                    TaskInfos := RemoveTaskInfo w.TaskInfos w.HapiGUID,
                    HapiGUID := w.HapiGUID.Invalidate }, true)
      ∧ (w.HoudiniAssetActorOwner.isSome = true → owner.isSome = true) := by
  rw [TickPoll_success_eq env w TaskInfo h hinfo hok] at hpoll
  obtain ⟨w1, hw1, hr⟩ := Option.map_eq_some'.mp hpoll
  obtain ⟨owner, objs, geos, hform, hsome⟩ := TickCooked_form env w TaskInfo w1 hw1
  refine ⟨owner, objs, geos, ?_, hsome⟩
  rw [← hr, hform]

/-- The poll of a full, successful completion returns when the answer carries
the handle -1, when the geometry extraction fails, and when the class
replacement returns; in no other case. -/
theorem TickPoll_success_returns (env : Env) (w : World) (a : AHoudiniAssetActor)
    (TaskInfo : FHoudiniEngineTaskInfo)
    (h : w.HapiGUID.IsValid = true)
    (hinfo : RetrieveTaskInfo w.TaskInfos w.HapiGUID = some TaskInfo)
    (hok : IsSuccessState TaskInfo.TaskState = true)
    (hactor : w.HoudiniAssetActorOwner = some a) :
    ∃ a2, (AssignUniqueActorLabel env (SetAssetId w TaskInfo.AssetId)).HoudiniAssetActorOwner
        = some a2
      ∧ ((TickPoll env w).isSome = true
        ↔ (TaskInfo.AssetId = -1 ∨ env.GetAssetGeometry TaskInfo.AssetId = false
          ∨ (ReplaceClassInformation env.Rebuild
              (AssignUniqueActorLabel env (SetAssetId w TaskInfo.AssetId)) a2.ActorLabel
              ReplaceClassInformationDefault).isSome = true)) := by
  obtain ⟨owner, hown, hsome⟩ := AssignUniqueActorLabel_form env (SetAssetId w TaskInfo.AssetId)
  have hs : owner.isSome = true := hsome (by show w.HoudiniAssetActorOwner.isSome = true
                                             rw [hactor]; rfl)
  obtain ⟨a2, ha2⟩ := Option.isSome_iff_exists.mp hs
  have hlab : (AssignUniqueActorLabel env (SetAssetId w TaskInfo.AssetId)).HoudiniAssetActorOwner
      = some a2 := by rw [hown]; exact ha2
  refine ⟨a2, hlab, ?_⟩
  rw [TickPoll_success_eq env w TaskInfo h hinfo hok, Option.isSome_map']
  by_cases hid : TaskInfo.AssetId = -1
  · simp [hid]
  · cases hg : env.GetAssetGeometry TaskInfo.AssetId with
    | false => simp [hid]
    | true =>
      simp only [hid, ne_eq, not_false_eq_true, if_true, hlab, false_or, Bool.true_eq_false]
      unfold TickRebuild
      cases ReplaceClassInformation env.Rebuild
        (AssignUniqueActorLabel env (SetAssetId w TaskInfo.AssetId)) a2.ActorLabel
        ReplaceClassInformationDefault <;> simp

theorem TickSubmit_skip (env : Env) (a : AHoudiniAssetActor) (w : World) (b : Bool)
    (h : w.HapiGUID.IsValid = true ∨ w.ChangedProperties = []) :
    TickSubmit env a w b = some (w, b) := by
  unfold TickSubmit
  rcases h with h | h
  · simp [h]
  · simp [h]

theorem TickSubmit_instantiate (env : Env) (a : AHoudiniAssetActor) (w : World) (b : Bool)
    (hguid : w.HapiGUID.IsValid = false) (hset : w.ChangedProperties ≠ [])
    (hflag : w.bLoadedComponentRequiresInstantiation = true) :
    TickSubmit env a w b
      = some ({ w with HapiGUID := env.NewGuid,
                       bLoadedComponentRequiresInstantiation := false,
                       Trace := w.Trace ++ [Event.AddTask
                         { TaskType := EHoudiniEngineTaskType.AssetInstantiationWithoutCooking,
                           HapiGUID := env.NewGuid, Asset := w.HoudiniAsset,
                           ActorName := some a.ActorLabel, AssetId := none,
                           AssetComponent := false } w.HapiGUID] }, false) := by
  unfold TickSubmit
  have hlen : w.ChangedProperties.length > 0 := List.length_pos.mpr hset
  simp [hguid, hlen, hflag]

theorem SetChangedParameterValues_congr (env : Env) (w v : World)
    (h1 : v.AssetId = w.AssetId) (h2 : v.Objects = w.Objects)
    (h3 : v.ChangedProperties = w.ChangedProperties) :
    SetChangedParameterValues env v = SetChangedParameterValues env w := by
  unfold SetChangedParameterValues
  rw [h1, h2, h3]

theorem TickSubmit_cook (env : Env) (a : AHoudiniAssetActor) (w : World) (b : Bool)
    (hguid : w.HapiGUID.IsValid = false) (hset : w.ChangedProperties ≠ [])
    (hflag : w.bLoadedComponentRequiresInstantiation = false) :
    TickSubmit env a w b
      = (SetChangedParameterValues env w).map (fun calls =>
          ({ w with HapiGUID := env.NewGuid,
                    Trace := (w.Trace ++ calls) ++ [Event.AddTask
                      { TaskType := EHoudiniEngineTaskType.AssetCooking,
                        HapiGUID := env.NewGuid, Asset := none,
                        ActorName := some a.ActorLabel, AssetId := none,
                        AssetComponent := true } w.HapiGUID],
                    ChangedProperties := [] }, false)) := by
  unfold TickSubmit
  have hlen : w.ChangedProperties.length > 0 := List.length_pos.mpr hset
  have hc : ∀ f : Bool, SetChangedParameterValues env
        { w with HapiGUID := env.NewGuid, bLoadedComponentRequiresInstantiation := f }
      = SetChangedParameterValues env w :=
    fun f => SetChangedParameterValues_congr env w _ rfl rfl rfl
  simp only [hguid, hlen, hflag, hc, Bool.not_false, decide_True, Bool.and_self, if_true,
    Bool.false_eq_true, if_false]
  cases SetChangedParameterValues env w <;> rfl

/-- A tick that returns has polled. -/
theorem TickHoudiniComponent_polled (env : Env) (w w2 : World)
    (h : TickHoudiniComponent env w = some w2) : ∃ r, TickPoll env w = some r := by
  unfold TickHoudiniComponent at h
  split at h
  · cases h
  · split at h
    · cases h
    · rename_i r hr
      exact ⟨r, hr⟩

/-- A tick whose poll does not return does not return. -/
theorem TickHoudiniComponent_of_poll_none (env : Env) (w : World)
    (h : TickPoll env w = none) : TickHoudiniComponent env w = none := by
  cases hw : TickHoudiniComponent env w with
  | none => rfl
  | some w2 =>
    obtain ⟨r, hr⟩ := TickHoudiniComponent_polled env w w2 hw
    rw [h] at hr
    cases hr

/-- The tick as the composition of its three parts. -/
theorem TickHoudiniComponent_eq (env : Env) (w : World) (a : AHoudiniAssetActor)
    (hactor : w.HoudiniAssetActorOwner = some a) (r : World × Bool)
    (hpoll : TickPoll env w = some r) :
    ∃ a2, r.1.HoudiniAssetActorOwner = some a2
      ∧ TickHoudiniComponent env w
        = (TickSubmit env a2 r.1 r.2).map
            (fun x => if x.2 = true then StopHoudiniTicking x.1 else x.1) := by
  obtain ⟨aid, owner, objs, geos, infos, guid, hform, hsome, _, _⟩ := TickPoll_form env w r hpoll
  have hown : owner.isSome = true := hsome (by rw [hactor]; rfl)
  obtain ⟨a2, ha2⟩ := Option.isSome_iff_exists.mp hown
  have hp : r.1.HoudiniAssetActorOwner = some a2 := by rw [hform]; exact ha2
  refine ⟨a2, hp, ?_⟩
  unfold TickHoudiniComponent
  simp only [hactor, hpoll, hp]
  cases TickSubmit env a2 r.1 r.2 with
  | none => rfl
  | some x => cases x; rfl

/-- A tick that does not enter the submission step returns, and stops the
timer exactly when the poll asked for it. -/
theorem TickHoudiniComponent_skip (env : Env) (w : World) (a : AHoudiniAssetActor)
    (hactor : w.HoudiniAssetActorOwner = some a) (r : World × Bool)
    (hpoll : TickPoll env w = some r)
    (h : r.1.HapiGUID.IsValid = true ∨ r.1.ChangedProperties = []) :
    TickHoudiniComponent env w
      = some (if r.2 = true then StopHoudiniTicking r.1 else r.1) := by
  obtain ⟨a2, _, heq⟩ := TickHoudiniComponent_eq env w a hactor r hpoll
  rw [heq, TickSubmit_skip env a2 _ _ h]
  rfl

theorem TickPoll_ChangedProperties (env : Env) (w : World) (r : World × Bool)
    (hpoll : TickPoll env w = some r) :
    r.1.ChangedProperties = w.ChangedProperties := by
  obtain ⟨_, _, _, _, _, _, hform, _⟩ := TickPoll_form env w r hpoll
  rw [hform]

theorem TickPoll_Trace (env : Env) (w : World) (r : World × Bool)
    (hpoll : TickPoll env w = some r) : r.1.Trace = w.Trace := by
  obtain ⟨_, _, _, _, _, _, hform, _⟩ := TickPoll_form env w r hpoll
  rw [hform]

theorem TickPoll_TimerDelegateBound (env : Env) (w : World) (r : World × Bool)
    (hpoll : TickPoll env w = some r) :
    r.1.TimerDelegateBound = w.TimerDelegateBound := by
  obtain ⟨_, _, _, _, _, _, hform, _⟩ := TickPoll_form env w r hpoll
  rw [hform]

theorem TickPoll_flag (env : Env) (w : World) (r : World × Bool)
    (hpoll : TickPoll env w = some r) :
    r.1.bLoadedComponentRequiresInstantiation
      = w.bLoadedComponentRequiresInstantiation := by
  obtain ⟨_, _, _, _, _, _, hform, _⟩ := TickPoll_form env w r hpoll
  rw [hform]

/-- A tick of an owned component whose poll returns, returns when it does not
enter the submission step, when it submits the instantiation without cooking,
or when the push returns. -/
theorem TickHoudiniComponent_returns (env : Env) (w : World) (a : AHoudiniAssetActor)
    (hactor : w.HoudiniAssetActorOwner = some a) (r : World × Bool)
    (hpoll : TickPoll env w = some r)
    (h : r.1.HapiGUID.IsValid = true ∨ w.ChangedProperties = []
      ∨ w.bLoadedComponentRequiresInstantiation = true
      ∨ (SetChangedParameterValues env r.1).isSome = true) :
    ∃ w2, TickHoudiniComponent env w = some w2 := by
  by_cases hskip : r.1.HapiGUID.IsValid = true ∨ r.1.ChangedProperties = []
  · exact ⟨_, TickHoudiniComponent_skip env w a hactor r hpoll hskip⟩
  · have hg : r.1.HapiGUID.IsValid = false := by
      cases hv : r.1.HapiGUID.IsValid with
      | false => rfl
      | true => exact absurd (Or.inl hv) hskip
    have hcp : r.1.ChangedProperties ≠ [] := fun hs => hskip (Or.inr hs)
    obtain ⟨a2, _, heq⟩ := TickHoudiniComponent_eq env w a hactor r hpoll
    rw [heq]
    cases hflag : r.1.bLoadedComponentRequiresInstantiation with
    | true =>
      rw [TickSubmit_instantiate env a2 _ _ hg hcp hflag]
      exact ⟨_, rfl⟩
    | false =>
      rw [TickSubmit_cook env a2 _ _ hg hcp hflag]
      rcases h with h | h | h | h
      · rw [hg] at h
        exact absurd h (by simp)
      · rw [TickPoll_ChangedProperties env w r hpoll] at hcp
        exact absurd h hcp
      · rw [TickPoll_flag env w r hpoll, h] at hflag
        exact absurd hflag (by simp)
      · obtain ⟨calls, hcalls⟩ := Option.isSome_iff_exists.mp h
        rw [hcalls]
        exact ⟨_, rfl⟩

/-- A tick that polls a full, successful completion while the Change Set is
empty and whose poll returns, returns and ends idle; the asset handle is the
handle of the answer unless that is -1. -/
theorem TickHoudiniComponent_success_idle (env : Env) (v : World) (a : AHoudiniAssetActor)
    (TaskInfo : FHoudiniEngineTaskInfo)
    (hvalid : v.HapiGUID.IsValid = true)
    (hinfo : RetrieveTaskInfo v.TaskInfos v.HapiGUID = some TaskInfo)
    (hstate : IsSuccessState TaskInfo.TaskState = true)
    (hactor : v.HoudiniAssetActorOwner = some a)
    (hset : v.ChangedProperties = [])
    (r : World × Bool) (hpoll : TickPoll env v = some r) :
    ∃ w2, TickHoudiniComponent env v = some w2
      ∧ w2.HapiGUID.IsValid = false
      ∧ w2.TimerDelegateBound = false
      ∧ w2.ChangedProperties = []
      ∧ w2.AssetId = if TaskInfo.AssetId ≠ -1 then TaskInfo.AssetId else v.AssetId := by
  obtain ⟨owner, objs, geos, hr, _⟩ :=
    TickPoll_success env v TaskInfo hvalid hinfo hstate r hpoll
  have hskip := TickHoudiniComponent_skip env v a hactor r hpoll
    (Or.inr (by rw [TickPoll_ChangedProperties env v r hpoll]; exact hset))
  rw [hr] at hskip
  simp only [if_true, StopHoudiniTicking_eq] at hskip
  exact ⟨_, hskip, Invalidate_not_valid v.HapiGUID, rfl, hset, rfl⟩

theorem PushStringValues_no_AddTask (env : Env) (Strings : Nat → String) (nodeId ParamId : Int)
    (n : Nat) : ∀ (ValueOffset Index : Nat),
      ∀ e ∈ PushStringValues env Strings nodeId ParamId ValueOffset Index n,
        e.isAddTask = false := by
  induction n with
  | zero =>
    intro _ _ e he
    simp [PushStringValues] at he
  | succ n ih =>
    intro ValueOffset Index e he
    simp only [PushStringValues, List.mem_cons] at he
    rcases he with he | he
    · rw [he]; rfl
    · exact ih _ _ e he

theorem PushProperty_no_AddTask (env : Env) (r : Reflection) (nodeId : Int)
    (Property : UProperty) (ParamId : Int) (ParamInfo : HAPI_ParmInfo) (calls : List Event)
    (h : PushProperty env r nodeId Property ParamId ParamInfo = some calls) :
    ∀ e ∈ calls, e.isAddTask = false := by
  unfold PushProperty at h
  intro e he
  split at h
  · split at h
    · simp only [Option.some.injEq] at h
      subst h
      simp only [List.mem_singleton] at he
      rw [he]; rfl
    · exact absurd h (by simp)
  · split at h
    · simp only [Option.some.injEq] at h
      subst h
      simp only [List.mem_singleton] at he
      rw [he]; rfl
    · exact absurd h (by simp)
  · split at h
    · simp only [Option.some.injEq] at h
      subst h
      simp only [List.mem_singleton] at he
      rw [he]; rfl
    · exact absurd h (by simp)
  · split at h
    · simp only [Option.some.injEq] at h
      subst h
      exact PushStringValues_no_AddTask env _ _ _ _ _ _ e he
    · exact absurd h (by simp)
  · split at h
    · split at h
      · simp only [Option.some.injEq] at h
        subst h
        simp only [List.mem_singleton] at he
        rw [he]; rfl
      · exact absurd h (by simp)
    · simp only [Option.some.injEq] at h
      subst h
      simp only [List.mem_singleton] at he
      rw [he]; rfl
  · split at h
    · split at h
      · simp only [Option.some.injEq] at h
        subst h
        simp only [List.mem_singleton] at he
        rw [he]; rfl
      · simp only [Option.some.injEq] at h
        subst h
        simp only [List.mem_singleton] at he
        rw [he]; rfl
    · simp only [Option.some.injEq] at h
      subst h
      simp at he
  · simp only [Option.some.injEq] at h
    subst h
    simp at he

theorem SetChangedParameterValuesLoop_no_AddTask (env : Env) (r : Reflection) (nodeId : Int)
    (ps : List Nat) : ∀ calls, SetChangedParameterValuesLoop env r nodeId ps = some calls →
      ∀ e ∈ calls, e.isAddTask = false := by
  induction ps with
  | nil =>
    intro calls h e he
    simp only [SetChangedParameterValuesLoop, Option.some.injEq] at h
    subst h
    simp at he
  | cons p rest ih =>
    intro calls h e he
    simp only [SetChangedParameterValuesLoop] at h
    rcases HOUDINI_CHECK_ERROR_RETURN_cases
      (env.HAPI_GetParmIdFromName nodeId
        (env.NarrowName (GetMetaData (r.Properties p).Meta "HoudiniParmName")))
      (some []) _ with ⟨_, hc⟩ | ⟨_, hc⟩
    · rw [hc] at h
      split at h
      · exact ih calls h e he
      · split at h
        · exact absurd h (by simp)
        · rename_i first hfirst
          split at h
          · exact absurd h (by simp)
          · rename_i more hmore
            simp only [Option.some.injEq] at h
            subst h
            rcases List.mem_append.mp he with he | he
            · exact PushProperty_no_AddTask env r nodeId _ _ _ first hfirst e he
            · exact ih more hmore e he
    · rw [hc] at h
      simp only [Option.some.injEq] at h
      subst h
      simp at he

/-- The push makes parameter set calls only. -/
theorem SetChangedParameterValues_no_AddTask (env : Env) (w : World) (calls : List Event)
    (h : SetChangedParameterValues env w = some calls) :
    ∀ e ∈ calls, e.isAddTask = false := by
  unfold SetChangedParameterValues at h
  rcases HOUDINI_CHECK_ERROR_RETURN_cases (env.HAPI_GetAssetInfo w.AssetId) (some [])
    (fun AssetInfo =>
      SetChangedParameterValuesLoop env w.Objects AssetInfo.nodeId w.ChangedProperties)
    with ⟨_, hc⟩ | ⟨_, hc⟩
  · rw [hc] at h
    exact SetChangedParameterValuesLoop_no_AddTask env _ _ _ calls h
  · rw [hc] at h
    simp only [Option.some.injEq] at h
    subst h
    intro e he
    simp at he

/-- What the submission step does once it is entered: it never asks to stop
ticking, takes the fresh correlation id, and appends to the trace the set calls
of the push followed by exactly one task under the fresh id, generated while
the id of the component was invalid. -/
theorem TickSubmit_enter (env : Env) (a : AHoudiniAssetActor) (w : World) (b : Bool)
    (hguid : w.HapiGUID.IsValid = false) (hset : w.ChangedProperties ≠ [])
    (r : World × Bool) (h : TickSubmit env a w b = some r) :
    r.2 = false ∧ r.1.HapiGUID = env.NewGuid
      ∧ r.1.TimerDelegateBound = w.TimerDelegateBound
      ∧ r.1.TaskInfos = w.TaskInfos ∧ r.1.AssetId = w.AssetId
      ∧ ∃ calls Task, r.1.Trace = (w.Trace ++ calls) ++ [Event.AddTask Task w.HapiGUID]
          ∧ Task.HapiGUID = env.NewGuid ∧ (∀ e ∈ calls, e.isAddTask = false) := by
  cases hflag : w.bLoadedComponentRequiresInstantiation with
  | true =>
    rw [TickSubmit_instantiate env a w b hguid hset hflag] at h
    simp only [Option.some.injEq] at h
    subst h
    refine ⟨rfl, rfl, rfl, rfl, rfl, [],
      { TaskType := EHoudiniEngineTaskType.AssetInstantiationWithoutCooking,
        HapiGUID := env.NewGuid, Asset := w.HoudiniAsset,
        ActorName := some a.ActorLabel, AssetId := none,
        AssetComponent := false }, ?_, rfl, ?_⟩
    · simp
    · intro e he; simp at he
  | false =>
    rw [TickSubmit_cook env a w b hguid hset hflag] at h
    cases hpush : SetChangedParameterValues env w with
    | none => rw [hpush] at h; exact absurd h (by simp)
    | some calls =>
      rw [hpush] at h
      simp only [Option.map_some', Option.some.injEq] at h
      subst h
      exact ⟨rfl, rfl, rfl, rfl, rfl, calls,
        { TaskType := EHoudiniEngineTaskType.AssetCooking,
          HapiGUID := env.NewGuid, Asset := none,
          ActorName := some a.ActorLabel, AssetId := none,
          AssetComponent := true }, rfl, rfl,
        SetChangedParameterValues_no_AddTask env w calls hpush⟩

theorem TickPoll_stop (env : Env) (w : World) (r : World × Bool)
    (hpoll : TickPoll env w = some r) :
    r.2 = ConsumesTerminalAnswer w := by
  unfold TickPoll at hpoll
  unfold ConsumesTerminalAnswer
  cases hv : w.HapiGUID.IsValid with
  | false =>
    simp only [hv, Bool.false_eq_true, if_false, Option.some.injEq] at hpoll
    subst hpoll
    simp
  | true =>
    cases hi : RetrieveTaskInfo w.TaskInfos w.HapiGUID with
    | none =>
      simp only [hv, if_true, hi, Option.some.injEq] at hpoll
      subst hpoll
      simp
    | some TaskInfo =>
      simp only [hv, if_true, hi] at hpoll
      simp only [if_true, Bool.true_and]
      cases hs : TaskInfo.TaskState <;> simp only [hs] at hpoll <;>
        first
        | (simp only [Option.some.injEq] at hpoll
           subst hpoll
           simp [IsSuccessState, IsErrorState, SetAssetId])
        | (split at hpoll
           · cases hpoll
           · simp only [Option.some.injEq] at hpoll
             subst hpoll
             simp [IsSuccessState, IsErrorState])

theorem TickHoudiniComponent_owner (env : Env) (w w2 : World)
    (h : TickHoudiniComponent env w = some w2) : ∃ a, w.HoudiniAssetActorOwner = some a := by
  cases ho : w.HoudiniAssetActorOwner with
  | none =>
    unfold TickHoudiniComponent at h
    rw [ho] at h
    exact absurd h (by simp)
  | some a => exact ⟨a, rfl⟩

/-- The timer, the correlation id and the Change Set at the end of a tick. -/
theorem TickHoudiniComponent_end (env : Env) (w w2 : World)
    (h : TickHoudiniComponent env w = some w2) :
    w2.TimerDelegateBound
        = (w.TimerDelegateBound
            && !(ConsumesTerminalAnswer w && decide (w.ChangedProperties = [])))
    ∧ (ConsumesTerminalAnswer w = true → w.ChangedProperties = [] →
        w2.HapiGUID.IsValid = false ∧ w2.ChangedProperties = []) := by
  obtain ⟨a, hactor⟩ := TickHoudiniComponent_owner env w w2 h
  obtain ⟨r, hpoll⟩ := TickHoudiniComponent_polled env w w2 h
  obtain ⟨aid, owner, objs, geos, infos, guid, hform, _, _, hstopguid⟩ :=
    TickPoll_form env w r hpoll
  have hstop := TickPoll_stop env w r hpoll
  by_cases hskip : r.1.HapiGUID.IsValid = true ∨ r.1.ChangedProperties = []
  · rw [TickHoudiniComponent_skip env w a hactor r hpoll hskip] at h
    simp only [Option.some.injEq] at h
    have hpg : r.1.HapiGUID = guid := by rw [hform]
    cases hc : ConsumesTerminalAnswer w with
    | false =>
      rw [hstop, hc] at h
      simp only [Bool.false_eq_true, if_false] at h
      subst h
      refine ⟨?_, fun hf => absurd hf (by simp)⟩
      rw [TickPoll_TimerDelegateBound env w r hpoll]
      simp
    | true =>
      rw [hstop, hc] at h
      simp only [if_true, StopHoudiniTicking_eq] at h
      subst h
      have hg : guid.IsValid = false := hstopguid (by rw [hstop]; exact hc)
      have hcp : w.ChangedProperties = [] := by
        rcases hskip with hs | hs
        · rw [hpg, hg] at hs
          exact absurd hs (by simp)
        · rw [TickPoll_ChangedProperties env w r hpoll] at hs
          exact hs
      refine ⟨?_, fun _ _ => ⟨?_, ?_⟩⟩
      · simp [hcp]
      · show r.1.HapiGUID.IsValid = false
        rw [hpg]; exact hg
      · show r.1.ChangedProperties = []
        rw [TickPoll_ChangedProperties env w r hpoll]; exact hcp
  · have hg : r.1.HapiGUID.IsValid = false := by
      cases hv : r.1.HapiGUID.IsValid with
      | false => rfl
      | true => exact absurd (Or.inl hv) hskip
    have hcp : r.1.ChangedProperties ≠ [] := fun hs => hskip (Or.inr hs)
    have hcpw : w.ChangedProperties ≠ [] := by
      rw [TickPoll_ChangedProperties env w r hpoll] at hcp
      exact hcp
    obtain ⟨a2, _, heq⟩ := TickHoudiniComponent_eq env w a hactor r hpoll
    rw [heq] at h
    obtain ⟨x, hx, hw2⟩ := Option.map_eq_some'.mp h
    obtain ⟨h1, _, h4, _⟩ := TickSubmit_enter env a2 _ _ hg hcp x hx
    simp only [h1, Bool.false_eq_true, if_false] at hw2
    subst hw2
    refine ⟨?_, fun _ hs => absurd hs hcpw⟩
    rw [h4, TickPoll_TimerDelegateBound env w r hpoll]
    simp [hcpw]

theorem SubmitsOnlyWhileIdle_refl (t : List Event) : SubmitsOnlyWhileIdle t t :=
  ⟨[], by simp, fun _ _ h => by simp at h⟩

theorem SubmitsOnlyWhileIdle_one (t : List Event) (Task : FHoudiniEngineTask) (Replaced : FGuid)
    (h : Replaced.IsValid = false) :
    SubmitsOnlyWhileIdle t (t ++ [Event.AddTask Task Replaced]) := by
  refine ⟨[Event.AddTask Task Replaced], rfl, ?_⟩
  intro T R hmem
  simp only [List.mem_singleton, Event.AddTask.injEq] at hmem
  rw [hmem.2]
  exact h

/-- A tick submits a task only when the correlation id it holds at the
submission step is invalid. -/
theorem TickHoudiniComponent_serialized (env : Env) (w w2 : World)
    (h : TickHoudiniComponent env w = some w2) : SubmitsOnlyWhileIdle w.Trace w2.Trace := by
  obtain ⟨a, hactor⟩ := TickHoudiniComponent_owner env w w2 h
  obtain ⟨r, hpoll⟩ := TickHoudiniComponent_polled env w w2 h
  by_cases hskip : r.1.HapiGUID.IsValid = true ∨ r.1.ChangedProperties = []
  · rw [TickHoudiniComponent_skip env w a hactor r hpoll hskip] at h
    simp only [Option.some.injEq] at h
    have ht : w2.Trace = w.Trace := by
      rw [← h]
      split
      · rw [StopHoudiniTicking_eq]
        exact TickPoll_Trace env w r hpoll
      · exact TickPoll_Trace env w r hpoll
    rw [ht]
    exact SubmitsOnlyWhileIdle_refl _
  · have hg : r.1.HapiGUID.IsValid = false := by
      cases hv : r.1.HapiGUID.IsValid with
      | false => rfl
      | true => exact absurd (Or.inl hv) hskip
    have hcp : r.1.ChangedProperties ≠ [] := fun hs => hskip (Or.inr hs)
    obtain ⟨a2, _, heq⟩ := TickHoudiniComponent_eq env w a hactor r hpoll
    rw [heq] at h
    obtain ⟨x, hx, hw2⟩ := Option.map_eq_some'.mp h
    obtain ⟨h1, _, _, _, _, calls, Task, h7, _, h9⟩ :=
      TickSubmit_enter env a2 _ _ hg hcp x hx
    simp only [h1, Bool.false_eq_true, if_false] at hw2
    subst hw2
    refine ⟨calls ++ [Event.AddTask Task r.1.HapiGUID], ?_, ?_⟩
    · rw [h7, TickPoll_Trace env w r hpoll, List.append_assoc]
    · intro T R hmem
      rcases List.mem_append.mp hmem with hmem | hmem
      · have := h9 _ hmem
        simp [Event.isAddTask] at this
      · simp only [List.mem_singleton, Event.AddTask.injEq] at hmem
        rw [hmem.2]
        exact hg

/-- When every name lookup of the loop succeeds and the loop returns, its calls
are the pushes of the fields that resolve, in the order of the Change Set, and
the push of every such field returned. -/
theorem SetChangedParameterValuesLoop_resolved (env : Env) (r : Reflection) (nodeId : Int)
    (ps : List Nat) : ∀ calls,
      (∀ p ∈ ps, (ResolveParmId env r nodeId p).1 = HAPI_Result.HAPI_RESULT_SUCCESS) →
      SetChangedParameterValuesLoop env r nodeId ps = some calls →
      calls = PushesOfResolvedFields env r nodeId ps
        ∧ ∀ p ∈ ps, (ResolveParmId env r nodeId p).2 ≠ -1 →
            (PushOfField env r nodeId p).isSome = true := by
  induction ps with
  | nil =>
    intro calls _ h
    simp only [SetChangedParameterValuesLoop, Option.some.injEq] at h
    subst h
    exact ⟨rfl, fun p hp => by simp at hp⟩
  | cons q rest ih =>
    intro calls hres h
    have hq := hres q (List.mem_cons_self q rest)
    have hrest : ∀ p ∈ rest, (ResolveParmId env r nodeId p).1 = HAPI_Result.HAPI_RESULT_SUCCESS :=
      fun p hp => hres p (List.mem_cons_of_mem q hp)
    have hpair : env.HAPI_GetParmIdFromName nodeId
        (env.NarrowName (GetMetaData (r.Properties q).Meta "HoudiniParmName"))
        = (HAPI_Result.HAPI_RESULT_SUCCESS, (ResolveParmId env r nodeId q).2) := by
      unfold ResolveParmId at hq ⊢
      rw [← hq]
    simp only [SetChangedParameterValuesLoop] at h
    rw [HOUDINI_CHECK_ERROR_RETURN_success _ _ _ _ hpair] at h
    simp only [HOUDINI_CHECK_ERROR] at h
    by_cases hid : (ResolveParmId env r nodeId q).2 = -1
    · simp only [hid, if_true] at h
      obtain ⟨h1, h2⟩ := ih calls hrest h
      refine ⟨?_, ?_⟩
      · simp only [PushesOfResolvedFields, hid, if_true, List.nil_append]
        exact h1
      · intro p hp hne
        rcases List.mem_cons.mp hp with hp | hp
        · rw [hp] at hne
          exact absurd hid hne
        · exact h2 p hp hne
    · simp only [hid, if_false] at h
      cases hfirst : PushProperty env r nodeId (r.Properties q) (ResolveParmId env r nodeId q).2
          (env.HAPI_GetParameters nodeId (ResolveParmId env r nodeId q).2).2 with
      | none =>
        rw [hfirst] at h
        exact absurd h (by simp)
      | some first =>
        rw [hfirst] at h
        cases hmore : SetChangedParameterValuesLoop env r nodeId rest with
        | none =>
          rw [hmore] at h
          exact absurd h (by simp)
        | some more =>
          rw [hmore] at h
          simp only [Option.some.injEq] at h
          obtain ⟨h1, h2⟩ := ih more hrest hmore
          refine ⟨?_, ?_⟩
          · simp only [PushesOfResolvedFields, hid, if_false, PushOfField, hfirst,
              Option.getD_some]
            rw [← h, h1]
          · intro p hp hne
            rcases List.mem_cons.mp hp with hp | hp
            · rw [hp]
              simp only [PushOfField, hfirst, Option.isSome_some]
            · exact h2 p hp hne

/-- An accepted edit returns, adds the member property to the set, and leaves
the acceptance of every event as it was. -/
theorem PostEditChangeProperty_accepted (w : World) (e : FPropertyChangedEvent)
    (h : AcceptedEdit w e = true) :
    ∃ p, e.MemberProperty = some p ∧ ∃ w1, PostEditChangeProperty w e = some w1
      ∧ w1.ChangedProperties = TSetAdd w.ChangedProperties p
      ∧ ∀ e2, AcceptedEdit w1 e2 = AcceptedEdit w e2 := by
  unfold AcceptedEdit at h
  cases hm : e.MemberProperty with
  | none => simp [hm] at h
  | some p =>
    simp only [hm, Bool.and_eq_true, decide_eq_true_eq, Bool.not_eq_true', Bool.and_eq_false_imp,
      IsColorProperty] at h
    obtain ⟨hcat, hcol⟩ := h
    refine ⟨p, rfl, ?_⟩
    have hnot : ¬ (e.ChangeType = EPropertyChangeType.Interactive
        ∧ (w.Objects.Properties p).Class = UPropertyClass.UStructProperty
        ∧ w.Objects.ScriptStructColor = (w.Objects.Properties p).Struct) := by
      rintro ⟨h1, h2, h3⟩
      have := hcol h1
      simp [h2, h3] at this
    unfold PostEditChangeProperty
    simp only [hm, hcat, ne_eq, not_true_eq_false, if_false, hnot]
    refine ⟨_, rfl, ?_, ?_⟩
    · rw [StartHoudiniTicking_ChangedProperties]
      split <;> rfl
    · intro e2
      unfold AcceptedEdit
      cases hm2 : e2.MemberProperty with
      | none => rfl
      | some q =>
        simp only [StartHoudiniTicking_Objects]
        have hobj : ∀ (v : World), v.Objects = w.Objects →
            (Function.update v.Objects.Properties p
              { w.Objects.Properties p with
                Meta := SetMetaData (w.Objects.Properties p).Meta "HoudiniPropertyChanged" "1" } q).Class
              = (w.Objects.Properties q).Class
            ∧ (Function.update v.Objects.Properties p
              { w.Objects.Properties p with
                Meta := SetMetaData (w.Objects.Properties p).Meta "HoudiniPropertyChanged" "1" } q).Struct
              = (w.Objects.Properties q).Struct
            ∧ GetMetaData (Function.update v.Objects.Properties p
              { w.Objects.Properties p with
                Meta := SetMetaData (w.Objects.Properties p).Meta "HoudiniPropertyChanged" "1" } q).Meta
                "Category"
              = GetMetaData (w.Objects.Properties q).Meta "Category" := by
          intro v hv
          by_cases hq : q = p
          · subst hq
            simp only [Function.update_same]
            refine ⟨trivial, trivial, ?_⟩
            exact GetMetaData_SetMetaData_ne _ _ _ _ (by decide)
          · simp only [Function.update_noteq hq, hv, and_self]
        split
        · rename_i hc
          obtain ⟨h1, h2, h3⟩ := hobj { w with bLoadedComponentRequiresInstantiation := true } rfl
          simp only [IsColorProperty, h1, h2, h3]
        · obtain ⟨h1, h2, h3⟩ := hobj w rfl
          simp only [IsColorProperty, h1, h2, h3]

/-- A run of accepted edits returns; the set afterwards holds what it held
before together with the member properties edited, without duplicates. -/
theorem PostEditChangeProperties_accepted (es : List FPropertyChangedEvent) :
    ∀ w : World, (∀ e ∈ es, AcceptedEdit w e = true) →
      ∃ w2, PostEditChangeProperties w es = some w2
        ∧ (∀ q, q ∈ w2.ChangedProperties ↔ q ∈ w.ChangedProperties ∨ q ∈ EditedProperties es)
        ∧ (w.ChangedProperties.Nodup → w2.ChangedProperties.Nodup) := by
  induction es with
  | nil =>
    intro w _
    exact ⟨w, rfl, by simp [EditedProperties], fun h => h⟩
  | cons e es ih =>
    intro w hacc
    obtain ⟨p, hp, w1, hw1, hcp, hsame⟩ :=
      PostEditChangeProperty_accepted w e (hacc e (List.mem_cons_self e es))
    have hacc1 : ∀ e2 ∈ es, AcceptedEdit w1 e2 = true := by
      intro e2 he2
      rw [hsame e2]
      exact hacc e2 (List.mem_cons_of_mem e he2)
    obtain ⟨w2, hw2, hmem, hnd⟩ := ih w1 hacc1
    refine ⟨w2, ?_, ?_, ?_⟩
    · simp only [PostEditChangeProperties, hw1]
      exact hw2
    · intro q
      rw [hmem q, hcp, TSetAdd_mem]
      simp only [EditedProperties, List.filterMap_cons, hp, List.mem_cons]
      tauto
    · intro h
      apply hnd
      rw [hcp]
      exact TSetAdd_nodup _ _ h

/-- Whatever the event, an edit whose member property is already in the set
leaves the set as it is. -/
theorem PostEditChangeProperty_of_mem (w : World) (e : FPropertyChangedEvent) (p : Nat)
    (hp : e.MemberProperty = some p) (hmem : p ∈ w.ChangedProperties) :
    (PostEditChangeProperty w e).map (fun v => v.ChangedProperties)
      = some w.ChangedProperties := by
  unfold PostEditChangeProperty
  simp only [hp]
  split
  · rfl
  · split
    · rfl
    · simp only [Option.map_some', StartHoudiniTicking_ChangedProperties, Option.some.injEq]
      split <;> exact TSetAdd_of_mem _ _ hmem

/-- C1: for every run of accepted edit events with no tick in between, starting
from an empty Change Set, `ChangedProperties` is exactly the set of the distinct
member properties edited (no duplicate entry, as many entries as distinct
fields); and an edit of a field that is already in the set leaves the set, and
so its size, unchanged. -/
theorem C1_change_set_is_set_of_edited_fields (w : World) (es : List FPropertyChangedEvent)
    (hstart : w.ChangedProperties = [])
    (hacc : ∀ e ∈ es, AcceptedEdit w e = true) :
    ∃ w2, PostEditChangeProperties w es = some w2
      ∧ w2.ChangedProperties.toFinset = (EditedProperties es).toFinset
      ∧ w2.ChangedProperties.Nodup
      ∧ w2.ChangedProperties.length = (EditedProperties es).toFinset.card
      ∧ ∀ e p, e.MemberProperty = some p → p ∈ w2.ChangedProperties →
          (PostEditChangeProperty w2 e).map (fun v => v.ChangedProperties)
            = some w2.ChangedProperties := by
  obtain ⟨w2, hw2, hmem, hnd⟩ := PostEditChangeProperties_accepted es w hacc
  have hset : w2.ChangedProperties.toFinset = (EditedProperties es).toFinset := by
    ext q
    simp only [List.mem_toFinset, hmem q, hstart, List.not_mem_nil, false_or]
  have hnd2 : w2.ChangedProperties.Nodup := hnd (by rw [hstart]; exact List.nodup_nil)
  refine ⟨w2, hw2, hset, hnd2, ?_, ?_⟩
  · rw [← hset, List.toFinset_card_of_nodup hnd2]
  · intro e p hp hq
    exact PostEditChangeProperty_of_mem w2 e p hp hq

/-- C1 at the scenario: `Size` edited twice and `Seed` once. -/
theorem C1_change_set_is_set_of_edited_fields_witness :
    ScenarioWorld.ChangedProperties = []
    ∧ (∀ e ∈ [EditSize, EditSize, EditSeed], AcceptedEdit ScenarioWorld e = true)
    ∧ ∃ w2, PostEditChangeProperties ScenarioWorld [EditSize, EditSize, EditSeed] = some w2
      ∧ w2.ChangedProperties.toFinset = (EditedProperties [EditSize, EditSize, EditSeed]).toFinset
      ∧ w2.ChangedProperties.Nodup
      ∧ w2.ChangedProperties.length
          = (EditedProperties [EditSize, EditSize, EditSeed]).toFinset.card
      ∧ ∀ e p, e.MemberProperty = some p → p ∈ w2.ChangedProperties →
          (PostEditChangeProperty w2 e).map (fun v => v.ChangedProperties)
            = some w2.ChangedProperties :=
  ⟨rfl, by decide,
    C1_change_set_is_set_of_edited_fields ScenarioWorld [EditSize, EditSize, EditSeed] rfl
      (by decide)⟩

/-- C2: `SetChangedParameterValues`, run on a valid asset (the asset information
is available) with a Change Set holding exactly one float field of arity 1
whose parameter name resolves to a parameter of that size, issues exactly one
engine set call: a float-values set call on the node of the asset, addressed to
the float value index of that parameter and carrying the value stored at the
scratch-buffer offset of the field.  No other set call is issued. -/
theorem C2_single_float_field_is_pushed_once (env : Env) (w : World) (p : Nat)
    (AssetInfo : HAPI_AssetInfo) (ParamId : Int) (ParamInfo : HAPI_ParmInfo)
    (hasset : env.HAPI_GetAssetInfo w.AssetId = (HAPI_Result.HAPI_RESULT_SUCCESS, AssetInfo))
    (hset : w.ChangedProperties = [p])
    (hclass : (w.Objects.Properties p).Class = UPropertyClass.UFloatProperty)
    (harity : (w.Objects.Properties p).ArrayDim = 1)
    (hname : env.HAPI_GetParmIdFromName AssetInfo.nodeId
        (env.NarrowName (GetMetaData (w.Objects.Properties p).Meta "HoudiniParmName"))
      = (HAPI_Result.HAPI_RESULT_SUCCESS, ParamId))
    (hid : ParamId ≠ -1)
    (hinfo : env.HAPI_GetParameters AssetInfo.nodeId ParamId
      = (HAPI_Result.HAPI_RESULT_SUCCESS, ParamInfo))
    (hsize : ParamInfo.size = 1) :
    SetChangedParameterValues env w
      = some [Event.HAPI_SetParmFloatValues AssetInfo.nodeId
          [readU32 w.Objects.Memory (u32 (w.Objects.Properties p).Offset)]
          ParamInfo.floatValuesIndex 1] := by
  unfold SetChangedParameterValues
  rw [HOUDINI_CHECK_ERROR_RETURN_success _ _ _ _ hasset]
  simp only [hset, SetChangedParameterValuesLoop]
  rw [HOUDINI_CHECK_ERROR_RETURN_success _ _ _ _ hname]
  simp only [HOUDINI_CHECK_ERROR, hid, if_false, hinfo, PushProperty,
    hclass, harity, hsize, ReadFloatValues, Int.toNat_one, List.append_nil]
  simp [ReadFloatValues]

/-- C2 at the scenario: one `HAPI_SetParmFloatValues` for `Size` with the
pattern of 2.0, nothing for `Seed`. -/
theorem C2_single_float_field_is_pushed_once_witness :
    ScenarioEnv.HAPI_GetAssetInfo ScenarioEdited.AssetId
        = (HAPI_Result.HAPI_RESULT_SUCCESS, { nodeId := 3 })
    ∧ ScenarioEdited.ChangedProperties = [1]
    ∧ (ScenarioEdited.Objects.Properties 1).Class = UPropertyClass.UFloatProperty
    ∧ (ScenarioEdited.Objects.Properties 1).ArrayDim = 1
    ∧ ScenarioEnv.HAPI_GetParmIdFromName 3
        (ScenarioEnv.NarrowName
          (GetMetaData (ScenarioEdited.Objects.Properties 1).Meta "HoudiniParmName"))
        = (HAPI_Result.HAPI_RESULT_SUCCESS, 0)
    ∧ ScenarioEnv.HAPI_GetParameters 3 0
        = (HAPI_Result.HAPI_RESULT_SUCCESS, { size := 1, intValuesIndex := 0, floatValuesIndex := 0 })
    ∧ readU32 ScenarioEdited.Objects.Memory (u32 (ScenarioEdited.Objects.Properties 1).Offset)
        = 1073741824
    ∧ SetChangedParameterValues ScenarioEnv ScenarioEdited
        = some [Event.HAPI_SetParmFloatValues 3
            [readU32 ScenarioEdited.Objects.Memory (u32 (ScenarioEdited.Objects.Properties 1).Offset)]
            0 1] :=
  ⟨by decide, rfl, by decide, by decide, by decide, by decide, by decide,
    C2_single_float_field_is_pushed_once ScenarioEnv ScenarioEdited 1 { nodeId := 3 } 0
      { size := 1, intValuesIndex := 0, floatValuesIndex := 0 }
      (by decide) rfl (by decide) (by decide) (by decide) (by decide) (by decide) rfl⟩

/-- The result of `SetHoudiniAsset` on an asset other than the attached one. -/
theorem SetHoudiniAsset_other (env : Env) (w : World) (HoudiniAssetActor : AHoudiniAssetActor)
    (Asset : Nat) (hactor : w.HoudiniAssetActorOwner = some HoudiniAssetActor)
    (hother : some Asset ≠ w.HoudiniAsset) :
    SetHoudiniAsset env w (some Asset)
      = some (if HoudiniAssetActor.IsUsedForPreview = false ∧ w.bLoadedComponent = false then
          { w with HoudiniAsset := some Asset, bIsPreviewComponent := false,
                   HapiGUID := env.NewGuid,
                   Trace := w.Trace ++ [Event.AddTask
                     { TaskType := EHoudiniEngineTaskType.AssetInstantiation,
                       HapiGUID := env.NewGuid, Asset := some Asset,
                       ActorName := some HoudiniAssetActor.ActorLabel, AssetId := none,
                       AssetComponent := false } w.HapiGUID],
                   TimerDelegateBound := true }
        else
          { w with HoudiniAsset := some Asset,
                   bIsPreviewComponent := HoudiniAssetActor.IsUsedForPreview }) := by
  unfold SetHoudiniAsset
  simp only [hactor, hother, if_false]
  cases hprev : HoudiniAssetActor.IsUsedForPreview <;> cases hload : w.bLoadedComponent <;>
    simp [StartHoudiniTicking_eq]

/-- C3: `SetHoudiniAsset` called with an asset different from the current one
returns; if the component is neither a preview component nor a loaded component
it submits exactly one Instantiate task, under the freshly generated valid
correlation id, which becomes the id of the component, and polling is started;
otherwise it submits no task and leaves the correlation id (and the timer)
unchanged.  Called with the asset already attached it changes nothing. -/
theorem C3_attach_submits_one_instantiate_task (env : Env) (w : World)
    (HoudiniAssetActor : AHoudiniAssetActor) (Asset : Nat)
    (hactor : w.HoudiniAssetActorOwner = some HoudiniAssetActor)
    (hguid : env.NewGuid.IsValid = true) :
    SetHoudiniAsset env w w.HoudiniAsset = some w
    ∧ (some Asset ≠ w.HoudiniAsset →
        ∃ w2, SetHoudiniAsset env w (some Asset) = some w2
          ∧ (HoudiniAssetActor.IsUsedForPreview = false ∧ w.bLoadedComponent = false →
              w2.Trace = w.Trace ++ [Event.AddTask
                  { TaskType := EHoudiniEngineTaskType.AssetInstantiation,
                    HapiGUID := env.NewGuid, Asset := some Asset,
                    ActorName := some HoudiniAssetActor.ActorLabel, AssetId := none,
                    AssetComponent := false } w.HapiGUID]
              ∧ w2.HapiGUID = env.NewGuid ∧ w2.HapiGUID.IsValid = true
              ∧ w2.TimerDelegateBound = true)
          ∧ (¬ (HoudiniAssetActor.IsUsedForPreview = false ∧ w.bLoadedComponent = false) →
              w2.Trace = w.Trace ∧ w2.HapiGUID = w.HapiGUID
              ∧ w2.TimerDelegateBound = w.TimerDelegateBound)) := by
  constructor
  · unfold SetHoudiniAsset
    simp [hactor]
  · intro hother
    refine ⟨_, SetHoudiniAsset_other env w HoudiniAssetActor Asset hactor hother, ?_, ?_⟩
    · intro hc
      rw [if_pos hc]
      exact ⟨rfl, rfl, hguid, rfl⟩
    · intro hc
      rw [if_neg hc]
      exact ⟨rfl, rfl, rfl⟩

/-- C3 at the fresh component: attaching asset 50 submits one task. -/
theorem C3_attach_submits_one_instantiate_task_witness :
    FreshWorld.HoudiniAssetActorOwner = some ScenarioActor
    ∧ ScenarioEnv.NewGuid.IsValid = true
    ∧ (SetHoudiniAsset ScenarioEnv FreshWorld FreshWorld.HoudiniAsset = some FreshWorld
      ∧ (some 50 ≠ FreshWorld.HoudiniAsset →
        ∃ w2, SetHoudiniAsset ScenarioEnv FreshWorld (some 50) = some w2
          ∧ (ScenarioActor.IsUsedForPreview = false ∧ FreshWorld.bLoadedComponent = false →
              w2.Trace = FreshWorld.Trace ++ [Event.AddTask
                  { TaskType := EHoudiniEngineTaskType.AssetInstantiation,
                    HapiGUID := ScenarioEnv.NewGuid, Asset := some 50,
                    ActorName := some ScenarioActor.ActorLabel, AssetId := none,
                    AssetComponent := false } FreshWorld.HapiGUID]
              ∧ w2.HapiGUID = ScenarioEnv.NewGuid ∧ w2.HapiGUID.IsValid = true
              ∧ w2.TimerDelegateBound = true)
          ∧ (¬ (ScenarioActor.IsUsedForPreview = false ∧ FreshWorld.bLoadedComponent = false) →
              w2.Trace = FreshWorld.Trace ∧ w2.HapiGUID = FreshWorld.HapiGUID
              ∧ w2.TimerDelegateBound = FreshWorld.TimerDelegateBound))) :=
  ⟨rfl, by decide,
    C3_attach_submits_one_instantiate_task ScenarioEnv FreshWorld ScenarioActor 50 rfl
      (by decide)⟩

/-- C4, as stated, fails: the fresh component attaches asset 50, the task queue
answers `FinishedInstantiation` with the handle -1, and the next tick ends idle
(no correlation id, timer stopped, empty Change Set) with the stored asset
handle still -1, which is neither valid nor non-negative. -/
theorem C4_counterexample_success_with_invalid_handle :
    ((SetHoudiniAsset ScenarioEnv FreshWorld (some 50)).bind (fun w1 =>
        TickHoudiniComponent ScenarioEnv (EngineAnswers w1 w1.HapiGUID
          { TaskState := EHoudiniEngineTaskState.FinishedInstantiation,
            StatusText := "Finished", AssetId := -1 }))).map
      (fun w2 => (w2.HapiGUID.IsValid, w2.TimerDelegateBound, w2.ChangedProperties, w2.AssetId))
      = some (false, false, [], -1) := by
  decide

/-- C4, amended: starting from a fresh component (asset handle -1, no
correlation id, empty Change Set, no asset, not loaded), attaching a
non-preview asset leaves a valid correlation id outstanding.  For every answer
in state `FinishedInstantiation` or `FinishedCooking` polled by the next tick,
the tick returns exactly when the answer carries the handle -1, or the geometry
extraction fails, or the class replacement it runs for the relabelled actor
returns; and whenever the tick returns, the component ends it idle (no
correlation id, polling stopped) with an empty Change Set.  The stored asset
handle is the handle of the answer when that is not -1, so it is valid and
non-negative whenever the answer carries a non-negative handle; it stays -1
when the answer carries -1. -/
theorem C4_attach_then_success_reaches_idle (env1 env2 : Env) (w : World)
    (a : AHoudiniAssetActor) (Asset : Nat) (TaskInfo : FHoudiniEngineTaskInfo)
    (infos : List (FGuid × FHoudiniEngineTaskInfo))
    (hid : w.AssetId = -1) (_hguid : w.HapiGUID.IsValid = false)
    (hset : w.ChangedProperties = []) (hasset : w.HoudiniAsset = none)
    (hloaded : w.bLoadedComponent = false)
    (hactor : w.HoudiniAssetActorOwner = some a) (hprev : a.IsUsedForPreview = false)
    (hnew : env1.NewGuid.IsValid = true)
    (hstate : IsSuccessState TaskInfo.TaskState = true)
    (hanswer : RetrieveTaskInfo infos env1.NewGuid = some TaskInfo) :
    ∃ w1, SetHoudiniAsset env1 w (some Asset) = some w1
      ∧ w1.HapiGUID.IsValid = true
      ∧ ∃ a2,
        (AssignUniqueActorLabel env2
          (SetAssetId { w1 with TaskInfos := infos } TaskInfo.AssetId)).HoudiniAssetActorOwner
          = some a2
        ∧ ((∃ w2, TickHoudiniComponent env2 { w1 with TaskInfos := infos } = some w2)
          ↔ (TaskInfo.AssetId = -1 ∨ env2.GetAssetGeometry TaskInfo.AssetId = false
            ∨ (ReplaceClassInformation env2.Rebuild
                (AssignUniqueActorLabel env2
                  (SetAssetId { w1 with TaskInfos := infos } TaskInfo.AssetId))
                a2.ActorLabel ReplaceClassInformationDefault).isSome = true))
        ∧ ∀ w2, TickHoudiniComponent env2 { w1 with TaskInfos := infos } = some w2 →
          w2.HapiGUID.IsValid = false
          ∧ w2.TimerDelegateBound = false
          ∧ w2.ChangedProperties = []
          ∧ (TaskInfo.AssetId ≠ -1 → w2.AssetId = TaskInfo.AssetId)
          ∧ (0 ≤ TaskInfo.AssetId → w2.AssetId ≠ -1 ∧ 0 ≤ w2.AssetId)
          ∧ (TaskInfo.AssetId = -1 → w2.AssetId = -1) := by
  have hother : some Asset ≠ w.HoudiniAsset := by rw [hasset]; exact Option.some_ne_none _
  refine ⟨_, SetHoudiniAsset_other env1 w a Asset hactor hother, ?_, ?_⟩
  · rw [if_pos ⟨hprev, hloaded⟩]
    exact hnew
  · rw [if_pos ⟨hprev, hloaded⟩]
    have hidle : ∀ r, TickPoll env2
        { w with HoudiniAsset := some Asset, bIsPreviewComponent := false,
                 HapiGUID := env1.NewGuid,
                 Trace := w.Trace ++ [Event.AddTask
                   { TaskType := EHoudiniEngineTaskType.AssetInstantiation,
                     HapiGUID := env1.NewGuid, Asset := some Asset,
                     ActorName := some a.ActorLabel, AssetId := none,
                     AssetComponent := false } w.HapiGUID],
                 TimerDelegateBound := true, TaskInfos := infos } = some r → _ :=
      fun r hpoll => TickHoudiniComponent_success_idle env2
        { w with HoudiniAsset := some Asset, bIsPreviewComponent := false,
                 HapiGUID := env1.NewGuid,
                 Trace := w.Trace ++ [Event.AddTask
                   { TaskType := EHoudiniEngineTaskType.AssetInstantiation,
                     HapiGUID := env1.NewGuid, Asset := some Asset,
                     ActorName := some a.ActorLabel, AssetId := none,
                     AssetComponent := false } w.HapiGUID],
                 TimerDelegateBound := true, TaskInfos := infos }
        a TaskInfo hnew hanswer hstate hactor hset r hpoll
    obtain ⟨a2, hlab, hret⟩ := TickPoll_success_returns env2
      { w with HoudiniAsset := some Asset, bIsPreviewComponent := false,
               HapiGUID := env1.NewGuid,
               Trace := w.Trace ++ [Event.AddTask
                 { TaskType := EHoudiniEngineTaskType.AssetInstantiation,
                   HapiGUID := env1.NewGuid, Asset := some Asset,
                   ActorName := some a.ActorLabel, AssetId := none,
                   AssetComponent := false } w.HapiGUID],
               TimerDelegateBound := true, TaskInfos := infos }
      a TaskInfo hnew hanswer hstate hactor
    refine ⟨a2, hlab, ⟨fun hex => ?_, fun hc => ?_⟩, fun w2 htick => ?_⟩
    · obtain ⟨w2, htick⟩ := hex
      obtain ⟨r, hpoll⟩ := TickHoudiniComponent_polled env2 _ w2 htick
      exact hret.mp (by rw [hpoll]; rfl)
    · obtain ⟨r, hpoll⟩ := Option.isSome_iff_exists.mp (hret.mpr hc)
      obtain ⟨w2, htick, _⟩ := hidle r hpoll
      exact ⟨w2, htick⟩
    · obtain ⟨r, hpoll⟩ := TickHoudiniComponent_polled env2 _ w2 htick
      obtain ⟨w3, htick3, h1, h2, h3, h4⟩ := hidle r hpoll
      rw [htick] at htick3
      simp only [Option.some.injEq] at htick3
      subst htick3
      refine ⟨h1, h2, h3, ?_, ?_, ?_⟩
      · intro h
        rw [h4]
        simp only [h, ne_eq, not_false_eq_true, if_true]
      · intro h
        have hne : TaskInfo.AssetId ≠ -1 := by omega
        rw [h4]
        rw [if_pos hne]
        exact ⟨hne, h⟩
      · intro h
        rw [h4]
        simp only [h, ne_eq, not_true_eq_false, if_false]
        exact hid

/-- C4 amended, at the fresh component whose class has not been replaced: asset
50 is attached, the task queue answers `FinishedCooking` with the handle 7, the
geometry extraction succeeds and the class replacement for the table of the
scenario returns; the tick returns and the component ends it idle with the
handle 7, the generated class and the new geo. -/
theorem C4_attach_then_success_reaches_idle_witness :
    (∃ w1, SetHoudiniAsset ScenarioEnv FreshStaticWorld (some 50) = some w1
      ∧ w1.HapiGUID.IsValid = true
      ∧ ∃ w2, TickHoudiniComponent CookedEnv
            { w1 with TaskInfos :=
                [(GuidTwo, { TaskState := EHoudiniEngineTaskState.FinishedCooking,
                             StatusText := "Finished", AssetId := 7 })] } = some w2
        ∧ w2.HapiGUID.IsValid = false
        ∧ w2.TimerDelegateBound = false
        ∧ w2.ChangedProperties = []
        ∧ w2.AssetId = 7)
    ∧ ((SetHoudiniAsset ScenarioEnv FreshStaticWorld (some 50)).bind (fun w1 =>
        TickHoudiniComponent CookedEnv
          { w1 with TaskInfos :=
              [(GuidTwo, { TaskState := EHoudiniEngineTaskState.FinishedCooking,
                           StatusText := "Finished", AssetId := 7 })] })).map
        (fun w2 => (w2.Objects.PatchedClass, w2.Objects.CreatedProperties,
          w2.HoudiniAssetObjectGeos))
      = some (some 100, [102], [5]) := by
  refine ⟨?_, by decide⟩
  obtain ⟨w1, h1, h2, a2, hlab, hret, hend⟩ :=
    C4_attach_then_success_reaches_idle ScenarioEnv CookedEnv FreshStaticWorld ScenarioActor 50
      { TaskState := EHoudiniEngineTaskState.FinishedCooking, StatusText := "Finished",
        AssetId := 7 }
      [(GuidTwo, { TaskState := EHoudiniEngineTaskState.FinishedCooking,
                   StatusText := "Finished", AssetId := 7 })]
      rfl (by decide) rfl rfl rfl rfl rfl (by decide) (by decide) (by decide)
  have hw1 : w1 = (SetHoudiniAsset ScenarioEnv FreshStaticWorld (some 50)).getD FreshStaticWorld := by
    rw [h1]; rfl
  subst hw1
  have ha2 : a2 = ScenarioActor := by
    have : some a2 = some ScenarioActor := hlab.symm.trans (by decide)
    exact Option.some.inj this
  subst ha2
  obtain ⟨w2, htick⟩ := hret.mpr (Or.inr (Or.inr (by decide)))
  obtain ⟨e1, e2, e3, e4, _⟩ := hend w2 htick
  exact ⟨_, h1, h2, w2, htick, e1, e2, e3, e4 (by decide)⟩

/-- C5, as stated, fails: the component polls an aborted request while `Size`
is in the Change Set.  The tick removes the task information of the aborted
request, but it ends with a correlation id outstanding (the fresh id of the
cook request it submits in its submission step) and the timer still bound. -/
theorem C5_counterexample_error_with_pending_edit :
    IsErrorState AbortedInfo.TaskState = true
    ∧ RetrieveTaskInfo ScenarioAbortedEdited.TaskInfos ScenarioAbortedEdited.HapiGUID
        = some AbortedInfo
    ∧ (TickHoudiniComponent ScenarioEnv ScenarioAbortedEdited).map
        (fun w2 => (RetrieveTaskInfo w2.TaskInfos GuidOne, w2.HapiGUID.IsValid,
          w2.TimerDelegateBound))
      = some (none, true, true) := by
  decide

/-- C5, amended: for each of the four error task states and every component
state, the tick that consumes it removes the task information and invalidates
the consumed correlation id.  If the Change Set is empty the tick returns,
submits nothing, ends with no correlation id outstanding and stops polling.  If
the Change Set is not empty, the submission step runs in the same tick: the
tick ends with the fresh correlation id outstanding under which it submitted
one task (after the consumed id was invalidated), and polling is not stopped;
it returns whenever the requires-instantiation flag is set or the push
returns. -/
theorem C5_error_state_is_consumed (env : Env) (w : World) (a : AHoudiniAssetActor)
    (TaskInfo : FHoudiniEngineTaskInfo)
    (hactor : w.HoudiniAssetActorOwner = some a)
    (hvalid : w.HapiGUID.IsValid = true)
    (hinfo : RetrieveTaskInfo w.TaskInfos w.HapiGUID = some TaskInfo)
    (herr : IsErrorState TaskInfo.TaskState = true) :
    (w.ChangedProperties = [] →
      ∃ w2, TickHoudiniComponent env w = some w2
        ∧ RetrieveTaskInfo w2.TaskInfos w.HapiGUID = none
        ∧ w2.HapiGUID.IsValid = false
        ∧ w2.TimerDelegateBound = false
        ∧ w2.Trace = w.Trace)
    ∧ (∀ w2, TickHoudiniComponent env w = some w2 →
        RetrieveTaskInfo w2.TaskInfos w.HapiGUID = none
        ∧ (w.ChangedProperties ≠ [] →
            w2.HapiGUID = env.NewGuid
            ∧ w2.TimerDelegateBound = w.TimerDelegateBound
            ∧ ∃ calls Task Replaced,
                w2.Trace = (w.Trace ++ calls) ++ [Event.AddTask Task Replaced]
                ∧ Task.HapiGUID = env.NewGuid ∧ Replaced.IsValid = false
                ∧ ∀ e ∈ calls, e.isAddTask = false))
    ∧ ((w.bLoadedComponentRequiresInstantiation = true
          ∨ (SetChangedParameterValues env w).isSome = true) →
        ∃ w2, TickHoudiniComponent env w = some w2) := by
  have hpoll := TickPoll_error env w TaskInfo hvalid hinfo herr
  have hempty : w.ChangedProperties = [] →
      TickHoudiniComponent env w
        = some { w with TaskInfos := RemoveTaskInfo w.TaskInfos w.HapiGUID,
                        HapiGUID := w.HapiGUID.Invalidate, TimerDelegateBound := false } := by
    intro hset
    have hskip := TickHoudiniComponent_skip env w a hactor _ hpoll (Or.inr hset)
    simp only [if_true, StopHoudiniTicking_eq] at hskip
    exact hskip
  refine ⟨?_, ?_, ?_⟩
  · intro hset
    exact ⟨_, hempty hset, RetrieveTaskInfo_RemoveTaskInfo _ _,
      Invalidate_not_valid w.HapiGUID, rfl, rfl⟩
  · intro w2 h2
    by_cases hset : w.ChangedProperties = []
    · rw [hempty hset] at h2
      simp only [Option.some.injEq] at h2
      subst h2
      exact ⟨RetrieveTaskInfo_RemoveTaskInfo _ _, fun hne => absurd hset hne⟩
    · obtain ⟨a2, _, heq⟩ := TickHoudiniComponent_eq env w a hactor _ hpoll
      rw [heq] at h2
      obtain ⟨r, hr, hw2⟩ := Option.map_eq_some'.mp h2
      obtain ⟨h1, h3, h4, h5, _, calls, Task, h7, h8, h9⟩ :=
        TickSubmit_enter env a2
          { w with TaskInfos := RemoveTaskInfo w.TaskInfos w.HapiGUID,
                   HapiGUID := w.HapiGUID.Invalidate }
          true (Invalidate_not_valid w.HapiGUID) hset r hr
      simp only [h1, Bool.false_eq_true, if_false] at hw2
      subst hw2
      refine ⟨?_, fun _ => ⟨h3, h4, calls, Task, _, h7, h8,
        Invalidate_not_valid w.HapiGUID, h9⟩⟩
      rw [h5]
      exact RetrieveTaskInfo_RemoveTaskInfo _ _
  · intro hret
    apply TickHoudiniComponent_returns env w a hactor _ hpoll
    rcases hret with hret | hret
    · exact Or.inr (Or.inr (Or.inl hret))
    · exact Or.inr (Or.inr (Or.inr hret))

/-- C5 amended, at the scenario component polling an aborted request with no
edit pending. -/
theorem C5_error_state_is_consumed_witness :
    ScenarioAborted.HoudiniAssetActorOwner = some ScenarioActor
    ∧ ScenarioAborted.HapiGUID.IsValid = true
    ∧ RetrieveTaskInfo ScenarioAborted.TaskInfos ScenarioAborted.HapiGUID = some AbortedInfo
    ∧ IsErrorState AbortedInfo.TaskState = true
    ∧ ((ScenarioAborted.ChangedProperties = [] →
        ∃ w2, TickHoudiniComponent ScenarioEnv ScenarioAborted = some w2
          ∧ RetrieveTaskInfo w2.TaskInfos ScenarioAborted.HapiGUID = none
          ∧ w2.HapiGUID.IsValid = false
          ∧ w2.TimerDelegateBound = false
          ∧ w2.Trace = ScenarioAborted.Trace)
      ∧ (∀ w2, TickHoudiniComponent ScenarioEnv ScenarioAborted = some w2 →
          RetrieveTaskInfo w2.TaskInfos ScenarioAborted.HapiGUID = none
          ∧ (ScenarioAborted.ChangedProperties ≠ [] →
              w2.HapiGUID = ScenarioEnv.NewGuid
              ∧ w2.TimerDelegateBound = ScenarioAborted.TimerDelegateBound
              ∧ ∃ calls Task Replaced,
                  w2.Trace = (ScenarioAborted.Trace ++ calls) ++ [Event.AddTask Task Replaced]
                  ∧ Task.HapiGUID = ScenarioEnv.NewGuid ∧ Replaced.IsValid = false
                  ∧ ∀ e ∈ calls, e.isAddTask = false))
      ∧ ((ScenarioAborted.bLoadedComponentRequiresInstantiation = true
            ∨ (SetChangedParameterValues ScenarioEnv ScenarioAborted).isSome = true) →
          ∃ w2, TickHoudiniComponent ScenarioEnv ScenarioAborted = some w2)) :=
  ⟨rfl, by decide, by decide, by decide,
    C5_error_state_is_consumed ScenarioEnv ScenarioAborted ScenarioActor AbortedInfo rfl
      (by decide) (by decide) (by decide)⟩

/-- C6, as stated, fails: the tick of the idle scenario component (no
correlation id, empty Change Set) with its timer bound ends with no correlation
id outstanding and an empty Change Set, yet it does not cancel the timer. -/
theorem C6_counterexample_idle_tick_keeps_timer :
    ScenarioIdleTicking.HapiGUID.IsValid = false
    ∧ ScenarioIdleTicking.ChangedProperties = []
    ∧ ScenarioIdleTicking.TimerDelegateBound = true
    ∧ (TickHoudiniComponent ScenarioEnv ScenarioIdleTicking).map
        (fun w2 => (w2.HapiGUID.IsValid, w2.ChangedProperties, w2.TimerDelegateBound))
      = some (false, [], true) := by
  decide

/-- C6, amended: a tick fired by the bound timer stops polling exactly when its
poll consumed a terminal answer (a full completion, an error state, a missing
task information, or an instantiation-only completion with handle -1) and the
Change Set is empty.  Whenever it stops polling, no correlation id is
outstanding and the Change Set is empty at its end; so a tick never cancels the
timer while an id is outstanding or edits are pending.  The converse does not
hold: a tick that begins with no correlation id and an empty Change Set changes
nothing and leaves the timer bound. -/
theorem C6_tick_stops_polling_only_when_idle (env : Env) (w w2 : World)
    (h : TickHoudiniComponent env w = some w2) (hbound : w.TimerDelegateBound = true) :
    (w2.TimerDelegateBound = false
        ↔ (ConsumesTerminalAnswer w = true ∧ w.ChangedProperties = []))
    ∧ (w2.TimerDelegateBound = false →
        w2.HapiGUID.IsValid = false ∧ w2.ChangedProperties = [])
    ∧ ((w2.HapiGUID.IsValid = true ∨ w2.ChangedProperties ≠ []) →
        w2.TimerDelegateBound = true)
    ∧ (w.HapiGUID.IsValid = false → w.ChangedProperties = [] → w2 = w) := by
  obtain ⟨hend, hidle⟩ := TickHoudiniComponent_end env w w2 h
  have hiff : w2.TimerDelegateBound = false
      ↔ (ConsumesTerminalAnswer w = true ∧ w.ChangedProperties = []) := by
    rw [hend, hbound]
    simp
  have hstop : w2.TimerDelegateBound = false →
      w2.HapiGUID.IsValid = false ∧ w2.ChangedProperties = [] := by
    intro hs
    obtain ⟨h1, h2⟩ := hiff.mp hs
    exact hidle h1 h2
  refine ⟨hiff, hstop, ?_, ?_⟩
  · intro hor
    cases hb : w2.TimerDelegateBound with
    | true => rfl
    | false =>
      obtain ⟨h1, h2⟩ := hstop hb
      rcases hor with hor | hor
      · rw [h1] at hor
        exact absurd hor (by simp)
      · exact absurd h2 hor
  · intro hg hs
    obtain ⟨a, hactor⟩ := TickHoudiniComponent_owner env w w2 h
    have hpoll := TickPoll_not_valid env w hg
    have hskip := TickHoudiniComponent_skip env w a hactor _ hpoll (Or.inr hs)
    simp only [Bool.false_eq_true, if_false] at hskip
    rw [hskip] at h
    simp only [Option.some.injEq] at h
    exact h.symm

/-- C6 amended, at the scenario component polling an aborted request with no
edit pending: the tick stops the timer. -/
theorem C6_tick_stops_polling_only_when_idle_witness :
    TickHoudiniComponent ScenarioEnv ScenarioAborted = some ScenarioAbortedEnd
    ∧ ScenarioAborted.TimerDelegateBound = true
    ∧ ((ScenarioAbortedEnd.TimerDelegateBound = false
          ↔ (ConsumesTerminalAnswer ScenarioAborted = true
              ∧ ScenarioAborted.ChangedProperties = []))
      ∧ (ScenarioAbortedEnd.TimerDelegateBound = false →
          ScenarioAbortedEnd.HapiGUID.IsValid = false ∧ ScenarioAbortedEnd.ChangedProperties = [])
      ∧ ((ScenarioAbortedEnd.HapiGUID.IsValid = true ∨ ScenarioAbortedEnd.ChangedProperties ≠ []) →
          ScenarioAbortedEnd.TimerDelegateBound = true)
      ∧ (ScenarioAborted.HapiGUID.IsValid = false → ScenarioAborted.ChangedProperties = [] →
          ScenarioAbortedEnd = ScenarioAborted)) :=
  ⟨rfl, rfl,
    C6_tick_stops_polling_only_when_idle ScenarioEnv ScenarioAborted ScenarioAbortedEnd rfl rfl⟩

/-- C7, as stated, fails for `SetHoudiniAsset`: called with another asset while
the cook request `GuidOne` is outstanding, it submits an Instantiate task under
a fresh id; the id it overwrites is the valid, never invalidated `GuidOne`. -/
theorem C7_counterexample_attach_while_request_pending :
    ScenarioCooking.HapiGUID = GuidOne
    ∧ GuidOne.IsValid = true
    ∧ (SetHoudiniAsset ScenarioEnv ScenarioCooking (some 51)).map (fun w2 => w2.Trace)
      = some [Event.AddTask
          { TaskType := EHoudiniEngineTaskType.AssetInstantiation, HapiGUID := GuidTwo,
            Asset := some 51, ActorName := some "Actor", AssetId := none,
            AssetComponent := false } GuidOne] := by
  decide

/-- C7, amended: `TickHoudiniComponent` never submits a task while a
correlation id of the component is outstanding: at each of its `AddTask` calls
the previous `HapiGUID` was invalid or had been invalidated earlier in the same
tick.  `OnComponentDestroyed` does the same whenever no id is held or the task
queue still has task information for the id held (it then evicts and
invalidates it first).  `SetHoudiniAsset` makes no such check: whenever it
submits its Instantiate task, the fresh id overwrites the id the component
held, so it keeps requests serialized only when called while no id is
outstanding. -/
theorem C7_requests_are_serialized (env : Env) (w : World) :
    (∀ w2, TickHoudiniComponent env w = some w2 → SubmitsOnlyWhileIdle w.Trace w2.Trace)
    ∧ ((w.HapiGUID.IsValid = false ∨ RetrieveTaskInfo w.TaskInfos w.HapiGUID ≠ none) →
        SubmitsOnlyWhileIdle w.Trace (OnComponentDestroyed env w).Trace)
    ∧ (w.HapiGUID.IsValid = false → ∀ InHoudiniAsset w2,
        SetHoudiniAsset env w InHoudiniAsset = some w2 →
          SubmitsOnlyWhileIdle w.Trace w2.Trace)
    ∧ (∀ a Asset, w.HoudiniAssetActorOwner = some a → some Asset ≠ w.HoudiniAsset →
        a.IsUsedForPreview = false → w.bLoadedComponent = false →
        ∃ w2 Task, SetHoudiniAsset env w (some Asset) = some w2
          ∧ w2.Trace = w.Trace ++ [Event.AddTask Task w.HapiGUID]) := by
  refine ⟨fun w2 h => TickHoudiniComponent_serialized env w w2 h, ?_, ?_, ?_⟩
  · intro hpre
    unfold OnComponentDestroyed
    cases hv : w.HapiGUID.IsValid with
    | false =>
      simp only [Bool.false_eq_true, if_false]
      split
      · exact SubmitsOnlyWhileIdle_one _ _ _ hv
      · exact SubmitsOnlyWhileIdle_refl _
    | true =>
      have hne : RetrieveTaskInfo w.TaskInfos w.HapiGUID ≠ none := by
        rcases hpre with hpre | hpre
        · rw [hv] at hpre
          exact absurd hpre (by simp)
        · exact hpre
      obtain ⟨TaskInfo, hinfo⟩ := Option.ne_none_iff_exists'.mp hne
      simp only [if_true, hinfo, StopHoudiniTicking_eq]
      split
      · exact SubmitsOnlyWhileIdle_one _ _ _ (Invalidate_not_valid w.HapiGUID)
      · exact SubmitsOnlyWhileIdle_refl _
  · intro hv InHoudiniAsset w2 h
    cases ho : w.HoudiniAssetActorOwner with
    | none =>
      unfold SetHoudiniAsset at h
      rw [ho] at h
      exact absurd h (by simp)
    | some a =>
      by_cases hsame : InHoudiniAsset = w.HoudiniAsset
      · unfold SetHoudiniAsset at h
        simp only [ho, hsame, if_true, Option.some.injEq] at h
        rw [← h]
        exact SubmitsOnlyWhileIdle_refl _
      · cases InHoudiniAsset with
        | none =>
          unfold SetHoudiniAsset at h
          simp only [ho, hsame, if_false] at h
          exact absurd h (by simp)
        | some Asset =>
          rw [SetHoudiniAsset_other env w a Asset ho hsame] at h
          simp only [Option.some.injEq] at h
          rw [← h]
          split
          · exact SubmitsOnlyWhileIdle_one _ _ _ hv
          · exact SubmitsOnlyWhileIdle_refl _
  · intro a Asset ho hother hprev hload
    refine ⟨_, { TaskType := EHoudiniEngineTaskType.AssetInstantiation,
                 HapiGUID := env.NewGuid, Asset := some Asset,
                 ActorName := some a.ActorLabel, AssetId := none,
                 AssetComponent := false },
      SetHoudiniAsset_other env w a Asset ho hother, ?_⟩
    rw [if_pos ⟨hprev, hload⟩]

/-- C7 amended, at the scenario component with `Size` edited and no request in
flight. -/
theorem C7_requests_are_serialized_witness :
    (∀ w2, TickHoudiniComponent ScenarioEnv ScenarioEdited = some w2 →
        SubmitsOnlyWhileIdle ScenarioEdited.Trace w2.Trace)
    ∧ ((ScenarioEdited.HapiGUID.IsValid = false
          ∨ RetrieveTaskInfo ScenarioEdited.TaskInfos ScenarioEdited.HapiGUID ≠ none) →
        SubmitsOnlyWhileIdle ScenarioEdited.Trace
          (OnComponentDestroyed ScenarioEnv ScenarioEdited).Trace)
    ∧ (ScenarioEdited.HapiGUID.IsValid = false → ∀ InHoudiniAsset w2,
        SetHoudiniAsset ScenarioEnv ScenarioEdited InHoudiniAsset = some w2 →
          SubmitsOnlyWhileIdle ScenarioEdited.Trace w2.Trace)
    ∧ (∀ a Asset, ScenarioEdited.HoudiniAssetActorOwner = some a →
        some Asset ≠ ScenarioEdited.HoudiniAsset →
        a.IsUsedForPreview = false → ScenarioEdited.bLoadedComponent = false →
        ∃ w2 Task, SetHoudiniAsset ScenarioEnv ScenarioEdited (some Asset) = some w2
          ∧ w2.Trace = ScenarioEdited.Trace ++ [Event.AddTask Task ScenarioEdited.HapiGUID]) :=
  C7_requests_are_serialized ScenarioEnv ScenarioEdited

/-- C8, as stated, fails: the stale field `Gone` is the Change Set, no request
is in flight and the requires-instantiation flag is clear.  Its name resolves
to the parameter id -1, so the push skips it; the tick makes no set call at
all, submits the Cook task, and leaves the Change Set empty: the field left the
Change Set although its value was never pushed. -/
theorem C8_counterexample_unresolved_field_dropped :
    ScenarioGoneEdited.HapiGUID.IsValid = false
    ∧ ScenarioGoneEdited.ChangedProperties = [3]
    ∧ ScenarioGoneEdited.bLoadedComponentRequiresInstantiation = false
    ∧ ResolveParmId ScenarioEnv ScenarioGoneEdited.Objects 3 3
        = (HAPI_Result.HAPI_RESULT_SUCCESS, -1)
    ∧ (TickHoudiniComponent ScenarioEnv ScenarioGoneEdited).map
        (fun w2 => (w2.Trace, w2.ChangedProperties))
      = some ([Event.AddTask
          { TaskType := EHoudiniEngineTaskType.AssetCooking, HapiGUID := GuidTwo,
            Asset := none, ActorName := some "Actor", AssetId := none,
            AssetComponent := true } GuidZero], []) := by
  decide

/-- C8, amended: for every tick that reaches the submission step with no
correlation id outstanding, a non-empty Change Set and the
requires-instantiation flag clear, and whose push returns: the push runs over
the Change Set before the Cook task is submitted (the trace grows by the set
calls of the push followed by the Cook task), exactly one task, a Cook task, is
submitted, under the fresh valid correlation id, and the Change Set is empty
afterwards.  When the asset information is available and every name lookup
succeeds, the set calls are the pushes of the fields whose name resolves to a
parameter, in the order of the Change Set, each of them made; a field whose
name resolves to the id -1 is skipped and leaves the Change Set without having
been pushed. -/
theorem C8_cook_submission_pushes_then_submits (env : Env) (w : World) (a : AHoudiniAssetActor)
    (calls : List Event) (polled : World × Bool)
    (hactor : w.HoudiniAssetActorOwner = some a)
    (hpoll : TickPoll env w = some polled)
    (hguid : polled.1.HapiGUID.IsValid = false)
    (hset : polled.1.ChangedProperties ≠ [])
    (hflag : polled.1.bLoadedComponentRequiresInstantiation = false)
    (hnew : env.NewGuid.IsValid = true)
    (hpush : SetChangedParameterValues env polled.1 = some calls) :
    ∃ w2 a2, TickHoudiniComponent env w = some w2
      ∧ polled.1.HoudiniAssetActorOwner = some a2
      ∧ w2.Trace = (w.Trace ++ calls) ++ [Event.AddTask
          { TaskType := EHoudiniEngineTaskType.AssetCooking, HapiGUID := env.NewGuid,
            Asset := none, ActorName := some a2.ActorLabel, AssetId := none,
            AssetComponent := true } polled.1.HapiGUID]
      ∧ (∀ e ∈ calls, e.isAddTask = false)
      ∧ w2.HapiGUID = env.NewGuid ∧ w2.HapiGUID.IsValid = true
      ∧ w2.ChangedProperties = []
      ∧ (∀ AssetInfo,
          env.HAPI_GetAssetInfo polled.1.AssetId
            = (HAPI_Result.HAPI_RESULT_SUCCESS, AssetInfo) →
          (∀ p ∈ w.ChangedProperties,
            (ResolveParmId env polled.1.Objects AssetInfo.nodeId p).1
              = HAPI_Result.HAPI_RESULT_SUCCESS) →
          calls = PushesOfResolvedFields env polled.1.Objects AssetInfo.nodeId
                    w.ChangedProperties
          ∧ ∀ p ∈ w.ChangedProperties,
              (ResolveParmId env polled.1.Objects AssetInfo.nodeId p).2 ≠ -1 →
              (PushOfField env polled.1.Objects AssetInfo.nodeId p).isSome = true) := by
  obtain ⟨a2, ha2, heq⟩ := TickHoudiniComponent_eq env w a hactor polled hpoll
  rw [TickSubmit_cook env a2 _ _ hguid hset hflag, hpush] at heq
  simp only [Option.map_some', Bool.false_eq_true, if_false] at heq
  refine ⟨_, a2, heq, ha2, ?_, SetChangedParameterValues_no_AddTask env _ calls hpush,
    rfl, hnew, rfl, ?_⟩
  · show (polled.1.Trace ++ calls) ++ _ = _
    rw [TickPoll_Trace env w polled hpoll]
  · intro AssetInfo hasset hres
    unfold SetChangedParameterValues at hpush
    rw [hasset] at hpush
    simp only [TickPoll_ChangedProperties env w polled hpoll] at hpush
    exact SetChangedParameterValuesLoop_resolved env _ _ _ calls hres hpush

/-- C8 amended, at the scenario: `Size` is in the Change Set, the poll leaves
the component as it is, the push sends the value 2.0 of `Size`, then the Cook
task is submitted. -/
theorem C8_cook_submission_pushes_then_submits_witness :
    ScenarioEdited.HoudiniAssetActorOwner = some ScenarioActor
    ∧ TickPoll ScenarioEnv ScenarioEdited = some (ScenarioEdited, false)
    ∧ ScenarioEdited.HapiGUID.IsValid = false
    ∧ ScenarioEdited.ChangedProperties ≠ []
    ∧ ScenarioEdited.bLoadedComponentRequiresInstantiation = false
    ∧ ScenarioEnv.NewGuid.IsValid = true
    ∧ SetChangedParameterValues ScenarioEnv ScenarioEdited
        = some [Event.HAPI_SetParmFloatValues 3 [1073741824] 0 1]
    ∧ ∃ w2 a2, TickHoudiniComponent ScenarioEnv ScenarioEdited = some w2
      ∧ ScenarioEdited.HoudiniAssetActorOwner = some a2
      ∧ w2.Trace = (ScenarioEdited.Trace ++ [Event.HAPI_SetParmFloatValues 3 [1073741824] 0 1])
          ++ [Event.AddTask
            { TaskType := EHoudiniEngineTaskType.AssetCooking, HapiGUID := ScenarioEnv.NewGuid,
              Asset := none, ActorName := some a2.ActorLabel, AssetId := none,
              AssetComponent := true } ScenarioEdited.HapiGUID]
      ∧ (∀ e ∈ [Event.HAPI_SetParmFloatValues 3 [1073741824] 0 1], e.isAddTask = false)
      ∧ w2.HapiGUID = ScenarioEnv.NewGuid ∧ w2.HapiGUID.IsValid = true
      ∧ w2.ChangedProperties = []
      ∧ (∀ AssetInfo,
          ScenarioEnv.HAPI_GetAssetInfo ScenarioEdited.AssetId
            = (HAPI_Result.HAPI_RESULT_SUCCESS, AssetInfo) →
          (∀ p ∈ ScenarioEdited.ChangedProperties,
            (ResolveParmId ScenarioEnv ScenarioEdited.Objects
              AssetInfo.nodeId p).1 = HAPI_Result.HAPI_RESULT_SUCCESS) →
          [Event.HAPI_SetParmFloatValues 3 [1073741824] 0 1]
            = PushesOfResolvedFields ScenarioEnv ScenarioEdited.Objects
                AssetInfo.nodeId ScenarioEdited.ChangedProperties
          ∧ ∀ p ∈ ScenarioEdited.ChangedProperties,
              (ResolveParmId ScenarioEnv ScenarioEdited.Objects
                AssetInfo.nodeId p).2 ≠ -1 →
              (PushOfField ScenarioEnv ScenarioEdited.Objects
                AssetInfo.nodeId p).isSome = true) :=
  ⟨rfl, TickPoll_not_valid ScenarioEnv ScenarioEdited (by decide), by decide, by decide,
    by decide, by decide, by decide,
    C8_cook_submission_pushes_then_submits ScenarioEnv ScenarioEdited ScenarioActor
      [Event.HAPI_SetParmFloatValues 3 [1073741824] 0 1] (ScenarioEdited, false) rfl
      (TickPoll_not_valid ScenarioEnv ScenarioEdited (by decide)) (by decide) (by decide)
      (by decide) (by decide) (by decide)⟩

/-- C9: `OnComponentDestroyed` on a component that holds an asset handle `h`
other than -1 submits exactly one task, a Delete task carrying `h` under the
fresh correlation id, and the stored handle becomes -1; on a component whose
handle is -1 it submits nothing and the handle stays -1. -/
theorem C9_destroy_submits_delete_iff_handle_held (env : Env) (w : World) :
    (w.AssetId ≠ -1 →
      ∃ Replaced, (OnComponentDestroyed env w).Trace
          = w.Trace ++ [Event.AddTask
              { TaskType := EHoudiniEngineTaskType.AssetDeletion, HapiGUID := env.NewGuid,
                Asset := none, ActorName := none, AssetId := some w.AssetId,
                AssetComponent := false } Replaced]
        ∧ (OnComponentDestroyed env w).AssetId = -1)
    ∧ (w.AssetId = -1 →
        (OnComponentDestroyed env w).Trace = w.Trace
        ∧ (OnComponentDestroyed env w).AssetId = -1) := by
  constructor
  · intro hne
    unfold OnComponentDestroyed
    cases hv : w.HapiGUID.IsValid with
    | false => exact ⟨w.HapiGUID, by simp [hne, ClearGeos], by simp [hne, ClearGeos]⟩
    | true =>
      cases hinfo : RetrieveTaskInfo w.TaskInfos w.HapiGUID with
      | none => exact ⟨w.HapiGUID, by simp [hne, ClearGeos], by simp [hne, ClearGeos]⟩
      | some TaskInfo =>
        exact ⟨w.HapiGUID.Invalidate, by simp [hne, ClearGeos, StopHoudiniTicking_eq],
          by simp [hne, ClearGeos, StopHoudiniTicking_eq]⟩
  · intro he
    unfold OnComponentDestroyed
    cases hv : w.HapiGUID.IsValid with
    | false => simp [he, ClearGeos]
    | true =>
      cases hinfo : RetrieveTaskInfo w.TaskInfos w.HapiGUID with
      | none => simp [he, ClearGeos]
      | some TaskInfo => simp [he, ClearGeos, StopHoudiniTicking_eq]

/-- C9 at the scenario component, which holds the asset handle 7. -/
theorem C9_destroy_submits_delete_iff_handle_held_witness :
    (ScenarioWorld.AssetId ≠ -1 →
      ∃ Replaced, (OnComponentDestroyed ScenarioEnv ScenarioWorld).Trace
          = ScenarioWorld.Trace ++ [Event.AddTask
              { TaskType := EHoudiniEngineTaskType.AssetDeletion,
                HapiGUID := ScenarioEnv.NewGuid, Asset := none, ActorName := none,
                AssetId := some ScenarioWorld.AssetId, AssetComponent := false } Replaced]
        ∧ (OnComponentDestroyed ScenarioEnv ScenarioWorld).AssetId = -1)
    ∧ (ScenarioWorld.AssetId = -1 →
        (OnComponentDestroyed ScenarioEnv ScenarioWorld).Trace = ScenarioWorld.Trace
        ∧ (OnComponentDestroyed ScenarioEnv ScenarioWorld).AssetId = -1) :=
  C9_destroy_submits_delete_iff_handle_held ScenarioEnv ScenarioWorld

/-- C10, the defect: a loaded component has `Size` edited, its first tick
submits the instantiation without cooking, and the task queue answers
`FinishedInstantiationWithoutCooking` with the invalid handle -1.  The tick
that polls this answer stores -1 and sets `bStopTicking`, but then enters the
submission step: it submits a Cook task under a fresh correlation id and leaves
the timer bound, where the claim (and the comment in the code) has it stop
polling and submit nothing. -/
theorem C10_invalid_handle_still_submits_cook :
    (((PostEditChangeProperty LoadedWorld EditSize).bind
        (fun w1 => TickHoudiniComponent ScenarioEnv w1)).bind
        (fun w2 => TickHoudiniComponent ScenarioEnvNext
          (EngineAnswers w2 w2.HapiGUID InvalidHandleInfo))).map
      (fun w3 => (w3.AssetId, w3.TimerDelegateBound, w3.HapiGUID.IsValid, w3.ChangedProperties,
        w3.Trace))
      = some (-1, true, true, [],
          [Event.AddTask
            { TaskType := EHoudiniEngineTaskType.AssetInstantiationWithoutCooking,
              HapiGUID := GuidTwo, Asset := some 50, ActorName := some "Actor",
              AssetId := none, AssetComponent := false } GuidZero,
           Event.AddTask
            { TaskType := EHoudiniEngineTaskType.AssetCooking, HapiGUID := GuidOne,
              Asset := none, ActorName := some "Actor", AssetId := none,
              AssetComponent := true } GuidZero]) := by
  decide

theorem GetMetaData_SetMetaData_same (m : List (String × String)) (Key Value : String) :
    GetMetaData (SetMetaData m Key Value) Key = Value := by
  unfold GetMetaData SetMetaData
  simp

theorem SameTrackingState_refl (w : World) : SameTrackingState w w :=
  ⟨rfl, fun _ => rfl, rfl, rfl⟩

/-- An edit event that names a member property and is not accepted returns
with the component as it was. -/
theorem PostEditChangeProperty_rejected (w : World) (e : FPropertyChangedEvent)
    (hm : e.MemberProperty ≠ none) (hrej : AcceptedEdit w e = false) :
    PostEditChangeProperty w e = some w := by
  unfold PostEditChangeProperty
  unfold AcceptedEdit at hrej
  cases hp : e.MemberProperty with
  | none => exact absurd hp hm
  | some p =>
    simp only [hp] at hrej ⊢
    by_cases hcat : GetMetaData (w.Objects.Properties p).Meta "Category" = "HoudiniProperties"
    · simp only [hcat, decide_True, Bool.true_and, Bool.not_eq_false', Bool.and_eq_true,
        decide_eq_true_eq, IsColorProperty] at hrej
      simp only [hcat, ne_eq, not_true_eq_false, if_false]
      rw [if_pos ⟨hrej.1, hrej.2.1, hrej.2.2⟩]
    · simp only [ne_eq, hcat, not_false_eq_true, if_true]

/-- C11: `PostEditChangeProperty` returns with the component unchanged (and so
with the Change Set, the changed marks, the requires-instantiation flag and the
poll timer unchanged) on every edit event whose member property is outside the
category `HoudiniProperties` or that is an interactive change of a colour
field; hence whenever a call returns with any part of the tracking state
changed, the event was an accepted one. -/
theorem C11_only_accepted_edits_change_tracking_state (w : World)
    (e : FPropertyChangedEvent) :
    (e.MemberProperty ≠ none → AcceptedEdit w e = false → PostEditChangeProperty w e = some w)
    ∧ (∀ w2, PostEditChangeProperty w e = some w2 → ¬ SameTrackingState w w2
        → AcceptedEdit w e = true) := by
  refine ⟨PostEditChangeProperty_rejected w e, ?_⟩
  intro w2 h hchanged
  by_contra hacc
  have hrej : AcceptedEdit w e = false := by simpa using hacc
  have hm : e.MemberProperty ≠ none := by
    intro hnone
    unfold PostEditChangeProperty at h
    simp [hnone] at h
  rw [PostEditChangeProperty_rejected w e hm hrej] at h
  cases h
  exact hchanged (SameTrackingState_refl w)

/-- C11 at the scenario component: an edit of a property of the static class,
which is in category `Rendering`, changes nothing. -/
theorem C11_only_accepted_edits_change_tracking_state_witness :
    EditNative.MemberProperty ≠ none ∧ AcceptedEdit ScenarioWorld EditNative = false
      ∧ PostEditChangeProperty ScenarioWorld EditNative = some ScenarioWorld :=
  ⟨by decide, by decide,
    (C11_only_accepted_edits_change_tracking_state ScenarioWorld EditNative).1 (by decide)
      (by decide)⟩

/-- C12, the counterexample: on the component loaded from storage (asset handle
-1, flag clear) the first accepted edit, of `Size`, sets the
requires-instantiation flag and is also treated as an ordinary edit: `Size` is
marked changed and inserted into the Change Set, and the timer is started. -/
theorem C12_counterexample_first_edit_is_recorded :
    LoadedWorld.bLoadedComponent = true ∧ LoadedWorld.AssetId = -1
    ∧ LoadedWorld.bLoadedComponentRequiresInstantiation = false
    ∧ LoadedWorld.ChangedProperties = []
    ∧ AcceptedEdit LoadedWorld EditSize = true
    ∧ (PostEditChangeProperty LoadedWorld EditSize).map
        (fun w => (w.bLoadedComponentRequiresInstantiation, w.ChangedProperties,
          GetMetaData (w.Objects.Properties 1).Meta "HoudiniPropertyChanged",
          w.TimerDelegateBound))
      = some (true, [1], "1", true) := by
  decide

/-- C12, amended: for a component loaded from storage that has no asset handle
and whose requires-instantiation flag is clear, an accepted edit event sets the
flag in addition to being treated as an ordinary edit: the edited field is
marked changed, it is inserted into the Change Set, and the poll timer is
started. -/
theorem C12_first_edit_sets_flag_and_is_recorded (w : World) (e : FPropertyChangedEvent)
    (p : Nat) (hp : e.MemberProperty = some p) (hacc : AcceptedEdit w e = true)
    (hloaded : w.bLoadedComponent = true) (hid : w.AssetId = -1)
    (hflag : w.bLoadedComponentRequiresInstantiation = false) :
    ∃ w2, PostEditChangeProperty w e = some w2
      ∧ w2.bLoadedComponentRequiresInstantiation = true
      ∧ GetMetaData (w2.Objects.Properties p).Meta "HoudiniPropertyChanged" = "1"
      ∧ w2.ChangedProperties = TSetAdd w.ChangedProperties p
      ∧ p ∈ w2.ChangedProperties
      ∧ w2.TimerDelegateBound = true := by
  unfold AcceptedEdit at hacc
  simp only [hp, Bool.and_eq_true, decide_eq_true_eq, Bool.not_eq_true', Bool.and_eq_false_iff,
    decide_eq_false_iff_not, IsColorProperty] at hacc
  obtain ⟨hcat, hcol⟩ := hacc
  have hnot : ¬ (e.ChangeType = EPropertyChangeType.Interactive
      ∧ (w.Objects.Properties p).Class = UPropertyClass.UStructProperty
      ∧ w.Objects.ScriptStructColor = (w.Objects.Properties p).Struct) := by
    rintro ⟨h1, h2, h3⟩
    rcases hcol with hcol | hcol | hcol
    · exact hcol h1
    · exact hcol h2
    · exact hcol h3
  unfold PostEditChangeProperty
  simp only [hp, hcat, ne_eq, not_true_eq_false, if_false, hloaded, hid, hflag, decide_True,
    Bool.and_self, Bool.not_false, if_true]
  rw [if_neg hnot]
  refine ⟨_, rfl, ?_, ?_, ?_, ?_, ?_⟩
  · simp [StartHoudiniTicking_eq]
  · simp [StartHoudiniTicking_eq, GetMetaData_SetMetaData_same]
  · simp [StartHoudiniTicking_eq]
  · simp only [StartHoudiniTicking_eq]
    exact (TSetAdd_mem _ _ _).2 (Or.inr rfl)
  · simp [StartHoudiniTicking_eq]

/-- C12 amended, at the component loaded from storage and the edit of `Size`. -/
theorem C12_first_edit_sets_flag_and_is_recorded_witness :
    ∃ w2, PostEditChangeProperty LoadedWorld EditSize = some w2
      ∧ w2.bLoadedComponentRequiresInstantiation = true
      ∧ GetMetaData (w2.Objects.Properties 1).Meta "HoudiniPropertyChanged" = "1"
      ∧ w2.ChangedProperties = TSetAdd LoadedWorld.ChangedProperties 1
      ∧ 1 ∈ w2.ChangedProperties
      ∧ w2.TimerDelegateBound = true :=
  C12_first_edit_sets_flag_and_is_recorded LoadedWorld EditSize 1 (by decide) (by decide)
    (by decide) (by decide) (by decide)

/-- A field whose name resolves to the id -1 is passed over by the loop of the
push: the loop over a Change Set with the field is the loop over the Change Set
without it. -/
theorem SetChangedParameterValuesLoop_skip (env : Env) (r : Reflection) (nodeId : Int)
    (p : Nat) (After : List Nat)
    (hfail : ResolveParmId env r nodeId p = (HAPI_Result.HAPI_RESULT_SUCCESS, -1)) :
    ∀ Before : List Nat,
      SetChangedParameterValuesLoop env r nodeId (Before ++ p :: After)
        = SetChangedParameterValuesLoop env r nodeId (Before ++ After) := by
  intro Before
  induction Before with
  | nil =>
    simp only [List.nil_append, SetChangedParameterValuesLoop]
    unfold ResolveParmId at hfail
    rw [HOUDINI_CHECK_ERROR_RETURN_success _ _ _ _ hfail]
    simp
  | cons q B ih =>
    simp only [List.cons_append, SetChangedParameterValuesLoop]
    have ih2 : SetChangedParameterValuesLoop env r nodeId (B.append (p :: After))
        = SetChangedParameterValuesLoop env r nodeId (B.append After) := ih
    rw [ih2]

/-- The loop of the push returns when every name lookup succeeds and the push of
every field that resolves returns. -/
theorem SetChangedParameterValuesLoop_returns (env : Env) (r : Reflection) (nodeId : Int) :
    ∀ ps : List Nat,
      (∀ q ∈ ps, (ResolveParmId env r nodeId q).1 = HAPI_Result.HAPI_RESULT_SUCCESS
        ∧ ((ResolveParmId env r nodeId q).2 ≠ -1 →
            (PushOfField env r nodeId q).isSome = true)) →
      ∃ calls, SetChangedParameterValuesLoop env r nodeId ps = some calls := by
  intro ps
  induction ps with
  | nil => intro _; exact ⟨[], rfl⟩
  | cons q rest ih =>
    intro h
    obtain ⟨hq, hpush⟩ := h q (List.mem_cons_self q rest)
    obtain ⟨more, hmore⟩ := ih (fun x hx => h x (List.mem_cons_of_mem q hx))
    have hpair : env.HAPI_GetParmIdFromName nodeId
        (env.NarrowName (GetMetaData (r.Properties q).Meta "HoudiniParmName"))
        = (HAPI_Result.HAPI_RESULT_SUCCESS, (ResolveParmId env r nodeId q).2) := by
      unfold ResolveParmId at hq ⊢
      rw [← hq]
    simp only [SetChangedParameterValuesLoop]
    rw [HOUDINI_CHECK_ERROR_RETURN_success _ _ _ _ hpair]
    simp only [HOUDINI_CHECK_ERROR]
    by_cases hid : (ResolveParmId env r nodeId q).2 = -1
    · simp only [hid, if_true]
      exact ⟨more, hmore⟩
    · simp only [hid, if_false]
      obtain ⟨first, hfirst⟩ := Option.isSome_iff_exists.mp (hpush hid)
      unfold PushOfField at hfirst
      rw [hfirst, hmore]
      exact ⟨first ++ more, rfl⟩

/-- C19: in `SetChangedParameterValues` on an asset whose information is
available, a field of the Change Set whose parameter name resolves to no
parameter (the lookup answers the id -1) is skipped, and that field alone: the
push is the push of the Change Set without the field.  When every lookup
answers, the set calls made are the pushes of the other fields whose name
resolves, in the order of the Change Set, each of them made; and the push
returns whenever the push of each of those fields returns. -/
theorem C19_unresolved_field_alone_is_skipped (env : Env) (w : World) (Before After : List Nat)
    (p : Nat) (AssetInfo : HAPI_AssetInfo)
    (hasset : env.HAPI_GetAssetInfo w.AssetId = (HAPI_Result.HAPI_RESULT_SUCCESS, AssetInfo))
    (hsplit : w.ChangedProperties = Before ++ p :: After)
    (hfail : ResolveParmId env w.Objects AssetInfo.nodeId p
      = (HAPI_Result.HAPI_RESULT_SUCCESS, -1)) :
    SetChangedParameterValues env w
      = SetChangedParameterValues env { w with ChangedProperties := Before ++ After }
    ∧ (∀ calls, SetChangedParameterValues env w = some calls →
        (∀ q ∈ Before ++ After,
          (ResolveParmId env w.Objects AssetInfo.nodeId q).1
            = HAPI_Result.HAPI_RESULT_SUCCESS) →
        calls = PushesOfResolvedFields env w.Objects AssetInfo.nodeId (Before ++ After)
        ∧ ∀ q ∈ Before ++ After,
            (ResolveParmId env w.Objects AssetInfo.nodeId q).2 ≠ -1 →
            (PushOfField env w.Objects AssetInfo.nodeId q).isSome = true)
    ∧ ((∀ q ∈ Before ++ After,
          (ResolveParmId env w.Objects AssetInfo.nodeId q).1 = HAPI_Result.HAPI_RESULT_SUCCESS
          ∧ ((ResolveParmId env w.Objects AssetInfo.nodeId q).2 ≠ -1 →
              (PushOfField env w.Objects AssetInfo.nodeId q).isSome = true)) →
        ∃ calls, SetChangedParameterValues env w = some calls) := by
  have hloop : SetChangedParameterValues env w
      = SetChangedParameterValuesLoop env w.Objects AssetInfo.nodeId (Before ++ After) := by
    unfold SetChangedParameterValues
    rw [HOUDINI_CHECK_ERROR_RETURN_success _ _ _ _ hasset, hsplit]
    exact SetChangedParameterValuesLoop_skip env w.Objects AssetInfo.nodeId p After hfail Before
  refine ⟨?_, fun calls hcalls hres => ?_, fun hall => ?_⟩
  · rw [hloop]
    unfold SetChangedParameterValues
    rw [HOUDINI_CHECK_ERROR_RETURN_success _ _ _ _ hasset]
  · rw [hloop] at hcalls
    exact SetChangedParameterValuesLoop_resolved env _ _ _ calls hres hcalls
  · rw [hloop]
    exact SetChangedParameterValuesLoop_returns env _ _ _ hall

/-- C19 at the scenario: the Change Set holds the stale field `Gone`, whose name
resolves to the id -1, and then `Size`.  The push skips `Gone` and sends the
value of `Size`. -/
theorem C19_unresolved_field_alone_is_skipped_witness :
    ScenarioGoneSizeEdited.ChangedProperties = [3, 1]
    ∧ ResolveParmId ScenarioEnv ScenarioGoneSizeEdited.Objects 3 3
        = (HAPI_Result.HAPI_RESULT_SUCCESS, -1)
    ∧ SetChangedParameterValues ScenarioEnv ScenarioGoneSizeEdited
        = SetChangedParameterValues ScenarioEnv
            { ScenarioGoneSizeEdited with ChangedProperties := [1] }
    ∧ SetChangedParameterValues ScenarioEnv ScenarioGoneSizeEdited
        = some [Event.HAPI_SetParmFloatValues 3 [1073741824] 0 1] :=
  ⟨rfl, by decide,
    (C19_unresolved_field_alone_is_skipped ScenarioEnv ScenarioGoneSizeEdited [] [1] 3
      { nodeId := 3 } (by decide) rfl (by decide)).1,
    by decide⟩

/-- C18, the defect: the engine supplies the values 10 and 20 for the integer
parameter `pair` and 1 and 0 for the toggle parameter `flags`, both of arity 2.
After the rebuild the field of `pair` has arity 2 at offset 1000 and the field
of `flags` arity 2 at offset 1008, but every value went through the same
pointer: the first slot of `pair` holds the last value, 20, its second slot
still holds the zero of the empty buffer, and the first slot of `flags` holds
the last value, false.  Pushing the unedited fields sends 20, 0 for `pair` and
0, 0 for `flags`. -/
theorem C18_values_of_an_array_share_one_slot :
    (FetchParameters PairEnv 7).map (fun f => f.map (fun v => v.ParmValuesIntegers))
      = some (some [10, 20, 1, 0])
    ∧ (ReplaceClassInformation PairEnv StaticWorld "Actor" true).map
        (fun w => (w.Objects.CreatedProperties,
          (w.Objects.Properties 101).Class, (w.Objects.Properties 101).ArrayDim,
          (w.Objects.Properties 101).Offset))
      = some ([101, 102], UPropertyClass.UIntProperty, 2, 1000)
    ∧ (ReplaceClassInformation PairEnv StaticWorld "Actor" true).map
        (fun w => ((w.Objects.Properties 102).Class, (w.Objects.Properties 102).ArrayDim,
          (w.Objects.Properties 102).Offset))
      = some (UPropertyClass.UBoolProperty, 2, 1008)
    ∧ (ReplaceClassInformation PairEnv StaticWorld "Actor" true).map
        (fun w => (ReadIntValues w.Objects.Memory 1000 2, ReadBoolValues w.Objects.Memory 1008 2))
      = some ([20, 0], [0, 0])
    ∧ (ReplaceClassInformation PairEnv StaticWorld "Actor" true).bind
        (fun w => SetChangedParameterValues PairPushEnv { w with ChangedProperties := [101, 102] })
      = some [Event.HAPI_SetParmIntValues 3 [20, 0] 0 2,
              Event.HAPI_SetParmIntValues 3 [0, 0] 2 2] := by
  decide

/-- C20, the defect: the string parameter `choice` has the choices `a` and `b`,
labelled `Label A` and `Label B`, and its current value is `b`.  The rebuild
creates one enumeration field whose byte holds index 1 and whose enum stores
`b` as the `HoudiniName` of entry 1.  Pushing that field sends, through the
string set call, the text of `GetEnumText`, which is the display label
`Label B` and not the token `b`; the name of the entry, the other text the
host can answer, is made from the label as well. -/
theorem C20_string_choice_sends_display_label :
    (ReplaceClassInformation ChoiceEnv StaticWorld "Actor" true).map
        (fun w => (w.Objects.CreatedProperties,
          (w.Objects.Properties 102).Class, (w.Objects.Properties 102).Enum,
          HasMetaData (w.Objects.Properties 102).Meta "HoudiniStringChoiceList",
          readByte w.Objects.Memory (w.Objects.Properties 102).Offset))
      = some ([102], UPropertyClass.UByteProperty, some 101, true, 1)
    ∧ (ReplaceClassInformation ChoiceEnv StaticWorld "Actor" true).map
        (fun w => ((w.Objects.Enums 101).GetMetaData "HoudiniName" 1,
          (w.Objects.Enums 101).GetMetaData "DisplayName" 1,
          (w.Objects.Enums 101).GetEnumName 1))
      = some ("b", "Label B", "enum_HoudiniAssetComponent_Actor_0_choice_value_Label B")
    ∧ (ReplaceClassInformation ChoiceEnv StaticWorld "Actor" true).bind
        (fun w => SetChangedParameterValues (ChoicePushEnv w.Objects)
          { w with ChangedProperties := [102] })
      = some [Event.HAPI_SetParmStringValue 3 "Label B" 0 0] := by
  decide

theorem Evolves_refl (r : Reflection) (ps : List Nat) : Evolves r r ps :=
  { Classes := rfl, PatchedClass := rfl, Counter := rfl, Class := rfl, StaticClass := rfl,
    SaveWorldDelegates := rfl, CreatedProperties := rfl, CreatedFrom := rfl,
    Named := fun _ h _ => h, Next := Nat.le_refl _, Properties := fun _ _ _ => rfl,
    Registry := fun h => h }

theorem Evolves_trans {r r1 r2 : Reflection} {ps qs : List Nat} (h1 : Evolves r r1 ps)
    (h2 : Evolves r1 r2 qs) : Evolves r r2 (ps ++ qs) :=
  { Classes := h2.Classes.trans h1.Classes
    PatchedClass := h2.PatchedClass.trans h1.PatchedClass
    Counter := h2.Counter.trans h1.Counter
    Class := h2.Class.trans h1.Class
    StaticClass := h2.StaticClass.trans h1.StaticClass
    SaveWorldDelegates := h2.SaveWorldDelegates.trans h1.SaveWorldDelegates
    CreatedProperties := h2.CreatedProperties.trans h1.CreatedProperties
    CreatedFrom := h2.CreatedFrom.trans h1.CreatedFrom
    Named := fun e he hk => h1.Named e (h2.Named e he hk) hk
    Next := Nat.le_trans h1.Next h2.Next
    Properties := fun q hq hn => by
      rw [h2.Properties q (Nat.lt_of_lt_of_le hq h1.Next) (fun hm => hn (List.mem_append_right _ hm)),
        h1.Properties q hq (fun hm => hn (List.mem_append_left _ hm))]
    Registry := fun h => h2.Registry (h1.Registry h) }

theorem Evolves_mono {r r2 : Reflection} {ps qs : List Nat} (h : Evolves r r2 ps)
    (hsub : ∀ q ∈ ps, q ∈ qs) : Evolves r r2 qs :=
  { h with Properties := fun q hq hn => h.Properties q hq (fun hm => hn (hsub q hm)) }

theorem SetProperty_Properties (r : Reflection) (p q : Nat) (f : UProperty → UProperty) :
    (SetProperty r p f).Properties q = if q = p then f (r.Properties p) else r.Properties q := by
  unfold SetProperty
  by_cases h : q = p
  · subst h; simp
  · simp [Function.update_noteq h, h]

theorem SetProperty_Properties_same (r : Reflection) (p : Nat) (f : UProperty → UProperty) :
    (SetProperty r p f).Properties p = f (r.Properties p) := by
  rw [SetProperty_Properties, if_pos rfl]

theorem SetProperty_Properties_ne (r : Reflection) (p q : Nat) (f : UProperty → UProperty)
    (h : q ≠ p) : (SetProperty r p f).Properties q = r.Properties q := by
  rw [SetProperty_Properties, if_neg h]

/-- An assignment to the members of one property keeps the named objects in
order when the property still has the class, and for a struct property the one
element, it is registered with. -/
theorem Evolves_SetProperty (r : Reflection) (p : Nat) (f : UProperty → UProperty)
    (h : RegistryOk r → ∀ e ∈ r.Named, e.Address = p → ∀ c, e.Kind = UObjectKind.Property c →
      (f (r.Properties p)).Class = c
      ∧ (c = UPropertyClass.UStructProperty → (f (r.Properties p)).ArrayDim = 1)) :
    Evolves r (SetProperty r p f) [p] :=
  { Classes := rfl, PatchedClass := rfl, Counter := rfl, Class := rfl, StaticClass := rfl,
    SaveWorldDelegates := rfl, CreatedProperties := rfl, CreatedFrom := rfl,
    Named := fun _ he _ => he, Next := Nat.le_refl _,
    Properties := fun q _ hn => SetProperty_Properties_ne r p q f (fun hq => hn (by simp [hq])),
    Registry := fun hok e he => by
      have hold := hok e he
      refine ⟨hold.1, fun c hc => ?_⟩
      by_cases hp : e.Address = p
      · rw [hp, SetProperty_Properties_same]
        exact h hok e he hp c hc
      · rw [SetProperty_Properties_ne r p e.Address f hp]
        exact hold.2 c hc }

/-- The same for an assignment that leaves the class and the number of
elements of the property as they are. -/
theorem Evolves_SetProperty_keep (r : Reflection) (p : Nat) (f : UProperty → UProperty)
    (hclass : ∀ P, (f P).Class = P.Class) (harr : ∀ P, (f P).ArrayDim = P.ArrayDim) :
    Evolves r (SetProperty r p f) [p] :=
  Evolves_SetProperty r p f (fun hok e he hp c hc => by
    have hold := (hok e he).2 c hc
    rw [hp] at hold
    exact ⟨by rw [hclass]; exact hold.1, fun hs => by rw [harr]; exact hold.2 hs⟩)

theorem FindObject_mem (r : Reflection) (Kind : UObjectKind) (Outer : Nat) (Name : String)
    (p : Nat) (h : FindObject r Kind Outer Name = some p) :
    ∃ e ∈ r.Named, e.Address = p ∧ e.Kind = Kind := by
  unfold FindObject at h
  cases hf : r.Named.find? (fun e => decide (e.Outer = Outer) && decide (e.Name = Name)
      && decide (e.Kind = Kind)) with
  | none => rw [hf] at h; cases h
  | some e =>
    rw [hf] at h
    simp only [Option.map_some', Option.some.injEq] at h
    have hp := List.find?_some hf
    simp only [Bool.and_eq_true, decide_eq_true_eq] at hp
    exact ⟨e, List.mem_of_find?_eq_some hf, h, hp.2⟩

/-- The two ways `NewNamedObject` returns: with a named object of that class
that exists, or with a new object at the next free address. -/
theorem NewNamedObject_cases (r : Reflection) (Kind : UObjectKind) (Outer : Nat) (Name : String)
    (r1 : Reflection) (a : Nat) (h : NewNamedObject r Kind Outer Name = some (r1, a)) :
    (r1 = r ∧ ∃ e ∈ r.Named, e.Address = a ∧ e.Kind = Kind)
    ∨ (a = r.NextAddress
        ∧ r1 = { r with Named := r.Named ++ [{ Outer := Outer, Name := Name, Kind := Kind,
                                                Address := r.NextAddress }],
                        NextAddress := r.NextAddress + 1 }) := by
  unfold NewNamedObject at h
  cases hf : r.Named.find? (fun e => decide (e.Outer = Outer) && decide (e.Name = Name)) with
  | some e =>
    rw [hf] at h
    by_cases hk : e.Kind = Kind
    · simp only [hk, if_true, Option.some.injEq, Prod.mk.injEq] at h
      exact Or.inl ⟨h.1.symm, e, List.mem_of_find?_eq_some hf, h.2, hk⟩
    · simp only [hk, if_false] at h
      cases h
  | none =>
    rw [hf] at h
    simp only [Option.some.injEq, Prod.mk.injEq] at h
    exact Or.inr ⟨h.2.symm, h.1.symm⟩

/-- A property object that `NewNamedObject` returns and the caller constructs:
what this leaves alone, and the name the object is registered under. -/
theorem Evolves_NewProperty (r : Reflection) (c : UPropertyClass) (Outer : Nat) (Name : String)
    (r1 : Reflection) (p : Nat) (P : UProperty) (hP : P.Class = c)
    (hA : c = UPropertyClass.UStructProperty → P.ArrayDim = 1)
    (h : NewNamedObject r (UObjectKind.Property c) Outer Name = some (r1, p)) :
    Evolves r (SetProperty r1 p (fun _ => P)) [p]
    ∧ (∃ e ∈ (SetProperty r1 p (fun _ => P)).Named,
        e.Address = p ∧ e.Kind = UObjectKind.Property c) := by
  rcases NewNamedObject_cases r _ Outer Name r1 p h with ⟨hr, e, he, hea, hek⟩ | ⟨hp, hr⟩
  · subst hr
    refine ⟨Evolves_SetProperty r1 p _ (fun hok e2 he2 hp2 c2 hc2 => ?_), e, he, hea, hek⟩
    have h2 := (hok e he).2 c hek
    have h3 := (hok e2 he2).2 c2 hc2
    rw [hea] at h2
    rw [hp2] at h3
    have hcc : c2 = c := h3.1.symm.trans h2.1
    subst hcc
    exact ⟨hP, hA⟩
  · subst hr
    subst hp
    refine ⟨?_, ⟨_, List.mem_append_right _ (List.mem_singleton_self _), rfl, rfl⟩⟩
    refine { Classes := rfl, PatchedClass := rfl, Counter := rfl, Class := rfl,
             StaticClass := rfl, SaveWorldDelegates := rfl, CreatedProperties := rfl,
             CreatedFrom := rfl, Named := ?_, Next := Nat.le_succ _, Properties := ?_,
             Registry := ?_ }
    · intro e he hk
      have he2 : e ∈ r.Named ++ [_] := he
      rcases List.mem_append.1 he2 with hm | hm
      · exact hm
      · rw [List.mem_singleton] at hm
        rw [hm] at hk
        cases hk
    · intro q hq hn
      exact SetProperty_Properties_ne _ _ q _ (by simpa using hn)
    · intro hok e he
      have he2 : e ∈ r.Named ++ [_] := he
      rcases List.mem_append.1 he2 with hm | hm
      · have hold := hok e hm
        refine ⟨Nat.lt_succ_of_lt hold.1, fun c2 hc2 => ?_⟩
        rw [SetProperty_Properties_ne _ _ e.Address _ (Nat.ne_of_lt hold.1)]
        exact hold.2 c2 hc2
      · rw [List.mem_singleton] at hm
        subst hm
        refine ⟨Nat.lt_succ_self _, fun c2 hc2 => ?_⟩
        have hcc : c = c2 := by
          simp only [UObjectKind.Property.injEq] at hc2
          exact hc2
        subst hcc
        rw [SetProperty_Properties_same]
        exact ⟨hP, hA⟩

theorem Evolves_mem_lt {r r2 : Reflection} {ps : List Nat} (h : Evolves r r2 ps)
    (hok : RegistryOk r) (p : Nat) (c : UPropertyClass)
    (he : ∃ e ∈ r2.Named, e.Address = p ∧ e.Kind = UObjectKind.Property c) :
    p < r2.NextAddress ∧ (r2.Properties p).Class = c
      ∧ (c = UPropertyClass.UStructProperty → (r2.Properties p).ArrayDim = 1) := by
  obtain ⟨e, hm, ha, hk⟩ := he
  obtain ⟨h2, h3⟩ := h.Registry hok e hm
  rw [ha] at h2 h3
  exact ⟨h2, h3 c hk⟩

/-- `CreatePropertyOfClass` changes the property it returns and nothing else of
what `Evolves` lists; the property is registered under the class asked for. -/
theorem CreatePropertyOfClass_spec (c : UPropertyClass) (r : Reflection) (ClassInstance : Nat)
    (Name : String) (PropertyFlags : Nat) (r2 : Reflection) (p : Nat)
    (h : CreatePropertyOfClass c r ClassInstance Name PropertyFlags = some (r2, p)) :
    Evolves r r2 [p]
    ∧ ∃ e ∈ r2.Named, e.Address = p ∧ e.Kind = UObjectKind.Property c := by
  unfold CreatePropertyOfClass at h
  cases hf : FindObject r (UObjectKind.Property c) ClassInstance Name with
  | some q =>
    simp only [hf, Option.some.injEq, Prod.mk.injEq] at h
    obtain ⟨hr, hq⟩ := h
    subst hq
    subst hr
    exact ⟨Evolves_SetProperty_keep r q _ (fun _ => rfl) (fun _ => rfl),
      FindObject_mem r _ _ _ q hf⟩
  | none =>
    simp only [hf] at h
    cases hn : NewNamedObject r (UObjectKind.Property c) ClassInstance Name with
    | none => simp [hn] at h
    | some res =>
      obtain ⟨r1, q⟩ := res
      simp only [hn, Option.some.injEq, Prod.mk.injEq] at h
      obtain ⟨hr, hq⟩ := h
      subst hq
      subst hr
      obtain ⟨hev, hmem⟩ := Evolves_NewProperty r c ClassInstance Name r1 q (NewProperty c) rfl
        (fun _ => rfl) hn
      refine ⟨?_, hmem⟩
      apply @Evolves_mono _ _ ([q] ++ [q]) _ _ (by simp)
      apply Evolves_trans hev
      exact Evolves_SetProperty_keep _ _ _ (fun _ => rfl) (fun _ => rfl)

/-- An assignment that keeps the class of a property registered under a class
other than the struct class. -/
theorem Evolves_SetProperty_of_class (r : Reflection) (p : Nat) (f : UProperty → UProperty)
    (c : UPropertyClass) (hc : c ≠ UPropertyClass.UStructProperty)
    (hreg : ∃ e ∈ r.Named, e.Address = p ∧ e.Kind = UObjectKind.Property c)
    (hclass : ∀ P, (f P).Class = P.Class) :
    Evolves r (SetProperty r p f) [p] :=
  Evolves_SetProperty r p f (fun hok e2 he2 hp2 c2 hc2 => by
    obtain ⟨e, he, hea, hek⟩ := hreg
    have h2 := (hok e he).2 c hek
    have h3 := (hok e2 he2).2 c2 hc2
    rw [hea] at h2
    rw [hp2] at h3
    have hcc : c2 = c := h3.1.symm.trans h2.1
    subst hcc
    exact ⟨by rw [hclass]; exact h3.1, fun hs => absurd hs hc⟩)

theorem Evolves_Memory (r : Reflection) (m : Nat → Nat) (ps : List Nat) :
    Evolves r { r with Memory := m } ps :=
  { Classes := rfl, PatchedClass := rfl, Counter := rfl, Class := rfl, StaticClass := rfl,
    SaveWorldDelegates := rfl, CreatedProperties := rfl, CreatedFrom := rfl,
    Named := fun _ h _ => h, Next := Nat.le_refl _, Properties := fun _ _ _ => rfl,
    Registry := fun h => h }

theorem Evolves_Strings (r : Reflection) (m : Nat → String) (ps : List Nat) :
    Evolves r { r with Strings := m } ps :=
  { Classes := rfl, PatchedClass := rfl, Counter := rfl, Class := rfl, StaticClass := rfl,
    SaveWorldDelegates := rfl, CreatedProperties := rfl, CreatedFrom := rfl,
    Named := fun _ h _ => h, Next := Nat.le_refl _, Properties := fun _ _ _ => rfl,
    Registry := fun h => h }

theorem Evolves_Enums (r : Reflection) (m : Nat → UEnum) (ps : List Nat) :
    Evolves r { r with Enums := m } ps :=
  { Classes := rfl, PatchedClass := rfl, Counter := rfl, Class := rfl, StaticClass := rfl,
    SaveWorldDelegates := rfl, CreatedProperties := rfl, CreatedFrom := rfl,
    Named := fun _ h _ => h, Next := Nat.le_refl _, Properties := fun _ _ _ => rfl,
    Registry := fun h => h }

/-- `CreatePropertyInt`: what it leaves alone, and where it binds the field. -/
theorem CreatePropertyInt_spec (r : Reflection) (ClassInstance : Nat) (Name : String)
    (Count : Int) (Vector : List Int) (Start : Int) (Offset : Nat) (r2 : Reflection)
    (op : Option Nat) (Offset2 : Nat)
    (h : CreatePropertyInt r ClassInstance Name Count Vector Start Offset
      = some (r2, op, Offset2)) :
    Evolves r r2 op.toList
    ∧ (op = none → Offset2 = Offset)
    ∧ ∀ p, op = some p →
        (∃ e ∈ r2.Named, e.Address = p
          ∧ e.Kind = UObjectKind.Property UPropertyClass.UIntProperty)
        ∧ (r2.Properties p).ArrayDim = Count
        ∧ (r2.Properties p).Offset = u32 (ComputeOffsetAlignmentBoundary alignofWord Offset)
        ∧ Offset2 = u32OfInt (u32 (ComputeOffsetAlignmentBoundary alignofWord Offset)
            + 4 * Count) := by
  unfold CreatePropertyInt at h
  by_cases hc : Count = 0
  · simp only [hc, if_true, Option.some.injEq, Prod.mk.injEq] at h
    obtain ⟨rfl, rfl, rfl⟩ := h
    exact ⟨Evolves_refl _ _, fun _ => rfl, fun p hp => by cases hp⟩
  · simp only [hc, if_false] at h
    cases hcp : CreatePropertyOfClass UPropertyClass.UIntProperty r ClassInstance Name
        CreatedPropertyFlags with
    | none => simp [hcp] at h
    | some res =>
      obtain ⟨r1, p⟩ := res
      simp only [hcp] at h
      obtain ⟨hev, hmem⟩ := CreatePropertyOfClass_spec _ r ClassInstance Name _ r1 p hcp
      split at h
      · cases h
      · rename_i m hw
        simp only [Option.some.injEq, Prod.mk.injEq] at h
        obtain ⟨rfl, rfl, rfl⟩ := h
        refine ⟨?_, (fun hn => by cases hn), fun q hq => ?_⟩
        · apply @Evolves_mono _ _ (([p] ++ [p]) ++ []) _ _ (by simp)
          apply Evolves_trans (Evolves_trans hev _) (Evolves_Memory _ _ _)
          exact Evolves_SetProperty_of_class r1 p _ UPropertyClass.UIntProperty (by decide) hmem
            (fun _ => rfl)
        · cases hq
          refine ⟨hmem, ?_, ?_, rfl⟩
          · simp [SetProperty_Properties_same]
          · simp [SetProperty_Properties_same]

/-- `CreatePropertyFloat`: what it leaves alone, and where it binds the field. -/
theorem CreatePropertyFloat_spec (r : Reflection) (ClassInstance : Nat) (Name : String)
    (Count : Int) (Vector : List Nat) (Start : Int) (Offset : Nat) (r2 : Reflection)
    (op : Option Nat) (Offset2 : Nat)
    (h : CreatePropertyFloat r ClassInstance Name Count Vector Start Offset
      = some (r2, op, Offset2)) :
    Evolves r r2 op.toList
    ∧ (op = none → Offset2 = Offset)
    ∧ ∀ p, op = some p →
        (∃ e ∈ r2.Named, e.Address = p
          ∧ e.Kind = UObjectKind.Property UPropertyClass.UFloatProperty)
        ∧ (r2.Properties p).ArrayDim = Count
        ∧ (r2.Properties p).Offset = u32 (ComputeOffsetAlignmentBoundary alignofWord Offset)
        ∧ Offset2 = u32OfInt (u32 (ComputeOffsetAlignmentBoundary alignofWord Offset)
            + 4 * Count) := by
  unfold CreatePropertyFloat at h
  by_cases hc : Count = 0
  · simp only [hc, if_true, Option.some.injEq, Prod.mk.injEq] at h
    obtain ⟨rfl, rfl, rfl⟩ := h
    exact ⟨Evolves_refl _ _, fun _ => rfl, fun p hp => by cases hp⟩
  · simp only [hc, if_false] at h
    cases hcp : CreatePropertyOfClass UPropertyClass.UFloatProperty r ClassInstance Name
        CreatedPropertyFlags with
    | none => simp [hcp] at h
    | some res =>
      obtain ⟨r1, p⟩ := res
      simp only [hcp] at h
      obtain ⟨hev, hmem⟩ := CreatePropertyOfClass_spec _ r ClassInstance Name _ r1 p hcp
      split at h
      · cases h
      · rename_i m hw
        simp only [Option.some.injEq, Prod.mk.injEq] at h
        obtain ⟨rfl, rfl, rfl⟩ := h
        refine ⟨?_, (fun hn => by cases hn), fun q hq => ?_⟩
        · apply @Evolves_mono _ _ (([p] ++ [p]) ++ []) _ _ (by simp)
          apply Evolves_trans (Evolves_trans hev _) (Evolves_Memory _ _ _)
          exact Evolves_SetProperty_of_class r1 p _ UPropertyClass.UFloatProperty (by decide) hmem
            (fun _ => rfl)
        · cases hq
          refine ⟨hmem, ?_, ?_, rfl⟩
          · simp [SetProperty_Properties_same]
          · simp [SetProperty_Properties_same]

/-- `CreatePropertyToggle(ClassInstance, Name, PropertyFlags)`: what it leaves
alone. -/
theorem CreatePropertyToggleOfClass_spec (r : Reflection) (ClassInstance : Nat)
    (Name : String) (PropertyFlags : Nat) (r2 : Reflection) (p : Nat)
    (h : CreatePropertyToggleOfClass r ClassInstance Name PropertyFlags = some (r2, p)) :
    Evolves r r2 [p]
    ∧ ∃ e ∈ r2.Named, e.Address = p
        ∧ e.Kind = UObjectKind.Property UPropertyClass.UBoolProperty := by
  unfold CreatePropertyToggleOfClass at h
  cases hcp : CreatePropertyOfClass UPropertyClass.UBoolProperty r ClassInstance Name
      PropertyFlags with
  | none => simp [hcp] at h
  | some res =>
    obtain ⟨r1, q⟩ := res
    simp only [hcp, Option.some.injEq, Prod.mk.injEq] at h
    obtain ⟨rfl, rfl⟩ := h
    obtain ⟨hev, hmem⟩ := CreatePropertyOfClass_spec _ r ClassInstance Name _ r1 q hcp
    refine ⟨?_, hmem⟩
    apply @Evolves_mono _ _ ([q] ++ [q]) _ _ (by simp)
    exact Evolves_trans hev
      (Evolves_SetProperty_of_class r1 q _ UPropertyClass.UBoolProperty (by decide) hmem
        (fun _ => rfl))

/-- `CreatePropertyToggle`: what it leaves alone, and where it binds the field. -/
theorem CreatePropertyToggle_spec (r : Reflection) (ClassInstance : Nat) (Name : String)
    (Count : Int) (Vector : List Int) (Start : Int) (Offset : Nat) (r2 : Reflection)
    (op : Option Nat) (Offset2 : Nat)
    (h : CreatePropertyToggle r ClassInstance Name Count Vector Start Offset
      = some (r2, op, Offset2)) :
    Evolves r r2 op.toList
    ∧ (op = none → Offset2 = Offset)
    ∧ ∀ p, op = some p →
        (∃ e ∈ r2.Named, e.Address = p
          ∧ e.Kind = UObjectKind.Property UPropertyClass.UBoolProperty)
        ∧ (r2.Properties p).ArrayDim = Count
        ∧ (r2.Properties p).Offset = u32 (ComputeOffsetAlignmentBoundary alignofByte Offset)
        ∧ Offset2 = u32OfInt (u32 (ComputeOffsetAlignmentBoundary alignofByte Offset)
            + 1 * Count) := by
  unfold CreatePropertyToggle at h
  by_cases hc : Count = 0
  · simp only [hc, if_true, Option.some.injEq, Prod.mk.injEq] at h
    obtain ⟨rfl, rfl, rfl⟩ := h
    exact ⟨Evolves_refl _ _, fun _ => rfl, fun p hp => by cases hp⟩
  · simp only [hc, if_false] at h
    cases hcp : CreatePropertyToggleOfClass r ClassInstance Name CreatedPropertyFlags with
    | none => simp [hcp] at h
    | some res =>
      obtain ⟨r1, p⟩ := res
      simp only [hcp] at h
      obtain ⟨hev, hmem⟩ := CreatePropertyToggleOfClass_spec r ClassInstance Name _ r1 p hcp
      split at h
      · cases h
      · rename_i m hw
        simp only [Option.some.injEq, Prod.mk.injEq] at h
        obtain ⟨rfl, rfl, rfl⟩ := h
        refine ⟨?_, (fun hn => by cases hn), fun q hq => ?_⟩
        · apply @Evolves_mono _ _ (([p] ++ [p]) ++ []) _ _ (by simp)
          apply Evolves_trans (Evolves_trans hev _) (Evolves_Memory _ _ _)
          exact Evolves_SetProperty_of_class r1 p _ UPropertyClass.UBoolProperty (by decide) hmem
            (fun _ => rfl)
        · cases hq
          refine ⟨hmem, ?_, ?_, rfl⟩
          · simp [SetProperty_Properties_same]
          · simp [SetProperty_Properties_same]

theorem WriteStringValues_cursor (env : RebuildEnv) (Vector : List Int) (Start : Int)
    (Boundary : Nat) : ∀ (n Index : Nat) (Strings : Nat → String) (Offset : Nat)
      (Strings2 : Nat → String) (Offset2 : Nat),
      WriteStringValues env Vector Start Boundary Index n Strings Offset = some (Strings2, Offset2)
      → Offset + 16 * n < 4294967296 → Offset2 = Offset + 16 * n := by
  intro n
  induction n with
  | zero =>
    intro Index Strings Offset Strings2 Offset2 h _
    simp only [WriteStringValues, Option.some.injEq, Prod.mk.injEq] at h
    omega
  | succ n ih =>
    intro Index Strings Offset Strings2 Offset2 h hlt
    unfold WriteStringValues at h
    cases hr : ReadVector Vector Start Index with
    | none => simp [hr] at h
    | some Handle =>
      simp only [hr] at h
      have h2 := ih _ _ _ _ _ h (by unfold u32 sizeofFString; omega)
      unfold u32 sizeofFString at h2
      omega

/-- `CreatePropertyString`: what it leaves alone, and where it binds the
field. -/
theorem CreatePropertyString_spec (env : RebuildEnv) (r : Reflection) (ClassInstance : Nat)
    (Name : String) (Count : Int) (Vector : List Int) (Start : Int) (Offset : Nat)
    (r2 : Reflection) (op : Option Nat) (Offset2 : Nat)
    (h : CreatePropertyString env r ClassInstance Name Count Vector Start Offset
      = some (r2, op, Offset2)) :
    Evolves r r2 op.toList
    ∧ (op = none → Offset2 = Offset)
    ∧ ∀ p, op = some p →
        (∃ e ∈ r2.Named, e.Address = p
          ∧ e.Kind = UObjectKind.Property UPropertyClass.UStrProperty)
        ∧ (r2.Properties p).ArrayDim = Count
        ∧ (r2.Properties p).Offset = u32 (ComputeOffsetAlignmentBoundary alignofFString Offset)
        ∧ (u32 (ComputeOffsetAlignmentBoundary alignofFString Offset) + 16 * Count.toNat
              < 4294967296 →
            Offset2 = u32 (ComputeOffsetAlignmentBoundary alignofFString Offset)
              + 16 * Count.toNat) := by
  unfold CreatePropertyString at h
  by_cases hc : Count = 0
  · simp only [hc, if_true, Option.some.injEq, Prod.mk.injEq] at h
    obtain ⟨rfl, rfl, rfl⟩ := h
    exact ⟨Evolves_refl _ _, fun _ => rfl, fun p hp => by cases hp⟩
  · simp only [hc, if_false] at h
    cases hcp : CreatePropertyOfClass UPropertyClass.UStrProperty r ClassInstance Name
        CreatedPropertyFlags with
    | none => simp [hcp] at h
    | some res =>
      obtain ⟨r1, p⟩ := res
      simp only [hcp] at h
      obtain ⟨hev, hmem⟩ := CreatePropertyOfClass_spec _ r ClassInstance Name _ r1 p hcp
      split at h
      · cases h
      · rename_i Strings Offset3 hw
        simp only [Option.some.injEq, Prod.mk.injEq] at h
        obtain ⟨rfl, rfl, rfl⟩ := h
        refine ⟨?_, (fun hn => by cases hn), fun q hq => ?_⟩
        · apply @Evolves_mono _ _ (([p] ++ [p]) ++ []) _ _ (by simp)
          apply Evolves_trans (Evolves_trans hev _) (Evolves_Strings _ _ _)
          exact Evolves_SetProperty_of_class r1 p _ UPropertyClass.UStrProperty (by decide) hmem
            (fun _ => rfl)
        · cases hq
          refine ⟨hmem, ?_, ?_, fun hlt => ?_⟩
          · simp [SetProperty_Properties_same]
          · simp [SetProperty_Properties_same]
          · exact WriteStringValues_cursor env Vector Start _ _ _ _ _ _ _ hw hlt

theorem Evolves_ScriptStructColor (r : Reflection) (s : Option Nat) (ps : List Nat) :
    Evolves r { r with ScriptStructColor := s } ps :=
  { Classes := rfl, PatchedClass := rfl, Counter := rfl, Class := rfl, StaticClass := rfl,
    SaveWorldDelegates := rfl, CreatedProperties := rfl, CreatedFrom := rfl,
    Named := fun _ h _ => h, Next := Nat.le_refl _, Properties := fun _ _ _ => rfl,
    Registry := fun h => h }

/-- A named object that is neither a class nor a property, located or created
by `NewNamedObject`. -/
theorem Evolves_NewNamedObject (r : Reflection) (Kind : UObjectKind) (Outer : Nat)
    (Name : String) (r1 : Reflection) (a : Nat) (hk : Kind ≠ UObjectKind.Class)
    (hp : ∀ c, Kind ≠ UObjectKind.Property c)
    (h : NewNamedObject r Kind Outer Name = some (r1, a)) : Evolves r r1 [] := by
  rcases NewNamedObject_cases r _ Outer Name r1 a h with ⟨hr, _⟩ | ⟨_, hr⟩
  · subst hr
    exact Evolves_refl _ _
  · subst hr
    refine { Classes := rfl, PatchedClass := rfl, Counter := rfl, Class := rfl,
             StaticClass := rfl, SaveWorldDelegates := rfl, CreatedProperties := rfl,
             CreatedFrom := rfl, Named := ?_, Next := Nat.le_succ _,
             Properties := fun _ _ _ => rfl, Registry := ?_ }
    · intro e he hk2
      have he2 : e ∈ r.Named ++ [_] := he
      rcases List.mem_append.1 he2 with hm | hm
      · exact hm
      · rw [List.mem_singleton] at hm
        rw [hm] at hk2
        exact absurd hk2 hk
    · intro hok e he
      have he2 : e ∈ r.Named ++ [_] := he
      rcases List.mem_append.1 he2 with hm | hm
      · have hold := hok e hm
        exact ⟨Nat.lt_succ_of_lt hold.1, hold.2⟩
      · rw [List.mem_singleton] at hm
        subst hm
        exact ⟨Nat.lt_succ_self _, fun c hc => absurd hc (hp c)⟩

/-- `CreatePropertyColorOfClass` changes the property it returns and nothing
else of what `Evolves` lists; the property is registered as a struct
property. -/
theorem CreatePropertyColorOfClass_spec (r : Reflection) (ClassInstance : Nat)
    (Name : String) (PropertyFlags : Nat) (r2 : Reflection) (p : Nat)
    (h : CreatePropertyColorOfClass r ClassInstance Name PropertyFlags = some (r2, p)) :
    Evolves r r2 [p]
    ∧ ∃ e ∈ r2.Named, e.Address = p
        ∧ e.Kind = UObjectKind.Property UPropertyClass.UStructProperty := by
  unfold CreatePropertyColorOfClass at h
  have hstruct : ∀ r1, (match r.ScriptStructColor with
      | some _ => some r
      | none =>
        match NewNamedObject r UObjectKind.ScriptStruct r.StaticClass "Color" with
        | none => none
        | some (r1, Struct) => some { r1 with ScriptStructColor := some Struct }) = some r1
      → Evolves r r1 [] := by
    intro r1 h1
    cases hs : r.ScriptStructColor with
    | some s =>
      simp only [hs, Option.some.injEq] at h1
      subst h1
      exact Evolves_refl _ _
    | none =>
      simp only [hs] at h1
      cases hn : NewNamedObject r UObjectKind.ScriptStruct r.StaticClass "Color" with
      | none => simp [hn] at h1
      | some res =>
        obtain ⟨r3, Struct⟩ := res
        simp only [hn, Option.some.injEq] at h1
        subst h1
        exact Evolves_trans
          (Evolves_NewNamedObject r _ _ _ r3 Struct (by decide) (by intro c; simp) hn)
          (Evolves_ScriptStructColor _ _ _)
  generalize hws : (match r.ScriptStructColor with
      | some _ => some r
      | none =>
        match NewNamedObject r UObjectKind.ScriptStruct r.StaticClass "Color" with
        | none => none
        | some (r1, Struct) => some { r1 with ScriptStructColor := some Struct }) = ws at h hstruct
  cases ws with
  | none => simp at h
  | some r1 =>
    have hev1 := hstruct r1 rfl
    simp only at h
    cases hf : FindObject r1 (UObjectKind.Property UPropertyClass.UStructProperty)
        ClassInstance Name with
    | some q =>
      simp only [hf, Option.some.injEq, Prod.mk.injEq] at h
      obtain ⟨hr, hq⟩ := h
      subst hq
      subst hr
      refine ⟨?_, FindObject_mem r1 _ _ _ q hf⟩
      apply @Evolves_mono _ _ ([] ++ [q]) _ _ (by simp)
      apply Evolves_trans hev1
      exact Evolves_SetProperty_keep r1 q _ (fun _ => rfl) (fun _ => rfl)
    | none =>
      simp only [hf] at h
      cases hn : NewNamedObject r1 (UObjectKind.Property UPropertyClass.UStructProperty)
          ClassInstance Name with
      | none => simp [hn] at h
      | some res =>
        obtain ⟨r3, q⟩ := res
        simp only [hn, Option.some.injEq, Prod.mk.injEq] at h
        obtain ⟨hr, hq⟩ := h
        subst hq
        subst hr
        obtain ⟨hev, hmem⟩ := Evolves_NewProperty r1 UPropertyClass.UStructProperty
          ClassInstance Name r3 q
          { NewProperty UPropertyClass.UStructProperty with Struct := r3.ScriptStructColor }
          rfl (fun _ => rfl) hn
        refine ⟨?_, hmem⟩
        apply @Evolves_mono _ _ (([] ++ [q]) ++ [q]) _ _ (by simp)
        apply Evolves_trans (Evolves_trans hev1 hev)
        exact Evolves_SetProperty_keep _ _ _ (fun _ => rfl) (fun _ => rfl)

/-- `CreatePropertyColor`: what it leaves alone, and where it binds the
field. -/
theorem CreatePropertyColor_spec (env : RebuildEnv) (r : Reflection) (ClassInstance : Nat)
    (Name : String) (Count : Int) (Vector : List Nat) (Start : Int) (Offset : Nat)
    (r2 : Reflection) (op : Option Nat) (Offset2 : Nat)
    (h : CreatePropertyColor env r ClassInstance Name Count Vector Start Offset
      = some (r2, op, Offset2)) :
    Evolves r r2 op.toList
    ∧ (op = none → Offset2 = Offset)
    ∧ ∀ p, op = some p →
        (∃ e ∈ r2.Named, e.Address = p
          ∧ e.Kind = UObjectKind.Property UPropertyClass.UStructProperty)
        ∧ (r2.Properties p).Offset = u32 (ComputeOffsetAlignmentBoundary alignofWord Offset)
        ∧ Offset2 = u32 (u32 (ComputeOffsetAlignmentBoundary alignofWord Offset) + 4) := by
  unfold CreatePropertyColor at h
  by_cases hc : Count < 3
  · simp only [hc, if_true, Option.some.injEq, Prod.mk.injEq] at h
    obtain ⟨rfl, rfl, rfl⟩ := h
    exact ⟨Evolves_refl _ _, fun _ => rfl, fun p hp => by cases hp⟩
  · simp only [hc, if_false] at h
    cases hcp : CreatePropertyColorOfClass r ClassInstance Name CreatedPropertyFlags with
    | none => simp [hcp] at h
    | some res =>
      obtain ⟨r1, p⟩ := res
      simp only [hcp] at h
      obtain ⟨hev, hmem⟩ := CreatePropertyColorOfClass_spec r ClassInstance Name _ r1 p hcp
      have hconv : ∀ r3 c, (if Count < 4 then
            match ReadVector Vector Start 0, ReadVector Vector Start 1,
                ReadVector Vector Start 2 with
            | some R, some G, some B =>
              some (SetProperty r1 p (fun Property =>
                { Property with Meta := SetMetaData Property.Meta "HideAlphaChannel" "0" }),
                env.ConvertHoudiniColorRGB R G B)
            | _, _, _ => none
          else
            match ReadVector Vector Start 0, ReadVector Vector Start 1,
                ReadVector Vector Start 2, ReadVector Vector Start 3 with
            | some R, some G, some B, some A => some (r1, env.ConvertHoudiniColorRGBA R G B A)
            | _, _, _, _ => none) = some (r3, c)
          → Evolves r1 r3 [p] ∧ r3.Named = r1.Named := by
        intro r3 c h3
        split at h3
        · split at h3
          · simp only [Option.some.injEq, Prod.mk.injEq] at h3
            obtain ⟨rfl, _⟩ := h3
            exact ⟨Evolves_SetProperty_keep r1 p _ (fun _ => rfl) (fun _ => rfl), rfl⟩
          · cases h3
        · split at h3
          · simp only [Option.some.injEq, Prod.mk.injEq] at h3
            obtain ⟨rfl, _⟩ := h3
            exact ⟨Evolves_refl _ _, rfl⟩
          · cases h3
      split at h
      · cases h
      · rename_i r3 c hcv
        obtain ⟨hev3, hnamed⟩ := hconv r3 c hcv
        simp only [Option.some.injEq, Prod.mk.injEq] at h
        obtain ⟨rfl, rfl, rfl⟩ := h
        refine ⟨?_, (fun hn => by cases hn), fun q hq => ?_⟩
        · apply @Evolves_mono _ _ ((([p] ++ [p]) ++ [p]) ++ []) _ _ (by simp)
          apply Evolves_trans (Evolves_trans (Evolves_trans hev hev3) _) (Evolves_Memory _ _ _)
          exact Evolves_SetProperty_keep r3 p _ (fun _ => rfl) (fun _ => rfl)
        · cases hq
          refine ⟨?_, ?_, rfl⟩
          · obtain ⟨e, he, hea, hek⟩ := hmem
            exact ⟨e, by rw [← hnamed] at he; exact he, hea, hek⟩
          · simp [SetProperty_Properties_same]

theorem LocateEnum_spec (r : Reflection) (ClassInstance : Nat) (UniqueEnumName : String)
    (r1 : Reflection) (e : Nat) (h : LocateEnum r ClassInstance UniqueEnumName = some (r1, e)) :
    Evolves r r1 [] := by
  unfold LocateEnum at h
  split at h
  · simp only [Option.some.injEq, Prod.mk.injEq] at h
    obtain ⟨rfl, _⟩ := h
    exact Evolves_refl _ _
  · split at h
    · cases h
    · rename_i r3 ChoiceEnum hn
      simp only [Option.some.injEq, Prod.mk.injEq] at h
      obtain ⟨rfl, _⟩ := h
      exact Evolves_trans (Evolves_NewNamedObject r _ _ _ r3 ChoiceEnum (by decide)
        (by intro c; simp) hn) (Evolves_Enums _ _ _)

/-- `CreateEnum` changes no property and nothing else of what `Evolves`
lists. -/
theorem CreateEnum_spec (env : RebuildEnv) (r : Reflection) (ClassInstance : Nat)
    (Name : String) (Choices : List HAPI_ParmChoiceInfo) (r2 : Reflection) (oe : Option Nat)
    (h : CreateEnum env r ClassInstance Name Choices = some (r2, oe)) : Evolves r r2 [] := by
  unfold CreateEnum at h
  simp only at h
  split at h
  · cases h
  · rename_i r1 ChoiceEnum hl
    have hev := LocateEnum_spec r _ _ r1 ChoiceEnum hl
    split at h
    · simp only [Option.some.injEq, Prod.mk.injEq] at h
      obtain ⟨rfl, _⟩ := h
      exact Evolves_trans hev (Evolves_Enums _ _ _)
    · split at h
      · cases h
      · simp only [Option.some.injEq, Prod.mk.injEq] at h
        obtain ⟨rfl, _⟩ := h
        exact Evolves_trans hev (Evolves_Enums _ _ _)

/-- `CreatePropertyEnum` with an integer value: what it leaves alone, and where
it binds the field. -/
theorem CreatePropertyEnum_spec (env : RebuildEnv) (r : Reflection) (ClassInstance : Nat)
    (Name : String) (Choices : List HAPI_ParmChoiceInfo) (Value : Int) (Offset : Nat)
    (r2 : Reflection) (op : Option Nat) (Offset2 : Nat)
    (h : CreatePropertyEnum env r ClassInstance Name Choices Value Offset
      = some (r2, op, Offset2)) :
    Evolves r r2 op.toList
    ∧ (op = none → Offset2 = Offset)
    ∧ ∀ p, op = some p →
        (∃ e ∈ r2.Named, e.Address = p
          ∧ e.Kind = UObjectKind.Property UPropertyClass.UByteProperty)
        ∧ (r2.Properties p).ArrayDim = 1
        ∧ (r2.Properties p).Offset = u32 (ComputeOffsetAlignmentBoundary alignofByte Offset)
        ∧ Offset2 = u32 (u32 (ComputeOffsetAlignmentBoundary alignofByte Offset) + 1) := by
  unfold CreatePropertyEnum at h
  split at h
  · cases h
  · rename_i r1 hce
    simp only [Option.some.injEq, Prod.mk.injEq] at h
    obtain ⟨rfl, rfl, rfl⟩ := h
    exact ⟨CreateEnum_spec env r _ _ _ _ _ hce, fun _ => rfl, fun p hp => by cases hp⟩
  · rename_i r1 EnumType hce
    have hev1 := CreateEnum_spec env r _ _ _ _ _ hce
    split at h
    · cases h
    · rename_i r3 p hcp
      obtain ⟨hev, hmem⟩ := CreatePropertyOfClass_spec _ r1 ClassInstance Name _ r3 p hcp
      simp only [Option.some.injEq, Prod.mk.injEq] at h
      obtain ⟨rfl, rfl, rfl⟩ := h
      refine ⟨?_, (fun hn => by cases hn), fun q hq => ?_⟩
      · apply @Evolves_mono _ _ ((([] ++ [p]) ++ [p]) ++ []) _ _ (by simp)
        apply Evolves_trans (Evolves_trans (Evolves_trans hev1 hev) _) (Evolves_Memory _ _ _)
        exact Evolves_SetProperty_of_class r3 p _ UPropertyClass.UByteProperty (by decide) hmem
          (fun _ => rfl)
      · cases hq
        refine ⟨hmem, ?_, ?_, rfl⟩
        · simp [SetProperty_Properties_same]
        · simp [SetProperty_Properties_same]

/-- `CreatePropertyEnum` with a string value: what it leaves alone, and where
it binds the field. -/
theorem CreatePropertyEnumString_spec (env : RebuildEnv) (r : Reflection)
    (ClassInstance : Nat) (Name : String) (Choices : List HAPI_ParmChoiceInfo)
    (ValueString : String) (Offset : Nat) (r2 : Reflection) (op : Option Nat) (Offset2 : Nat)
    (h : CreatePropertyEnumString env r ClassInstance Name Choices ValueString Offset
      = some (r2, op, Offset2)) :
    Evolves r r2 op.toList
    ∧ (op = none → Offset2 = Offset)
    ∧ ∀ p, op = some p →
        (∃ e ∈ r2.Named, e.Address = p
          ∧ e.Kind = UObjectKind.Property UPropertyClass.UByteProperty)
        ∧ (r2.Properties p).ArrayDim = 1
        ∧ (r2.Properties p).Offset = u32 (ComputeOffsetAlignmentBoundary alignofByte Offset)
        ∧ Offset2 = u32 (u32 (ComputeOffsetAlignmentBoundary alignofByte Offset) + 1) := by
  unfold CreatePropertyEnumString at h
  simp only at h
  split at h
  · cases h
  · rename_i r1 Offset1 hce
    obtain ⟨hev, hnone, _⟩ := CreatePropertyEnum_spec env r _ _ _ _ _ _ _ _ hce
    simp only [Option.some.injEq, Prod.mk.injEq] at h
    obtain ⟨rfl, rfl, rfl⟩ := h
    exact ⟨hev, fun _ => hnone rfl, fun p hp => by cases hp⟩
  · rename_i r1 p Offset1 hce
    obtain ⟨hev, _, hsome⟩ := CreatePropertyEnum_spec env r _ _ _ _ _ _ _ _ hce
    obtain ⟨hmem, harr, hoff, hcur⟩ := hsome p rfl
    split at h
    · cases h
    · rename_i Enum hen
      simp only [Option.some.injEq, Prod.mk.injEq] at h
      obtain ⟨rfl, rfl, rfl⟩ := h
      by_cases hvs : ValueString ≠ ""
      · simp only [if_pos hvs]
        cases hfind : FindHoudiniName env (r1.Enums Enum) (env.SanitizeObjectName ValueString)
            (List.range (r1.Enums Enum).NumEnums) with
        | none =>
          simp only
          refine ⟨?_, (fun hn => by cases hn), fun q hq => ?_⟩
          · apply @Evolves_mono _ _ ([p] ++ [p]) _ _ (by simp)
            apply Evolves_trans hev
            exact Evolves_SetProperty_keep r1 p _ (fun _ => rfl) (fun _ => rfl)
          · cases hq
            refine ⟨hmem, ?_, ?_, hcur⟩
            · simp [SetProperty_Properties_same, harr]
            · simp [SetProperty_Properties_same, hoff]
        | some Idx =>
          simp only
          refine ⟨?_, (fun hn => by cases hn), fun q hq => ?_⟩
          · apply @Evolves_mono _ _ ((([p] ++ [p]) ++ []) ++ [p]) _ _ (by simp)
            apply Evolves_trans (Evolves_trans (Evolves_trans hev _) (Evolves_Memory _ _ _))
            · exact Evolves_SetProperty_keep _ p _ (fun _ => rfl) (fun _ => rfl)
            · exact Evolves_SetProperty_keep r1 p _ (fun _ => rfl) (fun _ => rfl)
          · cases hq
            refine ⟨hmem, ?_, ?_, trivial⟩
            · simp [SetProperty_Properties_same, harr]
            · simp [SetProperty_Properties_same]
      · simp only [if_neg hvs]
        refine ⟨?_, (fun hn => by cases hn), fun q hq => ?_⟩
        · apply @Evolves_mono _ _ ([p] ++ [p]) _ _ (by simp)
          apply Evolves_trans hev
          exact Evolves_SetProperty_keep r1 p _ (fun _ => rfl) (fun _ => rfl)
        · cases hq
          refine ⟨hmem, ?_, ?_, hcur⟩
          · simp [SetProperty_Properties_same, harr]
          · simp [SetProperty_Properties_same, hoff]

theorem u32_eq_u32OfInt (n : Nat) : u32 n = u32OfInt (n : Int) := by
  unfold u32 u32OfInt
  omega

/-- The `switch` of the loop of `ReplaceClassProperties`: what it leaves alone,
and how it binds the field it creates. -/
theorem CreateParameterProperty_spec (env : RebuildEnv) (ClassInstance : Nat)
    (v : FetchedParameters) (r : Reflection) (ParmInfoIter : HAPI_ParmInfo)
    (UniquePropertyName : String) (Offset : Nat) (r2 : Reflection) (op : Option Nat)
    (Offset2 : Nat)
    (h : CreateParameterProperty env ClassInstance v r ParmInfoIter UniquePropertyName Offset
      = some (r2, op, Offset2)) :
    Evolves r r2 op.toList
    ∧ (op = none → Offset2 = Offset)
    ∧ ∀ p, op = some p →
        (∃ e ∈ r2.Named, e.Address = p
          ∧ e.Kind = UObjectKind.Property (FieldKindOf ParmInfoIter).1)
        ∧ FieldBinding (FieldKindOf ParmInfoIter).1 (FieldKindOf ParmInfoIter).2 Offset
            (r2.Properties p) Offset2 := by
  unfold CreateParameterProperty at h
  cases ht : ParmInfoIter.type with
  | HAPI_PARMTYPE_INT =>
    simp only [ht] at h
    by_cases hcc : ParmInfoIter.choiceCount = 0
    · simp only [hcc, if_true] at h
      obtain ⟨hev, hnone, hsome⟩ := CreatePropertyInt_spec _ _ _ _ _ _ _ _ _ _ h
      refine ⟨hev, hnone, fun p hp => ?_⟩
      obtain ⟨hmem, harr, hoff, hcur⟩ := hsome p hp
      simp only [FieldKindOf, ht, hcc, if_true]
      refine ⟨hmem, hoff, fun _ => harr, fun _ => ?_, fun hc => by cases hc⟩
      rw [hcur, hoff]
      rfl
    · simp only [hcc, if_false] at h
      by_cases hci : 0 ≤ ParmInfoIter.choiceIndex
      · simp only [hci, if_true] at h
        by_cases hneg : ParmInfoIter.choiceCount < 0
        · simp [hneg] at h
        · simp only [hneg, if_false] at h
          split at h
          · simp only [Option.some.injEq, Prod.mk.injEq] at h
            obtain ⟨rfl, rfl, rfl⟩ := h
            exact ⟨Evolves_refl _ _, fun _ => rfl, fun p hp => by cases hp⟩
          · obtain ⟨hev, hnone, hsome⟩ := CreatePropertyEnum_spec _ _ _ _ _ _ _ _ _ _ h
            refine ⟨hev, hnone, fun p hp => ?_⟩
            obtain ⟨hmem, harr, hoff, hcur⟩ := hsome p hp
            simp only [FieldKindOf, ht, hcc, if_false]
            refine ⟨hmem, hoff, fun _ => harr, fun _ => ?_, fun hc => by cases hc⟩
            rw [hcur, hoff, u32_eq_u32OfInt]
            simp [ElementSize]
      · simp only [hci, if_false, Option.some.injEq, Prod.mk.injEq] at h
        obtain ⟨rfl, rfl, rfl⟩ := h
        exact ⟨Evolves_refl _ _, fun _ => rfl, fun p hp => by cases hp⟩
  | HAPI_PARMTYPE_STRING =>
    simp only [ht] at h
    by_cases hcc : ParmInfoIter.choiceCount = 0
    · simp only [hcc, if_true] at h
      obtain ⟨hev, hnone, hsome⟩ := CreatePropertyString_spec _ _ _ _ _ _ _ _ _ _ _ h
      refine ⟨hev, hnone, fun p hp => ?_⟩
      obtain ⟨hmem, harr, hoff, hcur⟩ := hsome p hp
      simp only [FieldKindOf, ht, hcc, if_true]
      refine ⟨hmem, hoff, fun _ => harr, fun hc => absurd rfl hc, fun _ hlt => ?_⟩
      rw [hoff] at hlt ⊢
      exact hcur hlt
    · simp only [hcc, if_false] at h
      by_cases hci : 0 ≤ ParmInfoIter.choiceIndex
      · simp only [hci, if_true] at h
        by_cases hneg : ParmInfoIter.choiceCount < 0
        · simp [hneg] at h
        · simp only [hneg, if_false] at h
          split at h
          · simp only [Option.some.injEq, Prod.mk.injEq] at h
            obtain ⟨rfl, rfl, rfl⟩ := h
            exact ⟨Evolves_refl _ _, fun _ => rfl, fun p hp => by cases hp⟩
          · split at h
            · simp only [Option.some.injEq, Prod.mk.injEq] at h
              obtain ⟨rfl, rfl, rfl⟩ := h
              exact ⟨Evolves_refl _ _, fun _ => rfl, fun p hp => by cases hp⟩
            · obtain ⟨hev, hnone, hsome⟩ :=
                CreatePropertyEnumString_spec _ _ _ _ _ _ _ _ _ _ h
              refine ⟨hev, hnone, fun p hp => ?_⟩
              obtain ⟨hmem, harr, hoff, hcur⟩ := hsome p hp
              simp only [FieldKindOf, ht, hcc, if_false]
              refine ⟨hmem, hoff, fun _ => harr, fun _ => ?_, fun hc => by cases hc⟩
              rw [hcur, hoff, u32_eq_u32OfInt]
              simp [ElementSize]
      · simp only [hci, if_false, Option.some.injEq, Prod.mk.injEq] at h
        obtain ⟨rfl, rfl, rfl⟩ := h
        exact ⟨Evolves_refl _ _, fun _ => rfl, fun p hp => by cases hp⟩
  | HAPI_PARMTYPE_FLOAT =>
    simp only [ht] at h
    obtain ⟨hev, hnone, hsome⟩ := CreatePropertyFloat_spec _ _ _ _ _ _ _ _ _ _ h
    refine ⟨hev, hnone, fun p hp => ?_⟩
    obtain ⟨hmem, harr, hoff, hcur⟩ := hsome p hp
    simp only [FieldKindOf, ht]
    refine ⟨hmem, hoff, fun _ => harr, fun _ => ?_, fun hc => by cases hc⟩
    rw [hcur, hoff]
    rfl
  | HAPI_PARMTYPE_TOGGLE =>
    simp only [ht] at h
    obtain ⟨hev, hnone, hsome⟩ := CreatePropertyToggle_spec _ _ _ _ _ _ _ _ _ _ h
    refine ⟨hev, hnone, fun p hp => ?_⟩
    obtain ⟨hmem, harr, hoff, hcur⟩ := hsome p hp
    simp only [FieldKindOf, ht]
    refine ⟨hmem, hoff, fun _ => harr, fun _ => ?_, fun hc => by cases hc⟩
    rw [hcur, hoff]
    rfl
  | HAPI_PARMTYPE_COLOR =>
    simp only [ht] at h
    obtain ⟨hev, hnone, hsome⟩ := CreatePropertyColor_spec _ _ _ _ _ _ _ _ _ _ _ h
    refine ⟨hev, hnone, fun p hp => ?_⟩
    obtain ⟨hmem, hoff, hcur⟩ := hsome p hp
    simp only [FieldKindOf, ht]
    refine ⟨hmem, hoff, fun hc => absurd rfl hc, fun _ => ?_, fun hc => by cases hc⟩
    rw [hcur, hoff, u32_eq_u32OfInt]
    simp [ElementSize]
  | HAPI_PARMTYPE_OTHER =>
    simp only [ht, Option.some.injEq, Prod.mk.injEq] at h
    obtain ⟨rfl, rfl, rfl⟩ := h
    exact ⟨Evolves_refl _ _, fun _ => rfl, fun p hp => by cases hp⟩

theorem SameStorage_refl (P : UProperty) : SameStorage P P := ⟨rfl, rfl, rfl⟩

theorem SameStorage_trans {P Q R : UProperty} (h1 : SameStorage P Q) (h2 : SameStorage Q R) :
    SameStorage P R :=
  ⟨h2.1.trans h1.1, h2.2.1.trans h1.2.1, h2.2.2.trans h1.2.2⟩

theorem Relinks_refl (r : Reflection) : Relinks r r :=
  { Storage := fun _ => SameStorage_refl _, Classes := rfl, PatchedClass := rfl, Counter := rfl,
    Class := rfl, StaticClass := rfl, SaveWorldDelegates := rfl, Named := rfl, Next := rfl }

theorem Relinks_trans {r r1 r2 : Reflection} (h1 : Relinks r r1) (h2 : Relinks r1 r2) :
    Relinks r r2 :=
  { Storage := fun q => SameStorage_trans (h1.Storage q) (h2.Storage q)
    Classes := h2.Classes.trans h1.Classes
    PatchedClass := h2.PatchedClass.trans h1.PatchedClass
    Counter := h2.Counter.trans h1.Counter
    Class := h2.Class.trans h1.Class
    StaticClass := h2.StaticClass.trans h1.StaticClass
    SaveWorldDelegates := h2.SaveWorldDelegates.trans h1.SaveWorldDelegates
    Named := h2.Named.trans h1.Named
    Next := h2.Next.trans h1.Next }

theorem Relinks_SetProperty (r : Reflection) (p : Nat) (f : UProperty → UProperty)
    (h : ∀ P, SameStorage P (f P)) : Relinks r (SetProperty r p f) :=
  { Storage := fun q => by
      rw [SetProperty_Properties]
      split
      · rename_i hq
        rw [hq]
        exact h _
      · exact SameStorage_refl _
    Classes := rfl, PatchedClass := rfl, Counter := rfl, Class := rfl, StaticClass := rfl,
    SaveWorldDelegates := rfl, Named := rfl, Next := rfl }

theorem Relinks_Created (r : Reflection) (cp : List Nat) (cf : List HAPI_ParmInfo) :
    Relinks r { r with CreatedProperties := cp, CreatedFrom := cf } :=
  { Storage := fun _ => SameStorage_refl _, Classes := rfl, PatchedClass := rfl, Counter := rfl,
    Class := rfl, StaticClass := rfl, SaveWorldDelegates := rfl, Named := rfl, Next := rfl }

/-- Steps that only set metadata and links keep the named objects in order. -/
theorem Relinks_registry {r r2 : Reflection} (h : Relinks r r2) (hok : RegistryOk r) :
    RegistryOk r2 := by
  intro e he
  rw [h.Named] at he
  obtain ⟨h1, h2⟩ := hok e he
  refine ⟨by rw [h.Next]; exact h1, fun c hc => ?_⟩
  obtain ⟨h3, h4⟩ := h2 c hc
  obtain ⟨s1, s2, _⟩ := h.Storage e.Address
  exact ⟨s1.trans h3, fun hs => s2.trans (h4 hs)⟩

/-- `InsertCreatedProperty` adds the property to `CreatedProperties`, and its
parameter next to it, leaves the cursor where the creation left it, and
otherwise only sets metadata and links. -/
theorem InsertCreatedProperty_spec (env : RebuildEnv) (s : ReplaceState) (r : Reflection)
    (ValuesOffsetEnd : Nat) (ParmInfoIter : HAPI_ParmInfo) (ParamName ParamLabel : String)
    (ParmLabelLength : Int) (Property : Nat) (s2 : ReplaceState)
    (h : InsertCreatedProperty env s r ValuesOffsetEnd ParmInfoIter ParamName ParamLabel
      ParmLabelLength Property = some s2) :
    Relinks r s2.Objects
    ∧ s2.Objects.CreatedProperties = r.CreatedProperties ++ [Property]
    ∧ s2.Objects.CreatedFrom = r.CreatedFrom ++ [ParmInfoIter]
    ∧ s2.ValuesOffsetEnd = ValuesOffsetEnd := by
  unfold InsertCreatedProperty at h
  simp only at h
  split at h
  · cases h
  · rename_i r3 PropertyFirst PropertyLast hl
    have h3 : Relinks r r3 ∧ r3.CreatedProperties = r.CreatedProperties ++ [Property]
        ∧ r3.CreatedFrom = r.CreatedFrom ++ [ParmInfoIter] := by
      split at hl
      · simp only [Option.some.injEq, Prod.mk.injEq] at hl
        obtain ⟨rfl, _, _⟩ := hl
        refine ⟨?_, rfl, rfl⟩
        apply Relinks_trans _ (Relinks_Created _ _ _)
        exact Relinks_SetProperty r Property _ (fun _ => ⟨rfl, rfl, rfl⟩)
      · split at hl
        · cases hl
        · simp only [Option.some.injEq, Prod.mk.injEq] at hl
          obtain ⟨rfl, _, _⟩ := hl
          refine ⟨?_, rfl, rfl⟩
          refine Relinks_trans ?_ (Relinks_SetProperty _ _ _ ?_)
          · apply Relinks_trans _ (Relinks_Created _ _ _)
            exact Relinks_SetProperty r Property _ (fun _ => ⟨rfl, rfl, rfl⟩)
          · exact fun _ => ⟨rfl, rfl, rfl⟩
    obtain ⟨hrel, hcp, hcf⟩ := h3
    split at h
    · simp only [Option.some.injEq] at h
      subst h
      exact ⟨hrel, hcp, hcf, rfl⟩
    · split at h
      · cases h
      · simp only [Option.some.injEq] at h
        subst h
        refine ⟨?_, hcp, hcf, rfl⟩
        dsimp only
        refine Relinks_trans hrel (Relinks_SetProperty _ _ _ ?_)
        exact fun _ => ⟨rfl, rfl, rfl⟩

/-- The ways one iteration of the loop of `ReplaceClassProperties` ends: with
the state unchanged (`continue` before the creation), or after the creation of
the property of a visible parameter of a supported type, with no property or
with the property inserted. -/
theorem ReplaceClassPropertiesStep_cases (env : RebuildEnv) (ClassInstance : Nat)
    (v : FetchedParameters) (s : ReplaceState) (ParmInfoIter : HAPI_ParmInfo)
    (s2 : ReplaceState)
    (h : ReplaceClassPropertiesStep env ClassInstance v s ParmInfoIter = some s2) :
    s2 = s
    ∨ (ParmInfoIter.invisible = false ∧ IsSupportedType ParmInfoIter.type = true
      ∧ ∃ r UniquePropertyName op ValuesOffsetEnd,
          CreateParameterProperty env ClassInstance v s.Objects ParmInfoIter UniquePropertyName
            s.ValuesOffsetEnd = some (r, op, ValuesOffsetEnd)
          ∧ ((op = none ∧ s2 = { s with Objects := r, ValuesOffsetEnd := ValuesOffsetEnd })
            ∨ ∃ p ParamName ParamLabel ParmLabelLength, op = some p
                ∧ InsertCreatedProperty env s r ValuesOffsetEnd ParmInfoIter ParamName
                    ParamLabel ParmLabelLength p = some s2)) := by
  unfold ReplaceClassPropertiesStep at h
  by_cases hinv : ParmInfoIter.invisible = true
  · simp only [hinv, if_true, Option.some.injEq] at h
    exact Or.inl h.symm
  · simp only [hinv, if_false] at h
    by_cases hsup : IsSupportedType ParmInfoIter.type = true
    · simp only [hsup, Bool.not_true, Bool.false_eq_true, if_false] at h
      split at h
      · simp only [Option.some.injEq] at h
        exact Or.inl h.symm
      · split at h
        · simp only [Option.some.injEq] at h
          exact Or.inl h.symm
        · split at h
          · cases h
          · split at h
            · simp only [Option.some.injEq] at h
              exact Or.inl h.symm
            · split at h
              · simp only [Option.some.injEq] at h
                exact Or.inl h.symm
              · split at h
                · cases h
                · split at h
                  · simp only [Option.some.injEq] at h
                    exact Or.inl h.symm
                  · split at h
                    · cases h
                    · rename_i r ValuesOffsetEnd hcp
                      simp only [Option.some.injEq] at h
                      exact Or.inr ⟨by simpa using hinv, hsup, r, _, none, ValuesOffsetEnd, hcp,
                        Or.inl ⟨rfl, h.symm⟩⟩
                    · rename_i r Property ValuesOffsetEnd hcp
                      exact Or.inr ⟨by simpa using hinv, hsup, r, _, some Property,
                        ValuesOffsetEnd, hcp, Or.inr ⟨Property, _, _, _, rfl, h⟩⟩
    · have hs : IsSupportedType ParmInfoIter.type = false := by simpa using hsup
      simp only [hs, Bool.not_false, if_true, Bool.false_eq_true, if_false, Option.some.injEq] at h
      exact Or.inl h.symm

/-- One iteration adds nothing to `CreatedProperties`, or adds one property
for a visible parameter of a supported type, and that parameter next to it. -/
theorem ReplaceClassPropertiesStep_created (env : RebuildEnv) (ClassInstance : Nat)
    (v : FetchedParameters) (s : ReplaceState) (ParmInfoIter : HAPI_ParmInfo)
    (s2 : ReplaceState)
    (h : ReplaceClassPropertiesStep env ClassInstance v s ParmInfoIter = some s2) :
    (s2.Objects.CreatedProperties = s.Objects.CreatedProperties
      ∧ s2.Objects.CreatedFrom = s.Objects.CreatedFrom)
    ∨ (IsReflectedParm ParmInfoIter = true
      ∧ ∃ p, s2.Objects.CreatedProperties = s.Objects.CreatedProperties ++ [p]
          ∧ s2.Objects.CreatedFrom = s.Objects.CreatedFrom ++ [ParmInfoIter]) := by
  rcases ReplaceClassPropertiesStep_cases env ClassInstance v s ParmInfoIter s2 h with
    rfl | ⟨hvis, hsup, r, Name, op, Offset2, hcp, hrest⟩
  · exact Or.inl ⟨rfl, rfl⟩
  · obtain ⟨hev, _, _⟩ := CreateParameterProperty_spec _ _ _ _ _ _ _ _ _ _ hcp
    rcases hrest with ⟨_, rfl⟩ | ⟨p, pn, pl, ll, _, hins⟩
    · exact Or.inl ⟨hev.CreatedProperties, hev.CreatedFrom⟩
    · obtain ⟨_, h1, h2, _⟩ := InsertCreatedProperty_spec _ _ _ _ _ _ _ _ _ _ hins
      refine Or.inr ⟨by simp [IsReflectedParm, hvis, hsup], p, ?_, ?_⟩
      · rw [h1, hev.CreatedProperties]
      · rw [h2, hev.CreatedFrom]

/-- The loop adds to `CreatedProperties` one property for each parameter of a
sublist of the visible parameters of a supported type of the table, in the
order of the table. -/
theorem ReplaceClassPropertiesLoop_created (env : RebuildEnv) (ClassInstance : Nat)
    (v : FetchedParameters) :
    ∀ (Table : List HAPI_ParmInfo) (s s2 : ReplaceState),
      ReplaceClassPropertiesLoop env ClassInstance v Table s = some s2 →
      ∃ built : List (HAPI_ParmInfo × Nat),
        s2.Objects.CreatedFrom = s.Objects.CreatedFrom ++ built.map Prod.fst
        ∧ s2.Objects.CreatedProperties = s.Objects.CreatedProperties ++ built.map Prod.snd
        ∧ (built.map Prod.fst).Sublist (Table.filter IsReflectedParm) := by
  intro Table
  induction Table with
  | nil =>
    intro s s2 h
    simp only [ReplaceClassPropertiesLoop, Option.some.injEq] at h
    subst h
    exact ⟨[], by simp, by simp, by simp⟩
  | cons a rest ih =>
    intro s s2 h
    simp only [ReplaceClassPropertiesLoop] at h
    cases hstep : ReplaceClassPropertiesStep env ClassInstance v s a with
    | none => simp [hstep] at h
    | some s1 =>
      simp only [hstep] at h
      obtain ⟨built, hf, hp, hsub⟩ := ih s1 s2 h
      rcases ReplaceClassPropertiesStep_created env ClassInstance v s a s1 hstep with
        ⟨h1, h2⟩ | ⟨hrefl, p, h1, h2⟩
      · refine ⟨built, by rw [hf, h2], by rw [hp, h1], ?_⟩
        by_cases ha : IsReflectedParm a = true
        · rw [List.filter_cons_of_pos ha]
          exact List.Sublist.cons _ hsub
        · rw [List.filter_cons_of_neg ha]
          exact hsub
      · refine ⟨(a, p) :: built, ?_, ?_, ?_⟩
        · rw [hf, h2]; simp
        · rw [hp, h1]; simp
        · rw [List.filter_cons_of_pos hrefl]
          simp only [List.map_cons]
          exact List.Sublist.cons₂ _ hsub

theorem InstallChains_spec (ClassInstance : Nat) (s : ReplaceState) (r2 : Reflection)
    (h : InstallChains ClassInstance s = some r2) :
    (∀ q, SameStorage (s.Objects.Properties q) (r2.Properties q))
    ∧ r2.CreatedProperties = s.Objects.CreatedProperties
    ∧ r2.CreatedFrom = s.Objects.CreatedFrom
    ∧ r2.PatchedClass = s.Objects.PatchedClass
    ∧ r2.ComponentPatchedClassCounter = s.Objects.ComponentPatchedClassCounter
    ∧ r2.Class = s.Objects.Class
    ∧ r2.StaticClass = s.Objects.StaticClass
    ∧ r2.SaveWorldDelegates = s.Objects.SaveWorldDelegates
    ∧ r2.Named = s.Objects.Named
    ∧ r2.NextAddress = s.Objects.NextAddress
    ∧ (∀ a, a ≠ ClassInstance → r2.Classes a = s.Objects.Classes a)
    ∧ (r2.Classes ClassInstance).Name = (s.Objects.Classes ClassInstance).Name
    ∧ (r2.Classes ClassInstance).SuperStruct = (s.Objects.Classes ClassInstance).SuperStruct := by
  unfold InstallChains at h
  simp only at h
  split at h
  · cases h
  · rename_i r1 hp
    have h1 : (∀ q, SameStorage (s.Objects.Properties q) (r1.Properties q))
        ∧ r1.CreatedProperties = s.Objects.CreatedProperties
        ∧ r1.CreatedFrom = s.Objects.CreatedFrom
        ∧ r1.PatchedClass = s.Objects.PatchedClass
        ∧ r1.ComponentPatchedClassCounter = s.Objects.ComponentPatchedClassCounter
        ∧ r1.Class = s.Objects.Class
        ∧ r1.StaticClass = s.Objects.StaticClass
        ∧ r1.SaveWorldDelegates = s.Objects.SaveWorldDelegates
        ∧ r1.Named = s.Objects.Named
        ∧ r1.NextAddress = s.Objects.NextAddress
        ∧ (∀ a, a ≠ ClassInstance → r1.Classes a = s.Objects.Classes a)
        ∧ (r1.Classes ClassInstance).Name = (s.Objects.Classes ClassInstance).Name
        ∧ (r1.Classes ClassInstance).SuperStruct
            = (s.Objects.Classes ClassInstance).SuperStruct := by
      split at hp
      · simp only [Option.some.injEq] at hp
        subst hp
        exact ⟨fun _ => SameStorage_refl _, rfl, rfl, rfl, rfl, rfl, rfl, rfl, rfl, rfl,
          fun _ _ => rfl, rfl, rfl⟩
      · split at hp
        · cases hp
        · simp only [Option.some.injEq] at hp
          subst hp
          refine ⟨fun q => ?_, rfl, rfl, rfl, rfl, rfl, rfl, rfl, rfl, rfl, fun a ha => ?_, ?_, ?_⟩
          · rw [SetProperty_Properties]
            split
            · rename_i hq
              rw [hq]
              exact ⟨rfl, rfl, rfl⟩
            · exact SameStorage_refl _
          · simp [SetProperty, Function.update_noteq ha]
          · simp [SetProperty]
          · simp [SetProperty]
    obtain ⟨a1, a2, a3, a4, a5, a6, a7, a8, a9, a10, a11, a12, a13⟩ := h1
    split at h
    · simp only [Option.some.injEq] at h
      subst h
      exact ⟨a1, a2, a3, a4, a5, a6, a7, a8, a9, a10, a11, a12, a13⟩
    · split at h
      · cases h
      · simp only [Option.some.injEq] at h
        subst h
        refine ⟨fun q => ?_, a2, a3, a4, a5, a6, a7, a8, a9, a10, fun a ha => ?_, ?_, ?_⟩
        · refine SameStorage_trans (a1 q) ?_
          rw [SetProperty_Properties]
          split
          · rename_i hq
            rw [hq]
            exact ⟨rfl, rfl, rfl⟩
          · exact SameStorage_refl _
        · simp only [SetProperty, Function.update_noteq ha]
          exact a11 a ha
        · simp only [SetProperty, Function.update_same]
          exact a12
        · simp only [SetProperty, Function.update_same]
          exact a13

theorem KeepsClassRecord_refl (ClassInstance : Nat) (r : Reflection) :
    KeepsClassRecord ClassInstance r r :=
  { PatchedClass := rfl, Counter := rfl, Class := rfl, StaticClass := rfl,
    SaveWorldDelegates := rfl, Named := fun _ h _ => h, Classes := fun _ _ => rfl }

theorem KeepsClassRecord_trans {ClassInstance : Nat} {r r1 r2 : Reflection}
    (h1 : KeepsClassRecord ClassInstance r r1) (h2 : KeepsClassRecord ClassInstance r1 r2) :
    KeepsClassRecord ClassInstance r r2 :=
  { PatchedClass := h2.PatchedClass.trans h1.PatchedClass
    Counter := h2.Counter.trans h1.Counter
    Class := h2.Class.trans h1.Class
    StaticClass := h2.StaticClass.trans h1.StaticClass
    SaveWorldDelegates := h2.SaveWorldDelegates.trans h1.SaveWorldDelegates
    Named := fun e he hk => h1.Named e (h2.Named e he hk) hk
    Classes := fun a ha => (h2.Classes a ha).trans (h1.Classes a ha) }

theorem Evolves_keeps {r r2 : Reflection} {ps : List Nat} (h : Evolves r r2 ps)
    (ClassInstance : Nat) : KeepsClassRecord ClassInstance r r2 :=
  { PatchedClass := h.PatchedClass, Counter := h.Counter, Class := h.Class,
    StaticClass := h.StaticClass, SaveWorldDelegates := h.SaveWorldDelegates,
    Named := h.Named, Classes := fun a _ => by rw [h.Classes] }

theorem Relinks_keeps {r r2 : Reflection} (h : Relinks r r2) (ClassInstance : Nat) :
    KeepsClassRecord ClassInstance r r2 :=
  { PatchedClass := h.PatchedClass, Counter := h.Counter, Class := h.Class,
    StaticClass := h.StaticClass, SaveWorldDelegates := h.SaveWorldDelegates,
    Named := fun e he _ => by rw [h.Named] at he; exact he,
    Classes := fun a _ => by rw [h.Classes] }

theorem ReplaceClassPropertiesStep_keeps (env : RebuildEnv) (ClassInstance : Nat)
    (v : FetchedParameters) (s : ReplaceState) (ParmInfoIter : HAPI_ParmInfo)
    (s2 : ReplaceState)
    (h : ReplaceClassPropertiesStep env ClassInstance v s ParmInfoIter = some s2) :
    KeepsClassRecord ClassInstance s.Objects s2.Objects := by
  rcases ReplaceClassPropertiesStep_cases env ClassInstance v s ParmInfoIter s2 h with
    rfl | ⟨_, _, r, Name, op, Offset2, hcp, hrest⟩
  · exact KeepsClassRecord_refl _ _
  · obtain ⟨hev, _, _⟩ := CreateParameterProperty_spec _ _ _ _ _ _ _ _ _ _ hcp
    rcases hrest with ⟨_, rfl⟩ | ⟨p, pn, pl, ll, _, hins⟩
    · exact Evolves_keeps hev _
    · obtain ⟨hrel, _, _, _⟩ := InsertCreatedProperty_spec _ _ _ _ _ _ _ _ _ _ hins
      exact KeepsClassRecord_trans (Evolves_keeps hev _) (Relinks_keeps hrel _)

theorem ReplaceClassPropertiesLoop_keeps (env : RebuildEnv) (ClassInstance : Nat)
    (v : FetchedParameters) :
    ∀ (Table : List HAPI_ParmInfo) (s s2 : ReplaceState),
      ReplaceClassPropertiesLoop env ClassInstance v Table s = some s2 →
      KeepsClassRecord ClassInstance s.Objects s2.Objects := by
  intro Table
  induction Table with
  | nil =>
    intro s s2 h
    simp only [ReplaceClassPropertiesLoop, Option.some.injEq] at h
    subst h
    exact KeepsClassRecord_refl _ _
  | cons a rest ih =>
    intro s s2 h
    simp only [ReplaceClassPropertiesLoop] at h
    cases hstep : ReplaceClassPropertiesStep env ClassInstance v s a with
    | none => simp [hstep] at h
    | some s1 =>
      simp only [hstep] at h
      exact KeepsClassRecord_trans
        (ReplaceClassPropertiesStep_keeps env ClassInstance v s a s1 hstep) (ih s1 s2 h)

theorem ReplaceClassPropertiesOver_keeps (env : RebuildEnv) (ClassInstance : Nat)
    (v : FetchedParameters) (Table : List HAPI_ParmInfo) (r r2 : Reflection) (b : Bool)
    (h : ReplaceClassPropertiesOver env ClassInstance v Table r = some (r2, b)) :
    KeepsClassRecord ClassInstance r r2 := by
  unfold ReplaceClassPropertiesOver at h
  cases hloop : ReplaceClassPropertiesLoop env ClassInstance v Table (ReplaceStateStart env r) with
  | none => simp [hloop] at h
  | some s =>
    simp only [hloop] at h
    cases hinst : InstallChains ClassInstance s with
    | none => simp [hinst] at h
    | some r1 =>
      simp only [hinst, Option.some.injEq, Prod.mk.injEq] at h
      obtain ⟨rfl, _⟩ := h
      have hk := ReplaceClassPropertiesLoop_keeps env ClassInstance v Table _ s hloop
      obtain ⟨_, _, _, a4, a5, a6, a7, a8, a9, _, a11, _, _⟩ :=
        InstallChains_spec ClassInstance s r1 hinst
      exact { PatchedClass := a4.trans hk.PatchedClass
              Counter := a5.trans hk.Counter
              Class := a6.trans hk.Class
              StaticClass := a7.trans hk.StaticClass
              SaveWorldDelegates := a8.trans hk.SaveWorldDelegates
              Named := fun e he hkind => hk.Named e (by rw [a9] at he; exact he) hkind
              Classes := fun a ha => (a11 a ha).trans (hk.Classes a ha) }

theorem ReplaceClassProperties_keeps (env : RebuildEnv) (AssetId : Int) (r : Reflection)
    (ClassInstance : Nat) (r2 : Reflection) (b : Bool)
    (h : ReplaceClassProperties env AssetId r ClassInstance = some (r2, b)) :
    KeepsClassRecord ClassInstance r r2 := by
  unfold ReplaceClassProperties at h
  by_cases hid : AssetId = -1
  · simp only [hid, if_true, Option.some.injEq, Prod.mk.injEq] at h
    obtain ⟨rfl, _⟩ := h
    exact KeepsClassRecord_refl _ _
  · simp only [hid, if_false] at h
    split at h
    · cases h
    · simp only [Option.some.injEq, Prod.mk.injEq] at h
      obtain ⟨rfl, _⟩ := h
      exact KeepsClassRecord_refl _ _
    · exact ReplaceClassPropertiesOver_keeps env ClassInstance _ _ r r2 b h

/-- `RemoveClassProperties` only clears links. -/
theorem RemoveClassPropertiesLoop_relinks (Stop : Option Nat) :
    ∀ (fuel : Nat) (IterProperty : Option Nat) (r r2 : Reflection),
      RemoveClassPropertiesLoop Stop fuel IterProperty r = some r2 →
      Relinks r r2 ∧ r2.CreatedProperties = r.CreatedProperties
        ∧ r2.CreatedFrom = r.CreatedFrom ∧ r2.Memory = r.Memory ∧ r2.Strings = r.Strings
        ∧ r2.Enums = r.Enums ∧ r2.ScriptStructColor = r.ScriptStructColor := by
  intro fuel
  induction fuel with
  | zero =>
    intro IterProperty r r2 h
    cases IterProperty with
    | none =>
      simp only [RemoveClassPropertiesLoop, Option.some.injEq] at h
      subst h
      exact ⟨Relinks_refl _, rfl, rfl, rfl, rfl, rfl, rfl⟩
    | some p =>
      simp only [RemoveClassPropertiesLoop] at h
      split at h
      · simp only [Option.some.injEq] at h
        subst h
        exact ⟨Relinks_refl _, rfl, rfl, rfl, rfl, rfl, rfl⟩
      · cases h
  | succ fuel ih =>
    intro IterProperty r r2 h
    cases IterProperty with
    | none =>
      simp only [RemoveClassPropertiesLoop, Option.some.injEq] at h
      subst h
      exact ⟨Relinks_refl _, rfl, rfl, rfl, rfl, rfl, rfl⟩
    | some p =>
      simp only [RemoveClassPropertiesLoop] at h
      split at h
      · simp only [Option.some.injEq] at h
        subst h
        exact ⟨Relinks_refl _, rfl, rfl, rfl, rfl, rfl, rfl⟩
      · obtain ⟨h1, h2, h3, h4, h5, h6, h7⟩ := ih _ _ _ h
        refine ⟨Relinks_trans (Relinks_SetProperty r p _ ?_) h1, h2, h3, h4, h5, h6, h7⟩
        exact fun _ => ⟨rfl, rfl, rfl⟩

/-- C15, the counterexample: on a component without asset handle (-1) and
without recorded class, `ReplaceClassInformation` is not a no-op: it generates
the class `HoudiniAssetComponent_Actor_0` at the next free address, records it,
increments the class counter and makes it the active class of the component.
Only the field list stays empty. -/
theorem C15_counterexample_first_call_generates_class :
    UnloadedWorld.AssetId = -1
    ∧ (UnloadedWorld.Objects.PatchedClass, UnloadedWorld.Objects.ComponentPatchedClassCounter,
        UnloadedWorld.Objects.Class, UnloadedWorld.Objects.Named)
      = (none, 0, 10, [])
    ∧ (ReplaceClassInformation ChoiceEnv UnloadedWorld "Actor" true).map
        (fun w => (w.Objects.PatchedClass, w.Objects.ComponentPatchedClassCounter,
          w.Objects.Class, w.Objects.Named, w.Objects.CreatedProperties))
      = some (some 100, 1, 100,
          [{ Outer := 12, Name := "HoudiniAssetComponent_Actor_0", Kind := UObjectKind.Class,
             Address := 100 }], []) := by
  decide

/-- C15, amended: when the asset handle is -1, `ReplaceClassProperties` returns
true with the objects unchanged, whatever the engine would answer.
`ReplaceClassInformation` on a component with a recorded class then creates no
class and leaves the class objects, the recorded class, the class counter, the
active class, the named objects and `CreatedProperties` unchanged.  On a
component without recorded class it returns exactly when the host can allocate
the class object, and it has then generated a class, recorded it, incremented
the class counter and, when `bReplace` is set, made it the active class; the
new class has empty chains and no property object is changed. -/
theorem C15_invalid_handle_reflects_no_parameter (env : RebuildEnv) (w : World)
    (ActorLabel : String) (bReplace : Bool) (hid : w.AssetId = -1) :
    (∀ (env2 : RebuildEnv) (r : Reflection) (ClassInstance : Nat),
      ReplaceClassProperties env2 w.AssetId r ClassInstance = some (r, true))
    ∧ (∀ c, w.Objects.PatchedClass = some c →
        ∀ w2, ReplaceClassInformation env w ActorLabel bReplace = some w2 →
          Relinks w.Objects w2.Objects
          ∧ w2.Objects.PatchedClass = some c
          ∧ w2.Objects.CreatedProperties = w.Objects.CreatedProperties)
    ∧ (w.Objects.PatchedClass = none →
        ((ReplaceClassInformation env w ActorLabel bReplace).isSome
          = (NewNamedObject w.Objects UObjectKind.Class env.Outermost
              (env.SanitizeObjectName ((w.Objects.Classes w.Objects.Class).Name ++ "_"
                ++ ActorLabel ++ "_" ++ Nat.repr w.Objects.ComponentPatchedClassCounter))).isSome)
        ∧ ∀ w2, ReplaceClassInformation env w ActorLabel bReplace = some w2 →
          ∃ NewClass, w2.Objects.PatchedClass = some NewClass
            ∧ w2.Objects.ComponentPatchedClassCounter
                = w.Objects.ComponentPatchedClassCounter + 1
            ∧ w2.Objects.Class = (if bReplace then NewClass else w.Objects.Class)
            ∧ (w2.Objects.Classes NewClass).PropertyLink = none
            ∧ (w2.Objects.Classes NewClass).Children = none
            ∧ w2.Objects.Properties = w.Objects.Properties
            ∧ w2.Objects.CreatedProperties = w.Objects.CreatedProperties) := by
  have hprops : ∀ (env2 : RebuildEnv) (r : Reflection) (ClassInstance : Nat),
      ReplaceClassProperties env2 w.AssetId r ClassInstance = some (r, true) := by
    intro env2 r ClassInstance
    unfold ReplaceClassProperties
    simp only [hid, if_true]
  refine ⟨hprops, ?_, ?_⟩
  · intro c hc w2 h
    unfold ReplaceClassInformation at h
    simp only [hc] at h
    cases hrem : RemoveClassProperties w.Objects w.Objects.Class with
    | none => simp [hrem] at h
    | some r1 =>
      simp only [hrem, hprops, Option.some.injEq] at h
      subst h
      obtain ⟨hrel, hcp, _⟩ := RemoveClassPropertiesLoop_relinks _ _ _ _ _ hrem
      exact ⟨hrel, by rw [hrel.PatchedClass]; exact hc, hcp⟩
  · intro hnone
    unfold ReplaceClassInformation
    simp only [hnone]
    cases hnew : NewNamedObject w.Objects UObjectKind.Class env.Outermost
        (env.SanitizeObjectName ((w.Objects.Classes w.Objects.Class).Name ++ "_"
          ++ ActorLabel ++ "_" ++ Nat.repr w.Objects.ComponentPatchedClassCounter)) with
    | none => simp
    | some res =>
      obtain ⟨r1, NewClass⟩ := res
      have hr1 : r1.Properties = w.Objects.Properties
          ∧ r1.CreatedProperties = w.Objects.CreatedProperties
          ∧ r1.ComponentPatchedClassCounter = w.Objects.ComponentPatchedClassCounter
          ∧ r1.Class = w.Objects.Class := by
        rcases NewNamedObject_cases _ _ _ _ _ _ hnew with ⟨hr, _⟩ | ⟨_, hr⟩
        · subst hr; exact ⟨rfl, rfl, rfl, rfl⟩
        · subst hr; exact ⟨rfl, rfl, rfl, rfl⟩
      obtain ⟨hp1, hp2, hp3, hp4⟩ := hr1
      cases bReplace with
      | true =>
        simp only [if_true, hprops, Option.isSome_some, true_and, Option.some.injEq]
        intro w2 h
        subst h
        refine ⟨NewClass, rfl, ?_, rfl, ?_, ?_, hp1, hp2⟩
        · simp [SubscribeSaveWorldDelegates, ReplaceClassObject, hp3]
        · simp [SubscribeSaveWorldDelegates, ReplaceClassObject]
        · simp [SubscribeSaveWorldDelegates, ReplaceClassObject]
      | false =>
        simp only [Bool.false_eq_true, if_false, hprops, Option.isSome_some, true_and,
          Option.some.injEq]
        intro w2 h
        subst h
        refine ⟨NewClass, rfl, ?_, hp4, ?_, ?_, hp1, hp2⟩
        · simp [hp3]
        · simp
        · simp

/-- C15 amended, at the component loaded from storage: the field list is not
touched and the engine is not asked, and the first call records the generated
class at address 100. -/
theorem C15_invalid_handle_reflects_no_parameter_witness :
    UnloadedWorld.AssetId = -1
    ∧ ReplaceClassProperties ChoiceEnv UnloadedWorld.AssetId StaticObjects 10
        = some (StaticObjects, true)
    ∧ (ReplaceClassInformation ChoiceEnv UnloadedWorld "Actor" true).map
        (fun w => w.Objects.PatchedClass) = some (some 100) :=
  ⟨by decide,
    (C15_invalid_handle_reflects_no_parameter ChoiceEnv UnloadedWorld "Actor" true
      (by decide)).1 ChoiceEnv StaticObjects 10,
    by decide⟩

theorem Option_eq_some_getD {α : Type} (x : Option α) (d : α) (h : x.isSome = true) :
    x = some (x.getD d) := by
  cases x with
  | none => cases h
  | some a => rfl

/-- What every call of `ReplaceClassInformation` made while a generated class
is recorded keeps: it creates no class object and leaves the recorded class,
the class counter and the active class unchanged; it is `RemoveClassProperties`
followed by `ReplaceClassProperties` on the active class, and every other class
object is unchanged. -/
theorem ReplaceClassInformation_recorded (env : RebuildEnv) (w : World)
    (ActorLabel : String) (bReplace : Bool) (c : Nat) (hc : w.Objects.PatchedClass = some c)
    (w2 : World) (h : ReplaceClassInformation env w ActorLabel bReplace = some w2) :
    w2.Objects.PatchedClass = some c
    ∧ w2.Objects.ComponentPatchedClassCounter = w.Objects.ComponentPatchedClassCounter
    ∧ w2.Objects.Class = w.Objects.Class
    ∧ (∀ e ∈ w2.Objects.Named, e.Kind = UObjectKind.Class → e ∈ w.Objects.Named)
    ∧ (∀ a, a ≠ w.Objects.Class → w2.Objects.Classes a = w.Objects.Classes a)
    ∧ (∃ r1 b, RemoveClassProperties w.Objects w.Objects.Class = some r1
        ∧ ReplaceClassProperties env w.AssetId r1 w.Objects.Class = some (w2.Objects, b))
    ∧ (w.Objects.Class ≠ c → w2.Objects.Classes c = w.Objects.Classes c) := by
  unfold ReplaceClassInformation at h
  simp only [hc] at h
  cases hrem : RemoveClassProperties w.Objects w.Objects.Class with
  | none => simp [hrem] at h
  | some r1 =>
    simp only [hrem] at h
    cases hrep : ReplaceClassProperties env w.AssetId r1 w.Objects.Class with
    | none => simp [hrep] at h
    | some res =>
      obtain ⟨r2, b⟩ := res
      simp only [hrep, Option.some.injEq] at h
      subst h
      obtain ⟨hrel, _⟩ := RemoveClassPropertiesLoop_relinks _ _ _ _ _ hrem
      have hk := KeepsClassRecord_trans (Relinks_keeps hrel w.Objects.Class)
        (ReplaceClassProperties_keeps env w.AssetId r1 w.Objects.Class r2 b hrep)
      exact ⟨by rw [hk.PatchedClass]; exact hc, hk.Counter, hk.Class, hk.Named, hk.Classes,
        ⟨r1, b, rfl, hrep⟩, fun hne => hk.Classes c (Ne.symm hne)⟩

/-- A field that is bound at a cursor whose footprint does not wrap around
starts at or after the cursor and ends at or before the cursor that follows. -/
theorem FieldBinding_bounds (c : UPropertyClass) (Count : Int) (Offset : Nat) (P : UProperty)
    (Offset2 : Nat) (hb : FieldBinding c Count Offset P Offset2) (hclass : P.Class = c)
    (hstruct : c = UPropertyClass.UStructProperty → P.ArrayDim = 1 ∧ Count = 1)
    (hcount : 0 ≤ Count)
    (hfit : Offset + ((AlignmentOf c - 1) + (ElementSize c * Count).toNat) < 4294967296) :
    Offset ≤ P.Offset
    ∧ (P.Offset : Int) + ElementSize P.Class * P.ArrayDim ≤ Offset2
    ∧ Offset2 ≤ Offset + ((AlignmentOf c - 1) + (ElementSize c * Count).toNat) := by
  obtain ⟨hoff, harr, hcur, hstr⟩ := hb
  rw [hclass]
  cases c with
  | UIntProperty =>
    have h1 := harr (by decide)
    have h2 := hcur (by decide)
    simp only [ElementSize, AlignmentOf, alignofWord, alignofByte, alignofFString] at *
    unfold u32 at hoff
    unfold u32OfInt at h2
    unfold ComputeOffsetAlignmentBoundary at hoff
    rw [h1]
    omega
  | UBoolProperty =>
    have h1 := harr (by decide)
    have h2 := hcur (by decide)
    simp only [ElementSize, AlignmentOf, alignofWord, alignofByte, alignofFString] at *
    unfold u32 at hoff
    unfold u32OfInt at h2
    unfold ComputeOffsetAlignmentBoundary at hoff
    rw [h1]
    omega
  | UFloatProperty =>
    have h1 := harr (by decide)
    have h2 := hcur (by decide)
    simp only [ElementSize, AlignmentOf, alignofWord, alignofByte, alignofFString] at *
    unfold u32 at hoff
    unfold u32OfInt at h2
    unfold ComputeOffsetAlignmentBoundary at hoff
    rw [h1]
    omega
  | UByteProperty =>
    have h1 := harr (by decide)
    have h2 := hcur (by decide)
    simp only [ElementSize, AlignmentOf, alignofWord, alignofByte, alignofFString] at *
    unfold u32 at hoff
    unfold u32OfInt at h2
    unfold ComputeOffsetAlignmentBoundary at hoff
    rw [h1]
    omega
  | UOtherProperty =>
    have h1 := harr (by decide)
    have h2 := hcur (by decide)
    simp only [ElementSize, AlignmentOf, alignofWord, alignofByte, alignofFString] at *
    unfold u32 at hoff
    unfold u32OfInt at h2
    unfold ComputeOffsetAlignmentBoundary at hoff
    rw [h1]
    omega
  | UStrProperty =>
    have h1 := harr (by decide)
    simp only [ElementSize, AlignmentOf, alignofWord, alignofByte, alignofFString] at *
    unfold u32 at hoff
    unfold ComputeOffsetAlignmentBoundary at hoff
    have h2 := hstr trivial (by omega)
    rw [h1]
    omega
  | UStructProperty =>
    have h1 := hstruct rfl
    have h2 := hcur (by decide)
    simp only [ElementSize, AlignmentOf, alignofWord, alignofByte, alignofFString] at *
    unfold u32 at hoff
    unfold u32OfInt at h2
    unfold ComputeOffsetAlignmentBoundary at hoff
    rw [h1.1]
    rw [h1.2] at h2 hfit
    omega

theorem FieldKindOf_count_nonneg (ParmInfoIter : HAPI_ParmInfo) (h : 0 ≤ ParmInfoIter.size) :
    0 ≤ (FieldKindOf ParmInfoIter).2 := by
  unfold FieldKindOf
  cases ParmInfoIter.type <;> simp only <;> (try split) <;> simp [h]

theorem FieldKindOf_struct (ParmInfoIter : HAPI_ParmInfo)
    (h : (FieldKindOf ParmInfoIter).1 = UPropertyClass.UStructProperty) :
    (FieldKindOf ParmInfoIter).2 = 1 := by
  unfold FieldKindOf at h ⊢
  cases ht : ParmInfoIter.type <;> simp only [ht] at h ⊢ <;> (try split at h) <;> simp at h

theorem TableFootprint_cons (a : HAPI_ParmInfo) (rest : List HAPI_ParmInfo) :
    TableFootprint (a :: rest) = ParmFootprint a + TableFootprint rest := by
  simp [TableFootprint]

/-- One iteration keeps every created field between the start and the cursor,
and moves the cursor by at most the footprint of its parameter. -/
theorem ReplaceClassPropertiesStep_bounds (env : RebuildEnv) (ClassInstance : Nat)
    (v : FetchedParameters) (Start : Nat) (s : ReplaceState) (ParmInfoIter : HAPI_ParmInfo)
    (s2 : ReplaceState)
    (h : ReplaceClassPropertiesStep env ClassInstance v s ParmInfoIter = some s2)
    (hsize : 0 ≤ ParmInfoIter.size)
    (hfit : s.ValuesOffsetEnd + ParmFootprint ParmInfoIter < 4294967296)
    (hinv : FieldsBelowCursor Start s) :
    FieldsBelowCursor Start s2
    ∧ s.ValuesOffsetEnd ≤ s2.ValuesOffsetEnd
    ∧ s2.ValuesOffsetEnd ≤ s.ValuesOffsetEnd + ParmFootprint ParmInfoIter := by
  obtain ⟨hok, hstart, hfields⟩ := hinv
  rcases ReplaceClassPropertiesStep_cases env ClassInstance v s ParmInfoIter s2 h with
    rfl | ⟨hvis, hsup, r, Name, op, Offset2, hcp, hrest⟩
  · exact ⟨⟨hok, hstart, hfields⟩, Nat.le_refl _, Nat.le_add_right _ _⟩
  · obtain ⟨hev, hnone, hsome⟩ := CreateParameterProperty_spec _ _ _ _ _ _ _ _ _ _ hcp
    rcases hrest with ⟨hop, rfl⟩ | ⟨p, pn, pl, ll, hop, hins⟩
    · have hoff : Offset2 = s.ValuesOffsetEnd := hnone hop
      subst hoff
      subst hop
      refine ⟨⟨hev.Registry hok, hstart, fun q hq => ?_⟩, Nat.le_refl _, Nat.le_add_right _ _⟩
      have hq2 : q ∈ s.Objects.CreatedProperties := by
        have := hev.CreatedProperties
        simp only at hq
        rw [this] at hq
        exact hq
      obtain ⟨f1, f2, f3⟩ := hfields q hq2
      have hsame : r.Properties q = s.Objects.Properties q :=
        hev.Properties q f1 (by simp)
      simp only
      rw [hsame]
      exact ⟨Nat.lt_of_lt_of_le f1 hev.Next, f2, f3⟩
    · subst hop
      obtain ⟨hmem, hbind⟩ := hsome p rfl
      obtain ⟨hlt, hclass, hstruct⟩ := Evolves_mem_lt hev hok p _ hmem
      have hrefl : IsReflectedParm ParmInfoIter = true := by
        simp [IsReflectedParm, hvis, hsup]
      have hfoot : ParmFootprint ParmInfoIter
          = (AlignmentOf (FieldKindOf ParmInfoIter).1 - 1)
            + (ElementSize (FieldKindOf ParmInfoIter).1 * (FieldKindOf ParmInfoIter).2).toNat := by
        simp [ParmFootprint, hrefl]
      rw [hfoot] at hfit ⊢
      obtain ⟨b1, b2, b3⟩ := FieldBinding_bounds _ _ _ _ _ hbind hclass
        (fun hs => ⟨hstruct hs, FieldKindOf_struct _ hs⟩)
        (FieldKindOf_count_nonneg _ hsize) hfit
      obtain ⟨hrel, hcp2, _, hend⟩ := InsertCreatedProperty_spec _ _ _ _ _ _ _ _ _ _ hins
      have hcur : s.ValuesOffsetEnd ≤ Offset2 := by
        have : (0 : Int) ≤ ElementSize (r.Properties p).Class * (r.Properties p).ArrayDim := by
          rw [hclass]
          by_cases hs : (FieldKindOf ParmInfoIter).1 = UPropertyClass.UStructProperty
          · rw [hstruct hs, hs]; decide
          · rw [hbind.2.1 hs]
            have := FieldKindOf_count_nonneg _ hsize
            cases (FieldKindOf ParmInfoIter).1 <;> simp only [ElementSize] <;> omega
        omega
      refine ⟨⟨Relinks_registry hrel (hev.Registry hok), by rw [hend]; exact Nat.le_trans hstart hcur,
        fun q hq => ?_⟩, by rw [hend]; exact hcur, by rw [hend]; exact b3⟩
      rw [hcp2, hev.CreatedProperties] at hq
      obtain ⟨s1, s2a, s3⟩ := hrel.Storage q
      rw [hrel.Next, s1, s2a, s3, hend]
      by_cases hqp : q = p
      · subst hqp
        exact ⟨hlt, Nat.le_trans hstart b1, b2⟩
      · have hq2 : q ∈ s.Objects.CreatedProperties := by
          rcases List.mem_append.1 hq with hm | hm
          · exact hm
          · exact absurd (List.mem_singleton.1 hm) hqp
        obtain ⟨f1, f2, f3⟩ := hfields q hq2
        have hsame : r.Properties q = s.Objects.Properties q :=
          hev.Properties q f1 (by simpa using hqp)
        rw [hsame]
        exact ⟨Nat.lt_of_lt_of_le f1 hev.Next, f2, by omega⟩

/-- The loop keeps every created field between the start and the cursor, and
moves the cursor by at most the footprint of the table. -/
theorem ReplaceClassPropertiesLoop_bounds (env : RebuildEnv) (ClassInstance : Nat)
    (v : FetchedParameters) (Start : Nat) :
    ∀ (Table : List HAPI_ParmInfo) (s s2 : ReplaceState),
      ReplaceClassPropertiesLoop env ClassInstance v Table s = some s2 →
      (∀ ParmInfoIter ∈ Table, 0 ≤ ParmInfoIter.size) →
      s.ValuesOffsetEnd + TableFootprint Table < 4294967296 →
      FieldsBelowCursor Start s →
      FieldsBelowCursor Start s2
        ∧ s2.ValuesOffsetEnd ≤ s.ValuesOffsetEnd + TableFootprint Table := by
  intro Table
  induction Table with
  | nil =>
    intro s s2 h _ _ hinv
    simp only [ReplaceClassPropertiesLoop, Option.some.injEq] at h
    subst h
    exact ⟨hinv, Nat.le_add_right _ _⟩
  | cons a rest ih =>
    intro s s2 h hsize hfit hinv
    simp only [ReplaceClassPropertiesLoop] at h
    rw [TableFootprint_cons] at hfit ⊢
    cases hstep : ReplaceClassPropertiesStep env ClassInstance v s a with
    | none => simp [hstep] at h
    | some s1 =>
      simp only [hstep] at h
      obtain ⟨hinv1, _, hle1⟩ := ReplaceClassPropertiesStep_bounds env ClassInstance v Start s a
        s1 hstep (hsize a (List.mem_cons_self _ _)) (by omega) hinv
      obtain ⟨hinv2, hle2⟩ := ih s1 s2 h (fun x hx => hsize x (List.mem_cons_of_mem _ hx))
        (by omega) hinv1
      exact ⟨hinv2, by omega⟩

theorem RegistryOk_of_check (r : Reflection) (h : r.Named.all (EntryCheck r) = true) :
    RegistryOk r := by
  intro e he
  have h1 := List.all_eq_true.1 h e he
  unfold EntryCheck at h1
  simp only [Bool.and_eq_true, decide_eq_true_eq] at h1
  refine ⟨h1.1, fun c hc => ?_⟩
  have h2 := h1.2
  rw [hc] at h2
  simp only [Bool.and_eq_true, decide_eq_true_eq, Bool.or_eq_true] at h2
  refine ⟨h2.1, fun hs => ?_⟩
  rcases h2.2 with h3 | h3
  · exact absurd hs h3
  · exact h3

/-- C17, amended: the code never compares the cursor with the capacity of the
scratch buffer.  When the named objects are in order, no parameter of the
fetched table has a negative size, the footprint of the table (for every
visible parameter of a supported type the padding before its field and the
storage of its field) is at most the capacity, and the end of the buffer is
below `2^32`, then after `ReplaceClassProperties` the storage of every field
of `CreatedProperties` lies inside the scratch buffer. -/
theorem C17_fields_lie_in_buffer_when_table_fits (env : RebuildEnv) (AssetId : Int)
    (r : Reflection) (ClassInstance : Nat) (v : FetchedParameters) (r2 : Reflection) (b : Bool)
    (hid : AssetId ≠ -1) (hfetch : FetchParameters env AssetId = some (some v))
    (hok : RegistryOk r) (hsize : ∀ ParmInfoIter ∈ v.ParmInfo, 0 ≤ ParmInfoIter.size)
    (hfit : TableFootprint v.ParmInfo ≤ env.ScratchSpaceSize)
    (hcap : env.ScratchSpaceBufferOffset + env.ScratchSpaceSize < 4294967296)
    (h : ReplaceClassProperties env AssetId r ClassInstance = some (r2, b)) :
    ∀ p ∈ r2.CreatedProperties,
      InScratchBuffer env.ScratchSpaceBufferOffset env.ScratchSpaceSize (r2.Properties p) := by
  unfold ReplaceClassProperties at h
  simp only [hid, if_false, hfetch] at h
  unfold ReplaceClassPropertiesOver at h
  cases hloop : ReplaceClassPropertiesLoop env ClassInstance v v.ParmInfo
      (ReplaceStateStart env r) with
  | none => simp [hloop] at h
  | some s =>
    simp only [hloop] at h
    cases hinst : InstallChains ClassInstance s with
    | none => simp [hinst] at h
    | some r1 =>
      simp only [hinst, Option.some.injEq, Prod.mk.injEq] at h
      obtain ⟨rfl, _⟩ := h
      have hu : u32 env.ScratchSpaceBufferOffset = env.ScratchSpaceBufferOffset := by
        unfold u32; omega
      have hstart : FieldsBelowCursor env.ScratchSpaceBufferOffset (ReplaceStateStart env r) := by
        refine ⟨?_, ?_, ?_⟩
        · intro e he
          exact hok e he
        · simp [ReplaceStateStart, hu]
        · intro p hp
          simp [ReplaceStateStart] at hp
      have hcur : (ReplaceStateStart env r).ValuesOffsetEnd = env.ScratchSpaceBufferOffset := by
        simp [ReplaceStateStart, hu]
      obtain ⟨⟨_, _, hfields⟩, hle⟩ := ReplaceClassPropertiesLoop_bounds env ClassInstance v
        env.ScratchSpaceBufferOffset v.ParmInfo _ s hloop hsize (by rw [hcur]; omega) hstart
      obtain ⟨hst, hcp, _⟩ := InstallChains_spec ClassInstance s r1 hinst
      intro p hp
      rw [hcp] at hp
      obtain ⟨_, f2, f3⟩ := hfields p hp
      obtain ⟨s1, s2, s3⟩ := hst p
      unfold InScratchBuffer
      rw [s1, s2, s3]
      rw [hcur] at hle
      exact ⟨f2, by omega⟩

/-- C17 amended, at the scenario of the specification: the table of the
scenario has a footprint of one byte, and the one field of the rebuild lies in
the buffer of 65536 bytes that starts at offset 1000. -/
theorem C17_fields_lie_in_buffer_when_table_fits_witness :
    TableFootprint ChoiceFetched.ParmInfo = 1
    ∧ ChoiceRebuilt.CreatedProperties = [102]
    ∧ ∀ p ∈ ChoiceRebuilt.CreatedProperties, InScratchBuffer 1000 65536 (ChoiceRebuilt.Properties p) :=
  ⟨by decide, by decide,
    C17_fields_lie_in_buffer_when_table_fits ChoiceEnv 7 ChoiceWorld.Objects 100 ChoiceFetched
      ChoiceRebuilt true (by decide) (by decide) (RegistryOk_of_check _ (by decide))
      (by decide) (by decide) (by decide) rfl⟩

theorem FillVector_self {α : Type} (Zero : α) (l : List α) : FillVector Zero l.length l = l := by
  unfold FillVector
  apply List.ext_getElem
  · simp
  · intro i h1 h2
    simp [List.getD, List.getElem?_eq_getElem h2]

/-- The loop that writes the values of an integer field returns when the
vector holds a value for every element. -/
theorem WriteIntValues_replicate (N : Nat) (x : Int) (B : Nat) :
    ∀ (n Index : Nat) (m : Nat → Nat), Index + n ≤ N →
      ∃ m2, WriteIntValues (List.replicate N x) 0 B Index n m = some m2 := by
  intro n
  induction n with
  | zero => intro Index m _; exact ⟨m, rfl⟩
  | succ n ih =>
    intro Index m h
    have hr : ReadVector (List.replicate N x) 0 Index = some x := by
      unfold ReadVector
      have h0 : (0 : Int) ≤ 0 + (Index : Int) := by omega
      have h1 : ((0 : Int) + (Index : Int)).toNat = Index := by omega
      rw [if_pos h0, h1]
      simp only [List.get?_eq_getElem?]
      rw [List.getElem?_replicate]
      simp
      omega
    unfold WriteIntValues
    simp only [hr]
    exact ih (Index + 1) _ (by omega)

/-- One iteration for a visible parameter of a supported type whose name and
label the engine supplies: the iteration is the creation of the property
followed, when there is a property, by its insertion. -/
theorem ReplaceClassPropertiesStep_of_fetched (env : RebuildEnv) (ClassInstance : Nat)
    (v : FetchedParameters) (s : ReplaceState) (ParmInfoIter : HAPI_ParmInfo)
    (ParmNameLength ParmLabelLength : Int) (ParmName ParmLabel : String)
    (hvis : ParmInfoIter.invisible = false)
    (hsup : IsSupportedType ParmInfoIter.type = true)
    (h1 : env.HAPI_GetStringBufLength ParmInfoIter.nameSH
      = (HAPI_Result.HAPI_RESULT_SUCCESS, ParmNameLength))
    (h2 : 0 < ParmNameLength)
    (h3 : env.HAPI_GetString ParmInfoIter.nameSH ParmNameLength
      = (HAPI_Result.HAPI_RESULT_SUCCESS, ParmName))
    (h4 : env.HAPI_GetStringBufLength ParmInfoIter.labelSH
      = (HAPI_Result.HAPI_RESULT_SUCCESS, ParmLabelLength))
    (h5 : 0 ≤ ParmLabelLength)
    (h6 : env.HAPI_GetString ParmInfoIter.labelSH ParmLabelLength
      = (HAPI_Result.HAPI_RESULT_SUCCESS, ParmLabel)) :
    ReplaceClassPropertiesStep env ClassInstance v s ParmInfoIter
      = match CreateParameterProperty env ClassInstance v s.Objects ParmInfoIter
          (env.SanitizeObjectName ((s.Objects.Classes ClassInstance).Name ++ "_"
            ++ env.UTF8_TO_TCHAR ParmName)) s.ValuesOffsetEnd with
        | none => none
        | some (r, none, ValuesOffsetEnd) =>
          some { s with Objects := r, ValuesOffsetEnd := ValuesOffsetEnd }
        | some (r, some Property, ValuesOffsetEnd) =>
          InsertCreatedProperty env s r ValuesOffsetEnd ParmInfoIter
            (env.UTF8_TO_TCHAR ParmName) (env.UTF8_TO_TCHAR ParmLabel) ParmLabelLength
            Property := by
  unfold ReplaceClassPropertiesStep
  have h2a : ¬ ParmNameLength = 0 := by omega
  have h2b : ¬ ParmNameLength < 0 := by omega
  have h5b : ¬ ParmLabelLength < 0 := by omega
  simp only [hvis, hsup, h1, h3, h4, h6, HOUDINI_CHECK_ERROR, Bool.false_eq_true, if_false,
    Bool.not_true, ne_eq, not_true_eq_false, h2a, h2b, h5b]

/-- `CreatePropertyInt` returns when the property can be located or created and
the vector holds a value for every element. -/
theorem CreatePropertyInt_returns (r : Reflection) (ClassInstance : Nat) (Name : String)
    (Count : Int) (Vector : List Int) (Start : Int) (Offset : Nat) (r1 : Reflection) (p : Nat)
    (m : Nat → Nat) (hc : Count ≠ 0)
    (hcp : CreatePropertyOfClass UPropertyClass.UIntProperty r ClassInstance Name
      CreatedPropertyFlags = some (r1, p))
    (hw : WriteIntValues Vector Start (ComputeOffsetAlignmentBoundary alignofWord Offset) 0
      Count.toNat r1.Memory = some m) :
    ∃ r2, CreatePropertyInt r ClassInstance Name Count Vector Start Offset
      = some (r2, some p,
          u32OfInt (u32 (ComputeOffsetAlignmentBoundary alignofWord Offset) + 4 * Count)) := by
  unfold CreatePropertyInt
  simp only [hc, if_false, hcp]
  have hw2 : WriteIntValues Vector Start (ComputeOffsetAlignmentBoundary alignofWord Offset) 0
      Count.toNat (SetProperty r1 p (fun Property =>
        { Property with ArrayDim := Count,
                        Offset := u32 (ComputeOffsetAlignmentBoundary alignofWord Offset)
        })).Memory = some m := hw
  simp only [hw2]
  exact ⟨_, rfl⟩

/-- The first insertion of a pass returns, and the property is then the first
and the last of both chains under construction. -/
theorem InsertCreatedProperty_first (env : RebuildEnv) (s : ReplaceState) (r : Reflection)
    (ValuesOffsetEnd : Nat) (ParmInfoIter : HAPI_ParmInfo) (ParamName ParamLabel : String)
    (ParmLabelLength : Int) (Property : Nat) (hp : s.PropertyFirst = none)
    (hc : s.ChildFirst = none) :
    ∃ s2, InsertCreatedProperty env s r ValuesOffsetEnd ParmInfoIter ParamName ParamLabel
        ParmLabelLength Property = some s2
      ∧ s2.PropertyFirst = some Property ∧ s2.PropertyLast = some Property
      ∧ s2.ChildFirst = some Property ∧ s2.ChildLast = some Property := by
  unfold InsertCreatedProperty
  simp only [hp, hc]
  exact ⟨_, rfl, rfl, rfl, rfl, rfl⟩

/-- `InstallChains` returns when the last property of each chain under
construction is known. -/
theorem InstallChains_returns (ClassInstance : Nat) (s : ReplaceState) (p c : Nat)
    (hp : s.PropertyLast = some p) (hc : s.ChildLast = some c) :
    ∃ r2, InstallChains ClassInstance s = some r2 := by
  unfold InstallChains
  simp only [hp, hc]
  cases s.PropertyFirst with
  | none =>
    cases s.ChildFirst with
    | none => exact ⟨_, rfl⟩
    | some _ => exact ⟨_, rfl⟩
  | some _ =>
    cases s.ChildFirst with
    | none => exact ⟨_, rfl⟩
    | some _ => exact ⟨_, rfl⟩

/-- What `ReplaceClassProperties` fetches from the engine with the wide
parameter. -/
theorem FetchParameters_OverflowEnv (Capacity : Nat) :
    FetchParameters (OverflowEnv Capacity) 7 = some (some (OverflowFetched Capacity)) := by
  have hlen : FillVector (0 : Int) (Capacity / 4 + 1) (List.replicate (Capacity / 4 + 1) 10)
      = List.replicate (Capacity / 4 + 1) 10 := by
    have := FillVector_self (0 : Int) (List.replicate (Capacity / 4 + 1) 10)
    simpa using this
  have h1 : ¬ (((Capacity / 4 + 1 : Nat) : Int) < 0) := by omega
  have h2 : (0 : Int) < ((Capacity / 4 + 1 : Nat) : Int) := by omega
  unfold FetchParameters
  simp only [OverflowEnv, PairEnv, ChoiceEnv, HOUDINI_CHECK_ERROR_RETURN, if_true, h1, h2,
    if_false, Int.toNat_ofNat, hlen]
  rfl

/-- For every capacity of the scratch buffer there is a parameter table after
whose rebuild a created field does not lie inside the buffer.  The table holds
one visible integer parameter of `Capacity / 4 + 1` elements.
`ReplaceClassProperties` returns true and records one integer field of that
arity at offset 1000, the start of the buffer, so the storage of the field ends
behind the end of the buffer. -/
theorem ReplaceClassProperties_OverflowEnv (Capacity : Nat) :
    ∃ r2, ReplaceClassProperties (OverflowEnv Capacity) 7 GeneratedObjects 100 = some (r2, true)
      ∧ r2.CreatedProperties = [101]
      ∧ (r2.Properties 101).Class = UPropertyClass.UIntProperty
      ∧ (r2.Properties 101).ArrayDim = ((Capacity / 4 + 1 : Nat) : Int)
      ∧ (r2.Properties 101).Offset = 1000
      ∧ ¬ InScratchBuffer (OverflowEnv Capacity).ScratchSpaceBufferOffset
            (OverflowEnv Capacity).ScratchSpaceSize (r2.Properties 101) := by
  have hfetch := FetchParameters_OverflowEnv Capacity
  have hs0 : ReplaceStateStart (OverflowEnv Capacity) GeneratedObjects
      = ReplaceStateStart ChoiceEnv GeneratedObjects := rfl
  have hok : RegistryOk (ReplaceStateStart ChoiceEnv GeneratedObjects).Objects :=
    RegistryOk_of_check _ (by decide)
  -- the property object of the parameter
  have hsome : (CreatePropertyOfClass UPropertyClass.UIntProperty
      (ReplaceStateStart ChoiceEnv GeneratedObjects).Objects 100
      "HoudiniAssetComponent_Actor_0_pair" CreatedPropertyFlags).isSome = true := by decide
  have hsnd : (CreatePropertyOfClass UPropertyClass.UIntProperty
      (ReplaceStateStart ChoiceEnv GeneratedObjects).Objects 100
      "HoudiniAssetComponent_Actor_0_pair" CreatedPropertyFlags).map Prod.snd = some 101 := by
    decide
  obtain ⟨⟨rA, p⟩, hcpc⟩ := Option.isSome_iff_exists.1 hsome
  rw [hcpc] at hsnd
  simp only [Option.map_some', Option.some.injEq] at hsnd
  subst hsnd
  -- the values of the parameter
  obtain ⟨m, hm⟩ := WriteIntValues_replicate (Capacity / 4 + 1) 10
    (ComputeOffsetAlignmentBoundary alignofWord 1000) (Capacity / 4 + 1) 0 rA.Memory (by omega)
  have hcount : (((Capacity / 4 + 1 : Nat) : Int)) ≠ 0 := by omega
  have htoNat : (((Capacity / 4 + 1 : Nat) : Int)).toNat = Capacity / 4 + 1 := by omega
  obtain ⟨rB, hint⟩ := CreatePropertyInt_returns
    (ReplaceStateStart ChoiceEnv GeneratedObjects).Objects 100
    "HoudiniAssetComponent_Actor_0_pair" ((Capacity / 4 + 1 : Nat) : Int)
    (List.replicate (Capacity / 4 + 1) 10) 0 1000 rA 101 m hcount hcpc
    (by rw [htoNat]; exact hm)
  obtain ⟨hevB, -, hB⟩ := CreatePropertyInt_spec _ _ _ _ _ _ _ _ _ _ hint
  obtain ⟨hmemB, hdimB, hoffB, -⟩ := hB 101 rfl
  -- the insertion of the property
  obtain ⟨s1, hins, -, hpl, -, hcl⟩ := InsertCreatedProperty_first (OverflowEnv Capacity)
    (ReplaceStateStart ChoiceEnv GeneratedObjects) rB
    (u32OfInt (u32 (ComputeOffsetAlignmentBoundary alignofWord 1000)
      + 4 * ((Capacity / 4 + 1 : Nat) : Int)))
    (WideParm (Capacity / 4 + 1)) "pair" "Pair" 5 101 rfl rfl
  obtain ⟨hrel, hcre, -, -⟩ := InsertCreatedProperty_spec _ _ _ _ _ _ _ _ _ _ hins
  -- the iteration
  have hstep : ReplaceClassPropertiesStep (OverflowEnv Capacity) 100 (OverflowFetched Capacity)
      (ReplaceStateStart ChoiceEnv GeneratedObjects) (WideParm (Capacity / 4 + 1)) = some s1 := by
    rw [ReplaceClassPropertiesStep_of_fetched (OverflowEnv Capacity) 100
      (OverflowFetched Capacity) (ReplaceStateStart ChoiceEnv GeneratedObjects)
      (WideParm (Capacity / 4 + 1)) 5 5 "pair" "Pair" rfl rfl rfl (by decide) rfl rfl
      (by decide) rfl]
    have hcreate : CreateParameterProperty (OverflowEnv Capacity) 100 (OverflowFetched Capacity)
        (ReplaceStateStart ChoiceEnv GeneratedObjects).Objects (WideParm (Capacity / 4 + 1))
        ((OverflowEnv Capacity).SanitizeObjectName
          (((ReplaceStateStart ChoiceEnv GeneratedObjects).Objects.Classes 100).Name ++ "_"
            ++ (OverflowEnv Capacity).UTF8_TO_TCHAR "pair"))
        (ReplaceStateStart ChoiceEnv GeneratedObjects).ValuesOffsetEnd
        = some (rB, some 101, u32OfInt (u32 (ComputeOffsetAlignmentBoundary alignofWord 1000)
            + 4 * ((Capacity / 4 + 1 : Nat) : Int))) := by
      have hname : (OverflowEnv Capacity).SanitizeObjectName
          (((ReplaceStateStart ChoiceEnv GeneratedObjects).Objects.Classes 100).Name ++ "_"
            ++ (OverflowEnv Capacity).UTF8_TO_TCHAR "pair")
          = "HoudiniAssetComponent_Actor_0_pair" := by
        show ChoiceEnv.SanitizeObjectName
          (((ReplaceStateStart ChoiceEnv GeneratedObjects).Objects.Classes 100).Name ++ "_"
            ++ ChoiceEnv.UTF8_TO_TCHAR "pair") = "HoudiniAssetComponent_Actor_0_pair"
        decide
      rw [hname]
      exact hint
    rw [hcreate]
    exact hins
  -- the chains
  obtain ⟨r2, hinst⟩ := InstallChains_returns 100 s1 101 101 hpl hcl
  obtain ⟨hsto, hcre2, -⟩ := InstallChains_spec 100 s1 r2 hinst
  have hrun : ReplaceClassProperties (OverflowEnv Capacity) 7 GeneratedObjects 100
      = some (r2, true) := by
    unfold ReplaceClassProperties
    rw [if_neg (by decide), hfetch]
    show ReplaceClassPropertiesOver (OverflowEnv Capacity) 100 (OverflowFetched Capacity)
      [WideParm (Capacity / 4 + 1)] GeneratedObjects = some (r2, true)
    unfold ReplaceClassPropertiesOver
    rw [hs0]
    simp only [ReplaceClassPropertiesLoop, hstep, hinst]
  -- the field
  obtain ⟨-, hclsB, -⟩ := Evolves_mem_lt hevB hok 101 _ hmemB
  obtain ⟨h1a, h1b, h1c⟩ := hrel.Storage 101
  obtain ⟨h2a, h2b, h2c⟩ := hsto 101
  have hclass : (r2.Properties 101).Class = UPropertyClass.UIntProperty := by
    rw [h2a, h1a, hclsB]
  have hdim : (r2.Properties 101).ArrayDim = ((Capacity / 4 + 1 : Nat) : Int) := by
    rw [h2b, h1b, hdimB]
  have hoff : (r2.Properties 101).Offset = 1000 := by
    rw [h2c, h1c, hoffB]
    decide
  refine ⟨r2, hrun, ?_, hclass, hdim, hoff, ?_⟩
  · rw [hcre2, hcre, hevB.CreatedProperties]
    rfl
  · intro hin
    obtain ⟨-, hle⟩ := hin
    rw [hclass, hdim, hoff] at hle
    have hcap : (OverflowEnv Capacity).ScratchSpaceSize = Capacity := rfl
    have hst : (OverflowEnv Capacity).ScratchSpaceBufferOffset = 1000 := rfl
    rw [hcap, hst] at hle
    simp only [ElementSize] at hle
    omega

/-- C17, the counterexample: the scratch buffer has 65536 bytes and starts at
offset 1000, and the table holds one visible integer parameter of 16385
elements.  `ReplaceClassProperties` returns true and records one integer field
of arity 16385 at offset 1000, whose storage of 65540 bytes ends behind the end
of the buffer. -/
theorem C17_counterexample_table_larger_than_buffer :
    ∃ r2, ReplaceClassProperties (OverflowEnv 65536) 7 GeneratedObjects 100 = some (r2, true)
      ∧ ((OverflowEnv 65536).ScratchSpaceBufferOffset, (OverflowEnv 65536).ScratchSpaceSize)
          = (1000, 65536)
      ∧ (FetchParameters (OverflowEnv 65536) 7).map (fun f => f.map (fun v => v.ParmInfo))
          = some (some [WideParm 16385])
      ∧ r2.CreatedProperties = [101]
      ∧ (r2.Properties 101).Class = UPropertyClass.UIntProperty
      ∧ (r2.Properties 101).ArrayDim = 16385
      ∧ (r2.Properties 101).Offset = 1000
      ∧ ¬ InScratchBuffer 1000 65536 (r2.Properties 101) := by
  obtain ⟨r2, h1, h2, h3, h4, h5, h6⟩ := ReplaceClassProperties_OverflowEnv 65536
  refine ⟨r2, h1, rfl, ?_, h2, h3, h4, h5, h6⟩
  rw [FetchParameters_OverflowEnv]
  rfl

theorem ComponentStateOnSave_cases (w : World) :
    (ComponentStateOnSave w = EHoudiniAssetComponentState.BeingCooked
      ↔ w.AssetId ≠ -1 ∧ w.HapiGUID.IsValid = true)
    ∧ (ComponentStateOnSave w = EHoudiniAssetComponentState.Instantiated
      ↔ w.AssetId ≠ -1 ∧ w.HapiGUID.IsValid = false)
    ∧ (ComponentStateOnSave w = EHoudiniAssetComponentState.None
      ↔ w.AssetId = -1 ∧ w.HoudiniAsset ≠ none)
    ∧ (ComponentStateOnSave w = EHoudiniAssetComponentState.Invalid
      ↔ w.AssetId = -1 ∧ w.HoudiniAsset = none) := by
  unfold ComponentStateOnSave
  by_cases hid : w.AssetId = -1
  · cases ha : w.HoudiniAsset <;> simp [hid, ha]
  · cases hg : w.HapiGUID.IsValid <;> simp [hid, hg]

theorem SerializeSaving_Data (env : SerializeEnv) (w : World) (Ar : FArchive) :
    ∃ rest, (SerializeSaving env w Ar).1.Data
      = Ar.Data ++ ArItem.ComponentState (ComponentStateOnSave w) :: rest := by
  unfold SerializeSaving
  simp only
  split
  · exact ⟨[], rfl⟩
  · split
    · exact ⟨[], rfl⟩
    · split
      · exact ⟨[], rfl⟩
      · split
        · exact ⟨_, by simp [List.append_assoc]; rfl⟩
        · exact ⟨_, by simp [List.append_assoc]; rfl⟩

theorem Serialize_saving (env : SerializeEnv) (host : Env) (w : World) (Ar : FArchive)
    (hsave : Ar.Mode = ArMode.Saving) (htrans : Ar.IsTransacting = false) :
    Serialize env host w Ar = SerializeSaving env w Ar := by
  unfold Serialize
  simp [htrans, FArchive.IsSaving, FArchive.IsLoading, hsave]

theorem Serialize_loading (env : SerializeEnv) (host : Env) (w : World) (Ar : FArchive)
    (hload : Ar.Mode = ArMode.Loading) (htrans : Ar.IsTransacting = false) :
    Serialize env host w Ar = SerializeLoading env host w Ar := by
  unfold Serialize
  simp [htrans, FArchive.IsSaving, FArchive.IsLoading, hload]

/-- C21: on a saving archive that is not transacting, the first value
`Serialize` writes is the state tag, also when it stops later at a failed
check.  The tag is `BeingCooked` exactly when the asset handle is valid and a
correlation id is outstanding, `Instantiated` exactly when the handle is valid
and no id is outstanding, `None` exactly when the handle is -1 and an asset is
attached, and `Invalid` exactly when the handle is -1 and no asset is attached.
With the tag `Invalid` the function returns after the tag: nothing else is
written, and on a loading archive whose first value is the tag `Invalid`
nothing else is read and the component is unchanged. -/
theorem C21_state_tag_on_save (env : SerializeEnv) (host : Env) (w : World) (Ar : FArchive)
    (hsave : Ar.Mode = ArMode.Saving) (htrans : Ar.IsTransacting = false) :
    (∃ rest, (Serialize env host w Ar).1.Data
        = Ar.Data ++ ArItem.ComponentState (ComponentStateOnSave w) :: rest)
    ∧ (ComponentStateOnSave w = EHoudiniAssetComponentState.BeingCooked
      ↔ w.AssetId ≠ -1 ∧ w.HapiGUID.IsValid = true)
    ∧ (ComponentStateOnSave w = EHoudiniAssetComponentState.Instantiated
      ↔ w.AssetId ≠ -1 ∧ w.HapiGUID.IsValid = false)
    ∧ (ComponentStateOnSave w = EHoudiniAssetComponentState.None
      ↔ w.AssetId = -1 ∧ w.HoudiniAsset ≠ none)
    ∧ (ComponentStateOnSave w = EHoudiniAssetComponentState.Invalid
      ↔ w.AssetId = -1 ∧ w.HoudiniAsset = none)
    ∧ (ComponentStateOnSave w = EHoudiniAssetComponentState.Invalid →
        Serialize env host w Ar
          = ({ Ar with Data := Ar.Data
                ++ [ArItem.ComponentState EHoudiniAssetComponentState.Invalid] }, some w))
    ∧ (∀ rest, Serialize env host w
          (LoadArchive (ArItem.ComponentState EHoudiniAssetComponentState.Invalid :: rest))
        = (LoadArchive rest, some w)) := by
  obtain ⟨h1, h2, h3, h4⟩ := ComponentStateOnSave_cases w
  refine ⟨?_, h1, h2, h3, h4, ?_, ?_⟩
  · rw [Serialize_saving env host w Ar hsave htrans]
    exact SerializeSaving_Data env w Ar
  · intro hinv
    rw [Serialize_saving env host w Ar hsave htrans]
    unfold SerializeSaving
    simp only [hinv, if_true]
  · intro rest
    rw [Serialize_loading env host w _ rfl rfl]
    rfl

/-- C21 at the scenario: the instantiated, idle component is saved with the tag
`Instantiated`, and the fresh component, which has no asset, with the tag
`Invalid` and nothing else. -/
theorem C21_state_tag_on_save_witness :
    SaveArchive.Mode = ArMode.Saving ∧ SaveArchive.IsTransacting = false
    ∧ (Serialize ScenarioSerializeEnv ScenarioEnv SavedWorld SaveArchive).1.Data.head?
        = some (ArItem.ComponentState EHoudiniAssetComponentState.Instantiated)
    ∧ Serialize ScenarioSerializeEnv ScenarioEnv FreshWorld SaveArchive
        = ({ SaveArchive with Data := SaveArchive.Data
              ++ [ArItem.ComponentState EHoudiniAssetComponentState.Invalid] }, some FreshWorld) :=
  ⟨rfl, rfl, by decide,
    (C21_state_tag_on_save ScenarioSerializeEnv ScenarioEnv FreshWorld SaveArchive rfl rfl).2.2.2.2.2.1
      (by decide)⟩

theorem HasMetaData_ne_nil (m : List (String × String)) (Key : String)
    (h : HasMetaData m Key = true) : GetMapForObject m = some m := by
  unfold GetMapForObject
  cases m with
  | nil => simp [HasMetaData] at h
  | cons a l => simp

/-- What one saving iteration writes is what one loading iteration reads: the
record of the field, and the string of a string field. -/
theorem LoadPropertyItems_SavePropertyItems (r : Reflection) (p : Nat)
    (h : SavableField r p = true) :
    ∃ Items, SavePropertyItems r p = some Items
      ∧ ∀ rest, LoadPropertyItems (Items ++ rest)
          = some (SerializedRecordOf r p,
              (if GetPropertyType r (r.Properties p) = EHoudiniEngineProperty.String then
                some (r.Strings (int32OfNat (r.Properties p).Offset).toNat) else none), rest) := by
  unfold SavableField at h
  simp only [Bool.and_eq_true, Bool.or_eq_true, decide_eq_true_eq] at h
  obtain ⟨⟨hname, hkind⟩, hstr⟩ := h
  have hmap := HasMetaData_ne_nil _ _ hname
  unfold SavePropertyItems
  simp only [hname, Bool.not_true, Bool.false_eq_true, if_false, hkind, hmap, Option.isSome_some]
  by_cases hs : GetPropertyType r (r.Properties p) = EHoudiniEngineProperty.String
  · have hoff : ¬ int32OfNat (r.Properties p).Offset < 0 := by
      rcases hstr with h1 | h1
      · exact absurd hs h1
      · omega
    simp only [hs, true_and, hoff, if_false, if_true]
    refine ⟨_, rfl, fun rest => ?_⟩
    simp only [List.cons_append, List.nil_append, LoadPropertyItems, if_true, hoff, if_false,
      SerializedRecordOf, hs]
  · simp only [hs, false_and, if_false]
    refine ⟨_, rfl, fun rest => ?_⟩
    simp only [List.cons_append, List.nil_append, List.append_nil, LoadPropertyItems, hs,
      if_false, SerializedRecordOf]

theorem StringFieldOffsets_cons (r : Reflection) (p : Nat) (ps : List Nat) :
    StringFieldOffsets r (p :: ps)
      = if GetPropertyType r (r.Properties p) = EHoudiniEngineProperty.String then
          (int32OfNat (r.Properties p).Offset).toNat :: StringFieldOffsets r ps
        else StringFieldOffsets r ps := by
  unfold StringFieldOffsets
  by_cases h : GetPropertyType r (r.Properties p) = EHoudiniEngineProperty.String
  · simp [h]
  · simp [h]

/-- The loading loop over what the saving loop wrote: the saving loop comes to
its end, and the loading loop appends the record of every field, in order, and
reads what was written and nothing else.  It leaves every byte outside the
storage of the string fields as it was, and the string at the offset of every
string field is the saved string. -/
theorem LoadProperties_SaveProperties (env : SerializeEnv) (r : Reflection) :
    ∀ (ps : List Nat), (∀ p ∈ ps, SavableField r p = true) →
      (SaveProperties r ps).2 = true
      ∧ ∀ (w0 : World) (rest : List ArItem),
          ∃ w1, LoadProperties env ps.length w0 ((SaveProperties r ps).1 ++ rest)
              = some (w1, rest)
            ∧ w1.SerializedProperties
                = w0.SerializedProperties ++ ps.map (SerializedRecordOf r)
            ∧ (∀ b, (∀ a ∈ StringFieldOffsets r ps, ¬ (a ≤ b ∧ b < a + sizeofFString)) →
                w1.Objects.Memory b = w0.Objects.Memory b)
            ∧ (∀ a, w1.Objects.Strings a
                = if a ∈ StringFieldOffsets r ps then r.Strings a else w0.Objects.Strings a)
            ∧ w1.HoudiniAssetObjectGeos = w0.HoudiniAssetObjectGeos
            ∧ w1.HoudiniAssetActorOwner = w0.HoudiniAssetActorOwner
            ∧ w1.HoudiniAsset = w0.HoudiniAsset := by
  intro ps
  induction ps with
  | nil =>
    intro _
    exact ⟨rfl, fun w0 rest => ⟨w0, rfl, by simp, fun _ _ => rfl,
      fun a => by simp [StringFieldOffsets], rfl, rfl, rfl⟩⟩
  | cons p ps ih =>
    intro hall
    obtain ⟨Items, hsave, hload⟩ :=
      LoadPropertyItems_SavePropertyItems r p (hall p (List.mem_cons_self _ _))
    obtain ⟨hend, hrest⟩ := ih (fun q hq => hall q (List.mem_cons_of_mem _ hq))
    have hsp : SaveProperties r (p :: ps)
        = (Items ++ (SaveProperties r ps).1, (SaveProperties r ps).2) := by
      simp only [SaveProperties, hsave]
    rw [hsp]
    refine ⟨hend, fun w0 rest => ?_⟩
    simp only [List.length_cons, LoadProperties, List.append_assoc, hload]
    by_cases hs : GetPropertyType r (r.Properties p) = EHoudiniEngineProperty.String
    · simp only [hs, if_true, StringFieldOffsets_cons]
      obtain ⟨w1, h1, h2, h3, h3s, h4, h5, h6⟩ := hrest
        { w0 with
          Objects :=
            { w0.Objects with
              Strings := Function.update w0.Objects.Strings
                (SerializedRecordOf r p).Offset.toNat
                (r.Strings (int32OfNat (r.Properties p).Offset).toNat),
              Memory := WriteFStringObject env w0.Objects.Memory
                (SerializedRecordOf r p).Offset.toNat
                (r.Strings (int32OfNat (r.Properties p).Offset).toNat) },
          SerializedProperties := w0.SerializedProperties ++ [SerializedRecordOf r p] } rest
      refine ⟨w1, h1, ?_, ?_, ?_, h4, h5, h6⟩
      · rw [h2]
        simp
      · intro b hb
        rw [h3 b (fun a ha => hb a (List.mem_cons_of_mem _ ha))]
        have hp := hb _ (List.mem_cons_self _ _)
        exact if_neg hp
      · intro a
        rw [h3s a]
        by_cases ha : a ∈ StringFieldOffsets r ps
        · simp [ha]
        · simp only [ha, if_false, List.mem_cons, or_false]
          show Function.update w0.Objects.Strings (int32OfNat (r.Properties p).Offset).toNat
            (r.Strings (int32OfNat (r.Properties p).Offset).toNat) a = _
          by_cases hap : a = (int32OfNat (r.Properties p).Offset).toNat
          · subst hap
            simp
          · simp [hap]
    · simp only [hs, if_false, StringFieldOffsets_cons]
      obtain ⟨w1, h1, h2, h3, h3s, h4, h5, h6⟩ := hrest
        { w0 with
          SerializedProperties := w0.SerializedProperties ++ [SerializedRecordOf r p] } rest
      refine ⟨w1, h1, ?_, h3, h3s, h4, h5, h6⟩
      rw [h2]
      simp

/-- The loading loop over the geos reads what the saving loop wrote, when the
serialization of a geo reads what it writes. -/
theorem LoadGeos_SaveGeos (env : SerializeEnv)
    (hgeo : ∀ g rest, env.GeoLoad (env.GeoSave g ++ rest) = some (g, rest)) :
    ∀ (gs : List Nat) (w0 : World) (rest : List ArItem),
      LoadGeos env gs.length w0 (SaveGeos env gs ++ rest)
        = some ({ w0 with HoudiniAssetObjectGeos := w0.HoudiniAssetObjectGeos ++ gs }, rest) := by
  intro gs
  induction gs with
  | nil =>
    intro w0 rest
    simp [LoadGeos, SaveGeos]
  | cons g gs ih =>
    intro w0 rest
    simp only [List.length_cons, LoadGeos, SaveGeos, List.append_assoc, hgeo, ih]
    simp
theorem ReadScratchSpace_length (env : SerializeEnv) (m : Nat → Nat) :
    (ReadScratchSpace env m).length = env.ScratchSpaceSize := by
  simp [ReadScratchSpace]

/-- The scratch buffer read back from what was written holds the same bytes. -/
theorem readByte_WriteScratchSpace (env : SerializeEnv) (m0 m : Nat → Nat) (i : Nat)
    (hi : i < env.ScratchSpaceSize) :
    readByte (WriteScratchSpace env m0 (ReadScratchSpace env m)) (env.ScratchSpaceBufferOffset + i)
      = readByte m (env.ScratchSpaceBufferOffset + i) := by
  have hlen := ReadScratchSpace_length env m
  unfold WriteScratchSpace readByte
  have hc : env.ScratchSpaceBufferOffset ≤ env.ScratchSpaceBufferOffset + i
      ∧ env.ScratchSpaceBufferOffset + i
        < env.ScratchSpaceBufferOffset + (ReadScratchSpace env m).length := by
    rw [hlen]; omega
  simp only [hc, and_self, if_true, Nat.add_sub_cancel_left]
  have hget : (ReadScratchSpace env m).getD i 0
      = readByte m (env.ScratchSpaceBufferOffset + i) := by
    unfold ReadScratchSpace
    rw [List.getD_eq_getElem?_getD, List.getElem?_map, List.getElem?_range hi]
    rfl
  rw [hget]
  unfold readByte
  omega

/-- The end of a load returns when the package is found or loaded, the asset is
in it and the component has an owner: the component is then marked as loaded
and has the asset, and its records are untouched. -/
theorem ResolveLoadedAsset_returns (env : SerializeEnv) (host : Env) (w : World)
    (HoudiniAssetPackage HoudiniAssetName : String) (Package Asset : Nat)
    (hpkg : env.FindPackage HoudiniAssetPackage = some Package
      ∨ (env.FindPackage HoudiniAssetPackage = none
        ∧ env.LoadPackage HoudiniAssetPackage = some Package))
    (hasset : env.StaticFindObject Package HoudiniAssetName = some Asset)
    (howner : w.HoudiniAssetActorOwner ≠ none) :
    ∃ w2, ResolveLoadedAsset env host w HoudiniAssetPackage HoudiniAssetName = some w2
      ∧ w2.bLoadedComponent = true ∧ w2.HoudiniAsset = some Asset
      ∧ w2.SerializedProperties = w.SerializedProperties
      ∧ w2.Objects = w.Objects := by
  have hP : (match env.FindPackage HoudiniAssetPackage with
      | some Package => some Package
      | none => env.LoadPackage HoudiniAssetPackage) = some Package := by
    rcases hpkg with h | ⟨h1, h2⟩
    · rw [h]
    · rw [h1]; exact h2
  unfold ResolveLoadedAsset
  simp only [hP, hasset]
  unfold SetHoudiniAsset
  cases ho : w.HoudiniAssetActorOwner with
  | none => exact absurd ho howner
  | some Owner =>
    simp only [ho]
    by_cases hsame : some Asset = w.HoudiniAsset
    · simp only [hsame, if_true]
      exact ⟨_, rfl, rfl, rfl, rfl, rfl⟩
    · simp only [hsame, if_false, Bool.not_true, Bool.and_false, Bool.false_eq_true]
      exact ⟨_, rfl, rfl, rfl, rfl, rfl⟩

/-- The stream a completed save writes, and what the reading part of a load
makes of it. -/
theorem LoadStream_of_saved (env : SerializeEnv) (w w0 : World) (Asset : Nat)
    (HoudiniAssetPackage : String) (hasset : w.HoudiniAsset = some Asset)
    (hpkg : env.GetPackageName Asset = some HoudiniAssetPackage)
    (hfields : ∀ p ∈ w.Objects.CreatedProperties, SavableField w.Objects p = true)
    (hgeo : ∀ g rest, env.GeoLoad (env.GeoSave g ++ rest) = some (g, rest)) :
    ∃ Data w1,
      SerializeSaving env w SaveArchive
        = ({ SaveArchive with Data := ArItem.ComponentState (ComponentStateOnSave w) :: Data },
            some w)
      ∧ ComponentStateOnSave w ≠ EHoudiniAssetComponentState.Invalid
      ∧ LoadStream env w0 Data
          = some (w1, HoudiniAssetPackage, env.GetAssetName Asset, [])
      ∧ w1.SerializedProperties = w0.SerializedProperties
          ++ w.Objects.CreatedProperties.map (SerializedRecordOf w.Objects)
      ∧ (∀ b, (∀ a ∈ StringFieldOffsets w.Objects w.Objects.CreatedProperties,
            ¬ (a ≤ b ∧ b < a + sizeofFString)) →
          w1.Objects.Memory b
            = WriteScratchSpace env w0.Objects.Memory (ReadScratchSpace env w.Objects.Memory) b)
      ∧ (∀ a ∈ StringFieldOffsets w.Objects w.Objects.CreatedProperties,
          w1.Objects.Strings a = w.Objects.Strings a)
      ∧ w1.HoudiniAssetObjectGeos = w0.HoudiniAssetObjectGeos ++ w.HoudiniAssetObjectGeos
      ∧ w1.HoudiniAssetActorOwner = w0.HoudiniAssetActorOwner := by
  have hstate : ComponentStateOnSave w ≠ EHoudiniAssetComponentState.Invalid := by
    intro h
    have := ((ComponentStateOnSave_cases w).2.2.2.1 h).2
    rw [hasset] at this
    cases this
  obtain ⟨hend, hload⟩ :=
    LoadProperties_SaveProperties env w.Objects w.Objects.CreatedProperties hfields
  obtain ⟨w1, h1, h2, h3, h3s, h4, h5, _⟩ := hload
    { w0 with Objects :=
        { w0.Objects with
          Memory := WriteScratchSpace env w0.Objects.Memory
            (ReadScratchSpace env w.Objects.Memory) } }
    ([ArItem.Int32 (w.HoudiniAssetObjectGeos.length : Int)]
      ++ SaveGeos env w.HoudiniAssetObjectGeos)
  refine ⟨[ArItem.FString HoudiniAssetPackage, ArItem.FString (env.GetAssetName Asset),
        ArItem.Int64 (env.ScratchSpaceSize : Int),
        ArItem.Bytes (ReadScratchSpace env w.Objects.Memory),
        ArItem.Int32 (w.Objects.CreatedProperties.length : Int)]
      ++ (SaveProperties w.Objects w.Objects.CreatedProperties).1
      ++ [ArItem.Int32 (w.HoudiniAssetObjectGeos.length : Int)]
      ++ SaveGeos env w.HoudiniAssetObjectGeos,
    { w1 with HoudiniAssetObjectGeos :=
      w1.HoudiniAssetObjectGeos ++ w.HoudiniAssetObjectGeos }, ?_, hstate, ?_, h2, h3,
    fun a ha => by rw [h3s a, if_pos ha], ?_, h5⟩
  · unfold SerializeSaving
    simp only [hstate, if_false, hasset, hpkg, hend, Bool.not_true, Bool.false_eq_true,
      SaveArchive, List.nil_append, List.singleton_append, List.cons_append]
  · have hsz : ¬ ¬ ((env.ScratchSpaceSize : Int) ≤ (env.ScratchSpaceSize : Int)) := by omega
    have hlen : ¬ (((ReadScratchSpace env w.Objects.Memory).length : Int)
        ≠ (env.ScratchSpaceSize : Int)) := by
      rw [ReadScratchSpace_length]; simp
    have hg := LoadGeos_SaveGeos env hgeo w.HoudiniAssetObjectGeos w1 []
    simp only [List.append_nil] at hg
    simp only [List.singleton_append] at h1
    simp only [List.cons_append, List.nil_append, List.append_assoc, List.singleton_append,
      LoadStream, hsz, hlen, if_false, Int.toNat_ofNat, h1, hg]
  · simp only [h4]
/-- C22, the counterexample: the field `Size` of the scenario has been edited,
so its metadata map holds the changed mark.  Saving the component and loading
the stream yields a record of `Size` whose changed flag is set and whose
metadata map is without the mark: the record is not equal to its field in the
metadata map. -/
theorem C22_counterexample_changed_mark_not_in_record :
    (PostEditChangeProperty SavedWorld EditSize).map
        (fun w => (w.Objects.CreatedProperties, (w.Objects.Properties 1).Meta))
      = some ([1, 2], [("HoudiniPropertyChanged", "1"), ("Category", "HoudiniProperties"),
          ("HoudiniParmName", "Size")])
    ∧ ((PostEditChangeProperty SavedWorld EditSize).bind
        (fun w => (SaveThenLoad ScenarioSerializeEnv ScenarioEnv w FreshWorld).2)).map
          (fun w2 => w2.SerializedProperties.map (fun R => (R.Name, R.bChanged, R.Meta)))
      = some [("Size", true, [("Category", "HoudiniProperties"), ("HoudiniParmName", "Size")]),
          ("Seed", false, [("Category", "HoudiniProperties"), ("HoudiniParmName", "Seed")])] := by
  decide

/-- C22, amended: for a component with an asset in a package all of whose
created fields can be saved, and a geo serialization that reads what it writes,
`Serialize` on a saving archive returns, and loading the written stream into a
component with an owner, with the package and the asset found, returns with the
stream read to its end.  The load appends one record per created field, in the
order of `CreatedProperties`, each with the kind, parameter name, flags, arity,
element size, offset and changed flag of its field and the metadata map of its
field without the changed mark.  The scratch buffer holds the saved bytes
outside the storage of the string fields, where the load constructs the strings
anew; and the string at the offset of every string field is the saved
string. -/
theorem C22_round_trip_of_records (env : SerializeEnv) (host : Env) (w w0 : World)
    (Asset : Nat) (HoudiniAssetPackage : String) (Package Found : Nat)
    (hasset : w.HoudiniAsset = some Asset)
    (hpkg : env.GetPackageName Asset = some HoudiniAssetPackage)
    (hfields : ∀ p ∈ w.Objects.CreatedProperties, SavableField w.Objects p = true)
    (hgeo : ∀ g rest, env.GeoLoad (env.GeoSave g ++ rest) = some (g, rest))
    (hfind : env.FindPackage HoudiniAssetPackage = some Package
      ∨ (env.FindPackage HoudiniAssetPackage = none
        ∧ env.LoadPackage HoudiniAssetPackage = some Package))
    (hobj : env.StaticFindObject Package (env.GetAssetName Asset) = some Found)
    (howner : w0.HoudiniAssetActorOwner ≠ none) :
    (Serialize env host w SaveArchive).2 = some w
    ∧ ∃ w2, SaveThenLoad env host w w0 = (LoadArchive [], some w2)
        ∧ w2.SerializedProperties = w0.SerializedProperties
            ++ w.Objects.CreatedProperties.map (SerializedRecordOf w.Objects)
        ∧ (∀ i, i < env.ScratchSpaceSize →
            (∀ a ∈ StringFieldOffsets w.Objects w.Objects.CreatedProperties,
              ¬ (a ≤ env.ScratchSpaceBufferOffset + i
                ∧ env.ScratchSpaceBufferOffset + i < a + sizeofFString)) →
            readByte w2.Objects.Memory (env.ScratchSpaceBufferOffset + i)
              = readByte w.Objects.Memory (env.ScratchSpaceBufferOffset + i))
        ∧ (∀ a ∈ StringFieldOffsets w.Objects w.Objects.CreatedProperties,
            w2.Objects.Strings a = w.Objects.Strings a)
        ∧ w2.bLoadedComponent = true
        ∧ w2.HoudiniAsset = some Found := by
  obtain ⟨Data, w1, hsave, hstate, hstream, hrec, hmem, hstr, _, hown⟩ :=
    LoadStream_of_saved env w w0 Asset HoudiniAssetPackage hasset hpkg hfields hgeo
  have hs : Serialize env host w SaveArchive
      = ({ SaveArchive with Data := ArItem.ComponentState (ComponentStateOnSave w) :: Data },
          some w) := by
    rw [Serialize_saving env host w SaveArchive rfl rfl]
    exact hsave
  obtain ⟨w2, hres, hl, ha, hsp, hobjs⟩ :=
    ResolveLoadedAsset_returns env host w1 HoudiniAssetPackage (env.GetAssetName Asset) Package
      Found hfind hobj (by rw [hown]; exact howner)
  refine ⟨by rw [hs], w2, ?_, by rw [hsp, hrec], fun i hi hout => ?_,
    fun a ha2 => by rw [hobjs]; exact hstr a ha2, hl, ha⟩
  · unfold SaveThenLoad
    rw [hs, Serialize_loading env host w0 _ rfl rfl]
    unfold SerializeLoading
    simp only [LoadArchive, hstate, if_false, hstream, hres]
  · rw [hobjs]
    have hb := hmem (env.ScratchSpaceBufferOffset + i) hout
    have hr := readByte_WriteScratchSpace env w0.Objects.Memory w.Objects.Memory i hi
    unfold readByte at hr ⊢
    rw [hb]
    exact hr

/-- C22 amended, at the component with the float field `Size` and the string
field `Label`: it is saved and loaded into a fresh component, which then holds
the records of `Size` and `Label`, in this order.  The byte 1003 of `Size` is
the saved byte, the string at offset 1008 is the saved text `abc`, and the byte
at offset 1008, in the storage of the string field, is a byte of the new string
object, not the saved byte. -/
theorem C22_round_trip_of_records_witness :
    (∃ w2, SaveThenLoad TextSerializeEnv ScenarioEnv SavedTextWorld FreshWorld
        = (LoadArchive [], some w2)
      ∧ w2.SerializedProperties = FreshWorld.SerializedProperties
          ++ SavedTextWorld.Objects.CreatedProperties.map
              (SerializedRecordOf SavedTextWorld.Objects)
      ∧ readByte w2.Objects.Memory 1003 = readByte SavedTextWorld.Objects.Memory 1003
      ∧ w2.Objects.Strings 1008 = "abc")
    ∧ SavedTextWorld.Objects.CreatedProperties.map
        (fun p => ((SerializedRecordOf SavedTextWorld.Objects p).PropertyType,
          (SerializedRecordOf SavedTextWorld.Objects p).Name,
          (SerializedRecordOf SavedTextWorld.Objects p).Offset))
      = [(EHoudiniEngineProperty.Float, "Size", 1000),
          (EHoudiniEngineProperty.String, "Label", 1008)]
    ∧ StringFieldOffsets SavedTextWorld.Objects SavedTextWorld.Objects.CreatedProperties = [1008]
    ∧ (readByte SavedTextWorld.Objects.Memory 1003, readByte SavedTextWorld.Objects.Memory 1008)
        = (64, 0)
    ∧ (SaveThenLoad TextSerializeEnv ScenarioEnv SavedTextWorld FreshWorld).2.map
        (fun w2 => (readByte w2.Objects.Memory 1003, readByte w2.Objects.Memory 1008))
      = some (64, 170) :=
  ⟨(C22_round_trip_of_records TextSerializeEnv ScenarioEnv SavedTextWorld FreshWorld 50
      "/Game/Assets" 40 50 rfl rfl (by decide) (fun _ _ => rfl) (Or.inl rfl) rfl
      (by decide)).2.elim
      (fun w2 h => ⟨w2, h.1, h.2.1, h.2.2.1 3 (by decide) (by decide),
        h.2.2.2.1 1008 (by decide)⟩),
    by decide, by decide, by decide, by decide⟩

theorem FindObject_of_free (r : Reflection) (Kind : UObjectKind) (Outer : Nat) (Name : String)
    (h : NameIsFree r Outer Name = true) : FindObject r Kind Outer Name = none := by
  unfold NameIsFree at h
  rw [Option.isNone_iff_eq_none, List.find?_eq_none] at h
  unfold FindObject
  rw [Option.map_eq_none', List.find?_eq_none]
  intro e he
  have := h e he
  simp only [Bool.and_eq_true, decide_eq_true_eq, not_and] at this ⊢
  intro h1
  exact absurd h1.2 (this h1.1)

theorem NewNamedObject_of_free (r : Reflection) (Kind : UObjectKind) (Outer : Nat)
    (Name : String) (h : NameIsFree r Outer Name = true) :
    NewNamedObject r Kind Outer Name
      = some ({ r with Named := r.Named ++ [{ Outer := Outer, Name := Name, Kind := Kind,
                                              Address := r.NextAddress }],
                       NextAddress := r.NextAddress + 1 }, r.NextAddress) := by
  unfold NameIsFree at h
  rw [Option.isNone_iff_eq_none] at h
  unfold NewNamedObject
  rw [h]

/-- The shared creation under a free name: a new property object of the class,
with the flags, and with the category as its only metadata. -/
theorem CreatePropertyOfClass_of_free (c : UPropertyClass) (r : Reflection)
    (ClassInstance : Nat) (Name : String) (PropertyFlags : Nat)
    (h : NameIsFree r ClassInstance Name = true) :
    ∃ r1, CreatePropertyOfClass c r ClassInstance Name PropertyFlags = some (r1, r.NextAddress)
      ∧ r1.Properties r.NextAddress
          = { NewProperty c with PropertyFlags := PropertyFlags,
                                 Meta := [("Category", "HoudiniProperties")] }
      ∧ r1.CreatedProperties = r.CreatedProperties
      ∧ r1.ScriptStructColor = r.ScriptStructColor := by
  unfold CreatePropertyOfClass
  simp only [FindObject_of_free r _ _ _ h, NewNamedObject_of_free r _ _ _ h]
  refine ⟨_, rfl, ?_, rfl, rfl⟩
  simp [SetProperty, NewProperty, SetMetaData]

/-- `GetPropertyType` reads the class and the struct of the property and the
static colour struct. -/
theorem GetPropertyType_congr (r r2 : Reflection) (P Q : UProperty) (hc : Q.Class = P.Class)
    (hs : Q.Struct = P.Struct) (hr : r2.ScriptStructColor = r.ScriptStructColor) :
    GetPropertyType r2 Q = GetPropertyType r P := by
  unfold GetPropertyType
  rw [hc, hs, hr]

/-- `CreateProperty` for one of the five kinds under a free name: it returns a
new property of that kind with the flags and the category, and adds it to
`CreatedProperties`.  For a colour, the static colour struct exists, or its
name is free in the static class, which is not the class of the property. -/
theorem CreateProperty_of_free (r : Reflection) (ClassInstance : Nat) (Name : String)
    (PropertyFlags : Nat) (PropertyType : EHoudiniEngineProperty)
    (hkind : IsReconstructedKind PropertyType = true)
    (hfree : NameIsFree r ClassInstance Name = true)
    (hstruct : PropertyType = EHoudiniEngineProperty.Color →
      r.ScriptStructColor ≠ none
        ∨ (NameIsFree r r.StaticClass "Color" = true ∧ ClassInstance ≠ r.StaticClass)) :
    ∃ r1 p, CreateProperty r ClassInstance Name PropertyFlags PropertyType = some (r1, some p)
      ∧ r1.CreatedProperties = r.CreatedProperties ++ [p]
      ∧ GetPropertyType r1 (r1.Properties p) = PropertyType
      ∧ (r1.Properties p).PropertyFlags = PropertyFlags
      ∧ (r1.Properties p).Meta = [("Category", "HoudiniProperties")] := by
  unfold CreateProperty
  cases PropertyType with
  | None => simp [IsReconstructedKind] at hkind
  | Enumeration => simp [IsReconstructedKind] at hkind
  | Integer =>
    obtain ⟨r1, h1, h2, h3, h4⟩ := CreatePropertyOfClass_of_free UPropertyClass.UIntProperty r
      ClassInstance Name PropertyFlags hfree
    simp only [h1, Option.map_some']
    refine ⟨_, _, rfl, by simp [h3], ?_, by simp [h2], by simp [h2]⟩
    simp [GetPropertyType, h2, NewProperty]
  | Float =>
    obtain ⟨r1, h1, h2, h3, h4⟩ := CreatePropertyOfClass_of_free UPropertyClass.UFloatProperty r
      ClassInstance Name PropertyFlags hfree
    simp only [h1, Option.map_some']
    refine ⟨_, _, rfl, by simp [h3], ?_, by simp [h2], by simp [h2]⟩
    simp [GetPropertyType, h2, NewProperty]
  | String =>
    obtain ⟨r1, h1, h2, h3, h4⟩ := CreatePropertyOfClass_of_free UPropertyClass.UStrProperty r
      ClassInstance Name PropertyFlags hfree
    simp only [h1, Option.map_some']
    refine ⟨_, _, rfl, by simp [h3], ?_, by simp [h2], by simp [h2]⟩
    simp [GetPropertyType, h2, NewProperty]
  | Boolean =>
    obtain ⟨r1, h1, h2, h3, h4⟩ := CreatePropertyOfClass_of_free UPropertyClass.UBoolProperty r
      ClassInstance Name PropertyFlags hfree
    simp only [CreatePropertyToggleOfClass, h1, Option.map_some']
    refine ⟨_, _, rfl, by simp [SetProperty, h3], ?_, by simp [SetProperty, h2],
      by simp [SetProperty, h2]⟩
    simp [GetPropertyType, SetProperty, h2, NewProperty]
  | Color =>
    have hmain : ∀ r0 : Reflection, NameIsFree r0 ClassInstance Name = true →
        r0.ScriptStructColor ≠ none → r0.CreatedProperties = r.CreatedProperties →
        ∃ r1 p,
          (match
            (match FindObject r0 (UObjectKind.Property UPropertyClass.UStructProperty)
                ClassInstance Name with
              | some p => some (r0, p)
              | none =>
                match NewNamedObject r0 (UObjectKind.Property UPropertyClass.UStructProperty)
                    ClassInstance Name with
                | none => none
                | some (r2, p) =>
                  some (SetProperty r2 p (fun _ =>
                    { NewProperty UPropertyClass.UStructProperty with
                      Struct := r2.ScriptStructColor }), p)) with
            | none => none
            | some (r2, p) =>
              some (SetProperty r2 p (fun Property =>
                { Property with PropertyLinkNext := none,
                                Meta := SetMetaData Property.Meta "Category" "HoudiniProperties",
                                PropertyFlags := PropertyFlags }), p)) = some (r1, p)
          ∧ r1.CreatedProperties = r.CreatedProperties
          ∧ GetPropertyType r1 (r1.Properties p) = EHoudiniEngineProperty.Color
          ∧ (r1.Properties p).PropertyFlags = PropertyFlags
          ∧ (r1.Properties p).Meta = [("Category", "HoudiniProperties")] := by
      intro r0 hf hs hcp
      simp only [FindObject_of_free r0 _ _ _ hf, NewNamedObject_of_free r0 _ _ _ hf]
      refine ⟨_, _, rfl, by simp [SetProperty, hcp], ?_, by simp [SetProperty],
        by simp [SetProperty, NewProperty, SetMetaData]⟩
      simp [GetPropertyType, SetProperty, NewProperty]
    unfold CreatePropertyColorOfClass
    cases hsc : r.ScriptStructColor with
    | some S =>
      obtain ⟨r1, p, h1, h2, h3, h4, h5⟩ := hmain r hfree (by rw [hsc]; simp) rfl
      simp only [h1, Option.map_some']
      exact ⟨_, _, rfl, by simp [h2], by simpa using h3, by simpa using h4, by simpa using h5⟩
    | none =>
      rcases hstruct rfl with hne | ⟨hcolor, hclass⟩
      · exact absurd hsc hne
      · simp only [NewNamedObject_of_free r _ _ _ hcolor]
        have hf2 : NameIsFree
            { r with Named := r.Named ++ [{ Outer := r.StaticClass, Name := "Color",
                                            Kind := UObjectKind.ScriptStruct,
                                            Address := r.NextAddress }],
                     NextAddress := r.NextAddress + 1,
                     ScriptStructColor := some r.NextAddress } ClassInstance Name = true := by
          unfold NameIsFree at hfree ⊢
          rw [Option.isNone_iff_eq_none] at hfree ⊢
          simp only [List.find?_append, hfree, Option.none_or]
          simp [List.find?, Ne.symm hclass]
        obtain ⟨r1, p, h1, h2, h3, h4, h5⟩ := hmain _ hf2 (by simp) rfl
        simp only [h1, Option.map_some']
        exact ⟨_, _, rfl, by simp [h2], by simpa using h3, by simpa using h4, by simpa using h5⟩
theorem SameButLinks_refl (P : UProperty) : SameButLinks P P :=
  ⟨rfl, rfl, rfl, rfl, rfl, rfl, rfl, rfl⟩

theorem SameButLinks_trans {P Q R : UProperty} (h1 : SameButLinks P Q)
    (h2 : SameButLinks Q R) : SameButLinks P R := by
  obtain ⟨a1, a2, a3, a4, a5, a6, a7, a8⟩ := h1
  obtain ⟨b1, b2, b3, b4, b5, b6, b7, b8⟩ := h2
  exact ⟨b1.trans a1, b2.trans a2, b3.trans a3, b4.trans a4, b5.trans a5, b6.trans a6,
    b7.trans a7, b8.trans a8⟩

theorem SameButLinks_SetProperty (r : Reflection) (q p : Nat) (g : UProperty → UProperty)
    (hg : ∀ P, SameButLinks P (g P)) :
    SameButLinks (r.Properties p) ((SetProperty r q g).Properties p) := by
  rw [SetProperty_Properties]
  split
  · rename_i h
    rw [h]
    exact hg _
  · exact SameButLinks_refl _

/-- A key not among those of the map set keeps its value. -/
theorem GetMetaData_SetMetaDataAll_ne (Key : String) :
    ∀ (Meta m : List (String × String)), Key ∉ Meta.map Prod.fst →
      GetMetaData (SetMetaDataAll Meta m) Key = GetMetaData m Key := by
  intro Meta
  induction Meta with
  | nil => intro m _; rfl
  | cons a rest ih =>
    intro m h
    simp only [List.map_cons, List.mem_cons, not_or] at h
    unfold SetMetaDataAll
    rw [List.foldl_cons]
    have := ih (SetMetaData m a.1 a.2) h.2
    unfold SetMetaDataAll at this
    rw [this, GetMetaData_SetMetaData_ne _ _ _ _ (fun hk => h.1 hk.symm)]

/-- After the loop that sets the metadata of a record, every key of the record
has the value of the record. -/
theorem GetMetaData_SetMetaDataAll :
    ∀ (Meta m : List (String × String)), (Meta.map Prod.fst).Nodup →
      ∀ kv ∈ Meta, GetMetaData (SetMetaDataAll Meta m) kv.1 = kv.2 := by
  intro Meta
  induction Meta with
  | nil => intro m _ kv hkv; cases hkv
  | cons a rest ih =>
    intro m hnd kv hkv
    simp only [List.map_cons, List.nodup_cons] at hnd
    have hunf : SetMetaDataAll (a :: rest) m = SetMetaDataAll rest (SetMetaData m a.1 a.2) := by
      unfold SetMetaDataAll
      rw [List.foldl_cons]
    rw [hunf]
    rcases List.mem_cons.1 hkv with h | h
    · subst h
      rw [GetMetaData_SetMetaDataAll_ne _ _ _ hnd.1, GetMetaData_SetMetaData_same]
    · exact ih _ hnd.2 kv h

/-- One iteration of the loop of `PostLoad` for a record of one of the five
kinds whose property name is free: the iteration returns, and what it leaves. -/
theorem PostLoadStep_of_free (env : RebuildEnv) (PatchedClass : Nat) (s : PostLoadState)
    (R : FHoudiniEngineSerializedProperty)
    (hkind : IsReconstructedKind R.PropertyType = true)
    (hfree : NameIsFree s.Component.Objects PatchedClass
      (env.SanitizeObjectName
        ((s.Component.Objects.Classes PatchedClass).Name ++ "_" ++ R.Name)) = true)
    (hstruct : R.PropertyType = EHoudiniEngineProperty.Color →
      s.Component.Objects.ScriptStructColor ≠ none
        ∨ (NameIsFree s.Component.Objects s.Component.Objects.StaticClass "Color" = true
          ∧ PatchedClass ≠ s.Component.Objects.StaticClass))
    (hp : s.PropertyFirst ≠ none → s.PropertyLast ≠ none)
    (hc : s.ChildFirst ≠ none → s.ChildLast ≠ none)
    (hkeys : (R.Meta.map Prod.fst).Nodup) :
    ∃ s2 p, PostLoadStep env PatchedClass s R = some s2
      ∧ s2.PropertyLast = some p ∧ s2.ChildLast = some p
      ∧ s2.PropertyFirst = some (s.PropertyFirst.getD p)
      ∧ s2.ChildFirst = some (s.ChildFirst.getD p)
      ∧ (∀ Last, s.PropertyFirst ≠ none → s.PropertyLast = some Last →
          (s2.Component.Objects.Properties Last).PropertyLinkNext = some p)
      ∧ (∀ Last, s.ChildFirst ≠ none → s.ChildLast = some Last →
          (s2.Component.Objects.Properties Last).Next = some p)
      ∧ s2.Component.Objects.CreatedProperties
          = s.Component.Objects.CreatedProperties ++ [p]
      ∧ GetPropertyType s2.Component.Objects (s2.Component.Objects.Properties p)
          = R.PropertyType
      ∧ (s2.Component.Objects.Properties p).ArrayDim = R.ArrayDim
      ∧ (s2.Component.Objects.Properties p).ElementSize = R.ElementSize
      ∧ (s2.Component.Objects.Properties p).Offset = u32OfInt R.Offset
      ∧ (s2.Component.Objects.Properties p).PropertyFlags = R.Flags
      ∧ (∀ kv ∈ R.Meta, GetMetaData (s2.Component.Objects.Properties p).Meta kv.1 = kv.2)
      ∧ s2.Component.ChangedProperties
          = (if R.bChanged then TSetAdd s.Component.ChangedProperties p
              else s.Component.ChangedProperties) := by
  obtain ⟨r1, p, hcp, hcreated, htype, hflags, hmeta⟩ :=
    CreateProperty_of_free s.Component.Objects PatchedClass _ R.Flags R.PropertyType hkind hfree
      hstruct
  -- the property after the assignments from the record
  have hset : ∀ (r2 : Reflection), r2 = SetProperty r1 p (fun P =>
      { P with ArrayDim := R.ArrayDim, ElementSize := R.ElementSize,
               Meta := SetMetaDataAll R.Meta P.Meta, Offset := u32OfInt R.Offset }) →
      ∀ (r4 : Reflection), SameButLinks (r2.Properties p) (r4.Properties p) →
        r4.ScriptStructColor = r1.ScriptStructColor →
        GetPropertyType r4 (r4.Properties p) = R.PropertyType
        ∧ (r4.Properties p).ArrayDim = R.ArrayDim
        ∧ (r4.Properties p).ElementSize = R.ElementSize
        ∧ (r4.Properties p).Offset = u32OfInt R.Offset
        ∧ (r4.Properties p).PropertyFlags = R.Flags
        ∧ (∀ kv ∈ R.Meta, GetMetaData (r4.Properties p).Meta kv.1 = kv.2) := by
    intro r2 hr2 r4 hsame hssc
    obtain ⟨a1, a2, a3, a4, a5, _, a7, a8⟩ := hsame
    have hP2 : r2.Properties p = { r1.Properties p with
        ArrayDim := R.ArrayDim, ElementSize := R.ElementSize,
        Meta := SetMetaDataAll R.Meta (r1.Properties p).Meta,
        Offset := u32OfInt R.Offset } := by
      rw [hr2, SetProperty_Properties_same]
    rw [hP2] at a1 a2 a3 a4 a5 a7 a8
    refine ⟨?_, a2, a8, a3, by rw [a7]; exact hflags, fun kv hkv => ?_⟩
    · rw [← htype]
      exact GetPropertyType_congr r1 r4 _ _ a1 a5 hssc
    · rw [a4]
      exact GetMetaData_SetMetaDataAll R.Meta _ hkeys kv hkv
  unfold PostLoadStep
  simp only [hcp]
  cases hpf : s.PropertyFirst with
  | none =>
    cases hcf : s.ChildFirst with
    | none =>
      refine ⟨_, p, rfl, rfl, rfl, rfl, rfl, fun _ h => absurd rfl h, fun _ h => absurd rfl h,
        ?_, ?_⟩
      · simp [SetProperty, hcreated]
      · obtain ⟨b1, b2, b3, b4, b5, b6⟩ := hset _ rfl (SetProperty r1 p _)
          (SameButLinks_refl _) rfl
        exact ⟨b1, b2, b3, b4, b5, b6, rfl⟩
    | some cf =>
      cases hcl : s.ChildLast with
      | none => exact absurd hcl (hc (by rw [hcf]; simp))
      | some cl =>
        refine ⟨_, p, rfl, rfl, rfl, rfl, rfl, fun _ h => absurd rfl h, fun Last _ hl => ?_,
          ?_, ?_⟩
        · cases hl
          simp [SetProperty_Properties_same]
        · simp [SetProperty, hcreated]
        · obtain ⟨b1, b2, b3, b4, b5, b6⟩ := hset _ rfl
            (SetProperty (SetProperty r1 p _) cl (fun P => { P with Next := some p }))
            (SameButLinks_SetProperty _ _ _ _ (fun _ => ⟨rfl, rfl, rfl, rfl, rfl, rfl, rfl, rfl⟩))
            rfl
          exact ⟨b1, b2, b3, b4, b5, b6, rfl⟩
  | some pf =>
    cases hpl : s.PropertyLast with
    | none => exact absurd hpl (hp (by rw [hpf]; simp))
    | some pl =>
      cases hcf : s.ChildFirst with
      | none =>
        refine ⟨_, p, rfl, rfl, rfl, rfl, rfl, fun Last _ hl => ?_, fun _ h => absurd rfl h,
          ?_, ?_⟩
        · cases hl
          simp [SetProperty_Properties_same]
        · simp [SetProperty, hcreated]
        · obtain ⟨b1, b2, b3, b4, b5, b6⟩ := hset _ rfl
            (SetProperty (SetProperty r1 p _) pl
              (fun P => { P with PropertyLinkNext := some p }))
            (SameButLinks_SetProperty _ _ _ _ (fun _ => ⟨rfl, rfl, rfl, rfl, rfl, rfl, rfl, rfl⟩))
            rfl
          exact ⟨b1, b2, b3, b4, b5, b6, rfl⟩
      | some cf =>
        cases hcl : s.ChildLast with
        | none => exact absurd hcl (hc (by rw [hcf]; simp))
        | some cl =>
          have hlink : ∀ P : UProperty,
              SameButLinks P { P with PropertyLinkNext := some p } :=
            fun _ => ⟨rfl, rfl, rfl, rfl, rfl, rfl, rfl, rfl⟩
          have hnext : ∀ P : UProperty, SameButLinks P { P with Next := some p } :=
            fun _ => ⟨rfl, rfl, rfl, rfl, rfl, rfl, rfl, rfl⟩
          have h23 := SameButLinks_SetProperty (SetProperty r1 p (fun P =>
              { P with ArrayDim := R.ArrayDim, ElementSize := R.ElementSize,
                       Meta := SetMetaDataAll R.Meta P.Meta, Offset := u32OfInt R.Offset }))
            pl p (fun P => { P with PropertyLinkNext := some p }) hlink
          have h34 := SameButLinks_SetProperty (SetProperty (SetProperty r1 p (fun P =>
              { P with ArrayDim := R.ArrayDim, ElementSize := R.ElementSize,
                       Meta := SetMetaDataAll R.Meta P.Meta, Offset := u32OfInt R.Offset }))
              pl (fun P => { P with PropertyLinkNext := some p }))
            cl p (fun P => { P with Next := some p }) hnext
          refine ⟨_, p, rfl, rfl, rfl, rfl, rfl, fun Last _ hl => ?_, fun Last _ hl => ?_,
            ?_, ?_⟩
          · cases hl
            simp only
            rw [SetProperty_Properties]
            split
            · rename_i heq
              rw [← heq]
              simp [SetProperty_Properties_same]
            · simp [SetProperty_Properties_same]
          · cases hl
            simp [SetProperty_Properties_same]
          · simp [SetProperty, hcreated]
          · obtain ⟨b1, b2, b3, b4, b5, b6⟩ := hset _ rfl _ (SameButLinks_trans h23 h34) rfl
            exact ⟨b1, b2, b3, b4, b5, b6, rfl⟩
/-- C23, the counterexample: the component loaded from storage holds the records
of the float field `Size`, of the enumeration field `Mode` and of the colour
field `Tint`; the changed flag of `Size` and of `Mode` is set.  `PostLoad`
generates the class at address 100 and reconstructs `Size` and `Tint`, but no
field for `Mode`: `CreateProperty` returns null for the kind `Enumeration`, the
record is skipped, no object is named after it, and nothing is inserted into
the Change Set for it. -/
theorem C23_counterexample_enumeration_record_is_skipped :
    LoadedRecordsWorld.SerializedProperties.map (fun R => (R.PropertyType, R.Name, R.bChanged))
      = [(EHoudiniEngineProperty.Float, "Size", true),
          (EHoudiniEngineProperty.Enumeration, "Mode", true),
          (EHoudiniEngineProperty.Color, "Tint", false)]
    ∧ (PostLoad ChoiceEnv LoadedRecordsWorld).map
        (fun w => (w.Objects.PatchedClass, w.Objects.CreatedProperties, w.ChangedProperties,
          w.Objects.CreatedProperties.map
            (fun p => GetPropertyType w.Objects (w.Objects.Properties p))))
      = some (some 100, [101, 103], [101],
          [EHoudiniEngineProperty.Float, EHoudiniEngineProperty.Color])
    ∧ (PostLoad ChoiceEnv LoadedRecordsWorld).map
        (fun w => w.Objects.Named.map (fun e => (e.Outer, e.Name)))
      = some [(12, "HoudiniAssetComponent_Actor_0"), (100, "HoudiniAssetComponent_Actor_0_Size"),
          (10, "Color"), (100, "HoudiniAssetComponent_Actor_0_Tint")] :=
  ⟨by decide, by decide, by decide⟩

/-- C23, amended: the iteration of `PostLoad` for a record of kind
`Enumeration` (or `None`) leaves the state of the loop as it is.  For a record
of kind `Integer`, `Float`, `Boolean`, `String` or `Color` whose property name
is free in the generated class (and, for a colour, with the static colour
struct at hand or its name free), the iteration returns: it creates a property
of that kind, adds it to `CreatedProperties`, puts it at the end of the two
chains under construction, gives it the arity, the element size, the offset,
the flags and every metadata entry of the record, and inserts it into the
Change Set exactly when the changed flag of the record is set. -/
theorem C23_record_is_reconstructed (env : RebuildEnv) (PatchedClass : Nat)
    (s : PostLoadState) (R : FHoudiniEngineSerializedProperty) :
    (IsReconstructedKind R.PropertyType = false →
      PostLoadStep env PatchedClass s R = some s)
    ∧ (IsReconstructedKind R.PropertyType = true →
      NameIsFree s.Component.Objects PatchedClass
        (env.SanitizeObjectName
          ((s.Component.Objects.Classes PatchedClass).Name ++ "_" ++ R.Name)) = true →
      (R.PropertyType = EHoudiniEngineProperty.Color →
        s.Component.Objects.ScriptStructColor ≠ none
          ∨ (NameIsFree s.Component.Objects s.Component.Objects.StaticClass "Color" = true
            ∧ PatchedClass ≠ s.Component.Objects.StaticClass)) →
      (s.PropertyFirst ≠ none → s.PropertyLast ≠ none) →
      (s.ChildFirst ≠ none → s.ChildLast ≠ none) →
      (R.Meta.map Prod.fst).Nodup →
      ∃ s2 p, PostLoadStep env PatchedClass s R = some s2
        ∧ s2.PropertyLast = some p ∧ s2.ChildLast = some p
        ∧ s2.PropertyFirst = some (s.PropertyFirst.getD p)
        ∧ s2.ChildFirst = some (s.ChildFirst.getD p)
        ∧ (∀ Last, s.PropertyFirst ≠ none → s.PropertyLast = some Last →
            (s2.Component.Objects.Properties Last).PropertyLinkNext = some p)
        ∧ (∀ Last, s.ChildFirst ≠ none → s.ChildLast = some Last →
            (s2.Component.Objects.Properties Last).Next = some p)
        ∧ s2.Component.Objects.CreatedProperties
            = s.Component.Objects.CreatedProperties ++ [p]
        ∧ GetPropertyType s2.Component.Objects (s2.Component.Objects.Properties p)
            = R.PropertyType
        ∧ (s2.Component.Objects.Properties p).ArrayDim = R.ArrayDim
        ∧ (s2.Component.Objects.Properties p).ElementSize = R.ElementSize
        ∧ (s2.Component.Objects.Properties p).Offset = u32OfInt R.Offset
        ∧ (s2.Component.Objects.Properties p).PropertyFlags = R.Flags
        ∧ (∀ kv ∈ R.Meta, GetMetaData (s2.Component.Objects.Properties p).Meta kv.1 = kv.2)
        ∧ s2.Component.ChangedProperties
            = (if R.bChanged then TSetAdd s.Component.ChangedProperties p
                else s.Component.ChangedProperties)) := by
  refine ⟨fun hk => ?_, fun hk hfree hstruct hp hc hkeys =>
    PostLoadStep_of_free env PatchedClass s R hk hfree hstruct hp hc hkeys⟩
  unfold PostLoadStep CreateProperty
  cases hpt : R.PropertyType <;> simp [IsReconstructedKind, hpt] at hk ⊢

/-- C23 amended, at the component loaded from storage: the first iteration, for
the record of `Size`, returns with a float field at the end of the chains that
is in the Change Set; and the whole of `PostLoad` leaves the chain of the
generated class as `Size`, `Tint` and then the chain of the static class. -/
theorem C23_record_is_reconstructed_witness :
    (∃ s2 p, PostLoadStep ChoiceEnv 100 LoadedRecordsStart RecordSize = some s2
      ∧ s2.PropertyLast = some p
      ∧ GetPropertyType s2.Component.Objects (s2.Component.Objects.Properties p)
          = EHoudiniEngineProperty.Float
      ∧ (s2.Component.Objects.Properties p).Offset = 1000
      ∧ s2.Component.ChangedProperties = [p])
    ∧ (PostLoad ChoiceEnv LoadedRecordsWorld).map
        (fun w => ((w.Objects.Classes 100).PropertyLink,
          (w.Objects.Properties 101).PropertyLinkNext,
          (w.Objects.Properties 103).PropertyLinkNext, (w.Objects.Classes 10).PropertyLink))
      = some (some 101, some 103, some 0, some 0) :=
  ⟨((C23_record_is_reconstructed ChoiceEnv 100 LoadedRecordsStart RecordSize).2 (by decide)
      (by decide) (fun h => by cases h) (fun h => absurd rfl h) (fun h => absurd rfl h)
      (by decide)).elim
    (fun s2 h => h.elim (fun p hp =>
      ⟨s2, p, hp.1, hp.2.1, hp.2.2.2.2.2.2.2.2.1, hp.2.2.2.2.2.2.2.2.2.2.2.1,
        hp.2.2.2.2.2.2.2.2.2.2.2.2.2.2⟩)),
    by decide⟩

/-- C24: for a component with a recorded generated class, `OnPreSaveWorld` makes
the static class the active class and roots the generated class, and
`OnPostSaveWorld` makes the generated class the active class and takes it from
the root set.  After the two calls the active class is the generated class, the
generated class is not rooted, and nothing else of the component has changed:
the root flags are those from before whenever the generated class was not
rooted before.  For a component without a recorded class both calls return the
component as it is. -/
theorem C24_class_swap_around_save (w : World) :
    (∀ c, w.Objects.PatchedClass = some c →
      (OnPreSaveWorld w).Objects.Class = w.Objects.StaticClass
      ∧ (OnPreSaveWorld w).Objects.Rooted c = true
      ∧ (OnPostSaveWorld w).Objects.Class = c
      ∧ (OnPostSaveWorld (OnPreSaveWorld w)).Objects.Class = c
      ∧ (OnPostSaveWorld (OnPreSaveWorld w)).Objects.Rooted c = false
      ∧ OnPostSaveWorld (OnPreSaveWorld w)
          = { w with Objects :=
                { w.Objects with Class := c,
                                 Rooted := Function.update w.Objects.Rooted c false } }
      ∧ (w.Objects.Rooted c = false →
          (OnPostSaveWorld (OnPreSaveWorld w)).Objects.Rooted = w.Objects.Rooted)
      ∧ (w.Objects.Rooted c = false → w.Objects.Class = c →
          OnPostSaveWorld (OnPreSaveWorld w) = w))
    ∧ (w.Objects.PatchedClass = none → OnPreSaveWorld w = w ∧ OnPostSaveWorld w = w) := by
  constructor
  · intro c hc
    have hpre : OnPreSaveWorld w = { w with Objects :=
        { w.Objects with Class := w.Objects.StaticClass,
                         Rooted := Function.update w.Objects.Rooted c true } } := by
      unfold OnPreSaveWorld ReplaceClassObject
      simp only [hc]
    have hpost : OnPostSaveWorld (OnPreSaveWorld w) = { w with Objects :=
        { w.Objects with Class := c,
                         Rooted := Function.update w.Objects.Rooted c false } } := by
      rw [hpre]
      unfold OnPostSaveWorld ReplaceClassObject
      simp only [hc, Function.update_idem]
    have hroot : w.Objects.Rooted c = false →
        Function.update w.Objects.Rooted c false = w.Objects.Rooted := by
      intro h
      rw [← h]
      exact Function.update_eq_self c w.Objects.Rooted
    refine ⟨by rw [hpre], by rw [hpre]; simp, ?_, by rw [hpost], by rw [hpost]; simp, hpost,
      fun h => by rw [hpost]; exact hroot h, fun h hcl => ?_⟩
    · unfold OnPostSaveWorld ReplaceClassObject
      simp only [hc]
    · rw [hpost, hroot h, ← hcl]
  · intro hn
    unfold OnPreSaveWorld OnPostSaveWorld
    simp only [hn, and_self]

/-- C24 at the scenario: the component after its first class replacement has
the generated class at address 100 as its active class, not rooted; the two
calls around a save leave the component as it was. -/
theorem C24_class_swap_around_save_witness :
    ChoiceWorld.Objects.PatchedClass = some 100
    ∧ ChoiceWorld.Objects.StaticClass = 10
    ∧ (OnPreSaveWorld ChoiceWorld).Objects.Class = 10
    ∧ (OnPostSaveWorld (OnPreSaveWorld ChoiceWorld)).Objects.Class = 100
    ∧ OnPostSaveWorld (OnPreSaveWorld ChoiceWorld) = ChoiceWorld :=
  ⟨by decide, by decide,
    ((C24_class_swap_around_save ChoiceWorld).1 100 (by decide)).1,
    ((C24_class_swap_around_save ChoiceWorld).1 100 (by decide)).2.2.2.1,
    ((C24_class_swap_around_save ChoiceWorld).1 100 (by decide)).2.2.2.2.2.2.2
      (by decide) (by decide)⟩

/-- C25, the counterexample: the component of the scenario has its generated
class recorded and its asset attached.  While the generated class is the
active class, the collector is told of both.  After `OnPreSaveWorld`, when the
static class is the active class, `AddReferencedObjects` tells the collector of
neither. -/
theorem C25_counterexample_static_class_reports_nothing :
    (ChoiceWorld.Objects.PatchedClass, ChoiceWorld.HoudiniAsset, ChoiceWorld.PendingKill)
      = (some 100, some 50, false)
    ∧ AddReferencedObjects ChoiceWorld
        = [ReferencedObject.PatchedClass 100, ReferencedObject.HoudiniAsset 50]
    ∧ ((OnPreSaveWorld ChoiceWorld).Objects.PatchedClass, (OnPreSaveWorld ChoiceWorld).HoudiniAsset,
        (OnPreSaveWorld ChoiceWorld).Objects.Class, (OnPreSaveWorld ChoiceWorld).Objects.StaticClass)
      = (some 100, some 50, 10, 10)
    ∧ AddReferencedObjects (OnPreSaveWorld ChoiceWorld) = [] :=
  ⟨by decide, by decide, by decide, by decide⟩

/-- C25, amended: when `AddReferencedObjects` visits a live component whose
active class is not the static class and has the function as its reference
callback, it reports the generated class whenever one is recorded and the
attached asset whenever one is attached, the class before the asset.  When the
active class is the static class it reports nothing. -/
theorem C25_references_reported_for_patched_class (w : World) :
    (w.Objects.Class ≠ w.Objects.StaticClass →
      (w.Objects.Classes w.Objects.Class).ClassAddReferencedObjects = true →
      w.PendingKill = false →
      (∀ c, w.Objects.PatchedClass = some c →
        ReferencedObject.PatchedClass c ∈ AddReferencedObjects w)
      ∧ (∀ a, w.HoudiniAsset = some a →
        ReferencedObject.HoudiniAsset a ∈ AddReferencedObjects w)
      ∧ (∀ c a, w.Objects.PatchedClass = some c → w.HoudiniAsset = some a →
        ∃ rest, AddReferencedObjects w
          = ReferencedObject.PatchedClass c :: ReferencedObject.HoudiniAsset a :: rest))
    ∧ (w.Objects.Class = w.Objects.StaticClass → AddReferencedObjects w = []) := by
  constructor
  · intro hcl hcb hpk
    have hne : w.Objects.StaticClass ≠ w.Objects.Class := fun h => hcl h.symm
    unfold AddReferencedObjects
    simp only [hne, ne_eq, not_false_eq_true, if_true, hcb, hpk, Bool.not_false]
    refine ⟨fun c hc => ?_, fun a ha => ?_, fun c a hc ha => ?_⟩
    · simp [hc]
    · simp [ha]
    · simp [hc, ha]
  · intro h
    unfold AddReferencedObjects
    simp [h]

/-- C25 amended, at the component of the scenario after its class replacement. -/
theorem C25_references_reported_for_patched_class_witness :
    ReferencedObject.PatchedClass 100 ∈ AddReferencedObjects ChoiceWorld
    ∧ ReferencedObject.HoudiniAsset 50 ∈ AddReferencedObjects ChoiceWorld :=
  ⟨((C25_references_reported_for_patched_class ChoiceWorld).1 (by decide) (by decide)
      (by decide)).1 100 (by decide),
    ((C25_references_reported_for_patched_class ChoiceWorld).1 (by decide) (by decide)
      (by decide)).2.1 50 (by decide)⟩

theorem ReplaceClassPropertiesStep_Classes (env : RebuildEnv) (ClassInstance : Nat)
    (v : FetchedParameters) (s : ReplaceState) (ParmInfoIter : HAPI_ParmInfo)
    (s2 : ReplaceState)
    (h : ReplaceClassPropertiesStep env ClassInstance v s ParmInfoIter = some s2) :
    s2.Objects.Classes = s.Objects.Classes := by
  rcases ReplaceClassPropertiesStep_cases env ClassInstance v s ParmInfoIter s2 h with
    rfl | ⟨_, _, r, Name, op, Offset2, hcp, hrest⟩
  · rfl
  · obtain ⟨hev, _, _⟩ := CreateParameterProperty_spec _ _ _ _ _ _ _ _ _ _ hcp
    rcases hrest with ⟨_, rfl⟩ | ⟨p, pn, pl, ll, _, hins⟩
    · exact hev.Classes
    · obtain ⟨hrel, _, _, _⟩ := InsertCreatedProperty_spec _ _ _ _ _ _ _ _ _ _ hins
      exact hrel.Classes.trans hev.Classes

theorem ReplaceClassPropertiesLoop_Classes (env : RebuildEnv) (ClassInstance : Nat)
    (v : FetchedParameters) :
    ∀ (Table : List HAPI_ParmInfo) (s s2 : ReplaceState),
      ReplaceClassPropertiesLoop env ClassInstance v Table s = some s2 →
      s2.Objects.Classes = s.Objects.Classes := by
  intro Table
  induction Table with
  | nil =>
    intro s s2 h
    simp only [ReplaceClassPropertiesLoop, Option.some.injEq] at h
    subst h
    rfl
  | cons a rest ih =>
    intro s s2 h
    simp only [ReplaceClassPropertiesLoop] at h
    cases hstep : ReplaceClassPropertiesStep env ClassInstance v s a with
    | none => simp [hstep] at h
    | some s1 =>
      simp only [hstep] at h
      exact (ih s1 s2 h).trans (ReplaceClassPropertiesStep_Classes env ClassInstance v s a s1 hstep)

/-- A rebuild of the field list leaves the name and the super struct of every
class object as they are. -/
theorem ReplaceClassProperties_SuperStruct (env : RebuildEnv) (AssetId : Int)
    (r : Reflection) (ClassInstance : Nat) (r2 : Reflection) (b : Bool)
    (h : ReplaceClassProperties env AssetId r ClassInstance = some (r2, b)) :
    ∀ a, (r2.Classes a).SuperStruct = (r.Classes a).SuperStruct
      ∧ (r2.Classes a).Name = (r.Classes a).Name := by
  unfold ReplaceClassProperties at h
  by_cases hid : AssetId = -1
  · simp only [hid, if_true, Option.some.injEq, Prod.mk.injEq] at h
    obtain ⟨rfl, _⟩ := h
    exact fun _ => ⟨rfl, rfl⟩
  · simp only [hid, if_false] at h
    split at h
    · cases h
    · simp only [Option.some.injEq, Prod.mk.injEq] at h
      obtain ⟨rfl, _⟩ := h
      exact fun _ => ⟨rfl, rfl⟩
    · rename_i v hfetch
      unfold ReplaceClassPropertiesOver at h
      cases hloop : ReplaceClassPropertiesLoop env ClassInstance v v.ParmInfo
          (ReplaceStateStart env r) with
      | none => simp [hloop] at h
      | some s =>
        simp only [hloop] at h
        cases hinst : InstallChains ClassInstance s with
        | none => simp [hinst] at h
        | some r1 =>
          simp only [hinst, Option.some.injEq, Prod.mk.injEq] at h
          obtain ⟨rfl, _⟩ := h
          have hcl : s.Objects.Classes = r.Classes :=
            ReplaceClassPropertiesLoop_Classes env ClassInstance v _ _ s hloop
          obtain ⟨_, _, _, _, _, _, _, _, _, _, a11, a12, a13⟩ :=
            InstallChains_spec ClassInstance s r1 hinst
          intro a
          by_cases ha : a = ClassInstance
          · subst ha
            rw [a12, a13, hcl]
            exact ⟨rfl, rfl⟩
          · rw [a11 a ha, hcl]
            exact ⟨rfl, rfl⟩

/-- The class a first call of `ReplaceClassInformation` generates has the super
struct of the static class as its super struct. -/
theorem ReplaceClassInformation_SuperStruct (env : RebuildEnv) (w : World)
    (ActorLabel : String) (bReplace : Bool) (w2 : World)
    (hnone : w.Objects.PatchedClass = none)
    (h : ReplaceClassInformation env w ActorLabel bReplace = some w2) :
    ∃ NewClass, w2.Objects.PatchedClass = some NewClass
      ∧ (w2.Objects.Classes NewClass).SuperStruct
          = (w.Objects.Classes w.Objects.StaticClass).SuperStruct := by
  unfold ReplaceClassInformation at h
  simp only [hnone] at h
  cases hn : NewNamedObject w.Objects UObjectKind.Class env.Outermost
      (env.SanitizeObjectName ((w.Objects.Classes w.Objects.Class).Name ++ "_" ++ ActorLabel
        ++ "_" ++ Nat.repr w.Objects.ComponentPatchedClassCounter)) with
  | none => simp [hn] at h
  | some res =>
    obtain ⟨r1, NewClass⟩ := res
    simp only [hn] at h
    have hr1 : r1.Classes = w.Objects.Classes ∧ r1.StaticClass = w.Objects.StaticClass := by
      rcases NewNamedObject_cases _ _ _ _ _ _ hn with ⟨hr, _⟩ | ⟨_, hr⟩
      · subst hr; exact ⟨rfl, rfl⟩
      · subst hr; exact ⟨rfl, rfl⟩
    cases bReplace with
    | true =>
      simp only [if_true] at h
      split at h
      · cases h
      · rename_i r2 b hrep
        simp only [Option.some.injEq] at h
        subst h
        have hk := ReplaceClassProperties_keeps _ _ _ _ _ _ hrep
        have hs := (ReplaceClassProperties_SuperStruct _ _ _ _ _ _ hrep NewClass).1
        refine ⟨NewClass, by rw [hk.PatchedClass]; rfl, ?_⟩
        rw [hs]
        simp [SubscribeSaveWorldDelegates, ReplaceClassObject, hr1.1, hr1.2]
    | false =>
      simp only [Bool.false_eq_true, if_false] at h
      split at h
      · cases h
      · rename_i r2 b hrep
        simp only [Option.some.injEq] at h
        subst h
        have hk := ReplaceClassProperties_keeps _ _ _ _ _ _ hrep
        have hs := (ReplaceClassProperties_SuperStruct _ _ _ _ _ _ hrep NewClass).1
        refine ⟨NewClass, by rw [hk.PatchedClass], ?_⟩
        rw [hs]
        simp [hr1.1, hr1.2]

/-- C26, the defect: the static class of the component, at address 10, has the
class at address 11 as its super struct.  The class the first call of
`ReplaceClassInformation` generates, at address 100, has the class at address
11 as its super struct as well: it is made a sibling of the static class, not a
subclass of it. -/
theorem C26_generated_class_is_not_a_subclass :
    (StaticWorld.Objects.PatchedClass, StaticWorld.Objects.StaticClass,
        (StaticWorld.Objects.Classes 10).Name, (StaticWorld.Objects.Classes 10).SuperStruct)
      = (none, 10, "HoudiniAssetComponent", some 11)
    ∧ (ReplaceClassInformation ChoiceEnv StaticWorld "Actor" true).map
        (fun w => (w.Objects.PatchedClass, w.Objects.Class, (w.Objects.Classes 100).Name,
          (w.Objects.Classes 100).SuperStruct))
      = some (some 100, 100, "HoudiniAssetComponent_Actor_0", some 11) :=
  ⟨by decide, by decide⟩

/-- C27, the defect: after the first rebuild, for the table with the parameter
`choice`, the two chains of the generated class (address 100) are the created
field (address 102) and then the chain of the static class (the native
property at address 0).  The next rebuild is for a table that yields no field.
`RemoveClassProperties` clears the links of the old field, and
`ReplaceClassProperties`, which assigns the chain heads only when a field was
created, leaves both heads of the generated class at the old field: the walk
of either chain visits the old field, which is not in `CreatedProperties`, and
ends there without reaching the chain of the static class. -/
theorem C27_rebuild_without_field_keeps_stale_head :
    (ReplaceClassInformation ChoiceEnv StaticWorld "Actor" true).map
        (fun w => (w.Objects.CreatedProperties,
          PropertyLinkChain w.Objects 8 (w.Objects.Classes 100).PropertyLink,
          ChildChain w.Objects 8 (w.Objects.Classes 100).Children,
          PropertyLinkChain w.Objects 8 (w.Objects.Classes 10).PropertyLink))
      = some ([102], [102, 0], [102, 0], [0])
    ∧ (FetchParameters HiddenOnlyEnv 7).map (fun f => f.map (fun v => v.ParmInfo))
      = some (some [HiddenParm])
    ∧ ((ReplaceClassInformation ChoiceEnv StaticWorld "Actor" true).bind
        (fun w => ReplaceClassInformation HiddenOnlyEnv w "Actor" true)).map
        (fun w => (w.Objects.PatchedClass, w.Objects.Class, w.Objects.CreatedProperties,
          (w.Objects.Classes 100).PropertyLink, (w.Objects.Classes 100).Children))
      = some (some 100, 100, [], some 102, some 102)
    ∧ ((ReplaceClassInformation ChoiceEnv StaticWorld "Actor" true).bind
        (fun w => ReplaceClassInformation HiddenOnlyEnv w "Actor" true)).map
        (fun w => (PropertyLinkChain w.Objects 8 (w.Objects.Classes 100).PropertyLink,
          ChildChain w.Objects 8 (w.Objects.Classes 100).Children,
          PropertyLinkChain w.Objects 8 (w.Objects.Classes 10).PropertyLink))
      = some ([102], [102], [0]) :=
  ⟨by decide, by decide, by decide, by decide⟩

/-- A field that is bound at a cursor whose footprint does not wrap around is
aligned for its value type, starts at or after the cursor, and the cursor that
follows is the end of its storage. -/
theorem FieldBinding_exact (c : UPropertyClass) (Count : Int) (Offset : Nat) (P : UProperty)
    (Offset2 : Nat) (hb : FieldBinding c Count Offset P Offset2) (hclass : P.Class = c)
    (hstruct : c = UPropertyClass.UStructProperty → P.ArrayDim = 1 ∧ Count = 1)
    (hcount : 0 ≤ Count)
    (hfit : Offset + ((AlignmentOf c - 1) + (ElementSize c * Count).toNat) < 4294967296) :
    P.Offset % AlignmentOf P.Class = 0
    ∧ Offset ≤ P.Offset
    ∧ (Offset2 : Int) = FieldEnd P
    ∧ 0 ≤ P.ArrayDim := by
  obtain ⟨hoff, harr, hcur, hstr⟩ := hb
  unfold FieldEnd
  rw [hclass]
  cases c with
  | UIntProperty =>
    have h1 := harr (by decide)
    have h2 := hcur (by decide)
    simp only [ElementSize, AlignmentOf, alignofWord, alignofByte, alignofFString] at *
    unfold u32 at hoff
    unfold u32OfInt at h2
    unfold ComputeOffsetAlignmentBoundary at hoff
    rw [h1]
    omega
  | UBoolProperty =>
    have h1 := harr (by decide)
    have h2 := hcur (by decide)
    simp only [ElementSize, AlignmentOf, alignofWord, alignofByte, alignofFString] at *
    unfold u32 at hoff
    unfold u32OfInt at h2
    unfold ComputeOffsetAlignmentBoundary at hoff
    rw [h1]
    omega
  | UFloatProperty =>
    have h1 := harr (by decide)
    have h2 := hcur (by decide)
    simp only [ElementSize, AlignmentOf, alignofWord, alignofByte, alignofFString] at *
    unfold u32 at hoff
    unfold u32OfInt at h2
    unfold ComputeOffsetAlignmentBoundary at hoff
    rw [h1]
    omega
  | UByteProperty =>
    have h1 := harr (by decide)
    have h2 := hcur (by decide)
    simp only [ElementSize, AlignmentOf, alignofWord, alignofByte, alignofFString] at *
    unfold u32 at hoff
    unfold u32OfInt at h2
    unfold ComputeOffsetAlignmentBoundary at hoff
    rw [h1]
    omega
  | UOtherProperty =>
    have h1 := harr (by decide)
    have h2 := hcur (by decide)
    simp only [ElementSize, AlignmentOf, alignofWord, alignofByte, alignofFString] at *
    unfold u32 at hoff
    unfold u32OfInt at h2
    unfold ComputeOffsetAlignmentBoundary at hoff
    rw [h1]
    omega
  | UStrProperty =>
    have h1 := harr (by decide)
    simp only [ElementSize, AlignmentOf, alignofWord, alignofByte, alignofFString] at *
    unfold u32 at hoff
    unfold ComputeOffsetAlignmentBoundary at hoff
    have h2 := hstr trivial (by omega)
    rw [h1]
    omega
  | UStructProperty =>
    have h1 := hstruct rfl
    have h2 := hcur (by decide)
    simp only [ElementSize, AlignmentOf, alignofWord, alignofByte, alignofFString] at *
    unfold u32 at hoff
    unfold u32OfInt at h2
    unfold ComputeOffsetAlignmentBoundary at hoff
    rw [h1.1]
    rw [h1.2] at h2 hfit
    omega
/-- The order of the created fields is a matter of their storage alone. -/
theorem FieldsInOrder_transfer (Start : Nat) (s s2 : ReplaceState)
    (hbelow : FieldsBelowCursor Start s2)
    (hcp : s2.Objects.CreatedProperties = s.Objects.CreatedProperties)
    (hsame : ∀ q ∈ s.Objects.CreatedProperties,
      SameStorage (s.Objects.Properties q) (s2.Objects.Properties q))
    (hinv : FieldsInOrder Start s) : FieldsInOrder Start s2 := by
  obtain ⟨_, halign, hpair⟩ := hinv
  refine ⟨hbelow, fun p hp => ?_, ?_⟩
  · rw [hcp] at hp
    obtain ⟨a1, a2, a3⟩ := hsame p hp
    rw [a1, a2, a3]
    exact halign p hp
  · rw [hcp]
    refine List.Pairwise.imp_of_mem (fun {a b} ha hb hab => ?_) hpair
    obtain ⟨a1, a2, a3⟩ := hsame a ha
    obtain ⟨_, _, b3⟩ := hsame b hb
    unfold FieldEnd at hab ⊢
    rw [a1, a2, a3, b3]
    exact hab

/-- One iteration keeps the created fields in order, when the field it creates
is not one created before. -/
theorem ReplaceClassPropertiesStep_order (env : RebuildEnv) (ClassInstance : Nat)
    (v : FetchedParameters) (Start : Nat) (s : ReplaceState) (ParmInfoIter : HAPI_ParmInfo)
    (s2 : ReplaceState)
    (h : ReplaceClassPropertiesStep env ClassInstance v s ParmInfoIter = some s2)
    (hsize : 0 ≤ ParmInfoIter.size)
    (hfit : s.ValuesOffsetEnd + ParmFootprint ParmInfoIter < 4294967296)
    (hnew : ∀ p, s2.Objects.CreatedProperties = s.Objects.CreatedProperties ++ [p] →
      p ∉ s.Objects.CreatedProperties)
    (hinv : FieldsInOrder Start s) :
    FieldsInOrder Start s2 := by
  have hbelow2 := (ReplaceClassPropertiesStep_bounds env ClassInstance v Start s ParmInfoIter s2
    h hsize hfit hinv.1).1
  obtain ⟨⟨hok, hstart, hfields⟩, halign, hpair⟩ := hinv
  rcases ReplaceClassPropertiesStep_cases env ClassInstance v s ParmInfoIter s2 h with
    rfl | ⟨hvis, hsup, r, Name, op, Offset2, hcp, hrest⟩
  · exact ⟨hbelow2, halign, hpair⟩
  · obtain ⟨hev, hnone, hsome⟩ := CreateParameterProperty_spec _ _ _ _ _ _ _ _ _ _ hcp
    rcases hrest with ⟨hop, rfl⟩ | ⟨p, pn, pl, ll, hop, hins⟩
    · subst hop
      refine FieldsInOrder_transfer Start s _ hbelow2 hev.CreatedProperties (fun q hq => ?_)
        ⟨⟨hok, hstart, hfields⟩, halign, hpair⟩
      have hsame : r.Properties q = s.Objects.Properties q :=
        hev.Properties q (hfields q hq).1 (by simp)
      simp only
      rw [hsame]
      exact SameStorage_refl _
    · subst hop
      obtain ⟨hmem, hbind⟩ := hsome p rfl
      obtain ⟨hlt, hclass, hstruct⟩ := Evolves_mem_lt hev hok p _ hmem
      have hrefl : IsReflectedParm ParmInfoIter = true := by
        simp [IsReflectedParm, hvis, hsup]
      have hfoot : ParmFootprint ParmInfoIter
          = (AlignmentOf (FieldKindOf ParmInfoIter).1 - 1)
            + (ElementSize (FieldKindOf ParmInfoIter).1 * (FieldKindOf ParmInfoIter).2).toNat := by
        simp [ParmFootprint, hrefl]
      rw [hfoot] at hfit
      obtain ⟨c1, c2, c3, c4⟩ := FieldBinding_exact _ _ _ _ _ hbind hclass
        (fun hs => ⟨hstruct hs, FieldKindOf_struct _ hs⟩)
        (FieldKindOf_count_nonneg _ hsize) hfit
      obtain ⟨hrel, hcp2, _, hend⟩ := InsertCreatedProperty_spec _ _ _ _ _ _ _ _ _ _ hins
      have hcpe : s2.Objects.CreatedProperties = s.Objects.CreatedProperties ++ [p] := by
        rw [hcp2, hev.CreatedProperties]
      have hpnew := hnew p hcpe
      -- the storage of the fields created before is untouched
      have hold : ∀ q ∈ s.Objects.CreatedProperties,
          SameStorage (s.Objects.Properties q) (s2.Objects.Properties q) := by
        intro q hq
        have hqp : q ≠ p := fun hqp => hpnew (hqp ▸ hq)
        have hsame : r.Properties q = s.Objects.Properties q :=
          hev.Properties q (hfields q hq).1 (by simpa using hqp)
        have := hrel.Storage q
        rw [hsame] at this
        exact this
      obtain ⟨p1, p2, p3⟩ := hrel.Storage p
      refine ⟨hbelow2, fun q hq => ?_, ?_⟩
      · rw [hcpe] at hq
        rcases List.mem_append.1 hq with hm | hm
        · obtain ⟨a1, a2, a3⟩ := hold q hm
          rw [a1, a2, a3]
          exact halign q hm
        · rw [List.mem_singleton.1 hm, p1, p2, p3]
          exact ⟨c1, c4⟩
      · rw [hcpe, List.pairwise_append]
        refine ⟨?_, List.pairwise_singleton _ _, fun a ha b hb => ?_⟩
        · refine List.Pairwise.imp_of_mem (fun {a b} ha hb hab => ?_) hpair
          obtain ⟨a1, a2, a3⟩ := hold a ha
          obtain ⟨_, _, b3⟩ := hold b hb
          unfold FieldEnd at hab ⊢
          rw [a1, a2, a3, b3]
          exact hab
        · rw [List.mem_singleton.1 hb]
          obtain ⟨a1, a2, a3⟩ := hold a ha
          have hend_a := (hfields a ha).2.2
          unfold FieldEnd
          rw [a1, a2, a3, p3]
          omega

/-- The loop keeps the created fields in order, when the fields it leaves are
pairwise different objects. -/
theorem ReplaceClassPropertiesLoop_order (env : RebuildEnv) (ClassInstance : Nat)
    (v : FetchedParameters) (Start : Nat) :
    ∀ (Table : List HAPI_ParmInfo) (s s2 : ReplaceState),
      ReplaceClassPropertiesLoop env ClassInstance v Table s = some s2 →
      (∀ ParmInfoIter ∈ Table, 0 ≤ ParmInfoIter.size) →
      s.ValuesOffsetEnd + TableFootprint Table < 4294967296 →
      s2.Objects.CreatedProperties.Nodup →
      FieldsInOrder Start s →
      FieldsInOrder Start s2 := by
  intro Table
  induction Table with
  | nil =>
    intro s s2 h _ _ _ hinv
    simp only [ReplaceClassPropertiesLoop, Option.some.injEq] at h
    subst h
    exact hinv
  | cons a rest ih =>
    intro s s2 h hsize hfit hnodup hinv
    simp only [ReplaceClassPropertiesLoop] at h
    rw [TableFootprint_cons] at hfit
    cases hstep : ReplaceClassPropertiesStep env ClassInstance v s a with
    | none => simp [hstep] at h
    | some s1 =>
      simp only [hstep] at h
      obtain ⟨built, _, hbuilt, _⟩ :=
        ReplaceClassPropertiesLoop_created env ClassInstance v rest s1 s2 h
      have hnew : ∀ p, s1.Objects.CreatedProperties = s.Objects.CreatedProperties ++ [p] →
          p ∉ s.Objects.CreatedProperties := by
        intro p hp hmem
        rw [hbuilt, hp] at hnodup
        have h1 := (List.nodup_append.1 hnodup).1
        have h2 := (List.nodup_append.1 h1).2.2
        exact h2 hmem (List.mem_singleton_self p)
      obtain ⟨_, _, hle1⟩ := ReplaceClassPropertiesStep_bounds env ClassInstance v Start s a
        s1 hstep (hsize a (List.mem_cons_self _ _)) (by omega) hinv.1
      have hinv1 := ReplaceClassPropertiesStep_order env ClassInstance v Start s a s1 hstep
        (hsize a (List.mem_cons_self _ _)) (by omega) hnew hinv
      exact ih s1 s2 h (fun x hx => hsize x (List.mem_cons_of_mem _ hx)) (by omega) hnodup hinv1
theorem Option_pair_eq_some_getD {α : Type} (x : Option (α × Bool)) (d : α × Bool)
    (h1 : x.isSome = true) (h2 : x.map Prod.snd = some true) :
    x = some ((x.getD d).1, true) := by
  cases x with
  | none => cases h1
  | some y =>
    obtain ⟨a, b⟩ := y
    simp only [Option.map_some', Option.some.injEq] at h2
    subst h2
    rfl

theorem ElementSize_nonneg (c : UPropertyClass) : 0 ≤ ElementSize c := by
  cases c <;> simp [ElementSize]

/-- C28, the counterexample: the engine reports the integer parameter `pair`
with the size -1, followed by the toggle parameter `flags` of size 2.  The
rebuild binds the field of `pair` at offset 1000 with arity -1 and moves the
cursor back to 996, where it binds the field of `flags`: the offsets are not
non-decreasing in creation order. -/
theorem C28_counterexample_negative_size :
    (FetchParameters NegativeEnv 7).map
        (fun f => f.map (fun v => v.ParmInfo.map (fun P => (P.type, P.size))))
      = some (some [(HAPI_ParmType.HAPI_PARMTYPE_INT, -1),
          (HAPI_ParmType.HAPI_PARMTYPE_TOGGLE, 2)])
    ∧ (ReplaceClassInformation NegativeEnv StaticWorld "Actor" true).map
        (fun w => (w.Objects.CreatedProperties,
          w.Objects.CreatedProperties.map (fun p =>
            ((w.Objects.Properties p).Class, (w.Objects.Properties p).ArrayDim,
              (w.Objects.Properties p).Offset))))
      = some ([101, 102], [(UPropertyClass.UIntProperty, -1, 1000),
          (UPropertyClass.UBoolProperty, 2, 996)]) :=
  ⟨by decide, by decide⟩

/-- C28, amended.  One allocation: when the named objects are in order, the
size of the parameter is not negative and the cursor plus the padding and the
storage of the field stays below `2^32`, the offset the field is bound to is
aligned for its value type and not smaller than the cursor before, and the
cursor afterwards is that offset plus element size times arity.  One rebuild:
when, moreover, no parameter of the table has a negative size, the start of the
buffer plus the footprint of the table stays below `2^32` and the created
fields are pairwise different objects, every created field is aligned, the
offsets are non-decreasing in creation order, and every field ends at or before
the offset of every field created after it. -/
theorem C28_allocations_are_aligned_and_ordered (env : RebuildEnv) (ClassInstance : Nat)
    (v : FetchedParameters) :
    (∀ (r : Reflection) (ParmInfoIter : HAPI_ParmInfo) (UniquePropertyName : String)
        (Offset : Nat) (r2 : Reflection) (p Offset2 : Nat),
      CreateParameterProperty env ClassInstance v r ParmInfoIter UniquePropertyName Offset
        = some (r2, some p, Offset2) →
      RegistryOk r → 0 ≤ ParmInfoIter.size →
      Offset + ((AlignmentOf (FieldKindOf ParmInfoIter).1 - 1)
        + (ElementSize (FieldKindOf ParmInfoIter).1 * (FieldKindOf ParmInfoIter).2).toNat)
        < 4294967296 →
      (r2.Properties p).Offset % AlignmentOf (r2.Properties p).Class = 0
      ∧ Offset ≤ (r2.Properties p).Offset
      ∧ (Offset2 : Int) = FieldEnd (r2.Properties p))
    ∧ (∀ (AssetId : Int) (r r2 : Reflection) (b : Bool),
      AssetId ≠ -1 → FetchParameters env AssetId = some (some v) → RegistryOk r →
      (∀ ParmInfoIter ∈ v.ParmInfo, 0 ≤ ParmInfoIter.size) →
      u32 env.ScratchSpaceBufferOffset + TableFootprint v.ParmInfo < 4294967296 →
      ReplaceClassProperties env AssetId r ClassInstance = some (r2, b) →
      r2.CreatedProperties.Nodup →
      (∀ p ∈ r2.CreatedProperties,
        (r2.Properties p).Offset % AlignmentOf (r2.Properties p).Class = 0
        ∧ u32 env.ScratchSpaceBufferOffset ≤ (r2.Properties p).Offset)
      ∧ r2.CreatedProperties.Pairwise (fun p q =>
          (r2.Properties p).Offset ≤ (r2.Properties q).Offset
          ∧ FieldEnd (r2.Properties p) ≤ ((r2.Properties q).Offset : Int))) := by
  constructor
  · intro r ParmInfoIter Name Offset r2 p Offset2 hcp hok hsize hfit
    obtain ⟨hev, _, hsome⟩ := CreateParameterProperty_spec _ _ _ _ _ _ _ _ _ _ hcp
    obtain ⟨hmem, hbind⟩ := hsome p rfl
    obtain ⟨_, hclass, hstruct⟩ := Evolves_mem_lt hev hok p _ hmem
    obtain ⟨c1, c2, c3, _⟩ := FieldBinding_exact _ _ _ _ _ hbind hclass
      (fun hs => ⟨hstruct hs, FieldKindOf_struct _ hs⟩)
      (FieldKindOf_count_nonneg _ hsize) hfit
    exact ⟨c1, c2, c3⟩
  · intro AssetId r r2 b hid hfetch hok hsize hfit h hnodup
    unfold ReplaceClassProperties at h
    simp only [hid, if_false, hfetch] at h
    unfold ReplaceClassPropertiesOver at h
    cases hloop : ReplaceClassPropertiesLoop env ClassInstance v v.ParmInfo
        (ReplaceStateStart env r) with
    | none => simp [hloop] at h
    | some s =>
      simp only [hloop] at h
      cases hinst : InstallChains ClassInstance s with
      | none => simp [hinst] at h
      | some r1 =>
        simp only [hinst, Option.some.injEq, Prod.mk.injEq] at h
        obtain ⟨rfl, _⟩ := h
        obtain ⟨hsto, hcp, _⟩ := InstallChains_spec ClassInstance s r1 hinst
        have hstart : FieldsInOrder (u32 env.ScratchSpaceBufferOffset)
            (ReplaceStateStart env r) := by
          refine ⟨⟨?_, Nat.le_refl _, fun p hp => absurd hp (List.not_mem_nil p)⟩,
            fun p hp => absurd hp (List.not_mem_nil p), List.Pairwise.nil⟩
          intro e he
          exact hok e he
        obtain ⟨⟨_, _, hfields⟩, halign, hpair⟩ :=
          ReplaceClassPropertiesLoop_order env ClassInstance v (u32 env.ScratchSpaceBufferOffset)
            v.ParmInfo _ s hloop hsize hfit (by rw [← hcp]; exact hnodup) hstart
        rw [hcp]
        refine ⟨fun p hp => ?_, ?_⟩
        · obtain ⟨a1, _, a3⟩ := hsto p
          rw [a1, a3]
          exact ⟨(halign p hp).1, (hfields p hp).2.1⟩
        · refine List.Pairwise.imp_of_mem (fun {a b} ha hb hab => ?_) hpair
          obtain ⟨a1, a2, a3⟩ := hsto a
          obtain ⟨_, _, b3⟩ := hsto b
          have hnn := (halign a ha).2
          have hes := ElementSize_nonneg (s.Objects.Properties a).Class
          have hmul : 0 ≤ ElementSize (s.Objects.Properties a).Class
              * (s.Objects.Properties a).ArrayDim := Int.mul_nonneg hes hnn
          unfold FieldEnd at hab ⊢
          rw [a1, a2, a3, b3]
          exact ⟨by omega, hab⟩

/-- C28 amended, at the table of two parameters of arity 2: the rebuild binds
the integer field at offset 1000 and the toggle field at offset 1008, where the
storage of the integer field ends. -/
theorem C28_allocations_are_aligned_and_ordered_witness :
    PairRebuilt.CreatedProperties = [101, 102]
    ∧ PairRebuilt.CreatedProperties.map (fun p => (PairRebuilt.Properties p).Offset)
        = [1000, 1008]
    ∧ PairRebuilt.CreatedProperties.Pairwise (fun p q =>
        (PairRebuilt.Properties p).Offset ≤ (PairRebuilt.Properties q).Offset
        ∧ FieldEnd (PairRebuilt.Properties p) ≤ ((PairRebuilt.Properties q).Offset : Int)) :=
  ⟨by decide, by decide,
    ((C28_allocations_are_aligned_and_ordered PairEnv 100 PairFetched).2 7 GeneratedObjects
      PairRebuilt true (by decide) (by decide) (RegistryOk_of_check _ (by decide)) (by decide)
      (by decide) (Option_pair_eq_some_getD _ _ (by decide) (by decide)) (by decide)).2⟩

/-- `CreatePropertyEnum` with an integer value: the field it returns has an
enum, is bound at the aligned cursor, and the byte there holds the value. -/
theorem CreatePropertyEnum_byte (env : RebuildEnv) (r : Reflection) (ClassInstance : Nat)
    (Name : String) (Choices : List HAPI_ParmChoiceInfo) (Value : Int) (Offset : Nat)
    (r1 : Reflection) (p Offset1 : Nat)
    (h : CreatePropertyEnum env r ClassInstance Name Choices Value Offset
      = some (r1, some p, Offset1)) :
    ∃ EnumType, (r1.Properties p).Enum = some EnumType
      ∧ (r1.Properties p).Offset = u32 (ComputeOffsetAlignmentBoundary alignofByte Offset)
      ∧ readByte r1.Memory (ComputeOffsetAlignmentBoundary alignofByte Offset)
          = u32OfInt Value % 256 := by
  unfold CreatePropertyEnum at h
  split at h
  · cases h
  · simp at h
  · rename_i r0 EnumType hce
    split at h
    · cases h
    · rename_i r2 q hcp
      simp only [Option.some.injEq, Prod.mk.injEq] at h
      obtain ⟨rfl, hq, _⟩ := h
      subst hq
      refine ⟨EnumType, ?_, ?_, ?_⟩
      · simp [SetProperty_Properties_same]
      · simp [SetProperty_Properties_same]
      · simp [readByte, writeByte]

/-- The search for the current value over a run of indices finds the first
index whose entry has a `HoudiniName` that compares equal. -/
theorem FindHoudiniName_first (env : RebuildEnv) (e : UEnum) (ValueStringCompare : String)
    (i : Nat)
    (hmatch : (e.HasMetaData "HoudiniName" i
      && env.CompareIgnoreCase (e.GetMetaData "HoudiniName" i) ValueStringCompare) = true) :
    ∀ (n s : Nat), s ≤ i → i < s + n →
      (∀ j, s ≤ j → j < i →
        (e.HasMetaData "HoudiniName" j
          && env.CompareIgnoreCase (e.GetMetaData "HoudiniName" j) ValueStringCompare) = false) →
      FindHoudiniName env e ValueStringCompare (List.range' s n) = some i := by
  intro n
  induction n with
  | zero => intro s h1 h2; omega
  | succ n ih =>
    intro s h1 h2 hfirst
    rw [List.range'_succ]
    unfold FindHoudiniName
    by_cases hsi : s = i
    · subst hsi
      rw [if_pos hmatch]
    · rw [hfirst s (Nat.le_refl _) (by omega)]
      simp only [Bool.false_eq_true, if_false]
      exact ih (s + 1) (by omega) (by omega) (fun j hj1 hj2 => hfirst j (by omega) hj2)

/-- The search finds nothing when no entry of the list compares equal. -/
theorem FindHoudiniName_none (env : RebuildEnv) (e : UEnum) (ValueStringCompare : String) :
    ∀ (l : List Nat),
      (∀ j ∈ l,
        (e.HasMetaData "HoudiniName" j
          && env.CompareIgnoreCase (e.GetMetaData "HoudiniName" j) ValueStringCompare) = false) →
      FindHoudiniName env e ValueStringCompare l = none := by
  intro l
  induction l with
  | nil => intro _; rfl
  | cons a rest ih =>
    intro h
    unfold FindHoudiniName
    rw [h a (List.mem_cons_self _ _)]
    simp only [Bool.false_eq_true, if_false]
    exact ih (fun j hj => h j (List.mem_cons_of_mem _ hj))

/-- `CreatePropertyEnum` with a string value: the field it returns carries the
marker of a string choice list, and the byte at its offset holds 0 for an empty
value and for a value no entry matches, and else the first index whose
`HoudiniName` compares equal to the sanitized value, as a byte. -/
theorem CreatePropertyEnumString_byte (env : RebuildEnv) (r : Reflection)
    (ClassInstance : Nat) (Name : String) (Choices : List HAPI_ParmChoiceInfo)
    (ValueString : String) (Offset : Nat) (r2 : Reflection) (p Offset2 : Nat)
    (hoff : Offset < 4294967296)
    (h : CreatePropertyEnumString env r ClassInstance Name Choices ValueString Offset
      = some (r2, some p, Offset2)) :
    HasMetaData (r2.Properties p).Meta "HoudiniStringChoiceList" = true
    ∧ ∃ Enum, (r2.Properties p).Enum = some Enum
      ∧ readByte r2.Memory (r2.Properties p).Offset
        = (if ValueString = "" then 0
            else
              match FindHoudiniName env (r2.Enums Enum) (env.SanitizeObjectName ValueString)
                  (List.range (r2.Enums Enum).NumEnums) with
              | some Idx => Idx % 256
              | none => 0) := by
  have hb : ComputeOffsetAlignmentBoundary alignofByte Offset = Offset := by
    simp [ComputeOffsetAlignmentBoundary, alignofByte]
  have hu : u32 Offset = Offset := by
    unfold u32; omega
  unfold CreatePropertyEnumString at h
  simp only at h
  split at h
  · cases h
  · simp at h
  · rename_i r1 q Offset1 hce
    obtain ⟨EnumType, he, ho, hbyte⟩ := CreatePropertyEnum_byte env r _ _ _ _ _ _ _ _ hce
    rw [hb] at ho hbyte
    rw [hu] at ho
    simp only [he] at h
    simp only [Option.some.injEq, Prod.mk.injEq] at h
    obtain ⟨rfl, hq, _⟩ := h
    subst hq
    refine ⟨?_, EnumType, ?_, ?_⟩
    · simp [SetProperty_Properties_same, HasMetaData, SetMetaData]
    · rw [SetProperty_Properties_same]
      by_cases hv : ValueString = ""
      · simp [hv, he]
      · simp only [hv, ne_eq, not_false_eq_true, if_true]
        split
        · simp [SetProperty_Properties_same, he]
        · simp [he]
    · by_cases hv : ValueString = ""
      · simp only [hv, ne_eq, not_true_eq_false, if_false, if_true]
        rw [SetProperty_Properties_same]
        simp only [SetProperty]
        rw [ho]
        simpa [u32OfInt] using hbyte
      · simp only [hv, ne_eq, not_false_eq_true, if_true, if_false]
        cases hf : FindHoudiniName env (r1.Enums EnumType) (env.SanitizeObjectName ValueString)
            (List.range (r1.Enums EnumType).NumEnums) with
        | none =>
          simp only [SetProperty_Properties_same, SetProperty, hf]
          rw [ho]
          simpa [u32OfInt] using hbyte
        | some Idx =>
          simp only [SetProperty_Properties_same, SetProperty, hf, hb, hu, Function.update_same]
          simp [readByte, writeByte]

/-- C29, the counterexample: the parameter `choice` has the choices `x` and
`X`, and its current value is `X`, the raw value of the second choice (index
1).  The rebuild creates one enumeration field with the string-choice marker
whose enum stores `x` and `X` as the `HoudiniName` of its entries, but the byte
of the field holds index 0: the search compares without regard to case and
stops at the first entry. -/
theorem C29_counterexample_match_without_regard_to_case :
    (CaseEnv.GetHoudiniString 6, CaseEnv.GetHoudiniString 8,
        CaseEnv.GetHoudiniString
          ((CaseEnv.HAPI_GetParmStringValues 3 false 0 1).2.headD 0))
      = (some "x", some "X", some "X")
    ∧ (ReplaceClassInformation CaseEnv StaticWorld "Actor" true).map
        (fun w => (w.Objects.CreatedProperties,
          (w.Objects.Enums 101).GetMetaData "HoudiniName" 0,
          (w.Objects.Enums 101).GetMetaData "HoudiniName" 1,
          HasMetaData (w.Objects.Properties 102).Meta "HoudiniStringChoiceList",
          readByte w.Objects.Memory (w.Objects.Properties 102).Offset))
      = some ([102], "x", "X", true, 0) :=
  ⟨by decide, by decide⟩

/-- C29, amended: the enumeration field `CreatePropertyEnum` returns for a
string value, at a cursor below `2^32`, carries the string-choice marker and
has an enum.  The byte at its offset holds 0 when the current string is empty.
When the current string is not empty, the byte holds, as a byte, the first
index whose entry has a `HoudiniName` that equals the sanitized current string
without regard to case, and 0 when there is no such index. -/
theorem C29_string_choice_stores_first_match (env : RebuildEnv) (r : Reflection)
    (ClassInstance : Nat) (Name : String) (Choices : List HAPI_ParmChoiceInfo)
    (ValueString : String) (Offset : Nat) (r2 : Reflection) (p Offset2 : Nat)
    (hoff : Offset < 4294967296)
    (h : CreatePropertyEnumString env r ClassInstance Name Choices ValueString Offset
      = some (r2, some p, Offset2)) :
    HasMetaData (r2.Properties p).Meta "HoudiniStringChoiceList" = true
    ∧ ∃ Enum, (r2.Properties p).Enum = some Enum
      ∧ (ValueString = "" → readByte r2.Memory (r2.Properties p).Offset = 0)
      ∧ (∀ i, ValueString ≠ "" → i < (r2.Enums Enum).NumEnums →
          ((r2.Enums Enum).HasMetaData "HoudiniName" i
            && env.CompareIgnoreCase ((r2.Enums Enum).GetMetaData "HoudiniName" i)
                (env.SanitizeObjectName ValueString)) = true →
          (∀ j, j < i →
            ((r2.Enums Enum).HasMetaData "HoudiniName" j
              && env.CompareIgnoreCase ((r2.Enums Enum).GetMetaData "HoudiniName" j)
                  (env.SanitizeObjectName ValueString)) = false) →
          readByte r2.Memory (r2.Properties p).Offset = i % 256)
      ∧ (ValueString ≠ "" →
          (∀ j, j < (r2.Enums Enum).NumEnums →
            ((r2.Enums Enum).HasMetaData "HoudiniName" j
              && env.CompareIgnoreCase ((r2.Enums Enum).GetMetaData "HoudiniName" j)
                  (env.SanitizeObjectName ValueString)) = false) →
          readByte r2.Memory (r2.Properties p).Offset = 0) := by
  obtain ⟨hmark, Enum, he, hbyte⟩ := CreatePropertyEnumString_byte env r ClassInstance Name
    Choices ValueString Offset r2 p Offset2 hoff h
  refine ⟨hmark, Enum, he, fun hv => ?_, fun i hv hi hmatch hfirst => ?_, fun hv hno => ?_⟩
  · rw [hbyte, if_pos hv]
  · have hf := FindHoudiniName_first env (r2.Enums Enum) (env.SanitizeObjectName ValueString) i
      hmatch (r2.Enums Enum).NumEnums 0 (Nat.zero_le _) (by omega) (fun j _ hj => hfirst j hj)
    rw [← List.range_eq_range'] at hf
    rw [hbyte, if_neg hv, hf]
  · have hf := FindHoudiniName_none env (r2.Enums Enum) (env.SanitizeObjectName ValueString)
      (List.range (r2.Enums Enum).NumEnums) (fun j hj => hno j (List.mem_range.1 hj))
    rw [hbyte, if_neg hv, hf]

theorem Option_triple_eq_some_getD {α : Type} (x : Option (α × Option Nat × Nat))
    (d : α × Option Nat × Nat) (p : Nat)
    (h1 : x.isSome = true) (h2 : x.map (fun y => y.2.1) = some (some p)) :
    x = some ((x.getD d).1, some p, (x.getD d).2.2) := by
  cases x with
  | none => cases h1
  | some y =>
    obtain ⟨a, b, c⟩ := y
    simp only [Option.map_some', Option.some.injEq] at h2
    subst h2
    rfl

/-- C29 amended, at the choices `a` and `b` with the current value `b`: the
field at address 102 carries the marker, its enum is at address 101, and its
byte holds index 1, the first and only index whose `HoudiniName` equals `b`. -/
theorem C29_string_choice_stores_first_match_witness :
    HasMetaData (ChoiceField.1.Properties 102).Meta "HoudiniStringChoiceList" = true
    ∧ (ChoiceField.1.Properties 102).Enum = some 101
    ∧ readByte ChoiceField.1.Memory (ChoiceField.1.Properties 102).Offset = 1 % 256 := by
  obtain ⟨hmark, Enum, he, _, hfirst, _⟩ :=
    C29_string_choice_stores_first_match ChoiceEnv GeneratedObjects 100 "choice"
      [{ labelSH := 5, valueSH := 6 }, { labelSH := 7, valueSH := 8 }] "b" 1000
      ChoiceField.1 102 ChoiceField.2.2 (by decide)
      (Option_triple_eq_some_getD _ _ 102 (by decide) (by decide))
  have hE : Enum = 101 := Option.some.inj (he.symm.trans (by decide))
  subst hE
  exact ⟨hmark, he, hfirst 1 (by decide) (by decide) (by decide) (by decide)⟩

/-- An accepted edit leaves the changed mark on its member property, and
touches neither the asset nor the geos. -/
theorem PostEditChangeProperty_mark (w w1 : World) (e : FPropertyChangedEvent) (p : Nat)
    (hacc : AcceptedEdit w e = true) (hp : e.MemberProperty = some p)
    (hedit : PostEditChangeProperty w e = some w1) :
    p ∈ w1.ChangedProperties
    ∧ HasMetaData (w1.Objects.Properties p).Meta "HoudiniPropertyChanged" = true := by
  unfold AcceptedEdit at hacc
  simp only [hp, Bool.and_eq_true, decide_eq_true_eq, Bool.not_eq_true', Bool.and_eq_false_imp,
    IsColorProperty] at hacc
  obtain ⟨hcat, hcol⟩ := hacc
  have hnot : ¬ (e.ChangeType = EPropertyChangeType.Interactive
      ∧ (w.Objects.Properties p).Class = UPropertyClass.UStructProperty
      ∧ w.Objects.ScriptStructColor = (w.Objects.Properties p).Struct) := by
    rintro ⟨h1, h2, h3⟩
    have := hcol h1
    simp [h2, h3] at this
  unfold PostEditChangeProperty at hedit
  simp only [hp, hcat, ne_eq, not_true_eq_false, if_false, hnot, Option.some.injEq] at hedit
  subst hedit
  refine ⟨?_, ?_⟩
  · rw [StartHoudiniTicking_ChangedProperties]
    exact (TSetAdd_mem _ _ _).2 (Or.inr rfl)
  · rw [StartHoudiniTicking_Objects]
    simp [HasMetaData, SetMetaData]

/-- The tick of an idle component with queued changes that needs no
instantiation: when it returns, the Change Set is empty and the objects, the
asset and the geos are those from before. -/
theorem TickHoudiniComponent_push (env : Env) (w1 w2 : World)
    (hidle : w1.HapiGUID.IsValid = false) (hset : w1.ChangedProperties ≠ [])
    (hinst : w1.bLoadedComponentRequiresInstantiation = false)
    (htick : TickHoudiniComponent env w1 = some w2) :
    w2.ChangedProperties = [] ∧ w2.Objects = w1.Objects ∧ w2.HoudiniAsset = w1.HoudiniAsset
    ∧ w2.HoudiniAssetObjectGeos = w1.HoudiniAssetObjectGeos := by
  unfold TickHoudiniComponent at htick
  cases hown : w1.HoudiniAssetActorOwner with
  | none => simp [hown] at htick
  | some a =>
    simp only [hown, TickPoll_not_valid env w1 hidle,
      TickSubmit_cook env a w1 false hidle hset hinst] at htick
    cases hc : SetChangedParameterValues env w1 with
    | none => simp [hc] at htick
    | some calls =>
      simp only [hc, Option.map_some', Bool.false_eq_true, if_false, Option.some.injEq] at htick
      subst htick
      exact ⟨rfl, rfl, rfl, rfl⟩

/-- The round trip of a save and a load: the load returns with one record per
created field of the saved component. -/
theorem SaveThenLoad_records (env : SerializeEnv) (host : Env) (w w0 : World)
    (Asset : Nat) (HoudiniAssetPackage : String) (Package Found : Nat)
    (hasset : w.HoudiniAsset = some Asset)
    (hpkg : env.GetPackageName Asset = some HoudiniAssetPackage)
    (hfields : ∀ p ∈ w.Objects.CreatedProperties, SavableField w.Objects p = true)
    (hgeo : ∀ g rest, env.GeoLoad (env.GeoSave g ++ rest) = some (g, rest))
    (hfind : env.FindPackage HoudiniAssetPackage = some Package
      ∨ (env.FindPackage HoudiniAssetPackage = none
        ∧ env.LoadPackage HoudiniAssetPackage = some Package))
    (hobj : env.StaticFindObject Package (env.GetAssetName Asset) = some Found)
    (howner : w0.HoudiniAssetActorOwner ≠ none) :
    (Serialize env host w SaveArchive).2 = some w
    ∧ ∃ w2, SaveThenLoad env host w w0 = (LoadArchive [], some w2)
        ∧ w2.SerializedProperties = w0.SerializedProperties
            ++ w.Objects.CreatedProperties.map (SerializedRecordOf w.Objects) := by
  obtain ⟨Data, w1, hsave, hstate, hstream, hrec, _, _, _, hown⟩ :=
    LoadStream_of_saved env w w0 Asset HoudiniAssetPackage hasset hpkg hfields hgeo
  have hs : Serialize env host w SaveArchive
      = ({ SaveArchive with Data := ArItem.ComponentState (ComponentStateOnSave w) :: Data },
          some w) := by
    rw [Serialize_saving env host w SaveArchive rfl rfl]
    exact hsave
  obtain ⟨w2, hres, _, _, hsp, _⟩ :=
    ResolveLoadedAsset_returns env host w1 HoudiniAssetPackage (env.GetAssetName Asset) Package
      Found hfind hobj (by rw [hown]; exact howner)
  refine ⟨by rw [hs], w2, ?_, by rw [hsp, hrec]⟩
  unfold SaveThenLoad
  rw [hs, Serialize_loading env host w0 _ rfl rfl]
  unfold SerializeLoading
  simp only [LoadArchive, hstate, if_false, hstream, hres]

/-- The record of a field restored by `PostLoad` from a record whose changed
flag is set: the field is in the Change Set and carries no changed mark, so a
save before the next edit writes the changed flag `false` for it. -/
theorem PostLoad_restores_without_mark :
    (PostLoad ChoiceEnv LoadedRecordsWorld).map
        (fun w => (w.ChangedProperties, PropertyChangedOnSave w.Objects 101,
          (SerializedRecordOf w.Objects 101).Name, (SerializedRecordOf w.Objects 101).bChanged))
      = some ([101], false, "Size", false) := by
  decide

/-- C30, the counterexample: the user edits `Size`, and a tick pushes the edit
and empties the Change Set.  The field is not edited again.  The component is
then saved and the stream loaded: the record of `Size` has the changed flag
`true`, though `Size` is not in the Change Set, and the record of `Seed`,
never edited, has the flag `false`. -/
theorem C30_counterexample_pushed_field_is_saved_as_changed :
    ((PostEditChangeProperty SavedWorld EditSize).bind (TickHoudiniComponent ScenarioEnv)).map
        (fun w => (w.ChangedProperties, w.Objects.CreatedProperties,
          (SaveThenLoad ScenarioSerializeEnv ScenarioEnv w FreshWorld).2.map
            (fun w3 => w3.SerializedProperties.map (fun R => (R.Name, R.bChanged)))))
      = some ([], [1, 2], some [("Size", true), ("Seed", false)]) := by
  decide

/-- C30, amended: the changed flag `Serialize` writes for a field tells whether
the field carries the changed mark, which an accepted edit sets and a push does
not clear.  After an accepted edit of a field the field is in the Change Set
and carries the mark.  A tick of the idle component that needs no instantiation
and returns has emptied the Change Set and left the objects as they were.  A
save of the component, before or after that tick, followed by a load of the
stream returns with one record per created field, whose changed flag is the
presence of the mark on the field: `true` for the edited field. -/
theorem C30_changed_flag_is_the_changed_mark (senv : SerializeEnv) (host env : Env)
    (w w1 w2 w0 : World) (e : FPropertyChangedEvent) (p Asset : Nat)
    (HoudiniAssetPackage : String) (Package Found : Nat)
    (hacc : AcceptedEdit w e = true) (hp : e.MemberProperty = some p)
    (hedit : PostEditChangeProperty w e = some w1)
    (hidle : w1.HapiGUID.IsValid = false)
    (hinst : w1.bLoadedComponentRequiresInstantiation = false)
    (htick : TickHoudiniComponent env w1 = some w2)
    (hasset : w1.HoudiniAsset = some Asset)
    (hpkg : senv.GetPackageName Asset = some HoudiniAssetPackage)
    (hfields : ∀ q ∈ w1.Objects.CreatedProperties, SavableField w1.Objects q = true)
    (hgeo : ∀ g rest, senv.GeoLoad (senv.GeoSave g ++ rest) = some (g, rest))
    (hfind : senv.FindPackage HoudiniAssetPackage = some Package
      ∨ (senv.FindPackage HoudiniAssetPackage = none
        ∧ senv.LoadPackage HoudiniAssetPackage = some Package))
    (hobj : senv.StaticFindObject Package (senv.GetAssetName Asset) = some Found)
    (howner : w0.HoudiniAssetActorOwner ≠ none) :
    (p ∈ w1.ChangedProperties
      ∧ HasMetaData (w1.Objects.Properties p).Meta "HoudiniPropertyChanged" = true)
    ∧ (w2.ChangedProperties = [] ∧ w2.Objects = w1.Objects)
    ∧ (∀ q, (SerializedRecordOf w1.Objects q).bChanged
        = HasMetaData (w1.Objects.Properties q).Meta "HoudiniPropertyChanged")
    ∧ (SerializedRecordOf w1.Objects p).bChanged = true
    ∧ (Serialize senv host w1 SaveArchive).2 = some w1
    ∧ (∃ w3, SaveThenLoad senv host w1 w0 = (LoadArchive [], some w3)
        ∧ w3.SerializedProperties = w0.SerializedProperties
            ++ w1.Objects.CreatedProperties.map (SerializedRecordOf w1.Objects))
    ∧ (Serialize senv host w2 SaveArchive).2 = some w2
    ∧ (∃ w3, SaveThenLoad senv host w2 w0 = (LoadArchive [], some w3)
        ∧ w3.SerializedProperties = w0.SerializedProperties
            ++ w1.Objects.CreatedProperties.map (SerializedRecordOf w1.Objects)) := by
  obtain ⟨hmem, hmark⟩ := PostEditChangeProperty_mark w w1 e p hacc hp hedit
  obtain ⟨hempty, hobjs, hsame, _⟩ := TickHoudiniComponent_push env w1 w2 hidle
    (List.ne_nil_of_mem hmem) hinst htick
  obtain ⟨hs1, hl1⟩ := SaveThenLoad_records senv host w1 w0 Asset HoudiniAssetPackage Package
    Found hasset hpkg hfields hgeo hfind hobj howner
  obtain ⟨hs2, hl2⟩ := SaveThenLoad_records senv host w2 w0 Asset HoudiniAssetPackage Package
    Found (by rw [hsame]; exact hasset) hpkg (by rw [hobjs]; exact hfields) hgeo hfind hobj howner
  rw [hobjs] at hl2
  exact ⟨⟨hmem, hmark⟩, ⟨hempty, hobjs⟩, fun q => rfl, hmark, hs1, hl1, hs2, hl2⟩

/-- C30 amended, at the scenario: `Size` is edited and the edit is pushed by a
tick.  After the edit `Size` is in the Change Set; after the tick the Change Set
is empty; and the save of the component after the tick, loaded into a fresh
component, yields the record of `Size` with the changed flag `true` and the
record of `Seed` with the flag `false`. -/
theorem C30_changed_flag_is_the_changed_mark_witness :
    1 ∈ SavedEdited.ChangedProperties
    ∧ SavedPushed.ChangedProperties = []
    ∧ (SerializedRecordOf SavedPushed.Objects 1).bChanged = true
    ∧ ∃ w3, SaveThenLoad ScenarioSerializeEnv ScenarioEnv SavedPushed FreshWorld
          = (LoadArchive [], some w3)
        ∧ w3.SerializedProperties.map (fun R => (R.Name, R.bChanged))
          = [("Size", true), ("Seed", false)] := by
  obtain ⟨⟨h1, _⟩, ⟨h2, hobjs⟩, _, h4, _, _, _, ⟨w3, h8, h9⟩⟩ :=
    C30_changed_flag_is_the_changed_mark ScenarioSerializeEnv ScenarioEnv ScenarioEnv SavedWorld
      SavedEdited SavedPushed FreshWorld EditSize 1 50 "/Game/Assets" 40 50 (by decide) rfl
      (Option_eq_some_getD _ _ (by decide)) (by decide) (by decide)
      (Option_eq_some_getD _ _ (by decide)) (by decide) rfl (by decide) (fun _ _ => rfl)
      (Or.inl rfl) rfl (by decide)
  exact ⟨h1, h2, by rw [hobjs]; exact h4, w3, h8, by rw [h9]; decide⟩

end HoudiniEngine
